import Mathlib

/-!
Monix kernel: physical page allocator and zone allocator

A shallow embedding of `kern/vm/vm_page.c`, `kern/mm/zalloc.c`, `libkern/list.h`
and `tinylibc/string/memset.c`, followed by theorems about them.

Conventions of the embedding.

* Kernel memory is modelled as typed heaps indexed by address: page descriptors
  by their index in `vm_page_region`, `struct list_head` objects by address,
  zone descriptors by address and raw bytes by address.  Distinct objects are
  taken not to overlap, and no access faults: the MMU is not part of the model.
* Addresses, sizes and counters are natural numbers (signed counters are
  integers).  Every quantity is taken to fit its C type (`unsigned int` loop
  counters, the `uint32_t` index of `vm_page_free`, the `integer_t` counts of a
  zone, 64-bit addresses): wrap-around and narrowing are not modelled.
* A loop is a recursive function whose first numeric argument bounds the number
  of iterations.
* A call of `panic` never returns (it ends in `cpu_halt`); an operation that
  panics yields `Outcome.panic` together with the machine state at that point.
-/

namespace Monix

/-! ## Outcomes -/

/-- The messages of the `panic` calls that the embedded functions contain. -/
inductive panic_msg where
  /-- `vm_page_alloc`: "failed to allocate a free physical page". -/
  | page_alloc_failed
  /-- `vm_page_bootstrap`: "error: not all pages were created: %d missing". -/
  | pages_missing (missing : Nat)
  /-- `zone_create`: "failed to allocate a zone for '%s': no available zones". -/
  | zone_none_available (name : String)
  /-- `zone_create`: "... invalid element size". -/
  | zone_invalid_elem_size (name : String)
  /-- `zone_create`: "... invalid max zone size". -/
  | zone_invalid_max_size (name : String)
  /-- `zfree`: "failed to free elemtn '0x%lx' from zone '%s': element does not
  exist in zone". -/
  | zfree_not_in_zone (addr : Nat) (name : String)
  /-- `assert(e)` of `libkern/assert.h` when `e` is false: prints "failed
  assertion 'e'" and calls `panic("failed assertion")`. -/
  | failed_assertion (e : String)
  /-- `thread_destroy`: "cannot destroy active thread". -/
  | destroy_active_thread
  /-- `kernel_thread_create`: "kernel_thread_create: failed to create kernel
  thread". -/
  | kernel_thread_failed
  /-- `kernel_thread_create`: "kernel_thread_create: kernel thread not created
  first". -/
  | kernel_thread_not_first
  /-- `cpu_set_active_thread`: "cpu: failed to set cpu '%d' active thread:
  invalid thread". -/
  | cpu_invalid_thread
  /-- `CPU_ASSERT_VALID_ID`: "cpu: assertion failed: cpu_id '%d' is larger than
  count '%d'". -/
  | cpu_id_too_large (id count : Int)
  /-- `arm64_handler_synchronous`: "PC Alignment Fault". -/
  | pc_alignment_fault
  /-- `handle_data_abort`: "Data Abort - Translation Fault Level %d". -/
  | data_abort_translation (level : Int)
  /-- `handle_data_abort`: "Data Abort - Permissions Fault, Level %d". -/
  | data_abort_permission (level : Int)
  /-- `handle_data_abort`: "Alignment Fault". -/
  | alignment_fault
  /-- `handle_data_abort`: "Data Abort - Address Size Fault, Level %d". -/
  | data_abort_address_size (level : Int)
  /-- `handle_data_abort`: "Data Abort - Unknown (0x%lx)". -/
  | data_abort_unknown (fault_status : Nat)
  /-- `handle_instruction_abort`: "Kernel Instruction Abort - Translation Fault,
  Level %d". -/
  | instruction_abort_translation (level : Int)
  /-- `handle_instruction_abort`: "Kernel Instruction Abort - Unknwon (0x%x)". -/
  | instruction_abort_unknown (fault_status : Nat)
  /-- `handle_undefined_instruction`: "Undefined Instruction". -/
  | undefined_instruction
  /-- `handle_breakpoint`: "Breakpoint 64". -/
  | breakpoint
  /-- `handle_svc`: "Supervisor Call (64)". -/
  | supervisor_call
  /-- `handle_msr_trap`: `panic(frame->fp, "Trapped MSR, MRS, or System
  instruction")`, a call whose format argument is `frame->fp`. -/
  | msr_trap (fmt : Nat)
  /-- `arm64_handler_synchronous`: "Unknown Exception". -/
  | unknown_exception
  /-- `__gic_irq_control`: "irq: failed to obtain redistributor for cpu: %d". -/
  | irq_no_redistributor
  deriving DecidableEq, Repr

/-- Result of running a kernel function: either it returns (`ok`, with the new
state and the returned value) or it panics (`panic`, with the state at the point
of the panic; control never comes back). -/
inductive Outcome (σ : Type) (α : Type) where
  | ok (s : σ) (a : α)
  | panic (s : σ) (msg : panic_msg)

/-! ## Physical page allocator (`kern/vm/vm_page.c`) -/

/-- `VM_PAGE_SIZE` = `DEFAULTS_KERNEL_VM_PAGE_SIZE` = `TT_PAGE_SIZE`. -/
def VM_PAGE_SIZE : Nat := 4096

def VM_PAGE_STATE_ALLOC : Nat := 1
def VM_PAGE_STATE_FREE : Nat := 0
def VM_PAGE_IS_MAPPED : Nat := 1
def VM_PAGE_IS_NOT_MAPPED : Nat := 0

/-- `sizeof(vm_page_t)`: `paddr` (8), `siblings` (16), `idx` (8) and the flag
word (4), padded to a multiple of 8. -/
def VM_PAGE_STRUCT_SIZE : Nat := 40

/-- `struct vm_page`.  The `siblings` node only threads the descriptor on
`page_list`, which no allocator function reads; it is left out. -/
structure vm_page where
  paddr : Nat
  idx : Nat
  state : Nat
  mapped : Nat
  deriving DecidableEq, Repr

/-- The globals of `vm_page.c` together with `memory_phys_base` of `vm.c`.
`pages i` is the descriptor stored at `vm_page_region[i]`, that is at address
`vm_page_region + i * sizeof(vm_page_t)`. -/
structure vm_page_state where
  /-- the address `&vm_page_region_lower_bound` (start of the `.vm` section) -/
  vm_page_region_lower_bound : Nat
  vm_page_region_upper_bound : Nat
  vm_page_region_cursor : Nat
  vm_page_region_size : Nat
  /-- the pointer `vm_page_region` -/
  vm_page_region : Nat
  vm_page_idx : Nat
  /-- descriptor memory, by index from `vm_page_region` -/
  pages : Nat → vm_page
  /-- `memory_phys_base` (set by `arm_vm_init` from `args->physbase`) -/
  memory_phys_base : Nat

/-- Store descriptor `p` at index `i`. -/
def set_page (pages : Nat → vm_page) (i : Nat) (p : vm_page) : Nat → vm_page :=
  fun j => if j = i then p else pages j

/-- `__vm_page_alloc_internal(paddr, is_mapped)`: returns 1 when the cursor has
reached the upper bound, otherwise writes a fresh descriptor at the cursor,
advances the cursor and the index and returns 0. -/
def __vm_page_alloc_internal (st : vm_page_state) (paddr : Nat) (is_mapped : Nat) :
    vm_page_state × Nat :=
  if st.vm_page_region_cursor ≥ st.vm_page_region_upper_bound then (st, 1)
  else
    let page : vm_page :=
      { paddr := paddr
        idx := st.vm_page_idx
        state := VM_PAGE_STATE_FREE
        mapped := if is_mapped ≠ 0 then VM_PAGE_IS_MAPPED else VM_PAGE_IS_NOT_MAPPED }
    ({ st with
        pages := set_page st.pages
          ((st.vm_page_region_cursor - st.vm_page_region) / VM_PAGE_STRUCT_SIZE) page
        vm_page_region_cursor := st.vm_page_region_cursor + VM_PAGE_STRUCT_SIZE
        vm_page_idx := st.vm_page_idx + 1 }, 0)

/-- The scan loop of `vm_page_alloc`:
`for (i = 0; i < vm_page_idx; i++) { last = &region[i]; if (last->state == FREE) break; }`.
`n` bounds the remaining iterations, `last` is the index last assigned to the
pointer `last` (`none` while it is still uninitialised). -/
def vm_page_alloc_scan (st : vm_page_state) : Nat → Nat → Option Nat → Option Nat
  | 0, _, last => last
  | n + 1, i, last =>
    if i < st.vm_page_idx then
      if (st.pages i).state = VM_PAGE_STATE_FREE then some i
      else vm_page_alloc_scan st n (i + 1) (some i)
    else last

/-- `vm_page_alloc()`.  With `vm_page_idx = 0` the C code reads the
uninitialised pointer `last`; the model reports that case as the panic. -/
def vm_page_alloc (st : vm_page_state) : Outcome vm_page_state Nat :=
  match vm_page_alloc_scan st st.vm_page_idx 0 none with
  | none => .panic st .page_alloc_failed
  | some last =>
    if (st.pages last).state ≠ VM_PAGE_STATE_FREE then .panic st .page_alloc_failed
    else
      let page : vm_page := { (st.pages last) with state := VM_PAGE_STATE_ALLOC }
      .ok { st with pages := set_page st.pages last page } page.paddr

/-- `vm_page_free(paddr)`. -/
def vm_page_free (st : vm_page_state) (paddr : Nat) : vm_page_state :=
  let idx := (paddr - st.memory_phys_base) / VM_PAGE_SIZE
  let page : vm_page := { (st.pages idx) with state := VM_PAGE_STATE_FREE }
  { st with pages := set_page st.pages idx page }

/-- The descriptor-creation loop of `vm_page_bootstrap`:
`for (i = 0; i < page_count; i++) { if (__vm_page_alloc_internal(pcursor, 1)) break; pcursor += VM_PAGE_SIZE; }`.
`n` is the number of iterations left; the result is the state and the final `i`. -/
def vm_page_bootstrap_create (st : vm_page_state) : Nat → Nat → Nat → vm_page_state × Nat
  | 0, i, _ => (st, i)
  | n + 1, i, pcursor =>
    match __vm_page_alloc_internal st pcursor 1 with
    | (st1, 0) => vm_page_bootstrap_create st1 n (i + 1) (pcursor + VM_PAGE_SIZE)
    | (st1, _) => (st1, i)

/-- The kernel-marking loop of `vm_page_bootstrap`:
`for (i = 0; i < kern_page_count; i++) { region[i].state = ALLOC; region[i].mapped = MAPPED; }`. -/
def vm_page_bootstrap_mark (pages : Nat → vm_page) : Nat → Nat → Nat → vm_page
  | 0, _ => pages
  | n + 1, i =>
    let kern_page : vm_page :=
      { (pages i) with state := VM_PAGE_STATE_ALLOC, mapped := VM_PAGE_IS_MAPPED }
    vm_page_bootstrap_mark (set_page pages i kern_page) n (i + 1)

/-- `vm_page_bootstrap(membase, memsize, kernsize)`.  The upper bound is computed
by pointer arithmetic on a `vm_address_t *`, hence the factor 8. -/
def vm_page_bootstrap (st : vm_page_state) (membase memsize kernsize : Nat) :
    Outcome vm_page_state Unit :=
  let page_count := memsize / VM_PAGE_SIZE
  let region_size := page_count * VM_PAGE_STRUCT_SIZE
  let lower := st.vm_page_region_lower_bound
  let first_page : vm_page :=
    { paddr := membase, idx := 0, state := VM_PAGE_STATE_FREE, mapped := VM_PAGE_IS_NOT_MAPPED }
  let st1 : vm_page_state :=
    { st with
      vm_page_idx := 0 + 1
      vm_page_region_size := region_size
      vm_page_region_upper_bound := lower + 8 * region_size
      vm_page_region_cursor := lower + VM_PAGE_STRUCT_SIZE
      vm_page_region := lower
      pages := set_page st.pages ((lower - lower) / VM_PAGE_STRUCT_SIZE) first_page }
  match vm_page_bootstrap_create st1 page_count 0 (membase + VM_PAGE_SIZE) with
  | (st2, i) =>
    if i ≠ page_count then .panic st2 (.pages_missing (page_count - i))
    else
      let kern_page_count := (kernsize + region_size) / VM_PAGE_SIZE + 1
      .ok { st2 with pages := vm_page_bootstrap_mark st2.pages kern_page_count 0 } ()

/-! ## Definitions used to state the page-allocator theorems -/

/-- States reached from `st0` by calls of `vm_page_alloc` that return and by calls
of `vm_page_free` on addresses that were returned by `vm_page_alloc` and not freed
since; the list holds those outstanding addresses. -/
inductive page_reachable (st0 : vm_page_state) : vm_page_state → List Nat → Prop
  | boot : page_reachable st0 st0 []
  | alloc {st st1 : vm_page_state} {live : List Nat} {p : Nat} :
      page_reachable st0 st live → vm_page_alloc st = .ok st1 p →
      page_reachable st0 st1 (p :: live)
  | free {st : vm_page_state} {live : List Nat} {p : Nat} :
      page_reachable st0 st live → p ∈ live →
      page_reachable st0 (vm_page_free st p) (live.erase p)

/-- Descriptor `i` is free. -/
def page_is_free (st : vm_page_state) (i : Nat) : Prop :=
  (st.pages i).state = VM_PAGE_STATE_FREE

instance (st : vm_page_state) (i : Nat) : Decidable (page_is_free st i) := by
  unfold page_is_free; infer_instance

/-- The descriptor array records the frames `base, base + VM_PAGE_SIZE, ...`. -/
def pages_linear (base : Nat) (st : vm_page_state) : Prop :=
  ∀ i, i < st.vm_page_idx → (st.pages i).paddr = base + i * VM_PAGE_SIZE

/-- A memory image before `vm_page_bootstrap` runs: the `.vm` section starts at
`lower`, `memory_phys_base` is `physbase`, the other globals are zero. -/
def vm_page_initial (lower physbase : Nat) : vm_page_state :=
  { vm_page_region_lower_bound := lower
    vm_page_region_upper_bound := 0
    vm_page_region_cursor := 0
    vm_page_region_size := 0
    vm_page_region := 0
    vm_page_idx := 0
    pages := fun _ => { paddr := 0, idx := 0, state := 0, mapped := 0 }
    memory_phys_base := physbase }

/-- The fields of `struct boot_args` that the memory bring-up reads. -/
structure boot_args where
  virtbase : Nat
  physbase : Nat
  memsize : Nat
  kernbase : Nat
  kernsize : Nat

/-- The page-allocator part of `vm_configure()`, run on the globals that
`arm_vm_init(args, membase, memsize)` has set: `memory_phys_base = args->physbase`,
`memory_phys_size = memsize`, `kernel_phys_base = args->kernbase`,
`kernel_phys_size = args->kernsize`.  It is the call
`vm_page_bootstrap(kernel_phys_base, memory_phys_size, kernel_phys_size)`; `lower`
is the link address of the `.vm` section. -/
def vm_configure_pages (lower : Nat) (args : boot_args) (memsize : Nat) :
    Outcome vm_page_state Unit :=
  vm_page_bootstrap (vm_page_initial lower args.physbase) args.kernbase memsize args.kernsize

/-- The state component of an outcome. -/
def Outcome.state {σ α : Type} : Outcome σ α → σ
  | .ok s _ => s
  | .panic s _ => s

/-- The returned value, if the function returned. -/
def Outcome.value {σ α : Type} : Outcome σ α → Option α
  | .ok _ a => some a
  | .panic _ _ => none

/-- Boot arguments with the kernel loaded one page above the base of RAM. -/
def args_kernel_above_base : boot_args :=
  { virtbase := 0xfffffff000000000, physbase := 0x40000000, memsize := 0x8000,
    kernbase := 0x40001000, kernsize := 0x1000 }

/-- A three-descriptor array: descriptor 0 allocated, descriptors 1 and 2 free. -/
def pages_demo : vm_page_state :=
  { vm_page_initial 0xfffffff000100000 0x40000000 with
    vm_page_idx := 3
    pages := fun i =>
      { paddr := 0x40000000 + i * 4096, idx := i,
        state := if i = 0 then VM_PAGE_STATE_ALLOC else VM_PAGE_STATE_FREE,
        mapped := VM_PAGE_IS_NOT_MAPPED } }

/-- The allocator state after `vm_configure` with `args_kernel_above_base`. -/
def pages_above_0 : vm_page_state :=
  (vm_configure_pages 0xfffffff000100000 args_kernel_above_base 0x8000).state

/-- Then one `vm_page_alloc`. -/
def pages_above_1 : vm_page_state := (vm_page_alloc pages_above_0).state

/-- Then a second `vm_page_alloc`. -/
def pages_above_2 : vm_page_state := (vm_page_alloc pages_above_1).state

/-- Then `vm_page_free` of the first address handed out. -/
def pages_above_3 : vm_page_state := vm_page_free pages_above_2 0x40003000

/-- The state `vm_page_alloc` leaves when it takes descriptor `j`. -/
def vm_page_taken (st : vm_page_state) (j : Nat) : vm_page_state :=
  { st with pages := set_page st.pages j { (st.pages j) with state := VM_PAGE_STATE_ALLOC } }

/-- Invariant of the allocator between calls: `vm_page_free` computes indices from
the base the descriptors were numbered from, the descriptors are numbered
linearly, and every outstanding address belongs to a descriptor that is not free. -/
def page_inv (base : Nat) (st : vm_page_state) (live : List Nat) : Prop :=
  st.memory_phys_base = base ∧ pages_linear base st ∧ live.Nodup ∧
    ∀ p, p ∈ live → ∃ i, i < st.vm_page_idx ∧ (st.pages i).paddr = p ∧ ¬ page_is_free st i

/-! ## Circular doubly-linked lists (`libkern/list.h`) -/

/-- `struct list_head`. -/
structure list_head where
  next : Nat
  prev : Nat
  deriving DecidableEq, Repr

/-- `p->next = v`. -/
def set_next (h : Nat → list_head) (p v : Nat) : Nat → list_head :=
  fun a => if a = p then { (h a) with next := v } else h a

/-- `p->prev = v`. -/
def set_prev (h : Nat → list_head) (p v : Nat) : Nat → list_head :=
  fun a => if a = p then { (h a) with prev := v } else h a

/-- `INIT_LIST_HEAD(list)`: `list->next = list; list->prev = list;`. -/
def INIT_LIST_HEAD (h : Nat → list_head) (list : Nat) : Nat → list_head :=
  set_prev (set_next h list list) list list

/-- `__list_add(new, prev, next)`:
`next->prev = new; new->next = next; new->prev = prev; prev->next = new;`. -/
def __list_add (h : Nat → list_head) (new prev next : Nat) : Nat → list_head :=
  set_next (set_prev (set_next (set_prev h next new) new next) new prev) prev new

/-- `__list_del(prev, next)`: `next->prev = prev; prev->next = next;`. -/
def __list_del (h : Nat → list_head) (prev next : Nat) : Nat → list_head :=
  set_next (set_prev h next prev) prev next

/-- `list_add(new, head)`: `__list_add(new, head, head->next)`. -/
def list_add (h : Nat → list_head) (new head : Nat) : Nat → list_head :=
  __list_add h new head (h head).next

/-- `list_add_tail(new, head)`: `__list_add(new, head->prev, head)`. -/
def list_add_tail (h : Nat → list_head) (new head : Nat) : Nat → list_head :=
  __list_add h new (h head).prev head

/-- `list_move(list, head)`: `__list_del(list->prev, list->next); list_add(list, head);`. -/
def list_move (h : Nat → list_head) (list head : Nat) : Nat → list_head :=
  list_add (__list_del h (h list).prev (h list).next) list head

/-- `list_is_last(list, head)`: `list->next == head`. -/
def list_is_last (h : Nat → list_head) (list head : Nat) : Bool :=
  decide ((h list).next = head)

/-- `list_first_entry(ptr, type, member)` for a member at offset 0 of its
container (`alloc` in `struct zone_alloc_metadata`): the address `ptr->next`. -/
def list_first_entry (h : Nat → list_head) (ptr : Nat) : Nat :=
  (h ptr).next

/-! ## `memset` (`tinylibc/string/memset.c`) -/

/-- `*sl = cl` through an `unsigned long *`: eight bytes, least significant first. -/
def store_word (m : Nat → Nat) (a cl : Nat) : Nat → Nat :=
  fun x => if a ≤ x ∧ x < a + 8 then (cl / 256 ^ (x - a)) % 256 else m x

/-- `*s8 = c` through a `char *`. -/
def store_byte (m : Nat → Nat) (a v : Nat) : Nat → Nat :=
  fun x => if x = a then v else m x

/-- The fill-word loop `for (i = 0; i < sizeof (*sl); i++) { cl <<= 0; cl |= c & 0xff; }`;
`n` iterations left, `c8` is `c & 0xff`. -/
def memset_fill_word : Nat → Nat → Nat → Nat
  | 0, cl, _ => cl
  | n + 1, cl, c8 => memset_fill_word n ((cl <<< 0) ||| c8) c8

/-- The word loop `while (count >= sizeof (*sl)) { *sl++ = cl; count -= sizeof (*sl); }`.
The first argument bounds the iterations; the result is memory, `sl` and `count`. -/
def memset_words : Nat → (Nat → Nat) → Nat → Nat → Nat → (Nat → Nat) × Nat × Nat
  | 0, m, sl, _, count => (m, sl, count)
  | n + 1, m, sl, cl, count =>
    if count ≥ 8 then memset_words n (store_word m sl cl) (sl + 8) cl (count - 8)
    else (m, sl, count)

/-- The byte loop `while (count--) *s8++ = c;`. -/
def memset_bytes : Nat → (Nat → Nat) → Nat → Nat → Nat → Nat
  | 0, m, _, _ => m
  | count + 1, m, s8, c8 => memset_bytes count (store_byte m s8 c8) (s8 + 1) c8

/-- `memset(s, c, count)` on byte memory `m`; the returned pointer is `s`. -/
def memset (m : Nat → Nat) (s : Nat) (c : Int) (count : Nat) : Nat → Nat :=
  let c8 := (c % 256).toNat
  if s % 8 = 0 then
    match memset_words count m s (memset_fill_word 8 0 c8) count with
    | (m1, sl, count1) => memset_bytes count1 m1 sl c8
  else memset_bytes count m s c8

/-! ## Zone allocator (`kern/mm/zalloc.c`) -/

def MAX_NUM_ZONES : Nat := 12
def ZONE_STATE_UNUSED : Nat := 0
def ZONE_STATE_USED : Nat := 1

/-- `sizeof(struct zone_alloc_metadata)`: one `list_node_t`. -/
def ZONE_ALLOC_METADATA_SIZE : Nat := 16

/-- `sizeof(zone_t)` (LP64 layout). -/
def ZONE_T_SIZE : Nat := 96

/-- `offsetof(zone_t, free_elems)`. -/
def ZONE_FREE_ELEMS : Nat := 40

/-- `offsetof(zone_t, used_elems)`. -/
def ZONE_USED_ELEMS : Nat := 56

/-- The scalar fields of `zone_t`.  The embedded list heads `free_elems` and
`used_elems` of the zone at address `z` are the `list_head` objects at
`z + ZONE_FREE_ELEMS` and `z + ZONE_USED_ELEMS` of the list heap.  A null `name`
is the empty string. -/
structure zone_t where
  count : Int
  count_free : Int
  size : Nat
  max_size : Nat
  elem_size : Nat
  page_count : Int
  index : Int
  name : String
  state : Nat
  deriving DecidableEq, Repr

/-- Kernel memory as the zone allocator sees it. -/
structure zone_mem where
  /-- the address of the static `zone_array` -/
  zone_array : Nat
  /-- `num_zones_used` -/
  num_zones_used : Nat
  /-- zone descriptors, by address -/
  zones : Nat → zone_t
  /-- `struct list_head` objects, by address -/
  lists : Nat → list_head
  /-- bytes of the zones' backing pages, by address -/
  bytes : Nat → Nat

/-- Store zone descriptor `z` at address `a`. -/
def set_zone (zones : Nat → zone_t) (a : Nat) (z : zone_t) : Nat → zone_t :=
  fun b => if b = a then z else zones b

/-- The loop of `zone_init`: `memset(zone, 0, sizeof(zone_t)); zone->state = UNUSED;`
for `zone = &zone_array[i]`, `n` iterations left.  Zeroing the descriptor zeroes
its scalar fields and both embedded list heads. -/
def zone_init_loop : Nat → zone_mem → Nat → zone_mem
  | 0, s, _ => s
  | n + 1, s, i =>
    let zone := s.zone_array + i * ZONE_T_SIZE
    let zeroed : zone_t :=
      { count := 0, count_free := 0, size := 0, max_size := 0, elem_size := 0,
        page_count := 0, index := 0, name := "", state := ZONE_STATE_UNUSED }
    let lists1 := fun a =>
      if a = zone + ZONE_FREE_ELEMS ∨ a = zone + ZONE_USED_ELEMS then
        ({ next := 0, prev := 0 } : list_head)
      else s.lists a
    zone_init_loop n { s with zones := set_zone s.zones zone zeroed, lists := lists1 } (i + 1)

/-- `zone_init()`. -/
def zone_init (s : zone_mem) : zone_mem :=
  zone_init_loop MAX_NUM_ZONES { s with num_zones_used := 0 } 0

/-- The search loop of `zone_create`:
`for (zidx = 0; zidx < MAX_NUM_ZONES; zidx++) { zone = &zone_array[zidx]; if (zone->state == UNUSED) break; zone = ZONE_NULL; }`.
`n` iterations left; the result is the final `zidx` and `zone` (`none` for `ZONE_NULL`). -/
def zone_create_find (s : zone_mem) : Nat → Nat → Nat × Option Nat
  | 0, zidx => (zidx, none)
  | n + 1, zidx =>
    let zone := s.zone_array + zidx * ZONE_T_SIZE
    if (s.zones zone).state = ZONE_STATE_UNUSED then (zidx, some zone)
    else zone_create_find s n (zidx + 1)

/-- The carving loop of `zone_create`:
`for (i = 0; i < count_free; i++) list_add_tail(&meta->alloc, &zone->free_elems)` with
`meta = zone_page_base + i * zone_block_size`; `n` iterations left. -/
def zone_create_carve (free_elems zone_page_base zone_block_size : Nat) :
    Nat → (Nat → list_head) → Nat → Nat → list_head
  | 0, h, _ => h
  | n + 1, h, i =>
    zone_create_carve free_elems zone_page_base zone_block_size n
      (list_add_tail h (zone_page_base + i * zone_block_size) free_elems) (i + 1)

/-- `zone_create(size, max, name)`.  `zone_page_base` is the address returned by the
call `vm_map_alloc(vm_get_kernel_map(), page_count * VM_PAGE_SIZE, VM_NULL)` that the
function makes; the virtual-memory map is not part of `zone_mem`. -/
def zone_create (s : zone_mem) (size max : Nat) (name : String) (zone_page_base : Nat) :
    Outcome zone_mem Nat :=
  match zone_create_find s MAX_NUM_ZONES 0 with
  | (_, none) => .panic s (.zone_none_available name)
  | (zidx, some zone) =>
    if size = 0 then .panic s (.zone_invalid_elem_size name)
    else if max = 0 then .panic s (.zone_invalid_max_size name)
    else
      let count_free := max / size
      let max_size := count_free * size
      let page_count0 := (max_size + max * ZONE_ALLOC_METADATA_SIZE) / VM_PAGE_SIZE
      let page_count := if page_count0 = 0 then 1 else page_count0
      let lists1 := INIT_LIST_HEAD (INIT_LIST_HEAD s.lists (zone + ZONE_FREE_ELEMS))
        (zone + ZONE_USED_ELEMS)
      let zone_block_size := size + ZONE_ALLOC_METADATA_SIZE
      let lists2 := zone_create_carve (zone + ZONE_FREE_ELEMS) zone_page_base zone_block_size
        count_free lists1 0
      let z : zone_t :=
        { count := 0, count_free := count_free, size := 0, max_size := max_size,
          elem_size := size, page_count := page_count, index := zidx, name := name,
          state := ZONE_STATE_USED }
      .ok { s with
            zones := set_zone s.zones zone z
            lists := lists2
            num_zones_used := s.num_zones_used + 1 } zone

/-- `zalloc(zone)`.  The function has no failure path. -/
def zalloc (s : zone_mem) (zone : Nat) : Outcome zone_mem Nat :=
  let meta := list_first_entry s.lists (zone + ZONE_FREE_ELEMS)
  let lists1 := list_move s.lists meta (zone + ZONE_USED_ELEMS)
  let z := s.zones zone
  let z1 : zone_t := { z with count := z.count + 1, count_free := z.count_free - 1 }
  .ok { s with lists := lists1, zones := set_zone s.zones zone z1 }
    (meta + ZONE_ALLOC_METADATA_SIZE)

/-- The loop of `zfree`, `list_for_each_entry(meta, &zone->used_elems, alloc)`, from
cursor `pos`.  The first argument bounds the iterations; `none` means the bound was
reached before the loop ended. -/
def zfree_loop (s : zone_mem) (zone addr meta_addr : Nat) :
    Nat → Nat → Option (Outcome zone_mem Unit)
  | 0, _ => none
  | n + 1, pos =>
    if pos = zone + ZONE_USED_ELEMS then some (.ok s ())
    else if pos = meta_addr then
      let bytes1 := memset s.bytes addr 0 (s.zones zone).elem_size
      let lists1 := list_move s.lists pos (zone + ZONE_FREE_ELEMS)
      let z := s.zones zone
      let z1 : zone_t := { z with count := z.count - 1, count_free := z.count_free + 1 }
      some (.ok { s with bytes := bytes1, lists := lists1, zones := set_zone s.zones zone z1 } ())
    else if list_is_last s.lists pos (zone + ZONE_USED_ELEMS) then
      some (.panic s (.zfree_not_in_zone addr (s.zones zone).name))
    else zfree_loop s zone addr meta_addr n (s.lists pos).next

/-- `zfree(zone, addr)`, with a bound on the iterations of its loop. -/
def zfree (fuel : Nat) (s : zone_mem) (zone addr : Nat) : Option (Outcome zone_mem Unit) :=
  let meta_addr := addr - ZONE_ALLOC_METADATA_SIZE
  zfree_loop s zone addr meta_addr fuel (s.lists (zone + ZONE_USED_ELEMS)).next

/-! ## Definitions used to state the zone-allocator theorems -/

/-- The links of `f` lead from `a` through the nodes `xs`, in order, to `z`:
`f a = x₁`, `f x₁ = x₂`, ..., `f xₙ = z`. -/
def links (f : Nat → Nat) : Nat → List Nat → Nat → Prop
  | a, [], z => f a = z
  | a, x :: xs, z => f a = x ∧ links f x xs z

instance links_decidable (f : Nat → Nat) :
    (a : Nat) → (xs : List Nat) → (z : Nat) → Decidable (links f a xs z)
  | a, [], z => inferInstanceAs (Decidable (f a = z))
  | a, x :: xs, z =>
    have := links_decidable f x xs z
    inferInstanceAs (Decidable (f a = x ∧ links f x xs z))

/-- The last node of `a :: xs`. -/
def last_from : Nat → List Nat → Nat
  | a, [] => a
  | _, x :: xs => last_from x xs

/-- The `next` field of every node. -/
def nextf (h : Nat → list_head) : Nat → Nat := fun a => (h a).next

/-- The `prev` field of every node. -/
def prevf (h : Nat → list_head) : Nat → Nat := fun a => (h a).prev

/-- The circular list with head node `head` consists of the nodes `xs`, in order:
the `next` links lead from `head` through `xs` back to `head`, the `prev` links
lead back the other way, and all these nodes are distinct. -/
def is_list (h : Nat → list_head) (head : Nat) (xs : List Nat) : Prop :=
  links (nextf h) head xs head ∧ links (prevf h) head xs.reverse head ∧ (head :: xs).Nodup

instance (h : Nat → list_head) (head : Nat) (xs : List Nat) : Decidable (is_list h head xs) := by
  unfold is_list; infer_instance

/-- The zone at address `zone` is well formed, with the metadata nodes `fs` on its
free list and `us` on its used list (both in list order), and no node on both. -/
def zone_lists (s : zone_mem) (zone : Nat) (fs us : List Nat) : Prop :=
  is_list s.lists (zone + ZONE_FREE_ELEMS) fs ∧ is_list s.lists (zone + ZONE_USED_ELEMS) us ∧
    ∀ a, a ∈ (zone + ZONE_FREE_ELEMS) :: fs → a ∉ (zone + ZONE_USED_ELEMS) :: us

instance (s : zone_mem) (zone : Nat) (fs us : List Nat) : Decidable (zone_lists s zone fs us) := by
  unfold zone_lists; infer_instance

/-- The state `zalloc` leaves. -/
def zalloc_state (s : zone_mem) (zone : Nat) : zone_mem :=
  { s with
    lists := list_move s.lists (s.lists (zone + ZONE_FREE_ELEMS)).next (zone + ZONE_USED_ELEMS)
    zones := set_zone s.zones zone
      { (s.zones zone) with
        count := (s.zones zone).count + 1, count_free := (s.zones zone).count_free - 1 } }

/-- The state `zfree` leaves when it finds the metadata node `pos` of `addr`. -/
def zfree_state (s : zone_mem) (zone addr pos : Nat) : zone_mem :=
  { s with
    bytes := memset s.bytes addr 0 (s.zones zone).elem_size
    lists := list_move s.lists pos (zone + ZONE_FREE_ELEMS)
    zones := set_zone s.zones zone
      { (s.zones zone) with
        count := (s.zones zone).count - 1, count_free := (s.zones zone).count_free + 1 } }

/-- The state `zone_create` leaves when it takes the descriptor at `zone`, entry
`zidx` of `zone_array`. -/
def zone_create_state (s : zone_mem) (size max : Nat) (name : String) (zone_page_base : Nat)
    (zidx zone : Nat) : zone_mem :=
  { s with
    zones := set_zone s.zones zone
      { count := 0, count_free := ((max / size : Nat) : Int), size := 0,
        max_size := max / size * size, elem_size := size,
        page_count :=
          ((if (max / size * size + max * ZONE_ALLOC_METADATA_SIZE) / VM_PAGE_SIZE = 0 then 1
            else (max / size * size + max * ZONE_ALLOC_METADATA_SIZE) / VM_PAGE_SIZE : Nat) : Int),
        index := (zidx : Int), name := name, state := ZONE_STATE_USED }
    lists := zone_create_carve (zone + ZONE_FREE_ELEMS) zone_page_base
      (size + ZONE_ALLOC_METADATA_SIZE) (max / size)
      (INIT_LIST_HEAD (INIT_LIST_HEAD s.lists (zone + ZONE_FREE_ELEMS)) (zone + ZONE_USED_ELEMS)) 0
    num_zones_used := s.num_zones_used + 1 }

/-- The address of slot `k` of a zone carved from `base` with elements of `size` bytes. -/
def zone_slot (base size k : Nat) : Nat := base + k * (size + ZONE_ALLOC_METADATA_SIZE)

/-- `n` calls of `zalloc` in a row. -/
def zalloc_times (zone : Nat) : Nat → zone_mem → zone_mem
  | 0, s => s
  | n + 1, s => zalloc_times zone n (zalloc s zone).state

/-- Kernel memory after `zone_init`: `zone_array` at `0xfffffff000200000`, every
byte of the future backing pages holding `0xaa`. -/
def zone_mem_boot : zone_mem :=
  zone_init
    { zone_array := 0xfffffff000200000
      num_zones_used := 0
      zones := fun _ =>
        { count := 0, count_free := 0, size := 0, max_size := 0, elem_size := 0,
          page_count := 0, index := 0, name := "", state := 0 }
      lists := fun _ => { next := 0, prev := 0 }
      bytes := fun _ => 0xaa }

/-- The zone of `zalloc_tests`: element size 16, 160 bytes in total, backing
region at `0xfffffff000300000`. -/
def zone_demo : zone_mem :=
  (zone_create zone_mem_boot 16 160 "test_element" 0xfffffff000300000).state

/-- `zone_demo` after ten calls of `zalloc`: every slot is in use. -/
def zone_demo_full : zone_mem := zalloc_times 0xfffffff000200000 10 zone_demo

/-- `zone_demo` after one call of `zalloc`; the call returns `0xfffffff000300010`. -/
def zone_demo_one : zone_mem := (zalloc zone_demo 0xfffffff000200000).state

/-- `zone_demo_one` after `zfree` of the element `0xfffffff000300010`. -/
def zone_demo_one_freed : zone_mem :=
  zfree_state zone_demo_one 0xfffffff000200000 0xfffffff000300010 0xfffffff000300000

/-- The scenario of `zalloc_tests`: `zone_demo` after three calls of `zalloc` and
the `zfree` of the second element handed out, `0xfffffff000300030`. -/
def zone_demo_tests : zone_mem :=
  zfree_state (zalloc_times 0xfffffff000200000 3 zone_demo) 0xfffffff000200000
    0xfffffff000300030 0xfffffff000300020

/-- `zone_demo_full` after `zfree` of the fifth element handed out,
`0xfffffff000300090`. -/
def zone_demo_fifth_freed : zone_mem :=
  zfree_state zone_demo_full 0xfffffff000200000 0xfffffff000300090 0xfffffff000300080

/-- `zone_demo_full` after one more call of `zalloc`. -/
def zone_demo_over : zone_mem := (zalloc zone_demo_full 0xfffffff000200000).state

/-- The nodes met by `list_for_each(pos, head)`: follow `next` from `head->next`
until `head` comes up again, for at most `fuel` steps. -/
def list_walk (h : Nat → list_head) (head : Nat) : Nat → Nat → List Nat
  | 0, _ => []
  | fuel + 1, pos => if pos = head then [] else pos :: list_walk h head fuel (h pos).next

/-- The nodes on the list `head`, by traversal. -/
def list_nodes (h : Nat → list_head) (head fuel : Nat) : List Nat :=
  list_walk h head fuel (h head).next

/-- The eight bytes of a 64-bit value, least significant first. -/
def le_bytes (v : Nat) : List Nat := (List.range 8).map (fun i => v / 256 ^ i % 256)

/-- The sixteen bytes of a `struct list_head` in memory: `next`, then `prev`. -/
def list_head_bytes (n : list_head) : List Nat := le_bytes n.next ++ le_bytes n.prev

/-! ## Kernel virtual memory state (`kern/vm/vm.c`, `kern/vm/pmap.c`, `kern/vm/vm_map.c`)

The functions of the virtual memory layer work on the page descriptors, on
`vm_map_t` and `vm_map_entry_t` objects, on translation tables and on the
contents of mapped pages.  Addresses and sizes of `vm_map.c` are natural numbers
as before; `size - 1` of `vm_map_entry_create` and the address arithmetic of
`pmap_tt_create_tte`, which runs on kernel addresses close to the top of the
address space, are taken modulo `2 ^ 64`. -/

/-- Scalar fields of `vm_map_t` (`kern/vm/vm_map.h`).  The structure is 64 bytes:
`timestamp` at offset 0, `pmap` at 8, `min` at 16, `max` at 24, `size` at 32,
the `lock` bit at 40, `nentries` at 44 and the list head `entries` at 48 (kept in
the heap of list heads, at address `map + 48`). -/
structure vm_map_t where
  timestamp : Nat
  pmap : Nat
  min : Nat
  max : Nat
  size : Nat
  lock : Nat
  nentries : Nat
  deriving DecidableEq, Repr

/-- Scalar fields of `vm_map_entry_t` (`kern/vm/vm_map.h`).  The structure is 40
bytes: `base` at offset 0, `size` at 8, the flag bits at 16 and the list node
`siblings` at 24 (kept in the heap of list heads, at address `entry + 24`). -/
structure vm_map_entry_t where
  base : Nat
  size : Nat
  guard_page : Nat
  kernel_code : Nat
  deriving DecidableEq, Repr

/-- `sizeof(vm_map_t)`. -/
def VM_MAP_T_SIZE : Nat := 64
/-- `VM_MAP_ENTRY_SIZE` = `sizeof(vm_map_entry_t)`. -/
def VM_MAP_ENTRY_SIZE : Nat := 40
/-- `offsetof(vm_map_t, pmap)`. -/
def VM_MAP_PMAP : Nat := 8
/-- `offsetof(vm_map_t, entries)`. -/
def VM_MAP_ENTRIES : Nat := 48
/-- `offsetof(vm_map_entry_t, siblings)`. -/
def VM_MAP_ENTRY_SIBLINGS : Nat := 24

def VM_NULL : Nat := 0
def VM_FALSE : Nat := 0
def VM_TRUE : Nat := 1
def VM_ALLOC_GUARD_FIRST : Nat := 0x01
def VM_ALLOC_GUARD_LAST : Nat := 0x02
def VM_ALLOC_KERNEL_CODE : Nat := 0x04
def VM_MAP_ENTRY_GUARD_PAGE : Nat := 0x01

/-- `VM_KERNEL_MAX_ADDRESS` (`kern/vm/vm.h`). -/
def VM_KERNEL_MAX_ADDRESS : Nat := 0xfffffff3ffffffff

/-- `VM_PAGE_GUARD_MAGIC` (`kern/vm/vm_page.h`). -/
def VM_PAGE_GUARD_MAGIC : Nat := 0xefbeaddeefbeadde

/-- State of the virtual memory layer.

* `page`: the physical page allocator (with the global `memory_phys_base`);
* `maps`, `entries`: `vm_map_t` and `vm_map_entry_t` objects by address;
* `lists`: the `struct list_head` objects by address;
* `tables`: the 64-bit entries of the translation tables by kernel virtual
  address;
* `words`: the other 64-bit words of mapped memory by address;
* `pagetables_region_cursor`: the global of that name in `pmap.c`;
* `pagetables_region_end`: the value read from the external variable of that
  name, which is declared but not defined in the C sources;
* `memory_virt_base`: the global of that name in `vm.c`;
* `mmu_translate_kvtop`: the result of the external routine of that name
  (assembly, outside the C sources) for each kernel virtual address. -/
structure vm_state where
  page : vm_page_state
  maps : Nat → vm_map_t
  entries : Nat → vm_map_entry_t
  lists : Nat → list_head
  tables : Nat → Nat
  words : Nat → Nat
  pagetables_region_cursor : Nat
  pagetables_region_end : Nat
  memory_virt_base : Nat
  mmu_translate_kvtop : Nat → Nat

/-! ### Translation-table region (`kern/vm/pmap.c`) -/

/-- `DEFAULTS_KERNEL_VM_PAGE_SIZE`. -/
def DEFAULTS_KERNEL_VM_PAGE_SIZE : Nat := 4096

/-- `pmap_ptregion_alloc`: take the cursor, advance it by one page, then
`assert(pagetables_region_end < vaddr)`; a failed assertion panics. -/
def pmap_ptregion_alloc (s : vm_state) : Outcome vm_state Nat :=
  let vaddr := s.pagetables_region_cursor
  let s1 : vm_state :=
    { s with pagetables_region_cursor :=
        s.pagetables_region_cursor + DEFAULTS_KERNEL_VM_PAGE_SIZE }
  if s1.pagetables_region_end < vaddr then .ok s1 vaddr
  else .panic s1 (.failed_assertion "pagetables_region_end < vaddr")

/-! ### Virtual memory maps (`kern/vm/vm_map.c`) -/

/-- Store to one `vm_map_t` object. -/
def set_map (maps : Nat → vm_map_t) (a : Nat) (m : vm_map_t) : Nat → vm_map_t :=
  fun b => if b = a then m else maps b

/-- Store to one `vm_map_entry_t` object. -/
def set_entry (es : Nat → vm_map_entry_t) (a : Nat) (e : vm_map_entry_t) :
    Nat → vm_map_entry_t :=
  fun b => if b = a then e else es b

/-- `vm_map_lock`: `map->lock = 1`. -/
def vm_map_lock (s : vm_state) (map : Nat) : vm_state :=
  { s with maps := set_map s.maps map { (s.maps map) with lock := 1 } }

/-- `vm_map_unlock`: `map->lock = 0`. -/
def vm_map_unlock (s : vm_state) (map : Nat) : vm_state :=
  { s with maps := set_map s.maps map { (s.maps map) with lock := 0 } }

/-- `__vm_map_init`: the assignments to the fields of `map`, in the order of the
source, and `INIT_LIST_HEAD(&map->entries)`. -/
def __vm_map_init (s : vm_state) (map pmap min max : Nat) : vm_state :=
  let m0 := s.maps map
  let m1 : vm_map_t := { m0 with timestamp := 0 }
  let m2 : vm_map_t := { m1 with pmap := pmap }
  let m3 : vm_map_t := { m2 with min := min }
  let m4 : vm_map_t := { m3 with max := max }
  let m5 : vm_map_t := { m4 with size := 0 }
  let m6 : vm_map_t := { m5 with lock := 1 }
  let m7 : vm_map_t := { m6 with nentries := 0 }
  { s with
    maps := set_map s.maps map m7
    lists := INIT_LIST_HEAD s.lists (map + VM_MAP_ENTRIES) }

/-- `vm_map_create`: `__vm_map_init` followed by `vm_map_unlock` (the `pr_info`
line has no effect on the state). -/
def vm_map_create (s : vm_state) (map pmap min max : Nat) : vm_state :=
  vm_map_unlock (__vm_map_init s map pmap min max) map

/-- `list_empty(head)`: `head->next == head`. -/
def list_empty (h : Nat → list_head) (head : Nat) : Bool :=
  decide ((h head).next = head)

/-- `list_last_entry(&map->entries, vm_map_entry_t, siblings)`: the address of the
entry whose `siblings` node is `map->entries.prev`. -/
def vm_map_last_entry (s : vm_state) (map : Nat) : Nat :=
  (s.lists (map + VM_MAP_ENTRIES)).prev - VM_MAP_ENTRY_SIBLINGS

/-- Address of the object that `vm_map_entry_create` takes for the new entry.
Both branches are scaled pointer arithmetic: `map + sizeof(vm_map_t)` on a
`vm_map_t *` is `sizeof(vm_map_t)` objects of 64 bytes past `map`, and
`last + VM_MAP_ENTRY_SIZE` on a `vm_map_entry_t *` is 40 objects of 40 bytes past
the last entry. -/
def vm_map_entry_next (s : vm_state) (map : Nat) : Nat :=
  if list_empty s.lists (map + VM_MAP_ENTRIES) then
    map + VM_MAP_T_SIZE * VM_MAP_T_SIZE
  else
    vm_map_last_entry s map + VM_MAP_ENTRY_SIZE * VM_MAP_ENTRY_SIZE

/-- `vm_map_entry_create`: lock the map, take the next entry object, clear it
with `memset`, fill in `base`, `size - 1` (64-bit subtraction) and the two flag
bits, count the entry and its size in the map, append the entry to the list of
the map, unlock. -/
def vm_map_entry_create (s : vm_state) (map base size flags : Nat) : vm_state :=
  let s1 := vm_map_lock s map
  let entry := vm_map_entry_next s1 map
  let e0 : vm_map_entry_t := { base := 0, size := 0, guard_page := 0, kernel_code := 0 }
  let lists0 := set_next (set_prev s1.lists (entry + VM_MAP_ENTRY_SIBLINGS) 0)
    (entry + VM_MAP_ENTRY_SIBLINGS) 0
  let e1 : vm_map_entry_t := { e0 with base := base }
  let e2 : vm_map_entry_t := { e1 with size := (size + 2 ^ 64 - 1) % 2 ^ 64 }
  let e3 : vm_map_entry_t :=
    { e2 with guard_page :=
        if flags &&& VM_MAP_ENTRY_GUARD_PAGE ≠ 0 then VM_TRUE else VM_FALSE }
  let e4 : vm_map_entry_t :=
    { e3 with kernel_code :=
        if flags &&& VM_ALLOC_KERNEL_CODE ≠ 0 then VM_TRUE else VM_FALSE }
  let m0 := s1.maps map
  let m1 : vm_map_t := { m0 with nentries := m0.nentries + 1 }
  let m2 : vm_map_t := { m1 with size := m1.size + size }
  let s2 : vm_state :=
    { s1 with
      entries := set_entry s1.entries entry e4
      maps := set_map s1.maps map m2
      lists := list_add_tail lists0 (entry + VM_MAP_ENTRY_SIBLINGS) (map + VM_MAP_ENTRIES) }
  vm_map_unlock s2 map

/-! ### `vm_configure` (`kern/vm/vm.c`) -/

/-- `vm_configure`, with the globals set by `arm_vm_init` taken from the boot
arguments (`kernel_phys_base = args->kernbase`, `kernel_phys_size =
args->kernsize`, `kernel_virt_base = memory_virt_base = args->virtbase`) and the
memory size passed separately as in `vm_configure_pages`: bootstrap the page
descriptors, create the kernel map at `kernel_vm_map` for the range from
`kernel_virt_base` to `VM_KERNEL_MAX_ADDRESS`, and record the kernel image as its
first entry. -/
def vm_configure (s : vm_state) (kernel_vm_map kernel_pmap : Nat) (args : boot_args)
    (memsize : Nat) : Outcome vm_state Unit :=
  match vm_page_bootstrap s.page args.kernbase memsize args.kernsize with
  | .panic p msg => .panic { s with page := p } msg
  | .ok p _ =>
    let s1 : vm_state := { s with page := p }
    let s2 := vm_map_create s1 kernel_vm_map kernel_pmap args.virtbase VM_KERNEL_MAX_ADDRESS
    .ok (vm_map_entry_create s2 kernel_vm_map args.virtbase args.kernsize
      VM_ALLOC_KERNEL_CODE) ()

/-! ### Shape of a map built by `vm_map_create` and `vm_map_entry_create` -/

/-- Address of the `i`-th entry object of the map at `map`: the first entry is put
at `map + sizeof(vm_map_t)` in units of `vm_map_t`, each further one
`VM_MAP_ENTRY_SIZE` units of `vm_map_entry_t` past the one before
(`vm_map_entry_next`). -/
def vm_map_entry_addr (map i : Nat) : Nat :=
  map + VM_MAP_T_SIZE * VM_MAP_T_SIZE + i * (VM_MAP_ENTRY_SIZE * VM_MAP_ENTRY_SIZE)

/-- The `siblings` nodes of the first `n` entry objects of the map at `map`. -/
def vm_map_nodes (map n : Nat) : List Nat :=
  (List.range n).map (fun i => vm_map_entry_addr map i + VM_MAP_ENTRY_SIBLINGS)

/-- The list `map->entries` holds exactly `n` entries, in list order the entry
objects `vm_map_entry_addr map 0`, ..., `vm_map_entry_addr map (n - 1)`. -/
def vm_map_wf (s : vm_state) (map n : Nat) : Prop :=
  is_list s.lists (map + VM_MAP_ENTRIES) (vm_map_nodes map n)

instance (s : vm_state) (map n : Nat) : Decidable (vm_map_wf s map n) := by
  unfold vm_map_wf; infer_instance

/-- The `i`-th entry of the map at `map`. -/
def vm_map_entry_at (s : vm_state) (map i : Nat) : vm_map_entry_t :=
  s.entries (vm_map_entry_addr map i)

/-- The entry that `vm_map_entry_create(map, base, size, flags)` writes. -/
def vm_map_entry_value (base size flags : Nat) : vm_map_entry_t :=
  { base := base
    size := (size + 2 ^ 64 - 1) % 2 ^ 64
    guard_page := if flags &&& VM_MAP_ENTRY_GUARD_PAGE ≠ 0 then VM_TRUE else VM_FALSE
    kernel_code := if flags &&& VM_ALLOC_KERNEL_CODE ≠ 0 then VM_TRUE else VM_FALSE }

/-! ### Concrete machine states -/

/-- A memory image before `vm_configure` runs, with the globals that
`arm_vm_init` has set from the boot arguments: page descriptors as in
`vm_page_initial`, all other memory zero, the translation-table region cursor
at `cursor`, `rend` the value of `pagetables_region_end`, and the kernel mapped
linearly (`mmu_translate_kvtop(va) = va - virtbase + physbase`). -/
def vm_state_initial (lower : Nat) (args : boot_args) (cursor rend : Nat) : vm_state :=
  { page := vm_page_initial lower args.physbase
    maps := fun _ =>
      { timestamp := 0, pmap := 0, min := 0, max := 0, size := 0, lock := 0, nentries := 0 }
    entries := fun _ => { base := 0, size := 0, guard_page := 0, kernel_code := 0 }
    lists := fun _ => { next := 0, prev := 0 }
    tables := fun _ => 0
    words := fun _ => 0
    pagetables_region_cursor := cursor
    pagetables_region_end := rend
    memory_virt_base := args.virtbase
    mmu_translate_kvtop := fun va => (va + 2 ^ 64 - args.virtbase + args.physbase) % 2 ^ 64 }

/-- Boot arguments with a kernel image of 1 MiB at the base of 128 MiB of RAM,
linked at `0xfffffff000000000`. -/
def args_kernel_1mib : boot_args :=
  { virtbase := 0xfffffff000000000, physbase := 0x40000000, memsize := 0x8000000,
    kernbase := 0x40000000, kernsize := 0x100000 }

/-- The image for `args_kernel_1mib`: `.vm` section at `0xfffffff000200000`,
translation-table region at `0xfffffff000180000`, `pagetables_region_end` reading
zero. -/
def vm_state_1mib : vm_state :=
  vm_state_initial 0xfffffff000200000 args_kernel_1mib 0xfffffff000180000 0

/-- A machine whose sixteen-page translation-table region starts at
`0xfffffff000180000` and whose variable `pagetables_region_end` holds the end
address of that region, `0xfffffff000190000`; the cursor is at `cursor`. -/
def ptregion_demo (cursor : Nat) : vm_state :=
  vm_state_initial 0xfffffff000200000 args_kernel_1mib cursor
    (0xfffffff000180000 + 16 * DEFAULTS_KERNEL_VM_PAGE_SIZE)

/-! ### Translation tables (`kern/vm/pmap.c`, `arch/proc_reg.h`) -/

/-- `TTE_BLOCK_TEMPLATE`: block entry type (bits 1:0 = 01) and the access flag
(bit 10). -/
def TTE_BLOCK_TEMPLATE : Nat := 0x0000000000000401
def TTE_TYPE_MASK : Nat := 0x0000000000000003
def TTE_TYPE_TABLE : Nat := 0x0000000000000003
def TTE_TYPE_BLOCK : Nat := 0x0000000000000001
def TT_L1_INDEX_MASK : Nat := 0x0000007fc0000000
def TT_L1_SIZE : Nat := 0x0000000040000000
def TT_L1_SHIFT : Nat := 30
def TT_L2_INDEX_MASK : Nat := 0x000000003fe00000
def TT_L2_SIZE : Nat := 0x0000000000200000
def TT_L2_SHIFT : Nat := 21
/-- `TT_AP_BIT_SHIFT`: the access-permission field of an entry is bits 7:6. -/
def TT_AP_BIT_SHIFT : Nat := 6
def TT_TABLE_MASK : Nat := 0x0000fffffffff000
def TT_BLOCK_MASK : Nat := 0x0000ffffffe00000
/-- `DEFAULTS_KERNEL_VM_VIRT_BASE` (`kern/defaults.h`). -/
def DEFAULTS_KERNEL_VM_VIRT_BASE : Nat := 0xfffffff000000000

def PMAP_RETURN_SUCCESS : Nat := 0
def PMAP_RETURN_FAILED : Nat := 1
def PMAP_ACCESS_NOACCESS : Nat := 0x1
def PMAP_ACCESS_READONLY : Nat := 0x2
def PMAP_ACCESS_READWRITE : Nat := 0x4

/-- Store of one 64-bit word at address `a`. -/
def tt_store (t : Nat → Nat) (a v : Nat) : Nat → Nat :=
  fun b => if b = a then v else t b

/-- `ptokva(p)`: `p - memory_phys_base + memory_virt_base`, in 64-bit arithmetic. -/
def ptokva (s : vm_state) (p : Nat) : Nat :=
  (p + 2 ^ 64 - s.page.memory_phys_base + s.memory_virt_base) % 2 ^ 64

/-- The inner loop of `pmap_tt_create_tte`, from `map_address_l2` (the build has
`DEFAULTS_KERNEL_VM_USE_L3_TABLE` disabled, so the body is the `#else` branch):
while `map_address_l2 < map_address + TT_L1_SIZE && map_address_l2 < vend`, write
the block entry `TTE_BLOCK_TEMPLATE | (pbase + (map_address_l2 - vbase) &
TT_TABLE_MASK)` at index `(map_address_l2 & TT_L2_INDEX_MASK) >> TT_L2_SHIFT` of
`l2_table` and step by `TT_L2_SIZE`.  The first numeric argument bounds the
iterations; `none` means the bound was reached before the loop ended. -/
def pmap_tt_fill_l2 (pbase vbase vend map_address l2_table : Nat) :
    Nat → (Nat → Nat) → Nat → Option (Nat → Nat)
  | 0, _, _ => none
  | fuel + 1, tables, map_address_l2 =>
    if map_address_l2 < (map_address + TT_L1_SIZE) % 2 ^ 64 ∧ map_address_l2 < vend then
      let index := (map_address_l2 &&& TT_L2_INDEX_MASK) >>> TT_L2_SHIFT
      let entry := TTE_BLOCK_TEMPLATE |||
        (((pbase + (map_address_l2 + 2 ^ 64 - vbase) % 2 ^ 64) % 2 ^ 64) &&& TT_TABLE_MASK)
      pmap_tt_fill_l2 pbase vbase vend map_address l2_table fuel
        (tt_store tables (l2_table + index * 8) entry) ((map_address_l2 + TT_L2_SIZE) % 2 ^ 64)
    else some tables

/-- The level-2 table for entry `index` of the level-1 table `table`: if the entry
is not a table descriptor, a new table from `pmap_ptregion_alloc` whose
descriptor `(mmu_translate_kvtop(l2_table) & TT_TABLE_MASK) | 0x3` is written to
the entry; otherwise `ptokva(table[index] & TT_TABLE_MASK)`. -/
def pmap_tt_l2_table (s : vm_state) (table index : Nat) : Outcome vm_state Nat :=
  if s.tables (table + index * 8) &&& TTE_TYPE_MASK ≠ TTE_TYPE_TABLE then
    match pmap_ptregion_alloc s with
    | .panic s1 msg => .panic s1 msg
    | .ok s1 l2_table =>
      let entry := (s1.mmu_translate_kvtop l2_table &&& TT_TABLE_MASK) ||| 0x3
      .ok { s1 with tables := tt_store s1.tables (table + index * 8) entry } l2_table
  else .ok s (ptokva s (s.tables (table + index * 8) &&& TT_TABLE_MASK))

/-- The outer loop of `pmap_tt_create_tte`, from `map_address`: while
`map_address < vend`, find or create the level-2 table of the level-1 entry, run
the inner loop and step by `TT_L1_SIZE`.  `fuel` bounds each inner loop, the
next numeric argument the iterations of this loop. -/
def pmap_tt_fill_l1 (table pbase vbase vend fuel : Nat) :
    Nat → vm_state → Nat → Option (Outcome vm_state Unit)
  | 0, _, _ => none
  | n + 1, s, map_address =>
    if map_address < vend then
      let index := (map_address &&& TT_L1_INDEX_MASK) >>> TT_L1_SHIFT
      match pmap_tt_l2_table s table index with
      | .panic s1 msg => some (.panic s1 msg)
      | .ok s1 l2_table =>
        match pmap_tt_fill_l2 pbase vbase vend map_address l2_table fuel s1.tables
            map_address with
        | none => none
        | some tables =>
          pmap_tt_fill_l1 table pbase vbase vend fuel n { s1 with tables := tables }
            ((map_address + TT_L1_SIZE) % 2 ^ 64)
    else some (.ok s ())

/-- `pmap_tt_create_tte(table, pbase, vbase, size, flags)`.  The argument `flags`
is not read by the function (its first line is the comment "TODO: apply
attributes to tte's, e.g. NOACCESS, READONLY, READWRITE").  `fuel` bounds the
iterations of each loop; `none` means a bound was reached. -/
def pmap_tt_create_tte (fuel : Nat) (s : vm_state) (table pbase vbase size _flags : Nat) :
    Option (Outcome vm_state Nat) :=
  if pbase > DEFAULTS_KERNEL_VM_VIRT_BASE then some (.ok s PMAP_RETURN_FAILED)
  else
    match pmap_tt_fill_l1 table pbase vbase ((vbase + size) % 2 ^ 64) fuel fuel s vbase with
    | none => none
    | some (.panic s1 msg) => some (.panic s1 msg)
    | some (.ok s1 _) => some (.ok s1 PMAP_RETURN_SUCCESS)

/-- The level-2 entry that a two-level walk from the level-1 table `root` reaches
for the virtual address `v`: the level-1 entry must be a table descriptor,
whose table is read through `ptokva(entry & TT_TABLE_MASK)` as in
`__vm_pagetable_walk` (`kern/vm/vm.c`). -/
def tt_l2_entry (s : vm_state) (root v : Nat) : Option Nat :=
  let e1 := s.tables (root + ((v &&& TT_L1_INDEX_MASK) >>> TT_L1_SHIFT) * 8)
  if e1 &&& TTE_TYPE_MASK = TTE_TYPE_TABLE then
    some (s.tables (ptokva s (e1 &&& TT_TABLE_MASK)
      + ((v &&& TT_L2_INDEX_MASK) >>> TT_L2_SHIFT) * 8))
  else none

/-- Translation of `v` by the two-level walk from `root`: the level-2 entry must
be a block entry; its output address `entry & TT_BLOCK_MASK` (the decoding of
`__vm_pagetable_walk`) is the base of a 2 MiB block, to which the offset of `v`
in the block is added. -/
def tt_translate (s : vm_state) (root v : Nat) : Option Nat :=
  match tt_l2_entry s root v with
  | none => none
  | some e2 =>
    if e2 &&& TTE_TYPE_MASK = TTE_TYPE_BLOCK then some ((e2 &&& TT_BLOCK_MASK) + v % TT_L2_SIZE)
    else none

/-! ### `vm_map_alloc` (`kern/vm/vm_map.c`, `kern/vm/vm_page.c`) -/

/-- `VM_ALIGN_ADDR(_addr)`: `(_addr + (4 - 1)) & -4`, where `-4` converts to the
64-bit mask `2 ^ 64 - 4`. -/
def VM_ALIGN_ADDR (addr : Nat) : Nat := (addr + (4 - 1)) &&& (2 ^ 64 - 4)

/-- `vm_page_alloc()` on the page descriptors of the state. -/
def vm_page_alloc_in (s : vm_state) : Outcome vm_state Nat :=
  match vm_page_alloc s.page with
  | .ok p paddr => .ok { s with page := p } paddr
  | .panic p msg => .panic { s with page := p } msg

/-- The loop of `vm_guard_page_fill` from index `i`, for `n` more words. -/
def vm_guard_page_fill_loop (guard_page : Nat) : Nat → Nat → (Nat → Nat) → (Nat → Nat)
  | 0, _, w => w
  | n + 1, i, w =>
    vm_guard_page_fill_loop guard_page n (i + 1) (tt_store w (guard_page + i * 8) VM_PAGE_GUARD_MAGIC)

/-- `vm_guard_page_fill(guard_page)`: `guard_page[i] = VM_PAGE_GUARD_MAGIC` for
`i < VM_PAGE_SIZE / sizeof(VM_PAGE_GUARD_MAGIC)`. -/
def vm_guard_page_fill (s : vm_state) (guard_page : Nat) : vm_state :=
  { s with words := vm_guard_page_fill_loop guard_page (VM_PAGE_SIZE / 8) 0 s.words }

/-- Sequencing of calls: the continuation runs when the call returns. -/
def and_then {σ α β : Type} (r : Option (Outcome σ α)) (k : σ → α → Option (Outcome σ β)) :
    Option (Outcome σ β) :=
  match r with
  | none => none
  | some (.panic s msg) => some (.panic s msg)
  | some (.ok s a) => k s a

/-- `pmap_tt_create_tte(table, vm_page_alloc(), vcursor, VM_PAGE_SIZE, access)`: the
frame is allocated first, as an argument of the call. -/
def vm_map_alloc_page (fuel : Nat) (s : vm_state) (table vcursor access : Nat) :
    Option (Outcome vm_state Nat) :=
  and_then (some (vm_page_alloc_in s)) fun s1 page_addr =>
    pmap_tt_create_tte fuel s1 table page_addr vcursor VM_PAGE_SIZE access

/-- The loop `for (i = 0; i < page_count; i++)` of `vm_map_alloc`, for `n` more
pages from `vcursor`; returns the final `vcursor`. -/
def vm_map_alloc_pages (fuel table : Nat) : Nat → vm_state → Nat → Option (Outcome vm_state Nat)
  | 0, s, vcursor => some (.ok s vcursor)
  | n + 1, s, vcursor =>
    and_then (vm_map_alloc_page fuel s table vcursor PMAP_ACCESS_READWRITE) fun s1 _ =>
      vm_map_alloc_pages fuel table n s1 (vcursor + VM_PAGE_SIZE)

/-- The fields `base` and `size` read through the pointer `entry` for the map at
`map`.  On an empty list `list_last_entry` yields `map + 24`, which is no entry
object: there `base` and `size` overlay the fields `max` and `size` of the map. -/
def vm_map_entry_read (s : vm_state) (map entry : Nat) : Nat × Nat :=
  if entry = map + VM_MAP_ENTRIES - VM_MAP_ENTRY_SIBLINGS then ((s.maps map).max, (s.maps map).size)
  else ((s.entries entry).base, (s.entries entry).size)

/-- `page_count` of `vm_map_alloc`: `(size < VM_PAGE_SIZE) ? 1 : (size / VM_PAGE_SIZE)`. -/
def vm_map_alloc_page_count (size : Nat) : Nat :=
  if size < VM_PAGE_SIZE then 1 else size / VM_PAGE_SIZE

/-- The address from which `vm_map_alloc` starts:
`VM_ALIGN_ADDR(last_entry->base + last_entry->size + 1)`. -/
def vm_map_alloc_start (s : vm_state) (map : Nat) : Nat :=
  VM_ALIGN_ADDR ((vm_map_entry_read s map (vm_map_last_entry s map)).1
    + (vm_map_entry_read s map (vm_map_last_entry s map)).2 + 1)

/-- `vm_map_alloc(map, size, flags)`.  The translation-table root passed to
`pmap_tt_create_tte` is `&pmap->tte` with `pmap = &map->pmap`, the address
`map + 8`.  The values returned by `pmap_tt_create_tte` are not looked at.
`fuel` bounds the loops of `pmap_tt_create_tte`. -/
def vm_map_alloc (fuel : Nat) (s : vm_state) (map size flags : Nat) :
    Option (Outcome vm_state Nat) :=
  let table := map + VM_MAP_PMAP
  let vcursor0 := vm_map_alloc_start s map
  and_then
    (if flags &&& VM_ALLOC_GUARD_FIRST ≠ 0 then
      and_then (vm_map_alloc_page fuel s table vcursor0 PMAP_ACCESS_NOACCESS) fun s1 _ =>
        let s2 := vm_map_entry_create s1 map vcursor0 VM_PAGE_SIZE VM_MAP_ENTRY_GUARD_PAGE
        let s3 := vm_guard_page_fill s2 vcursor0
        some (.ok s3 (vcursor0 + VM_PAGE_SIZE))
    else some (.ok s vcursor0)) fun s3 vbase =>
  let page_count := vm_map_alloc_page_count size
  and_then (vm_map_alloc_pages fuel table page_count s3 vbase) fun s4 vcursor =>
  let s5 := vm_map_entry_create s4 map vbase (page_count * VM_PAGE_SIZE) VM_NULL
  if flags &&& VM_ALLOC_GUARD_LAST ≠ 0 then
    and_then (vm_map_alloc_page fuel s5 table vcursor PMAP_ACCESS_NOACCESS) fun s6 _ =>
      let s7 := vm_guard_page_fill s6 vcursor
      let s8 := vm_map_entry_create s7 map vcursor VM_PAGE_SIZE VM_MAP_ENTRY_GUARD_PAGE
      some (.ok s8 vbase)
  else some (.ok s5 vbase)

/-- The result of a call that returned. -/
def returned {σ α : Type} (d : σ) : Option (Outcome σ α) → σ
  | some (.ok s _) => s
  | _ => d

/-- Number of page descriptors in state `VM_PAGE_STATE_ALLOC`. -/
def vm_page_alloc_count (st : vm_page_state) : Nat :=
  ((List.range st.vm_page_idx).filter
    (fun i => decide ((st.pages i).state = VM_PAGE_STATE_ALLOC))).length

/-- Boot arguments of a small machine: 256 KiB of RAM at `0x40000000`, a kernel
image of 16 KiB at its base, linked at `0xfffffff000000000`. -/
def args_small : boot_args :=
  { virtbase := 0xfffffff000000000, physbase := 0x40000000, memsize := 0x40000,
    kernbase := 0x40000000, kernsize := 0x4000 }

/-- The small machine after `vm_configure`: kernel map at `0xfffffff000100000`,
`.vm` section at `0xfffffff000200000`, translation-table region cursor at
`0xfffffff000180000`, `pagetables_region_end` reading zero. -/
def vm_demo : vm_state :=
  (vm_configure (vm_state_initial 0xfffffff000200000 args_small 0xfffffff000180000 0)
    0xfffffff000100000 0xfffffff0000ff000 args_small 0x40000).state

/-- The state `s` with the page descriptors, the translation tables, the words of
mapped memory and the translation-table region cursor replaced. -/
def vm_overlay (s : vm_state) (p : vm_page_state) (t w : Nat → Nat) (c : Nat) : vm_state :=
  { s with page := p, tables := t, words := w, pagetables_region_cursor := c }

/-- The calls of `vm_map_entry_create` that `vm_map_alloc(map, size, flags)` makes,
in order, applied to `s`. -/
def vm_map_alloc_entries (s : vm_state) (map size flags : Nat) : vm_state :=
  let vcursor0 := vm_map_alloc_start s map
  let s2 :=
    if flags &&& VM_ALLOC_GUARD_FIRST ≠ 0 then
      vm_map_entry_create s map vcursor0 VM_PAGE_SIZE VM_MAP_ENTRY_GUARD_PAGE
    else s
  let vbase := if flags &&& VM_ALLOC_GUARD_FIRST ≠ 0 then vcursor0 + VM_PAGE_SIZE else vcursor0
  let page_count := vm_map_alloc_page_count size
  let s5 := vm_map_entry_create s2 map vbase (page_count * VM_PAGE_SIZE) VM_NULL
  if flags &&& VM_ALLOC_GUARD_LAST ≠ 0 then
    vm_map_entry_create s5 map (vbase + page_count * VM_PAGE_SIZE) VM_PAGE_SIZE
      VM_MAP_ENTRY_GUARD_PAGE
  else s5

/-- The address `vm_map_alloc(map, size, flags)` returns. -/
def vm_map_alloc_vbase (s : vm_state) (map flags : Nat) : Nat :=
  if flags &&& VM_ALLOC_GUARD_FIRST ≠ 0 then vm_map_alloc_start s map + VM_PAGE_SIZE
  else vm_map_alloc_start s map

/-- The words of memory after the calls of `vm_guard_page_fill` that
`vm_map_alloc(map, size, flags)` makes. -/
def vm_map_alloc_words (s : vm_state) (map size flags : Nat) : Nat → Nat :=
  let w1 :=
    if flags &&& VM_ALLOC_GUARD_FIRST ≠ 0 then
      vm_guard_page_fill_loop (vm_map_alloc_start s map) (VM_PAGE_SIZE / 8) 0 s.words
    else s.words
  if flags &&& VM_ALLOC_GUARD_LAST ≠ 0 then
    vm_guard_page_fill_loop
      (vm_map_alloc_vbase s map flags + vm_map_alloc_page_count size * VM_PAGE_SIZE)
      (VM_PAGE_SIZE / 8) 0 w1
  else w1

/-- `vm_demo` after `vm_map_alloc(map, VM_PAGE_SIZE + 1, VM_NULL)` on the kernel
map. -/
def vm_demo_4097 : vm_state :=
  returned vm_demo (vm_map_alloc 2 vm_demo 0xfffffff000100000 (VM_PAGE_SIZE + 1) VM_NULL)

/-- `vm_demo` after the call `pmap_tt_create_tte(&pmap->tte, 0x40005000,
0xfffffff000004000, VM_PAGE_SIZE, PMAP_ACCESS_READWRITE)`, the call `vm_map_alloc`
makes for the first frame it allocates on `vm_demo`. -/
def vm_demo_tte : vm_state :=
  returned vm_demo (pmap_tt_create_tte 2 vm_demo (0xfffffff000100000 + VM_MAP_PMAP) 0x40005000
    0xfffffff000004000 VM_PAGE_SIZE PMAP_ACCESS_READWRITE)

/-- Each of the first `n` entries of the map ends below the base of the next one:
entry `i` describes the addresses from `base` to `base + size`, its `size` field
holding the offset of the last byte. -/
def vm_map_sorted (s : vm_state) (map n : Nat) : Prop :=
  ∀ i, i < n - 1 →
    (vm_map_entry_at s map i).base + (vm_map_entry_at s map i).size
      < (vm_map_entry_at s map (i + 1)).base

instance (s : vm_state) (map n : Nat) : Decidable (vm_map_sorted s map n) := by
  unfold vm_map_sorted; infer_instance

/-- No address that `vm_map_alloc(map, size, flags)` computes wraps around: `size`
is a 64-bit value, and the end of the last entry, rounded up to a multiple of 4
and followed by the body pages and two guard pages, stays below `2 ^ 64`. -/
def vm_map_alloc_fits (s : vm_state) (map size : Nat) : Prop :=
  size < 2 ^ 64 ∧
    (vm_map_entry_read s map (vm_map_last_entry s map)).1
      + (vm_map_entry_read s map (vm_map_last_entry s map)).2 + 1 + 3
      + (vm_map_alloc_page_count size + 2) * VM_PAGE_SIZE < 2 ^ 64

instance (s : vm_state) (map size : Nat) : Decidable (vm_map_alloc_fits s map size) := by
  unfold vm_map_alloc_fits; infer_instance

/-- The states of the map at `map` built by `vm_map_create`, one
`vm_map_entry_create` of non-zero size, and then any sequence of returning
`vm_map_alloc` calls that do not wrap around the address space. -/
inductive vm_map_built (map : Nat) : vm_state → Prop where
  | init (s : vm_state) (pmap min max base size flags : Nat) :
      size ≠ 0 → size < 2 ^ 64 →
      vm_map_built map
        (vm_map_entry_create (vm_map_create s map pmap min max) map base size flags)
  | alloc (fuel : Nat) (s : vm_state) (size flags : Nat) (s1 : vm_state) (v : Nat) :
      vm_map_built map s → vm_map_alloc_fits s map size →
      vm_map_alloc fuel s map size flags = some (.ok s1 v) →
      vm_map_built map s1

/-- `vm_demo` after `vm_map_alloc(map, 3 * VM_PAGE_SIZE, VM_ALLOC_GUARD_FIRST |
VM_ALLOC_GUARD_LAST)` on the kernel map. -/
def vm_demo_guarded : vm_state :=
  returned vm_demo (vm_map_alloc 2 vm_demo 0xfffffff000100000 (3 * VM_PAGE_SIZE)
    (VM_ALLOC_GUARD_FIRST ||| VM_ALLOC_GUARD_LAST))

/-- The descriptors below `k` are not free and the `m` descriptors from `k` on
are free: the next `m` calls of `vm_page_alloc` take the frames `k`, ...,
`k + m - 1`. -/
def vm_page_free_run (st : vm_page_state) (k m : Nat) : Prop :=
  (∀ i, i < k → ¬ page_is_free st i) ∧
    ∀ i, i < m → k + i < st.vm_page_idx ∧ page_is_free st (k + i)

instance (st : vm_page_state) (k m : Nat) : Decidable (vm_page_free_run st k m) := by
  unfold vm_page_free_run; infer_instance

/-- Resources with which `vm_map_alloc(map, size, flags)` returns: the loops of
`pmap_tt_create_tte` may run twice, the assertion of `pmap_ptregion_alloc`
holds, `vm_map_alloc_page_count size + 2` frames are free from descriptor `k`
on, and the pages to map lie more than `TT_L1_SIZE` below the top of the
address space. -/
def vm_map_alloc_ready (fuel : Nat) (s : vm_state) (map size k : Nat) : Prop :=
  2 ≤ fuel ∧ s.pagetables_region_end < s.pagetables_region_cursor ∧
    vm_page_free_run s.page k (vm_map_alloc_page_count size + 2) ∧
    vm_map_alloc_start s map + (vm_map_alloc_page_count size + 2) * VM_PAGE_SIZE + TT_L1_SIZE
      < 2 ^ 64

instance (fuel : Nat) (s : vm_state) (map size k : Nat) :
    Decidable (vm_map_alloc_ready fuel s map size k) := by
  unfold vm_map_alloc_ready; infer_instance

/-- The level-2 table that `pmap_tt_create_tte` uses for the level-1 slot of
`vbase`: the table of the level-1 entry if that is a table descriptor,
otherwise the page at the translation-table region cursor. -/
def pmap_tt_l2_of (s : vm_state) (table vbase : Nat) : Nat :=
  if s.tables (table + ((vbase &&& TT_L1_INDEX_MASK) >>> TT_L1_SHIFT) * 8) &&& TTE_TYPE_MASK
      = TTE_TYPE_TABLE then
    ptokva s (s.tables (table + ((vbase &&& TT_L1_INDEX_MASK) >>> TT_L1_SHIFT) * 8)
      &&& TT_TABLE_MASK)
  else s.pagetables_region_cursor

/-- The memory layout that `pmap_tt_create_tte` relies on for the level-1 slot of
`vbase`: if the level-1 entry is not yet a table descriptor, the assertion of
`pmap_ptregion_alloc` holds and the page at the cursor is found again from its
descriptor (`ptokva` undoes `mmu_translate_kvtop` on it); and no entry of the
level-2 table is the level-1 entry itself. -/
def pmap_tt_layout (s : vm_state) (table vbase : Nat) : Prop :=
  (s.tables (table + ((vbase &&& TT_L1_INDEX_MASK) >>> TT_L1_SHIFT) * 8) &&& TTE_TYPE_MASK
      = TTE_TYPE_TABLE ∨
    (s.pagetables_region_end < s.pagetables_region_cursor ∧
      ptokva s (s.mmu_translate_kvtop s.pagetables_region_cursor &&& TT_TABLE_MASK)
        = s.pagetables_region_cursor)) ∧
  ∀ j, j < 512 →
    pmap_tt_l2_of s table vbase + j * 8
      ≠ table + ((vbase &&& TT_L1_INDEX_MASK) >>> TT_L1_SHIFT) * 8

instance (s : vm_state) (table vbase : Nat) : Decidable (pmap_tt_layout s table vbase) := by
  unfold pmap_tt_layout; infer_instance

/-- `vm_demo` after `pmap_tt_create_tte(&pmap->tte, 0x40200000, 0xfffffff03fe00000,
2 * TT_L2_SIZE, PMAP_ACCESS_READWRITE)`: 4 MiB, 2 MiB-aligned, that start in the
last 2 MiB block of one level-1 slot and end in the first block of the next. -/
def vm_demo_tte_cross : vm_state :=
  returned vm_demo (pmap_tt_create_tte 4 vm_demo (0xfffffff000100000 + VM_MAP_PMAP) 0x40200000
    0xfffffff03fe00000 (2 * TT_L2_SIZE) PMAP_ACCESS_READWRITE)

/-! ## Tasks, threads, stacks and the scheduler
(`kern/task.c`, `kern/thread.c`, `kern/mm/stack.c`, `kern/sched.c`, `kern/cpu.c`)

The objects of this layer are kept in typed heaps of their own: thread, task and
stack descriptors by address, and the list nodes embedded in them (together with
the global list heads `threads`, `tasks` and `stacks`) in a heap of list heads
that is apart from the allocation headers of the zones and from the entries of
the memory maps: the body of a zone element does not overlap its header.  The
saved register context of a thread and the name of a thread are not part of a
thread record; one CPU runs the kernel. -/

def THREAD_STATE_INACTIVE : Nat := 0x0
def THREAD_STATE_ACTIVE : Nat := 0x1
def THREAD_COUNT_MAX : Nat := 24
/-- `THREAD_STACK_DEFAULT_SIZE`. -/
def THREAD_STACK_DEFAULT_SIZE : Nat := VM_PAGE_SIZE
def THREAD_NULL : Nat := 0
def THREAD_ID_KERN_THREAD : Int := 0
def THREAD_PRIORITY_MAX : Int := 4
/-- `sizeof(thread_t)` (LP64 layout): the context of 14 registers, `stack_base`
at 112, `stack` at 120, `thread_id` at 128, `siblings` at 136, `threads` at 152,
`task` at 168, `entry` at 176, `args` at 184, `preempt` at 192, the state bit at
196, `ref_count` at 200, the times at 208 and 216, `name` at 224. -/
def THREAD_T_SIZE : Nat := 288
/-- `offsetof(thread_t, siblings)`. -/
def THREAD_SIBLINGS : Nat := 136
/-- `offsetof(thread_t, threads)`. -/
def THREAD_THREADS : Nat := 152

def TASK_STATE_INACTIVE : Int := 0
def TASK_COUNT_MAX : Nat := 12
def TASK_NAME_MAX_LEN : Nat := 32
/-- `sizeof(task_t)` (LP64 layout): `pid` at 0, `state` at 4, `name` at 8,
`tasks` at 40, `threads` at 56, `map` at 72, the times at 80 and 88, `priority`
at 96, `preempt` at 100, `ref_count` at 104. -/
def TASK_T_SIZE : Nat := 112
/-- `offsetof(task_t, name)`. -/
def TASK_NAME : Nat := 8
/-- `offsetof(task_t, tasks)`. -/
def TASK_TASKS : Nat := 40
/-- `offsetof(task_t, threads)`. -/
def TASK_THREADS : Nat := 56

/-- `sizeof(stack_t)` (`kern/mm/stack.c`): `stack_base` at 0, `siblings` at 8. -/
def STACK_T_SIZE : Nat := 24
/-- `offsetof(stack_t, siblings)`. -/
def STACK_SIBLINGS : Nat := 8

/-- Scalar fields of `thread_t` (`kern/thread.h`). -/
structure thread_t where
  stack_base : Nat
  stack : Nat
  thread_id : Int
  task : Nat
  entry : Nat
  args : Nat
  preempt : Int
  state : Nat
  ref_count : Int
  deriving DecidableEq, Repr

/-- Scalar fields of `task_t` (`kern/task.h`) that the functions below touch, and
`map`; the name is kept in the bytes of memory at `task + TASK_NAME`. -/
structure task_t where
  pid : Int
  state : Int
  map : Nat
  ref_count : Int
  deriving DecidableEq, Repr

/-- `stack_t` (`kern/mm/stack.c`). -/
structure stack_t where
  stack_base : Nat
  deriving DecidableEq, Repr

/-- State of the kernel.

* `zone`: the zone allocator, with the bytes of memory;
* `vm`: the virtual memory layer;
* `thread`, `task`, `stack`: thread, task and stack descriptors by address;
* `lists`: the list nodes embedded in these descriptors and the global list
  heads, by address;
* `threads`, `tasks`, `stacks_head`: the addresses of the global list heads
  `threads`, `tasks` (`kern/processor.c`) and `stacks` (`kern/mm/stack.c`; the
  word is reserved in Lean);
* `thread_zone`, `stack_zone`, `task_zone`, `thread_id_max`, `task_pid`,
  `kernel_task`, `current_task`, `kernel_vm_map`: the globals of these names;
* `cpu_active_thread`, `cpu_active_stack`: the fields of the CPU descriptor of
  the running CPU;
* `irq_masked`: interrupts are masked (`msr daifset, #2`). -/
structure kernel_state where
  zone : zone_mem
  vm : vm_state
  thread : Nat → thread_t
  task : Nat → task_t
  stack : Nat → stack_t
  lists : Nat → list_head
  threads : Nat
  tasks : Nat
  stacks_head : Nat
  thread_zone : Nat
  stack_zone : Nat
  task_zone : Nat
  thread_id_max : Int
  task_pid : Int
  kernel_task : Nat
  current_task : Nat
  kernel_vm_map : Nat
  cpu_active_thread : Nat
  cpu_active_stack : Nat
  irq_masked : Bool

/-- Store to one thread descriptor. -/
def set_thread (h : Nat → thread_t) (a : Nat) (t : thread_t) : Nat → thread_t :=
  fun b => if b = a then t else h b

/-- Store to one task descriptor. -/
def set_task (h : Nat → task_t) (a : Nat) (t : task_t) : Nat → task_t :=
  fun b => if b = a then t else h b

/-- Store to one stack descriptor. -/
def set_stack (h : Nat → stack_t) (a : Nat) (t : stack_t) : Nat → stack_t :=
  fun b => if b = a then t else h b

/-- A call into the zone allocator from the kernel. -/
def in_zone {α : Type} (s : kernel_state) : Outcome zone_mem α → Outcome kernel_state α
  | .ok z a => .ok { s with zone := z } a
  | .panic z msg => .panic { s with zone := z } msg

/-- A call into the virtual memory layer from the kernel. -/
def in_vm {α : Type} (s : kernel_state) : Outcome vm_state α → Outcome kernel_state α
  | .ok v a => .ok { s with vm := v } a
  | .panic v msg => .panic { s with vm := v } msg

/-- `list_del(entry)`: `__list_del(entry->prev, entry->next); entry->next = 0;
entry->prev = 0;`. -/
def list_del (h : Nat → list_head) (entry : Nat) : Nat → list_head :=
  set_prev (set_next (__list_del h (h entry).prev (h entry).next) entry 0) entry 0

/-! ### Stacks (`kern/mm/stack.c`) -/

/-- `stack_alloc(thread)`: a descriptor from the stack zone, a stack of one page
between two guard pages from the kernel map, the descriptor appended to
`stacks`, and the base stored in the thread twice. -/
def stack_alloc (fuel : Nat) (s : kernel_state) (thread : Nat) :
    Option (Outcome kernel_state Unit) :=
  and_then (some (in_zone s (zalloc s.zone s.stack_zone))) fun s1 stack =>
  and_then ((vm_map_alloc fuel s1.vm s1.kernel_vm_map THREAD_STACK_DEFAULT_SIZE
      (VM_ALLOC_GUARD_FIRST ||| VM_ALLOC_GUARD_LAST)).map (in_vm s1)) fun s2 base =>
  let s3 : kernel_state :=
    { s2 with
      stack := set_stack s2.stack stack { (s2.stack stack) with stack_base := base }
      lists := list_add_tail s2.lists (stack + STACK_SIBLINGS) s2.stacks_head }
  let t1 : thread_t := { (s3.thread thread) with stack_base := (s3.stack stack).stack_base }
  let t2 : thread_t := { t1 with stack := (s3.stack stack).stack_base }
  some (.ok { s3 with thread := set_thread s3.thread thread t2 } ())

/-- The loop of `stack_free`, `list_for_each_entry(stack, &stacks, siblings)`, from
the node `pos`: the descriptor whose address equals `thread->stack_base` is given
to `zfree` and the loop ends.  The first argument bounds the iterations. -/
def stack_free_loop (fuel : Nat) (s : kernel_state) (thread : Nat) :
    Nat → Nat → Option (Outcome kernel_state Unit)
  | 0, _ => none
  | n + 1, pos =>
    if pos = s.stacks_head then some (.ok s ())
    else if pos - STACK_SIBLINGS = (s.thread thread).stack_base then
      (zfree fuel s.zone s.stack_zone (pos - STACK_SIBLINGS)).map (in_zone s)
    else stack_free_loop fuel s thread n (s.lists pos).next

/-- `stack_free(thread)`. -/
def stack_free (fuel : Nat) (s : kernel_state) (thread : Nat) :
    Option (Outcome kernel_state Unit) :=
  stack_free_loop fuel s thread fuel (s.lists s.stacks_head).next

/-! ### Threads (`kern/thread.c`) -/

/-- `thread_init_context(thread, entry)`: `thread->entry = entry`. -/
def thread_init_context (s : kernel_state) (thread entry : Nat) : kernel_state :=
  { s with thread := set_thread s.thread thread { (s.thread thread) with entry := entry } }

/-- `task_assign_thread(task, thread)` (`kern/task.c`):
`list_add_tail(&thread->siblings, &task->threads); thread->task = task;`. -/
def task_assign_thread (s : kernel_state) (task thread : Nat) : kernel_state :=
  { s with
    lists := list_add_tail s.lists (thread + THREAD_SIBLINGS) (task + TASK_THREADS)
    thread := set_thread s.thread thread { (s.thread thread) with task := task } }

/-- `thread_create(parent_task, priority, entry, name)`.  The line under the
comment "initial state is inactive" stores `THREAD_STATE_INACTIVE` to
`thread->stack`; `priority` is not used; `thread_set_name` writes only the
bytes of the name. -/
def thread_create (fuel : Nat) (s : kernel_state) (parent_task : Nat) (_priority : Int)
    (entry : Nat) : Option (Outcome kernel_state Nat) :=
  and_then (some (in_zone s (zalloc s.zone s.thread_zone))) fun s1 thread =>
  let t1 : thread_t := { (s1.thread thread) with stack := THREAD_STATE_INACTIVE }
  let t2 : thread_t := { t1 with ref_count := 2 }
  let t3 : thread_t := { t2 with preempt := 0 }
  let t4 : thread_t := { t3 with thread_id := s1.thread_id_max }
  let s2 : kernel_state :=
    { s1 with thread := set_thread s1.thread thread t4, thread_id_max := s1.thread_id_max + 1 }
  and_then (stack_alloc fuel s2 thread) fun s3 _ =>
  let s4 := thread_init_context s3 thread entry
  let s5 := task_assign_thread s4 parent_task thread
  let s6 : kernel_state :=
    { s5 with lists := list_add_tail s5.lists (thread + THREAD_THREADS) s5.threads }
  let s7 : kernel_state :=
    { s6 with
      thread := set_thread s6.thread thread
        { (s6.thread thread) with state := THREAD_STATE_ACTIVE } }
  some (.ok s7 thread)

/-- `thread_destroy(thread)`: mask interrupts (`thread_block`), panic if `thread`
is the active thread of the CPU, otherwise mark it inactive, unlink it from the
sibling list of its task and from the global list, free its stack, give the
descriptor back to the thread zone and unmask interrupts (`thread_unblock`).
The copy of the name to a local buffer has no effect on the state. -/
def thread_destroy (fuel : Nat) (s : kernel_state) (thread : Nat) :
    Option (Outcome kernel_state Unit) :=
  let s1 : kernel_state := { s with irq_masked := true }
  if thread = s1.cpu_active_thread then some (.panic s1 .destroy_active_thread)
  else
    let s2 : kernel_state :=
      { s1 with
        thread := set_thread s1.thread thread
          { (s1.thread thread) with state := THREAD_STATE_INACTIVE } }
    let s3 : kernel_state := { s2 with lists := list_del s2.lists (thread + THREAD_SIBLINGS) }
    let s4 : kernel_state := { s3 with lists := list_del s3.lists (thread + THREAD_THREADS) }
    and_then (stack_free fuel s4 thread) fun s5 _ =>
    and_then ((zfree fuel s5.zone s5.thread_zone thread).map (in_zone s5)) fun s6 _ =>
    some (.ok { s6 with irq_masked := false } ())

/-- `kernel_thread_create(entry, priority, args)`. -/
def kernel_thread_create (fuel : Nat) (s : kernel_state) (entry : Nat) (priority : Int)
    (args : Nat) : Option (Outcome kernel_state Nat) :=
  and_then (thread_create fuel s s.kernel_task priority entry) fun s1 thread =>
  if thread = THREAD_NULL then some (.panic s1 .kernel_thread_failed)
  else if (s1.thread thread).thread_id ≠ THREAD_ID_KERN_THREAD then
    some (.panic s1 .kernel_thread_not_first)
  else
    let t1 : thread_t := { (s1.thread thread) with args := args }
    let t2 : thread_t := { t1 with state := THREAD_STATE_ACTIVE }
    some (.ok { s1 with thread := set_thread s1.thread thread t2 } thread)

/-! ### Scheduler (`kern/sched.c`) -/

/-- `__select_thread(active_thread)`: the thread after `active_thread` in the
global list `threads`, the first one after the last. -/
def __select_thread (s : kernel_state) (active_thread : Nat) : Nat :=
  if list_is_last s.lists (active_thread + THREAD_THREADS) s.threads then
    (s.lists s.threads).next - THREAD_THREADS
  else (s.lists (active_thread + THREAD_THREADS)).next - THREAD_THREADS

/-- The loop of `__schedule`:
`while (next_thread->state != THREAD_STATE_ACTIVE) next_thread = __select_thread(thread);`.
The first argument bounds the iterations; `none` means the bound was reached. -/
def __schedule_loop (s : kernel_state) (thread : Nat) : Nat → Nat → Option Nat
  | 0, _ => none
  | n + 1, next_thread =>
    if (s.thread next_thread).state ≠ THREAD_STATE_ACTIVE then
      __schedule_loop s thread n (__select_thread s thread)
    else some next_thread

/-- `__schedule(frame)` up to the call `thread_load_context(next_thread)`, which
does not return: mask interrupts, select the next thread, record its task as
the current task and save the context of the running thread
(`thread_save_context`: `thread->entry` receives `elr_el1` and `thread->stack`
the stack pointer of the frame).  The result is the selected thread. -/
def __schedule (fuel : Nat) (s : kernel_state) (frame_sp elr_el1 : Nat) :
    Option (kernel_state × Nat) :=
  let s1 : kernel_state := { s with irq_masked := true }
  let thread := s1.cpu_active_thread
  match __schedule_loop s1 thread fuel (__select_thread s1 thread) with
  | none => none
  | some next_thread =>
    let s2 : kernel_state := { s1 with current_task := (s1.thread next_thread).task }
    let t1 : thread_t := { (s2.thread thread) with entry := elr_el1 }
    let t2 : thread_t := { t1 with stack := frame_sp }
    some ({ s2 with thread := set_thread s2.thread thread t2 }, next_thread)

/-- `sched_tail(thread)`: the thread becomes the active thread of the CPU, its
stack the active stack, and interrupts are unmasked.  `cpu_set_active_thread`
panics on a null thread. -/
def sched_tail (s : kernel_state) (thread : Nat) : Outcome kernel_state Unit :=
  if thread = THREAD_NULL then .panic s .cpu_invalid_thread
  else
    .ok { s with
          cpu_active_thread := thread
          cpu_active_stack := (s.thread thread).stack
          irq_masked := false } ()

/-- Modelled from the spec: one scheduling step.  The context switch that ends
`__schedule` (`__fork64_exec` and `__fork64_return`, assembly that is not among
the C sources) resumes the selected thread through `sched_tail`, "called when
returning from a context switch", so that the selected thread is the active
thread of the CPU when the next step starts.  The result is the selected
thread. -/
def schedule_step (fuel : Nat) (s : kernel_state) (frame_sp elr_el1 : Nat) :
    Option (Outcome kernel_state Nat) :=
  match __schedule fuel s frame_sp elr_el1 with
  | none => none
  | some (s1, next_thread) =>
    match sched_tail s1 next_thread with
    | .ok s2 _ => some (.ok s2 next_thread)
    | .panic s2 msg => some (.panic s2 msg)

/-! ### `memcpy` (`tinylibc/string/memcpy.c`) -/

/-- `*sl` through an `unsigned long *`: the eight bytes at `a`, least significant
first. -/
def load_word (m : Nat → Nat) (a : Nat) : Nat :=
  m a + m (a + 1) * 256 + m (a + 2) * 256 ^ 2 + m (a + 3) * 256 ^ 3 + m (a + 4) * 256 ^ 4
    + m (a + 5) * 256 ^ 5 + m (a + 6) * 256 ^ 6 + m (a + 7) * 256 ^ 7

/-- The word loop `while (count >= sizeof (*dl)) { *dl++ = *sl++; count -= sizeof (*dl); }`.
The first argument bounds the iterations; the result is memory, `dl`, `sl` and
`count`. -/
def memcpy_words : Nat → (Nat → Nat) → Nat → Nat → Nat → (Nat → Nat) × Nat × Nat × Nat
  | 0, m, dl, sl, count => (m, dl, sl, count)
  | n + 1, m, dl, sl, count =>
    if count ≥ 8 then memcpy_words n (store_word m dl (load_word m sl)) (dl + 8) (sl + 8) (count - 8)
    else (m, dl, sl, count)

/-- The byte loop `while (count--) *d8++ = *s8++;`. -/
def memcpy_bytes : Nat → (Nat → Nat) → Nat → Nat → Nat → Nat
  | 0, m, _, _ => m
  | count + 1, m, d8, s8 => memcpy_bytes count (store_byte m d8 (m s8)) (d8 + 1) (s8 + 1)

/-- `memcpy(dest, src, count)` on byte memory `m`. -/
def memcpy (m : Nat → Nat) (dest src count : Nat) : Nat → Nat :=
  if src = dest then m
  else if (dest ||| src) &&& (8 - 1) = 0 then
    match memcpy_words count m dest src count with
    | (m1, dl, sl, count1) => memcpy_bytes count1 m1 dl sl
  else memcpy_bytes count m dest src

/-! ### Tasks (`kern/task.c`) -/

/-- `task_create(map, name)`.  `strlen` is declared in `tinylibc/string.h` and
not defined in the sources: `strlen_name` is its result on `name`.  The function
makes no use of `map`. -/
def task_create (s : kernel_state) (_map name strlen_name : Nat) : Outcome kernel_state Nat :=
  match in_zone s (zalloc s.zone s.task_zone) with
  | .panic s1 msg => .panic s1 msg
  | .ok s1 new =>
    let t1 : task_t := { (s1.task new) with ref_count := 2 }
    let t2 : task_t := { t1 with state := TASK_STATE_INACTIVE }
    let t3 : task_t := { t2 with pid := s1.task_pid }
    let name_len := if strlen_name > TASK_NAME_MAX_LEN then TASK_NAME_MAX_LEN else strlen_name
    let bytes1 := memset s1.zone.bytes (new + TASK_NAME) 0 (name_len + 1)
    let bytes2 := memcpy bytes1 (new + TASK_NAME) name name_len
    let lists1 := INIT_LIST_HEAD s1.lists (new + TASK_THREADS)
    let lists2 := list_add_tail lists1 (new + TASK_TASKS) s1.tasks
    .ok { s1 with
          task := set_task s1.task new t3
          task_pid := s1.task_pid + 1
          zone := { s1.zone with bytes := bytes2 }
          lists := lists2 } new

/-! ### Bring-up (`kern/main.c`, `kern/processor.c`) -/

/-- `page_count` of `zone_create(size, max, name)`. -/
def zone_page_count (size max : Nat) : Nat :=
  if (max / size * size + max * ZONE_ALLOC_METADATA_SIZE) / VM_PAGE_SIZE = 0 then 1
  else (max / size * size + max * ZONE_ALLOC_METADATA_SIZE) / VM_PAGE_SIZE

/-- `zone_create(size, max, name)` together with the call
`vm_map_alloc(vm_get_kernel_map(), page_count * VM_PAGE_SIZE, VM_NULL)` that it
makes after its checks have passed. -/
def zone_create_in (fuel : Nat) (s : kernel_state) (size max : Nat) (name : String) :
    Option (Outcome kernel_state Nat) :=
  match zone_create s.zone size max name 0 with
  | .panic z msg => some (.panic { s with zone := z } msg)
  | .ok _ _ =>
    and_then ((vm_map_alloc fuel s.vm s.kernel_vm_map (zone_page_count size max * VM_PAGE_SIZE)
        VM_NULL).map (in_vm s)) fun s1 zone_page_base =>
    some (in_zone s1 (zone_create s1.zone size max name zone_page_base))

/-- The part of `processor_init()` that sets up the global lists:
`INIT_LIST_HEAD(&tasks); INIT_LIST_HEAD(&threads);`. -/
def processor_init (s : kernel_state) : kernel_state :=
  { s with lists := INIT_LIST_HEAD (INIT_LIST_HEAD s.lists s.tasks) s.threads }

/-- `task_init()`: the task zone, then the kernel task.  `name` is the address of
the string "kernel_task", of 11 characters. -/
def task_init (fuel : Nat) (s : kernel_state) (name : Nat) : Option (Outcome kernel_state Unit) :=
  and_then (zone_create_in fuel s TASK_T_SIZE (TASK_COUNT_MAX * TASK_T_SIZE) "task_zone")
    fun s1 zone =>
  let s2 : kernel_state := { s1 with task_zone := zone }
  match task_create s2 s2.kernel_vm_map name 11 with
  | .panic s3 msg => some (.panic s3 msg)
  | .ok s3 task => some (.ok { s3 with kernel_task := task } ())

/-- `stack_init()`. -/
def stack_init (fuel : Nat) (s : kernel_state) : Option (Outcome kernel_state Unit) :=
  and_then (zone_create_in fuel s STACK_T_SIZE (THREAD_COUNT_MAX * STACK_T_SIZE) "stacks_zone")
    fun s1 zone =>
  some (.ok { s1 with stack_zone := zone, lists := INIT_LIST_HEAD s1.lists s1.stacks_head } ())

/-- `thread_init()`. -/
def thread_init (fuel : Nat) (s : kernel_state) : Option (Outcome kernel_state Unit) :=
  and_then (zone_create_in fuel s THREAD_T_SIZE (THREAD_COUNT_MAX * THREAD_T_SIZE) "thread_zone")
    fun s1 zone =>
  stack_init fuel { s1 with thread_zone := zone }

/-- The steps of `kernel_init` from `zone_init()` to `thread_init()`, on a machine
on which `vm_configure()` has run. -/
def kernel_bring_up (fuel : Nat) (s : kernel_state) (name : Nat) :
    Option (Outcome kernel_state Unit) :=
  let s1 : kernel_state := { s with zone := zone_init s.zone }
  let s2 := processor_init s1
  and_then (task_init fuel s2 name) fun s3 _ => thread_init fuel s3

/-! ### A concrete kernel -/

/-- The small machine of `vm_demo` before `zone_init()`: the zone array at
`0xfffffff000140000`, the global list heads `tasks`, `threads` and `stacks` at
`0xfffffff000003000`, `0xfffffff000003010` and `0xfffffff000003020`, the string
"kernel_task" at `0xfffffff000002000`, every other byte of memory `0xaa` and
every field of a descriptor not yet written holding that pattern. -/
def kernel_demo_initial : kernel_state :=
  { zone :=
      { zone_array := 0xfffffff000140000
        num_zones_used := 0
        zones := fun _ =>
          { count := 0, count_free := 0, size := 0, max_size := 0, elem_size := 0,
            page_count := 0, index := 0, name := "", state := 0 }
        lists := fun _ => { next := 0, prev := 0 }
        bytes := fun a =>
          if 0xfffffff000002000 ≤ a ∧ a < 0xfffffff00000200c then
            ([107, 101, 114, 110, 101, 108, 95, 116, 97, 115, 107, 0] : List Nat).getD
              (a - 0xfffffff000002000) 0
          else 0xaa }
    vm := vm_demo
    thread := fun _ =>
      { stack_base := 0xaaaaaaaaaaaaaaaa, stack := 0xaaaaaaaaaaaaaaaa, thread_id := 0,
        task := 0xaaaaaaaaaaaaaaaa, entry := 0xaaaaaaaaaaaaaaaa, args := 0xaaaaaaaaaaaaaaaa,
        preempt := 0, state := 0, ref_count := 0 }
    task := fun _ => { pid := 0, state := 0, map := 0xaaaaaaaaaaaaaaaa, ref_count := 0 }
    stack := fun _ => { stack_base := 0xaaaaaaaaaaaaaaaa }
    lists := fun _ => { next := 0xaaaaaaaaaaaaaaaa, prev := 0xaaaaaaaaaaaaaaaa }
    threads := 0xfffffff000003010
    tasks := 0xfffffff000003000
    stacks_head := 0xfffffff000003020
    thread_zone := 0
    stack_zone := 0
    task_zone := 0
    thread_id_max := 0
    task_pid := 0
    kernel_task := 0
    current_task := 0
    kernel_vm_map := 0xfffffff000100000
    cpu_active_thread := 0
    cpu_active_stack := 0
    irq_masked := true }

/-- The small machine after `thread_init()`. -/
def kernel_demo : kernel_state :=
  returned kernel_demo_initial (kernel_bring_up 2 kernel_demo_initial 0xfffffff000002000)

/-- The page allocator after `vm_page_bootstrap(0x40000000, 0x8000, 0x1000)`:
32 KiB of memory at `0x40000000`, that is eight frames, a kernel image of one
page, the `.vm` section at `0xfffffff000100000`. -/
def pages_boot8 : vm_page_state :=
  (vm_page_bootstrap (vm_page_initial 0xfffffff000100000 0x40000000) 0x40000000 0x8000
    0x1000).state

/-- The value with which a call returned; `none` if it panicked or the bound on
its loops was reached. -/
def result_value {σ α : Type} : Option (Outcome σ α) → Option α
  | some (.ok _ a) => some a
  | _ => none

/-! ### Threads on the concrete kernel

The thread zone of `kernel_demo` is backed from `0xfffffff000009000` and the
stack zone from `0xfffffff000025000`; stacks are allocated from
`0xfffffff000027000` on, three pages each. -/

/-- The first four elements of the thread zone. -/
def demo_T0 : Nat := 0xfffffff000009010
def demo_T1 : Nat := 0xfffffff000009140
def demo_T2 : Nat := 0xfffffff000009270
def demo_T3 : Nat := 0xfffffff0000093a0

/-- `kernel_demo` after `kernel_thread_create(kernel_thread_main,
THREAD_PRIORITY_MAX, THREAD_NULL)`, with `kernel_thread_main` at
`0xfffffff000010000`. -/
def kernel_demo_kthread : kernel_state :=
  returned kernel_demo
    (kernel_thread_create 2 kernel_demo 0xfffffff000010000 THREAD_PRIORITY_MAX THREAD_NULL)

/-- The kernel thread `demo_T0` is running: `thread_load_context(thread)` at the
end of `kernel_init` has resumed it through `sched_tail`. -/
def kernel_demo_running : kernel_state := (sched_tail kernel_demo_kthread demo_T0).state

/-- Then `thread_create(kernel_task, THREAD_PRIORITY_LOW, test_thread_1, ...)`, with
`test_thread_1` at `0xfffffff000011000`: the threads `demo_T0` and `demo_T1`. -/
def kernel_demo_two : kernel_state :=
  returned kernel_demo_running
    (thread_create 2 kernel_demo_running kernel_demo_running.kernel_task 0 0xfffffff000011000)

/-- Then `thread_destroy(demo_T1)`, called by `demo_T0`. -/
def kernel_demo_two_destroyed : kernel_state :=
  returned kernel_demo_two (thread_destroy 8 kernel_demo_two demo_T1)

/-- The moment of that `thread_create` just before its last statement
`thread->state = THREAD_STATE_ACTIVE`: `demo_T1` is on both lists and its state
bit is still that of the fresh zone element, 0. -/
def kernel_demo_linking : kernel_state :=
  { kernel_demo_two with
    thread := set_thread kernel_demo_two.thread demo_T1
      { (kernel_demo_two.thread demo_T1) with
        state := (kernel_demo_running.thread demo_T1).state } }

/-- Two more calls of `thread_create`: the threads `demo_T0`, ..., `demo_T3`,
with `demo_T0` running. -/
def kernel_demo_four : kernel_state :=
  returned kernel_demo_two
    (and_then (thread_create 2 kernel_demo_two kernel_demo_two.kernel_task 0 0xfffffff000012000)
      fun s _ => thread_create 2 s s.kernel_task 0 0xfffffff000013000)

/-- The state right after `task_init()` on the small machine. -/
def kernel_demo_tasks : kernel_state :=
  returned kernel_demo_initial
    (task_init 2
      (processor_init { kernel_demo_initial with zone := zone_init kernel_demo_initial.zone })
      0xfffffff000002000)

/-- `kernel_demo` with a string of 32 characters `x` and its terminator at
`0xfffffff000002040`. -/
def kernel_demo_name32 : kernel_state :=
  { kernel_demo with
    zone :=
      { kernel_demo.zone with
        bytes := fun a =>
          if 0xfffffff000002040 ≤ a ∧ a < 0xfffffff000002060 then 0x78
          else if a = 0xfffffff000002060 then 0
          else kernel_demo.zone.bytes a } }

/-- Then `task_create(vm_get_kernel_map(), name)` with that string as `name`. -/
def kernel_demo_task32 : kernel_state :=
  (task_create kernel_demo_name32 kernel_demo_name32.kernel_vm_map 0xfffffff000002040 32).state

/-! ### Definitions used to state the scheduler theorems -/

/-- The threads selected by scheduling steps in a row, one step for each
exception frame of the list (its stack pointer and its `elr_el1`). -/
def schedule_steps (fuel : Nat) :
    List (Nat × Nat) → kernel_state → Option (Outcome kernel_state (List Nat))
  | [], s => some (.ok s [])
  | (frame_sp, elr_el1) :: frames, s =>
    and_then (schedule_step fuel s frame_sp elr_el1) fun s1 t =>
    and_then (schedule_steps fuel frames s1) fun s2 sel => some (.ok s2 (t :: sel))

/-- The global list `threads` holds the threads `ts`, in this order, linked
through their member `threads`, and each of them is active and not null. -/
def threads_are (s : kernel_state) (ts : List Nat) : Prop :=
  is_list s.lists s.threads (ts.map (· + THREAD_THREADS)) ∧
    ∀ t, t ∈ ts → (s.thread t).state = THREAD_STATE_ACTIVE ∧ t ≠ THREAD_NULL

instance (s : kernel_state) (ts : List Nat) : Decidable (threads_are s ts) := by
  unfold threads_are; infer_instance

/-- The lists of the thread layer: the global list `threads` holds the threads
`ts`, the sibling list of the task at `task` holds the threads `sib`, the list
`stacks` consists of the nodes `ss`, and no node is on two of these lists. -/
def thread_lists (s : kernel_state) (ts : List Nat) (task : Nat) (sib ss : List Nat) : Prop :=
  is_list s.lists s.threads (ts.map (· + THREAD_THREADS)) ∧
    is_list s.lists (task + TASK_THREADS) (sib.map (· + THREAD_SIBLINGS)) ∧
    is_list s.lists s.stacks_head ss ∧
    (∀ a, a ∈ s.threads :: ts.map (· + THREAD_THREADS) →
      a ∉ (task + TASK_THREADS) :: sib.map (· + THREAD_SIBLINGS)) ∧
    (∀ a, a ∈ s.stacks_head :: ss → a ∉ s.threads :: ts.map (· + THREAD_THREADS)) ∧
    (∀ a, a ∈ s.stacks_head :: ss →
      a ∉ (task + TASK_THREADS) :: sib.map (· + THREAD_SIBLINGS))

instance (s : kernel_state) (ts : List Nat) (task : Nat) (sib ss : List Nat) :
    Decidable (thread_lists s ts task sib ss) := by
  unfold thread_lists; infer_instance

/-- The state `thread_destroy(thread)` leaves when `stack_free` has found no
descriptor to release and `zfree` has found the element of the thread. -/
def thread_destroy_state (s : kernel_state) (thread : Nat) : kernel_state :=
  { s with
    irq_masked := false
    thread := set_thread s.thread thread
      { (s.thread thread) with state := THREAD_STATE_INACTIVE }
    lists := list_del (list_del s.lists (thread + THREAD_SIBLINGS)) (thread + THREAD_THREADS)
    zone := zfree_state s.zone s.thread_zone thread (thread - ZONE_ALLOC_METADATA_SIZE) }

/-- Exception frames of the demonstrations: the stack pointer and `elr_el1` of
six timer interrupts in a row. -/
def demo_frames : List (Nat × Nat) :=
  [(0xfffffff000028f00, 0xfffffff000010040), (0xfffffff00002bf00, 0xfffffff000011040),
   (0xfffffff00002ef00, 0xfffffff000012040), (0xfffffff000031f00, 0xfffffff000013040),
   (0xfffffff000028f00, 0xfffffff000010080), (0xfffffff00002bf00, 0xfffffff000011080)]

/-! ## CPU descriptors (`kern/cpu.c`) -/

/-- `CPU_NUMBER_MAX` = `DEFAULTS_MACHINE_MAX_CPUS`. -/
def CPU_NUMBER_MAX : Nat := 16
/-- `CPU_NUMBER_INVALID` (`kern/cpu.h`). -/
def CPU_NUMBER_INVALID : Int := -1
def KERN_RETURN_SUCCESS : Nat := 0
def KERN_RETURN_FAIL : Nat := 1
/-- `CPU_FLAG_THREADING_ENABLED`, `(1 << 0)`. -/
def CPU_FLAG_THREADING_ENABLED : Nat := 1

/-- The fields of `cpu_t` that the setters of `cpu.c` write, and `cpu_num`. -/
structure cpu_t where
  cpu_num : Int
  cpu_flags : Nat
  processor : Nat
  cpu_active_thread : Nat
  cpu_active_stack : Nat
  deriving DecidableEq, Repr

/-- The globals of `cpu.c`.  `entries i` is the object `CpuDataEntries[i]`, the
`cpu_t` at the address `CpuDataEntries + i * sizeof(cpu_t)`: for `i` from 0 to
`CPU_NUMBER_MAX - 1` an element of the array, for any other `i` the memory
before or past the array.  `cpu_count` is initialised to 0, and no function
assigns to it. -/
structure cpu_state where
  entries : Int → cpu_t
  cpu_count : Int

/-- Store to `CpuDataEntries[i]`. -/
def set_cpu (h : Int → cpu_t) (i : Int) (c : cpu_t) : Int → cpu_t :=
  fun j => if j = i then c else h j

/-- `CPU_ASSERT_VALID_ID(__id)`: `if (__id > cpu_count) panic(...)`; `__id` is a
`cpu_number_t`, an `int`. -/
def CPU_ASSERT_VALID_ID (s : cpu_state) (id : Int) : Outcome cpu_state Unit :=
  if id > s.cpu_count then .panic s (.cpu_id_too_large id s.cpu_count) else .ok s ()

/-- `cpu_set_flag(cpuid, flag)`: `CpuDataEntries[cpuid].cpu_flags |= flag`. -/
def cpu_set_flag (s : cpu_state) (cpuid : Int) (flag : Nat) : Outcome cpu_state Nat :=
  match CPU_ASSERT_VALID_ID s cpuid with
  | .panic s1 msg => .panic s1 msg
  | .ok s1 _ =>
    .ok { s1 with
          entries := set_cpu s1.entries cpuid
            { (s1.entries cpuid) with cpu_flags := (s1.entries cpuid).cpu_flags ||| flag } }
      KERN_RETURN_SUCCESS

/-- `cpu_set_active_stack(cpuid, stack)`. -/
def cpu_set_active_stack (s : cpu_state) (cpuid : Int) (stack : Nat) : Outcome cpu_state Nat :=
  match CPU_ASSERT_VALID_ID s cpuid with
  | .panic s1 msg => .panic s1 msg
  | .ok s1 _ =>
    .ok { s1 with
          entries := set_cpu s1.entries cpuid
            { (s1.entries cpuid) with cpu_active_stack := stack } }
      KERN_RETURN_SUCCESS

/-- `cpu_set_active_thread(cpuid, thread)`: after the assertion it panics on
`THREAD_NULL`. -/
def cpu_set_active_thread (s : cpu_state) (cpuid : Int) (thread : Nat) :
    Outcome cpu_state Nat :=
  match CPU_ASSERT_VALID_ID s cpuid with
  | .panic s1 msg => .panic s1 msg
  | .ok s1 _ =>
    if thread = THREAD_NULL then .panic s1 .cpu_invalid_thread
    else
      .ok { s1 with
            entries := set_cpu s1.entries cpuid
              { (s1.entries cpuid) with cpu_active_thread := thread } }
        KERN_RETURN_SUCCESS

/-- `cpu_set_processor(cpuid, processor)`. -/
def cpu_set_processor (s : cpu_state) (cpuid : Int) (processor : Nat) :
    Outcome cpu_state Nat :=
  match CPU_ASSERT_VALID_ID s cpuid with
  | .panic s1 msg => .panic s1 msg
  | .ok s1 _ =>
    .ok { s1 with
          entries := set_cpu s1.entries cpuid
            { (s1.entries cpuid) with processor := processor } }
      KERN_RETURN_SUCCESS

/-- The globals of `cpu.c` as the loader leaves them: static storage is zeroed
and `cpu_count` is 0; so is the memory next to the array here. -/
def cpu_state_boot : cpu_state :=
  { entries := fun _ =>
      { cpu_num := 0, cpu_flags := 0, processor := 0, cpu_active_thread := 0,
        cpu_active_stack := 0 }
    cpu_count := 0 }

/-! ## Exceptions (`kern/exception.c`, `arch/arch.h`, `arch/proc_reg.h`, `kern/panic.c`) -/

/-- `arm64_exception_frame_t`; `regs i` is `regs[i]`, the saved `x<i>`. -/
structure arm64_exception_frame_t where
  regs : Nat → Nat
  fp : Nat
  lr : Nat
  sp : Nat
  far : Nat
  esr : Nat
  elr : Nat

/-! The enumerators of `esr_exception_class_t` that the dispatcher names. -/
def ESR_EC_UNCATEGORIZED : Nat := 0x00
def ESR_EC_SVC_64 : Nat := 0x15
def ESR_EC_MSR_TRAP : Nat := 0x18
def ESR_EC_IABORT_EL0 : Nat := 0x20
def ESR_EC_IABORT_EL1 : Nat := 0x21
def ESR_EC_PC_ALIGN : Nat := 0x22
def ESR_EC_DABORT_EL0 : Nat := 0x24
def ESR_EC_DABORT_EL1 : Nat := 0x25
def ESR_EC_BRK_AARCH64 : Nat := 0x3C

/-! The enumerators of `fault_status_t`. -/
def FSC_ADDRESS_SIZE_FAULT_L0 : Nat := 0x00
def FSC_ADDRESS_SIZE_FAULT_L1 : Nat := 0x01
def FSC_ADDRESS_SIZE_FAULT_L2 : Nat := 0x02
def FSC_ADDRESS_SIZE_FAULT_L3 : Nat := 0x03
def FSC_TRANSLATION_FAULT_L0 : Nat := 0x04
def FSC_TRANSLATION_FAULT_L1 : Nat := 0x05
def FSC_TRANSLATION_FAULT_L2 : Nat := 0x06
def FSC_TRANSLATION_FAULT_L3 : Nat := 0x07
def FSC_ACCESS_FLAG_FAULT_L1 : Nat := 0x09
def FSC_ACCESS_FLAG_FAULT_L2 : Nat := 0x0A
def FSC_ACCESS_FLAG_FAULT_L3 : Nat := 0x0B
def FSC_PERMISSION_FAULT_L1 : Nat := 0x0D
def FSC_PERMISSION_FAULT_L2 : Nat := 0x0E
def FSC_PERMISSION_FAULT_L3 : Nat := 0x0F
def FSC_SYNC_EXT_ABORT : Nat := 0x10
def FSC_SYNC_EXT_ABORT_TT_L1 : Nat := 0x15
def FSC_SYNC_EXT_ABORT_TT_L2 : Nat := 0x16
def FSC_SYNC_EXT_ABORT_TT_L3 : Nat := 0x17
def FSC_SYNC_PARITY : Nat := 0x18
def FSC_ASYNC_PARITY : Nat := 0x19
def FSC_SYNC_PARITY_TT_L1 : Nat := 0x1D
def FSC_SYNC_PARITY_TT_L2 : Nat := 0x1E
def FSC_SYNC_PARITY_TT_L3 : Nat := 0x1F
def FSC_ALIGNMENT_FAULT : Nat := 0x21
def FSC_DEBUG_FAULT : Nat := 0x22

/-- The value of an `int` expression whose mathematical result is `x`: the result
reduced to the 32-bit two's complement range.  The C standard leaves a signed
left shift out of range undefined; GCC and Clang yield this value. -/
def int_wrap (x : Int) : Int := (x + 2 ^ 31) % 2 ^ 32 - 2 ^ 31

/-- Conversion of an `int` to `uint64_t`. -/
def int_to_uint64 (x : Int) : Nat := (x % 2 ^ 64).toNat

def ESR_EC_SHIFT : Nat := 26
/-- `ESR_EC_MASK`, `(0x3f << ESR_EC_SHIFT)`: an expression of type `int`. -/
def ESR_EC_MASK : Int := int_wrap (0x3f * 2 ^ ESR_EC_SHIFT)
/-- `ESR_EC(_x)`, `((_x & ESR_EC_MASK) >> ESR_EC_SHIFT)`, for a `uint64_t`
argument: the mask is converted to `uint64_t` for the conjunction. -/
def ESR_EC (x : Nat) : Nat := (x &&& int_to_uint64 ESR_EC_MASK) >>> ESR_EC_SHIFT
def ESR_ISS_MASK : Nat := 0x01ffffff
/-- `ESR_ISS(_x)`, `(_x & ESR_ISS_MASK)`. -/
def ESR_ISS (x : Nat) : Nat := x &&& ESR_ISS_MASK
/-- `ISS_DA_CM`, `(1 << 8)`. -/
def ISS_DA_CM : Nat := 1 <<< 8
/-- `ISS_DA_WNR`, `(1 << 6)`. -/
def ISS_DA_WNR : Nat := 1 <<< 6
def ISS_DA_FSC_MASK : Nat := 0x3f
/-- `ISS_DA_FSC(x)`, `(x & ISS_DA_FSC_MASK)`. -/
def ISS_DA_FSC (x : Nat) : Nat := x &&& ISS_DA_FSC_MASK
def ISS_IA_FSC_MASK : Nat := 0x3f
/-- `ISS_IA_FSC(x)`, `(x & ISS_IA_FSC_MASK)`. -/
def ISS_IA_FSC (x : Nat) : Nat := x &&& ISS_IA_FSC_MASK
def VM_PROT_READ : Nat := 0x1
def VM_PROT_WRITE : Nat := 0x2
def VM_PROT_EXECUTE : Nat := 0x3

/-- `is_translation_fault(status)`: 1 or 0. -/
def is_translation_fault (status : Nat) : Int :=
  if status = FSC_TRANSLATION_FAULT_L0 ∨ status = FSC_TRANSLATION_FAULT_L1 ∨
      status = FSC_TRANSLATION_FAULT_L2 ∨ status = FSC_TRANSLATION_FAULT_L3 then 1
  else 0

/-- `is_address_size_fault(status)`. -/
def is_address_size_fault (status : Nat) : Int :=
  if status = FSC_ADDRESS_SIZE_FAULT_L0 ∨ status = FSC_ADDRESS_SIZE_FAULT_L1 ∨
      status = FSC_ADDRESS_SIZE_FAULT_L2 ∨ status = FSC_ADDRESS_SIZE_FAULT_L3 then 1
  else 0

/-- `is_permission_fault(status)`. -/
def is_permission_fault (status : Nat) : Int :=
  if status = FSC_PERMISSION_FAULT_L1 ∨ status = FSC_PERMISSION_FAULT_L2 ∨
      status = FSC_PERMISSION_FAULT_L3 then 1
  else 0

/-- `is_alignment_fault(status)`: `(FSC_ALIGNMENT_FAULT == status)`. -/
def is_alignment_fault (status : Nat) : Int :=
  if FSC_ALIGNMENT_FAULT = status then 1 else 0

/-- `vm_fault_get_level(status)`: the `switch` over the enumerators, case by
case. -/
def vm_fault_get_level (status : Nat) : Int :=
  if status = FSC_TRANSLATION_FAULT_L0 ∨ status = FSC_ADDRESS_SIZE_FAULT_L0 then 0
  else if status = FSC_TRANSLATION_FAULT_L1 ∨ status = FSC_ADDRESS_SIZE_FAULT_L1 ∨
      status = FSC_ACCESS_FLAG_FAULT_L1 ∨ status = FSC_PERMISSION_FAULT_L1 ∨
      status = FSC_SYNC_EXT_ABORT_TT_L1 ∨ status = FSC_SYNC_PARITY_TT_L1 then 1
  else if status = FSC_TRANSLATION_FAULT_L2 ∨ status = FSC_ADDRESS_SIZE_FAULT_L2 ∨
      status = FSC_ACCESS_FLAG_FAULT_L2 ∨ status = FSC_PERMISSION_FAULT_L2 ∨
      status = FSC_SYNC_EXT_ABORT_TT_L2 ∨ status = FSC_SYNC_PARITY_TT_L2 then 2
  else if status = FSC_TRANSLATION_FAULT_L3 ∨ status = FSC_ADDRESS_SIZE_FAULT_L3 ∨
      status = FSC_ACCESS_FLAG_FAULT_L3 ∨ status = FSC_PERMISSION_FAULT_L3 ∨
      status = FSC_SYNC_EXT_ABORT_TT_L3 ∨ status = FSC_SYNC_PARITY_TT_L3 then 3
  else -1

/-- How a handler ends. -/
inductive handler_end where
  /-- `panic` or `panic_with_thread_state` was called: `__panic` prints the
  message (unless a panic is already active) and ends in `cpu_halt()`, on both of
  its paths; it does not return -/
  | panicked (msg : panic_msg)
  /-- `cpu_halt()` was called where no panic came before: `b .` -/
  | halted
  /-- the handler returned to its caller -/
  | returned
  deriving DecidableEq, Repr

/-- Sequencing of statements: what follows runs only if what came before
returned. -/
def handler_end.seq : handler_end → handler_end → handler_end
  | .returned, k => k
  | e, _ => e

/-- `panic_with_thread_state(frame, fmt, ...)` and `panic(fmt, ...)`. -/
def panic_with_thread_state (_frame : arm64_exception_frame_t) (msg : panic_msg) :
    handler_end :=
  .panicked msg

/-- `cpu_halt()`. -/
def cpu_halt : handler_end := .halted

/-- `inspect_data_abort(&fault_code, &fault_type, iss)`: the values stored to
`*fault_code` and `*fault_type`. -/
def inspect_data_abort (iss : Nat) : Nat × Nat :=
  let fault_code := ISS_DA_FSC iss
  if iss &&& ISS_DA_WNR ≠ 0 ∧ (¬ (iss &&& ISS_DA_CM ≠ 0) ∨ is_permission_fault fault_code ≠ 0)
  then (fault_code, VM_PROT_READ ||| VM_PROT_WRITE)
  else (fault_code, VM_PROT_READ)

/-- `inspect_instruction_abort(&fault_code, &fault_type, iss)`. -/
def inspect_instruction_abort (iss : Nat) : Nat × Nat :=
  (ISS_IA_FSC iss, VM_PROT_READ ||| VM_PROT_EXECUTE)

/-- `handle_data_abort(frame, fault_address, fault_status)`. -/
def handle_data_abort (frame : arm64_exception_frame_t) (_fault_address fault_status : Nat) :
    handler_end :=
  if is_translation_fault fault_status ≠ 0 then
    (panic_with_thread_state frame
      (.data_abort_translation (vm_fault_get_level fault_status))).seq .returned
  else if is_permission_fault fault_status ≠ 0 then
    (panic_with_thread_state frame
      (.data_abort_permission (vm_fault_get_level fault_status))).seq .returned
  else if is_alignment_fault fault_status ≠ 0 then
    (panic_with_thread_state frame .alignment_fault).seq .returned
  else if is_address_size_fault fault_status ≠ 0 then
    (panic_with_thread_state frame
      (.data_abort_address_size (vm_fault_get_level fault_status))).seq .returned
  else panic_with_thread_state frame (.data_abort_unknown fault_status)

/-- `handle_instruction_abort(frame, fault_address, fault_status)`. -/
def handle_instruction_abort (frame : arm64_exception_frame_t)
    (_fault_address fault_status : Nat) : handler_end :=
  if is_translation_fault fault_status ≠ 0 then
    (panic_with_thread_state frame
      (.instruction_abort_translation (vm_fault_get_level fault_status))).seq .returned
  else panic_with_thread_state frame (.instruction_abort_unknown fault_status)

/-- `handle_abort(frame, handler, inspect)`: `fault_address` is passed on
uninitialised; it is the parameter `fault_address` here. -/
def handle_abort (frame : arm64_exception_frame_t)
    (handler : arm64_exception_frame_t → Nat → Nat → handler_end)
    (inspect : Nat → Nat × Nat) (fault_address : Nat) : handler_end :=
  handler frame fault_address (inspect (ESR_ISS frame.esr % 2 ^ 32)).1

/-- The value of `class` in `arm64_handler_synchronous`: `ESR_EC(frame->esr)`
stored to an `esr_exception_class_t`, an enumeration type of 32 bits. -/
def exception_class (frame : arm64_exception_frame_t) : Nat := ESR_EC frame.esr % 2 ^ 32

/-- `arm64_handler_synchronous(frame)`: the `switch` on the exception class.
`fault_address` stands for the uninitialised local of `handle_abort`. -/
def arm64_handler_synchronous (frame : arm64_exception_frame_t) (fault_address : Nat) :
    handler_end :=
  let cls := exception_class frame
  if cls = ESR_EC_PC_ALIGN then
    (panic_with_thread_state frame .pc_alignment_fault).seq cpu_halt
  else if cls = ESR_EC_DABORT_EL0 ∨ cls = ESR_EC_DABORT_EL1 then
    (handle_abort frame handle_data_abort inspect_data_abort fault_address).seq cpu_halt
  else if cls = ESR_EC_BRK_AARCH64 then
    (panic_with_thread_state frame .breakpoint).seq cpu_halt
  else if cls = ESR_EC_SVC_64 then
    (panic_with_thread_state frame .supervisor_call).seq .returned
  else if cls = ESR_EC_MSR_TRAP then
    (panic_with_thread_state frame (.msr_trap frame.fp)).seq cpu_halt
  else if cls = ESR_EC_IABORT_EL1 ∨ cls = ESR_EC_IABORT_EL0 then
    (handle_abort frame handle_instruction_abort inspect_instruction_abort fault_address).seq
      cpu_halt
  else if cls = ESR_EC_UNCATEGORIZED then
    (panic_with_thread_state frame .undefined_instruction).seq cpu_halt
  else (panic_with_thread_state frame .unknown_exception).seq cpu_halt

/-- An exception frame with the syndrome `esr`, every other field zero. -/
def frame_with_esr (esr : Nat) : arm64_exception_frame_t :=
  { regs := fun _ => 0, fp := 0, lr := 0, sp := 0, far := 0, esr := esr, elr := 0 }

/-! ## Interrupt controller (`drivers/irq/irq-gicv3.c`) -/

/-- The registers of `struct gicv3_redist_sgis_frame` that `gic_irq_register`
touches: the bytes of `ipriorityr` and element 0 of `igroupr`, `isenabler`,
`icenabler` and `igrpmodr`. -/
structure gicv3_redist_sgis_frame where
  ipriorityr : Nat → Nat
  igroupr0 : Nat
  isenabler0 : Nat
  icenabler0 : Nat
  igrpmodr0 : Nat

/-- `struct gicv3_redist_frame`: `typer1` is `lpis.typer[1]`. -/
structure gicv3_redist_frame where
  typer1 : Nat
  sgis : gicv3_redist_sgis_frame

/-- The redistributor frames `gic_data.redist[index]`, `gic_data.max_redist_idx`
and the system register `mpidr_el1`. -/
structure gic_state where
  redist : Nat → gicv3_redist_frame
  max_redist_idx : Nat
  mpidr_el1 : Nat

/-- `arm64_read_affinity()`:
`(mpidr & ~(0xff << 24)) | ((uint64_t)((mpidr >> 32) & 0xff) << 24)`.  The mask
`~(0xff << 24)` is an `int`, `0x00ffffff`. -/
def arm64_read_affinity (s : gic_state) : Nat :=
  (s.mpidr_el1 &&& 0x00ffffff) ||| (((s.mpidr_el1 >>> 32) &&& 0xff) <<< 24)

/-- The loop of `gic_get_redist_id`, `do { ... index++; } while (index <=
gic_data.max_redist_idx);`, from `index`, for at most `n` iterations. -/
def gic_get_redist_id_loop (s : gic_state) (affinity : Nat) : Nat → Nat → Nat
  | 0, _ => 0xffffffff
  | n + 1, index =>
    if (s.redist index).typer1 = affinity then index
    else if index + 1 ≤ s.max_redist_idx then gic_get_redist_id_loop s affinity n (index + 1)
    else 0xffffffff

/-- `gic_get_redist_id(affinity)`; the parameter is a `uint32_t`. -/
def gic_get_redist_id (s : gic_state) (affinity : Nat) : Nat :=
  gic_get_redist_id_loop s (affinity % 2 ^ 32) (s.max_redist_idx + 1) 0

def GIC_IRQ_CONTROL_DISABLE : Int := 0
def GIC_IRQ_CONTROL_ENABLE : Int := 1

/-- Store to the SGI frame of redistributor `r`. -/
def set_sgis (s : gic_state) (r : Nat) (f : gicv3_redist_sgis_frame) : gic_state :=
  { s with redist := fun i => if i = r then { (s.redist i) with sgis := f } else s.redist i }

/-- `__gic_irq_control(intid, ctrl)`. -/
def __gic_irq_control (s : gic_state) (intid : Nat) (ctrl : Int) : Outcome gic_state Unit :=
  if intid < 31 then
    let redist_id := gic_get_redist_id s (arm64_read_affinity s)
    if redist_id > s.max_redist_idx then .panic s .irq_no_redistributor
    else
      let id := (1 <<< (intid &&& 0x1f)) % 2 ^ 32
      if ctrl = GIC_IRQ_CONTROL_ENABLE then
        .ok (set_sgis s redist_id
          { (s.redist redist_id).sgis with
            isenabler0 := (s.redist redist_id).sgis.isenabler0 ||| id }) ()
      else if ctrl = GIC_IRQ_CONTROL_DISABLE then
        .ok (set_sgis s redist_id
          { (s.redist redist_id).sgis with
            icenabler0 := (s.redist redist_id).sgis.icenabler0 ||| id }) ()
      else .ok s ()
  else .ok s ()

/-- `gic_irq_register(intid, priority)`.  The element of `ipriorityr` is a
`uint8_t`; `~id` is taken in 32 bits. -/
def gic_irq_register (s : gic_state) (intid priority : Nat) : Outcome gic_state Nat :=
  if intid < 31 then
    let redist_id := gic_get_redist_id s (arm64_read_affinity s)
    if redist_id > s.max_redist_idx then .ok s KERN_RETURN_FAIL
    else
      let f0 := (s.redist redist_id).sgis
      let s1 := set_sgis s redist_id
        { f0 with ipriorityr := fun i => if i = intid then priority % 256 else f0.ipriorityr i }
      let id := (1 <<< (intid &&& 0x1f)) % 2 ^ 32
      let group := (s1.redist redist_id).sgis.igroupr0
      let mod := (s1.redist redist_id).sgis.igrpmodr0
      let group1 := group ||| id
      let mod1 := mod &&& (2 ^ 32 - 1 - id)
      let s2 := set_sgis s1 redist_id { (s1.redist redist_id).sgis with igroupr0 := group1 }
      let s3 := set_sgis s2 redist_id { (s2.redist redist_id).sgis with igrpmodr0 := mod1 }
      match __gic_irq_control s3 intid GIC_IRQ_CONTROL_ENABLE with
      | .panic s4 msg => .panic s4 msg
      | .ok s4 _ => .ok s4 KERN_RETURN_SUCCESS
  else if intid < 1020 then .ok s KERN_RETURN_FAIL
  else .ok s KERN_RETURN_FAIL

/-- One CPU with affinity 0 and its redistributor, all registers of the SGI frame
zero. -/
def gic_demo : gic_state :=
  { redist := fun _ =>
      { typer1 := 0
        sgis :=
          { ipriorityr := fun _ => 0, igroupr0 := 0, isenabler0 := 0, icenabler0 := 0,
            igrpmodr0 := 0 } }
    max_redist_idx := 0
    mpidr_el1 := 0x80000000 }

/-! ## Device tree (`platform/devicetree.c`, `tinylibc/_byteswap.h`) -/

def kDeviceTreeSuccess : Int := 0
def kDeviceTreeFailure : Int := 1
def DEFAULTS_PLAT_DEVICETREE_CELL_SIZE : Nat := 2

/-- `__bswap_32(__bs)`, defined as `__bswap_32_internal` on a `uint32_t`. -/
def __bswap_32 (x : Nat) : Nat :=
  ((x &&& 0xff000000) >>> 24) ||| ((x &&& 0x00ff0000) >>> 8) ||| ((x &&& 0x0000ff00) <<< 8)
    ||| ((x &&& 0x000000ff) <<< 24)

/-- Load through a `uint32_t *`: four bytes, least significant first. -/
def load_u32 (m : Nat → Nat) (a : Nat) : Nat :=
  m a + m (a + 1) * 256 + m (a + 2) * 256 ^ 2 + m (a + 3) * 256 ^ 3

/-- Store through a `uint32_t *`. -/
def store_u32 (m : Nat → Nat) (a v : Nat) : Nat → Nat :=
  fun x => if a ≤ x ∧ x < a + 4 then (v / 256 ^ (x - a)) % 256 else m x

/-- The loop `for (int i = 0; i < cell_size * 2; i++) cells[i] = bswap_32
(cells[i]);` of `DeviceTreeLookupRegValue`, from `i`, for `n` more cells. -/
def DeviceTreeLookupRegValue_swap (cells : Nat) : Nat → Nat → (Nat → Nat) → (Nat → Nat)
  | 0, _, m => m
  | n + 1, i, m =>
    DeviceTreeLookupRegValue_swap cells n (i + 1)
      (store_u32 m (cells + 4 * i) (__bswap_32 (load_u32 m (cells + 4 * i))))

/-- What a call of `DeviceTreeLookupRegValue` leaves: the bytes of memory, the
value returned (`none` where the function ends without a `return` statement),
and the values stored to `*addr` and `*size` (`none` if nothing is stored). -/
structure reg_value_result where
  bytes : Nat → Nat
  returned : Option Int
  addr : Option Nat
  size : Option Nat

/-- `DeviceTreeLookupRegValue(node, addr, size)`.  `fdt_getprop` belongs to
libfdt; `reg` and `res` are what it yields for the property "reg" of the node:
the address of the value of the property inside the device-tree blob, and its
length or a negative error code. -/
def DeviceTreeLookupRegValue (m : Nat → Nat) (reg : Nat) (res : Int) : reg_value_result :=
  if res < 0 then { bytes := m, returned := some kDeviceTreeFailure, addr := none, size := none }
  else
    let cell_size := DEFAULTS_PLAT_DEVICETREE_CELL_SIZE
    let cells := reg
    let m1 := DeviceTreeLookupRegValue_swap cells (cell_size * 2) 0 m
    { bytes := m1
      returned := none
      addr := some ((load_u32 m1 cells * 2 ^ 32 + load_u32 m1 (cells + 4)) % 2 ^ 64)
      size := some ((load_u32 m1 (cells + 8) * 2 ^ 32 + load_u32 m1 (cells + 12)) % 2 ^ 64) }

/-- A device-tree blob holding at `0x48000100` the property value
`reg = <0x00 0x8000000 0x00 0x10000>` of the interrupt controller node, as
big-endian cells; every other byte is zero. -/
def dt_demo : Nat → Nat := fun a =>
  if 0x48000100 ≤ a ∧ a < 0x48000110 then
    ([0, 0, 0, 0, 0x08, 0, 0, 0, 0, 0, 0, 0, 0, 0x01, 0, 0] : List Nat).getD (a - 0x48000100) 0
  else 0

/-! ## Thread contexts (`kern/thread.c`, `arch/arch.h`) -/

/-- `arm64_cpu_context_t`, the member `context` of a thread. -/
structure arm64_cpu_context_t where
  x19 : Nat
  x20 : Nat
  x21 : Nat
  x22 : Nat
  x23 : Nat
  x24 : Nat
  x25 : Nat
  x26 : Nat
  x27 : Nat
  x28 : Nat
  fp : Nat
  lr : Nat
  sp : Nat
  _res : Nat
  deriving DecidableEq, Repr

/-- `thread_save_context(thread, frame)`, on the scalar fields of the thread and
on its context; `elr_el1` is the value of `sysreg_read(elr_el1)`. -/
def thread_save_context (t : thread_t) (c : arm64_cpu_context_t)
    (frame : arm64_exception_frame_t) (elr_el1 : Nat) : thread_t × arm64_cpu_context_t :=
  let c1 : arm64_cpu_context_t :=
    { c with
      x19 := frame.regs 19, x20 := frame.regs 20, x21 := frame.regs 21, x22 := frame.regs 22,
      x23 := frame.regs 23, x24 := frame.regs 24, x25 := frame.regs 25, x26 := frame.regs 26,
      x27 := frame.regs 27, x28 := frame.regs 28 }
  let c2 : arm64_cpu_context_t := { c1 with fp := frame.fp, sp := frame.sp }
  let t1 : thread_t := { t with entry := elr_el1 }
  let t2 : thread_t := { t1 with stack := c2.sp }
  (t2, c2)

/-- `thread_load_context(thread)` up to its call `__fork64_exec(thread)`, which
does not return: the context that the call receives.  `fork64_return` is the
address of `__fork64_return`. -/
def thread_load_context (t : thread_t) (c : arm64_cpu_context_t) (fork64_return : Nat) :
    arm64_cpu_context_t :=
  { c with x19 := t.entry, x20 := t.args, sp := t.stack, lr := fork64_return }

/-- A thread record with its arguments null and every other field zero. -/
def thread_demo : thread_t :=
  { stack_base := 0, stack := 0, thread_id := 1, task := 0, entry := 0, args := 0,
    preempt := 0, state := THREAD_STATE_ACTIVE, ref_count := 2 }

/-- A context block of zeroes. -/
def context_demo : arm64_cpu_context_t :=
  { x19 := 0, x20 := 0, x21 := 0, x22 := 0, x23 := 0, x24 := 0, x25 := 0, x26 := 0,
    x27 := 0, x28 := 0, fp := 0, lr := 0, sp := 0, _res := 0 }

/-- An exception frame in which `x<i>` holds `0x1000 + i`. -/
def frame_demo : arm64_exception_frame_t :=
  { regs := fun i => 0x1000 + i, fp := 0xfffffff00002bf80, lr := 0xfffffff000011100,
    sp := 0xfffffff00002bf00, far := 0, esr := 0, elr := 0xfffffff000011040 }

/-- `vm_demo` after `pmap_tt_create_tte(&pmap->tte, 0x1000000000000,
0xfffffff000200000, TT_L2_SIZE, PMAP_ACCESS_READWRITE)`: 2 MiB, 2 MiB-aligned,
mapped to the physical address `2 ^ 48`. -/
def vm_demo_tte_high : vm_state :=
  returned vm_demo (pmap_tt_create_tte 3 vm_demo (0xfffffff000100000 + VM_MAP_PMAP)
    0x1000000000000 0xfffffff000200000 TT_L2_SIZE PMAP_ACCESS_READWRITE)

/-! # Theorems -/

/-! ## Lemmas on the page allocator -/

theorem set_page_same (pages : Nat → vm_page) (i : Nat) (p : vm_page) :
    set_page pages i p i = p := by
  simp [set_page]

theorem set_page_other (pages : Nat → vm_page) (i j : Nat) (p : vm_page) (h : j ≠ i) :
    set_page pages i p j = pages j := by
  simp [set_page, h]

/-- The scan stops at the lowest free index. -/
theorem vm_page_alloc_scan_lowest (st : vm_page_state) (j : Nat)
    (hj : j < st.vm_page_idx) (hfree : page_is_free st j)
    (hmin : ∀ i, i < j → ¬ page_is_free st i) :
    ∀ (n i : Nat) (last : Option Nat), i ≤ j → j < i + n →
      vm_page_alloc_scan st n i last = some j := by
  intro n
  induction n with
  | zero => intro i last h1 h2; omega
  | succ n ih =>
    intro i last h1 h2
    have hi : i < st.vm_page_idx := by omega
    rcases Nat.eq_or_lt_of_le h1 with heq | hlt
    · subst heq
      have hf : (st.pages i).state = VM_PAGE_STATE_FREE := hfree
      simp [vm_page_alloc_scan, hi, hf]
    · have hnf : ¬ (st.pages i).state = VM_PAGE_STATE_FREE := hmin i hlt
      simp only [vm_page_alloc_scan, hi, hnf, if_true, if_false]
      exact ih (i + 1) (some i) (by omega) (by omega)

/-- Whatever the scan returns is either the initial value of `last` or an index
below `vm_page_idx`. -/
theorem vm_page_alloc_scan_range (st : vm_page_state) :
    ∀ (n i : Nat) (last : Option Nat) (k : Nat),
      vm_page_alloc_scan st n i last = some k → last = some k ∨ k < st.vm_page_idx := by
  intro n
  induction n with
  | zero => intro i last k h; left; simpa [vm_page_alloc_scan] using h
  | succ n ih =>
    intro i last k h
    simp only [vm_page_alloc_scan] at h
    by_cases hi : i < st.vm_page_idx
    · simp only [hi, if_true] at h
      by_cases hf : (st.pages i).state = VM_PAGE_STATE_FREE
      · simp only [hf, if_true] at h
        right; cases h; exact hi
      · simp only [hf, if_false] at h
        rcases ih (i + 1) (some i) k h with h1 | h1
        · right; cases h1; exact hi
        · right; exact h1
    · simp only [hi, if_false] at h
      left; exact h

theorem vm_page_alloc_takes_lowest (st : vm_page_state) (j : Nat)
    (hj : j < st.vm_page_idx) (hfree : page_is_free st j)
    (hmin : ∀ i, i < j → ¬ page_is_free st i) :
    vm_page_alloc st = .ok (vm_page_taken st j) (st.pages j).paddr := by
  have hscan := vm_page_alloc_scan_lowest st j hj hfree hmin st.vm_page_idx 0 none
    (Nat.zero_le _) (by omega)
  have hf : (st.pages j).state = VM_PAGE_STATE_FREE := hfree
  simp [vm_page_alloc, hscan, hf, vm_page_taken]

/-- Every successful `vm_page_alloc` took a free descriptor below `vm_page_idx`. -/
theorem vm_page_alloc_ok_inv (st st1 : vm_page_state) (p : Nat)
    (h : vm_page_alloc st = .ok st1 p) :
    ∃ j, j < st.vm_page_idx ∧ page_is_free st j ∧ p = (st.pages j).paddr ∧
      st1 = vm_page_taken st j := by
  unfold vm_page_alloc at h
  cases hs : vm_page_alloc_scan st st.vm_page_idx 0 none with
  | none => simp [hs] at h
  | some last =>
    simp only [hs] at h
    by_cases hf : (st.pages last).state = VM_PAGE_STATE_FREE
    · simp only [hf, ne_eq, not_true_eq_false, if_false] at h
      rcases vm_page_alloc_scan_range st _ _ _ _ hs with h1 | h1
      · cases h1
      · refine ⟨last, h1, hf, ?_, ?_⟩
        · injection h with h2 h3; exact h3.symm
        · injection h with h2 h3; exact h2.symm
    · simp [hf] at h

/-- Effect of the kernel-marking loop on each descriptor. -/
theorem vm_page_bootstrap_mark_apply :
    ∀ (n : Nat) (pages : Nat → vm_page) (i j : Nat),
      vm_page_bootstrap_mark pages n i j =
        if i ≤ j ∧ j < i + n then
          { (pages j) with state := VM_PAGE_STATE_ALLOC, mapped := VM_PAGE_IS_MAPPED }
        else pages j := by
  intro n
  induction n with
  | zero =>
    intro pages i j
    have : ¬ (i ≤ j ∧ j < i + 0) := by omega
    rw [if_neg this]; rfl
  | succ n ih =>
    intro pages i j
    simp only [vm_page_bootstrap_mark]
    rw [ih]
    by_cases h1 : i + 1 ≤ j ∧ j < i + 1 + n
    · have h2 : i ≤ j ∧ j < i + (n + 1) := by omega
      have h3 : j ≠ i := by omega
      simp [h1, h2, set_page_other _ _ _ _ h3]
    · by_cases h3 : j = i
      · subst h3
        have h2 : j ≤ j ∧ j < j + (n + 1) := by omega
        simp [h1, h2, set_page_same]
      · have h2 : ¬ (i ≤ j ∧ j < i + (n + 1)) := by omega
        simp [h1, h2, set_page_other _ _ _ _ h3]

/-- Effect of the descriptor-creation loop when the cursor stays below the upper
bound: it runs all `n` iterations and writes `n` fresh descriptors. -/
theorem vm_page_bootstrap_create_spec :
    ∀ (n : Nat) (st : vm_page_state) (i pcursor : Nat),
      st.vm_page_region_cursor = st.vm_page_region + VM_PAGE_STRUCT_SIZE * st.vm_page_idx →
      (∀ m, m < n → st.vm_page_region_cursor + VM_PAGE_STRUCT_SIZE * m
          < st.vm_page_region_upper_bound) →
      (vm_page_bootstrap_create st n i pcursor).2 = i + n ∧
      (vm_page_bootstrap_create st n i pcursor).1.vm_page_idx = st.vm_page_idx + n ∧
      (vm_page_bootstrap_create st n i pcursor).1.memory_phys_base = st.memory_phys_base ∧
      ∀ j, (vm_page_bootstrap_create st n i pcursor).1.pages j =
        if st.vm_page_idx ≤ j ∧ j < st.vm_page_idx + n then
          { paddr := pcursor + (j - st.vm_page_idx) * VM_PAGE_SIZE, idx := j,
            state := VM_PAGE_STATE_FREE, mapped := VM_PAGE_IS_MAPPED }
        else st.pages j := by
  intro n
  induction n with
  | zero =>
    intro st i pcursor _ _
    refine ⟨rfl, rfl, rfl, ?_⟩
    intro j
    have : ¬ (st.vm_page_idx ≤ j ∧ j < st.vm_page_idx + 0) := by omega
    rw [if_neg this]; rfl
  | succ n ih =>
    intro st i pcursor hcur hbound
    have h0 : ¬ st.vm_page_region_cursor ≥ st.vm_page_region_upper_bound := by
      have := hbound 0 (Nat.succ_pos n)
      omega
    have hidx : (st.vm_page_region_cursor - st.vm_page_region) / VM_PAGE_STRUCT_SIZE
        = st.vm_page_idx := by
      rw [hcur]; simp [VM_PAGE_STRUCT_SIZE]
    simp only [vm_page_bootstrap_create, __vm_page_alloc_internal, h0, if_false, hidx]
    have hcur1 : st.vm_page_region_cursor + VM_PAGE_STRUCT_SIZE
        = st.vm_page_region + VM_PAGE_STRUCT_SIZE * (st.vm_page_idx + 1) := by
      rw [hcur]; ring
    have hbound1 : ∀ m, m < n → st.vm_page_region_cursor + VM_PAGE_STRUCT_SIZE
        + VM_PAGE_STRUCT_SIZE * m < st.vm_page_region_upper_bound := by
      intro m hm
      have := hbound (m + 1) (by omega)
      have e : VM_PAGE_STRUCT_SIZE * (m + 1) = VM_PAGE_STRUCT_SIZE + VM_PAGE_STRUCT_SIZE * m := by
        ring
      omega
    obtain ⟨r1, r2, r3, r4⟩ := ih
      { st with
        pages := set_page st.pages st.vm_page_idx
          { paddr := pcursor, idx := st.vm_page_idx, state := VM_PAGE_STATE_FREE,
            mapped := if (1 : Nat) ≠ 0 then VM_PAGE_IS_MAPPED else VM_PAGE_IS_NOT_MAPPED }
        vm_page_region_cursor := st.vm_page_region_cursor + VM_PAGE_STRUCT_SIZE
        vm_page_idx := st.vm_page_idx + 1 }
      (i + 1) (pcursor + VM_PAGE_SIZE) hcur1 hbound1
    refine ⟨by rw [r1]; omega, by rw [r2]; simp only []; omega, by rw [r3], ?_⟩
    intro j
    rw [r4 j]
    simp only []
    by_cases h1 : st.vm_page_idx + 1 ≤ j ∧ j < st.vm_page_idx + 1 + n
    · have h2 : st.vm_page_idx ≤ j ∧ j < st.vm_page_idx + (n + 1) := by omega
      have e : pcursor + VM_PAGE_SIZE + (j - (st.vm_page_idx + 1)) * VM_PAGE_SIZE
          = pcursor + (j - st.vm_page_idx) * VM_PAGE_SIZE := by
        have : j - st.vm_page_idx = (j - (st.vm_page_idx + 1)) + 1 := by omega
        rw [this]; ring
      simp [h1, h2, e]
    · by_cases h3 : j = st.vm_page_idx
      · subst h3
        have h2 : st.vm_page_idx ≤ st.vm_page_idx ∧
            st.vm_page_idx < st.vm_page_idx + (n + 1) := by omega
        simp [h1, h2, set_page_same]
      · have h2 : ¬ (st.vm_page_idx ≤ j ∧ j < st.vm_page_idx + (n + 1)) := by omega
        simp [h1, h2, set_page_other _ _ _ _ h3]

/-- `vm_page_bootstrap` always returns, and this is the descriptor array it leaves:
`memsize / VM_PAGE_SIZE + 1` descriptors, descriptor `j` recording the frame
`membase + j * VM_PAGE_SIZE`, the first `kern_page_count` of them allocated. -/
theorem vm_page_bootstrap_spec (st : vm_page_state) (membase memsize kernsize : Nat) :
    ∃ st0, vm_page_bootstrap st membase memsize kernsize = .ok st0 () ∧
      st0.vm_page_idx = memsize / VM_PAGE_SIZE + 1 ∧
      st0.memory_phys_base = st.memory_phys_base ∧
      ∀ j, j < memsize / VM_PAGE_SIZE + 1 →
        (st0.pages j).paddr = membase + j * VM_PAGE_SIZE ∧
        (st0.pages j).idx = j ∧
        (st0.pages j).state =
          if j < (kernsize + memsize / VM_PAGE_SIZE * VM_PAGE_STRUCT_SIZE) / VM_PAGE_SIZE + 1
          then VM_PAGE_STATE_ALLOC else VM_PAGE_STATE_FREE := by
  have hspec := vm_page_bootstrap_create_spec (memsize / VM_PAGE_SIZE)
    { st with
      vm_page_idx := 0 + 1
      vm_page_region_size := memsize / VM_PAGE_SIZE * VM_PAGE_STRUCT_SIZE
      vm_page_region_upper_bound :=
        st.vm_page_region_lower_bound + 8 * (memsize / VM_PAGE_SIZE * VM_PAGE_STRUCT_SIZE)
      vm_page_region_cursor := st.vm_page_region_lower_bound + VM_PAGE_STRUCT_SIZE
      vm_page_region := st.vm_page_region_lower_bound
      pages := set_page st.pages
        ((st.vm_page_region_lower_bound - st.vm_page_region_lower_bound) / VM_PAGE_STRUCT_SIZE)
        { paddr := membase, idx := 0, state := VM_PAGE_STATE_FREE,
          mapped := VM_PAGE_IS_NOT_MAPPED } }
    0 (membase + VM_PAGE_SIZE)
    (by simp [VM_PAGE_STRUCT_SIZE])
    (by
      intro m hm
      simp only [VM_PAGE_STRUCT_SIZE]
      omega)
  obtain ⟨r1, r2, r3, r4⟩ := hspec
  unfold vm_page_bootstrap
  simp only []
  generalize hres : vm_page_bootstrap_create _ (memsize / VM_PAGE_SIZE) 0 (membase + VM_PAGE_SIZE)
    = res at r1 r2 r3 r4
  obtain ⟨st2, i⟩ := res
  simp only [] at r1 r2 r3 r4
  have hi : i = memsize / VM_PAGE_SIZE := by omega
  subst hi
  simp only [ne_eq, not_true_eq_false, if_false]
  refine ⟨_, rfl, ?_, ?_, ?_⟩
  · simp only []; omega
  · simp only []; exact r3
  · intro j hj
    simp only []
    rw [vm_page_bootstrap_mark_apply, r4 j]
    have hsub : (st.vm_page_region_lower_bound - st.vm_page_region_lower_bound)
        / VM_PAGE_STRUCT_SIZE = 0 := by simp
    rw [hsub]
    by_cases hj0 : j = 0
    · subst hj0
      have h1 : ¬ (0 + 1 ≤ 0 ∧ 0 < 0 + 1 + memsize / VM_PAGE_SIZE) := by omega
      rw [if_neg h1, set_page_same]
      have hk2 : (0 : Nat) < (kernsize + memsize / VM_PAGE_SIZE * VM_PAGE_STRUCT_SIZE)
          / VM_PAGE_SIZE + 1 := Nat.succ_pos _
      have hk : (0 : Nat) ≤ 0 ∧ 0 < 0 + ((kernsize + memsize / VM_PAGE_SIZE
          * VM_PAGE_STRUCT_SIZE) / VM_PAGE_SIZE + 1) := ⟨le_refl _, by rw [Nat.zero_add]; exact hk2⟩
      rw [if_pos hk, if_pos hk2]; simp
    · have h1 : 0 + 1 ≤ j ∧ j < 0 + 1 + memsize / VM_PAGE_SIZE := by omega
      rw [if_pos h1]
      have e : membase + VM_PAGE_SIZE + (j - (0 + 1)) * VM_PAGE_SIZE
          = membase + j * VM_PAGE_SIZE := by
        have : j = (j - (0 + 1)) + 1 := by omega
        conv_rhs => rw [this]
        ring
      by_cases hk : j < (kernsize + memsize / VM_PAGE_SIZE * VM_PAGE_STRUCT_SIZE)
          / VM_PAGE_SIZE + 1
      · have hk2 : 0 ≤ j ∧ j < 0 + ((kernsize + memsize / VM_PAGE_SIZE * VM_PAGE_STRUCT_SIZE)
            / VM_PAGE_SIZE + 1) := by omega
        rw [if_pos hk2, if_pos hk]
        exact ⟨e, rfl, rfl⟩
      · have hk2 : ¬ (0 ≤ j ∧ j < 0 + ((kernsize + memsize / VM_PAGE_SIZE
            * VM_PAGE_STRUCT_SIZE) / VM_PAGE_SIZE + 1)) := by omega
        rw [if_neg hk2, if_neg hk]
        exact ⟨e, rfl, rfl⟩

theorem page_inv_alloc (base : Nat) (st st1 : vm_page_state) (live : List Nat) (p : Nat)
    (hinv : page_inv base st live) (h : vm_page_alloc st = .ok st1 p) :
    p ∉ live ∧ (∃ j, j < st.vm_page_idx ∧ p = base + j * VM_PAGE_SIZE) ∧
      page_inv base st1 (p :: live) := by
  obtain ⟨hb, hlin, hnd, hlive⟩ := hinv
  obtain ⟨j, hj, hfree, hp, hst1⟩ := vm_page_alloc_ok_inv st st1 p h
  have hpj : p = base + j * VM_PAGE_SIZE := by rw [hp, hlin j hj]
  have hnot : p ∉ live := by
    intro hmem
    obtain ⟨i, hi, hpi, hnf⟩ := hlive p hmem
    have h1 : base + i * VM_PAGE_SIZE = base + j * VM_PAGE_SIZE := by
      rw [← hlin i hi, hpi, hpj]
    have h2 : i = j := by
      simp only [VM_PAGE_SIZE] at h1; omega
    subst h2
    exact hnf hfree
  refine ⟨hnot, ⟨j, hj, hpj⟩, ?_⟩
  subst hst1
  refine ⟨hb, ?_, List.nodup_cons.mpr ⟨hnot, hnd⟩, ?_⟩
  · intro i hi
    have hi2 : i < st.vm_page_idx := hi
    by_cases hij : i = j
    · subst hij
      simp only [vm_page_taken, set_page_same]
      exact hlin i hi2
    · simp only [vm_page_taken, set_page_other _ _ _ _ hij]
      exact hlin i hi2
  · intro q hq
    rcases List.mem_cons.mp hq with hq1 | hq1
    · subst hq1
      refine ⟨j, hj, ?_, ?_⟩
      · simp only [vm_page_taken, set_page_same]; exact hp.symm
      · simp [page_is_free, vm_page_taken, set_page_same, VM_PAGE_STATE_ALLOC,
          VM_PAGE_STATE_FREE]
    · obtain ⟨i, hi, hpi, hnf⟩ := hlive q hq1
      refine ⟨i, hi, ?_, ?_⟩
      · by_cases hij : i = j
        · subst hij; simp only [vm_page_taken, set_page_same]; exact hpi
        · simp only [vm_page_taken, set_page_other _ _ _ _ hij]; exact hpi
      · by_cases hij : i = j
        · subst hij; exact absurd hfree hnf
        · simp only [page_is_free, vm_page_taken, set_page_other _ _ _ _ hij]; exact hnf

theorem page_inv_free (base : Nat) (st : vm_page_state) (live : List Nat) (p : Nat)
    (hinv : page_inv base st live) (hp : p ∈ live) :
    page_inv base (vm_page_free st p) (live.erase p) := by
  obtain ⟨hb, hlin, hnd, hlive⟩ := hinv
  obtain ⟨i, hi, hpi, _⟩ := hlive p hp
  have hidx : (p - st.memory_phys_base) / VM_PAGE_SIZE = i := by
    rw [hb, ← hpi, hlin i hi]; simp [VM_PAGE_SIZE]
  refine ⟨hb, ?_, hnd.erase p, ?_⟩
  · intro k hk
    have hk2 : k < st.vm_page_idx := hk
    simp only [vm_page_free, hidx]
    by_cases hki : k = i
    · subst hki; simp only [set_page_same]; exact hlin k hk2
    · simp only [set_page_other _ _ _ _ hki]; exact hlin k hk2
  · intro q hq
    have hq2 : q ≠ p ∧ q ∈ live := (List.Nodup.mem_erase_iff hnd).mp hq
    obtain ⟨k, hk, hpk, hnf⟩ := hlive q hq2.2
    have hki : k ≠ i := by
      intro e; subst e; exact hq2.1 (hpk.symm.trans hpi)
    refine ⟨k, hk, ?_, ?_⟩
    · simp only [vm_page_free, hidx, set_page_other _ _ _ _ hki]; exact hpk
    · simp only [page_is_free, vm_page_free, hidx, set_page_other _ _ _ _ hki]; exact hnf

theorem page_reachable_inv (base : Nat) (st0 st : vm_page_state) (live : List Nat)
    (h0 : page_inv base st0 []) (h : page_reachable st0 st live) : page_inv base st live := by
  induction h with
  | boot => exact h0
  | alloc _ ha ih => exact (page_inv_alloc base _ _ _ _ ih ha).2.2
  | free _ hp ih => exact page_inv_free base _ _ _ ih hp

/-- The state left by `vm_page_bootstrap` satisfies the invariant when
`memory_phys_base` is the base the descriptors were created from. -/
theorem page_inv_bootstrap (st st0 : vm_page_state) (membase memsize kernsize : Nat)
    (hbase : st.memory_phys_base = membase)
    (hboot : vm_page_bootstrap st membase memsize kernsize = .ok st0 ()) :
    page_inv membase st0 [] := by
  obtain ⟨st0', h1, h2, h3, h4⟩ := vm_page_bootstrap_spec st membase memsize kernsize
  rw [hboot] at h1
  injection h1 with h1 _
  subst h1
  refine ⟨by rw [h3, hbase], ?_, List.nodup_nil, ?_⟩
  · intro i hi
    have hi2 : i < st0.vm_page_idx := hi
    rw [h2] at hi2
    exact (h4 i hi2).1
  · intro p hp; cases hp

/-- The numbering of the frames survives every allocator call, whatever base
`vm_page_free` subtracts: the calls only write the `state` field. -/
theorem page_reachable_linear (base : Nat) (st0 st : vm_page_state) (live : List Nat)
    (h0 : pages_linear base st0) (h : page_reachable st0 st live) : pages_linear base st := by
  induction h with
  | boot => exact h0
  | @alloc st st1 live p _ ha ih =>
    obtain ⟨j, _, _, _, hst1⟩ := vm_page_alloc_ok_inv st st1 p ha
    subst hst1
    intro i hi
    have hi2 : i < st.vm_page_idx := hi
    by_cases hij : i = j
    · subst hij; simp only [vm_page_taken, set_page_same]; exact ih i hi2
    · simp only [vm_page_taken, set_page_other _ _ _ _ hij]; exact ih i hi2
  | @free st live p _ _ ih =>
    intro i hi
    have hi2 : i < st.vm_page_idx := hi
    simp only [vm_page_free]
    by_cases hij : i = (p - st.memory_phys_base) / VM_PAGE_SIZE
    · rw [← hij, set_page_same]; exact ih i hi2
    · rw [set_page_other _ _ _ _ hij]; exact ih i hi2

theorem pages_linear_bootstrap (st st0 : vm_page_state) (membase memsize kernsize : Nat)
    (hboot : vm_page_bootstrap st membase memsize kernsize = .ok st0 ()) :
    pages_linear membase st0 := by
  obtain ⟨st0', h1, h2, _, h4⟩ := vm_page_bootstrap_spec st membase memsize kernsize
  rw [hboot] at h1
  injection h1 with h1 _
  subst h1
  intro i hi
  have hi2 : i < st0.vm_page_idx := hi
  rw [h2] at hi2
  exact (h4 i hi2).1

/-! ## Theorems on the page allocator -/

/-- C3: for every page-descriptor array that contains a free descriptor,
`vm_page_alloc` returns the physical address of the lowest-index free descriptor,
sets the state of that descriptor to allocated, and leaves every other descriptor
(and the other fields of that one) unchanged. -/
theorem vm_page_alloc_first_free (st : vm_page_state)
    (h : ∃ i, i < st.vm_page_idx ∧ page_is_free st i) :
    ∃ j, j < st.vm_page_idx ∧ page_is_free st j ∧ (∀ i, i < j → ¬ page_is_free st i) ∧
      ∃ st1, vm_page_alloc st = .ok st1 (st.pages j).paddr ∧
        st1.pages j = { (st.pages j) with state := VM_PAGE_STATE_ALLOC } ∧
        (∀ i, i ≠ j → st1.pages i = st.pages i) ∧
        st1.vm_page_idx = st.vm_page_idx := by
  classical
  have hj := Nat.find_spec h
  have hmin : ∀ i, i < Nat.find h → ¬ page_is_free st i := by
    intro i hi hf
    have hlt : i < st.vm_page_idx := lt_trans hi hj.1
    exact Nat.find_min h hi ⟨hlt, hf⟩
  refine ⟨Nat.find h, hj.1, hj.2, hmin, vm_page_taken st (Nat.find h),
    vm_page_alloc_takes_lowest st _ hj.1 hj.2 hmin, ?_, ?_, rfl⟩
  · simp [vm_page_taken, set_page_same]
  · intro i hi
    simp [vm_page_taken, set_page_other _ _ _ _ hi]

/-- C3 witness: the three-descriptor array `pages_demo` has a free descriptor. -/
theorem vm_page_alloc_first_free_witness :
    (∃ i, i < pages_demo.vm_page_idx ∧ page_is_free pages_demo i) ∧
    ∃ j, j < pages_demo.vm_page_idx ∧ page_is_free pages_demo j ∧
      (∀ i, i < j → ¬ page_is_free pages_demo i) ∧
      ∃ st1, vm_page_alloc pages_demo = .ok st1 (pages_demo.pages j).paddr ∧
        st1.pages j = { (pages_demo.pages j) with state := VM_PAGE_STATE_ALLOC } ∧
        (∀ i, i ≠ j → st1.pages i = pages_demo.pages i) ∧
        st1.vm_page_idx = pages_demo.vm_page_idx :=
  ⟨⟨1, by decide, by decide⟩, vm_page_alloc_first_free pages_demo ⟨1, by decide, by decide⟩⟩

/-- Extent of the defect behind C1: after `vm_page_bootstrap` with a page-aligned
`membase` (the call always returns), in every sequence of `vm_page_alloc` and
`vm_page_free` calls that follows (frees only of outstanding addresses), every
address returned by `vm_page_alloc` is a multiple of the page size; and in the one
configuration where `memory_phys_base`, the base `vm_page_free` subtracts, happens
to equal `membase`, the address differs from every address handed out earlier and
not freed since. -/
theorem vm_page_alloc_aligned_unique (st : vm_page_state) (membase memsize kernsize : Nat)
    (halign : membase % VM_PAGE_SIZE = 0) :
    ∃ st0, vm_page_bootstrap st membase memsize kernsize = .ok st0 () ∧
      ∀ st1 live, page_reachable st0 st1 live →
        ∀ st2 p, vm_page_alloc st1 = .ok st2 p →
          p % VM_PAGE_SIZE = 0 ∧ (st.memory_phys_base = membase → p ∉ live) := by
  obtain ⟨st0, hboot, _⟩ := vm_page_bootstrap_spec st membase memsize kernsize
  refine ⟨st0, hboot, ?_⟩
  intro st1 live hreach st2 p halloc
  refine ⟨?_, ?_⟩
  · have hlin := page_reachable_linear membase st0 st1 live
      (pages_linear_bootstrap st st0 membase memsize kernsize hboot) hreach
    obtain ⟨j, hj, _, hp, _⟩ := vm_page_alloc_ok_inv st1 st2 p halloc
    rw [hp, hlin j hj, Nat.add_mul_mod_self_right]
    exact halign
  · intro hbase
    have hinv := page_reachable_inv membase st0 st1 live
      (page_inv_bootstrap st st0 membase memsize kernsize hbase hboot) hreach
    exact (page_inv_alloc membase st1 st2 live p hinv halloc).1

/-- Instance of `vm_page_alloc_aligned_unique`: the kernel loaded at the base of
RAM, `0x40000000`. -/
theorem vm_page_alloc_aligned_unique_witness :
    0x40000000 % VM_PAGE_SIZE = 0 ∧
    ∃ st0, vm_page_bootstrap (vm_page_initial 0xfffffff000100000 0x40000000)
        0x40000000 0x8000 0x1000 = .ok st0 () ∧
      ∀ st1 live, page_reachable st0 st1 live →
        ∀ st2 p, vm_page_alloc st1 = .ok st2 p →
          p % VM_PAGE_SIZE = 0 ∧
          ((vm_page_initial 0xfffffff000100000 0x40000000).memory_phys_base = 0x40000000 →
            p ∉ live) :=
  ⟨by decide,
    vm_page_alloc_aligned_unique (vm_page_initial 0xfffffff000100000 0x40000000)
      0x40000000 0x8000 0x1000 (by decide)⟩

/-- C1: the code hands out an address that is still outstanding.  `vm_configure`
numbers the frames from `kernel_phys_base` (`args->kernbase`) while `vm_page_free`
computes the index from `memory_phys_base` (`args->physbase`).  With the kernel
loaded one page above `memory_phys_base` (page-aligned `membase = 0x40001000`),
allocate `p = 0x40003000`, allocate `q = 0x40004000`, free `p`: `vm_page_free`
clears the descriptor of `q`, and the next `vm_page_alloc` returns `q` although
`q` has not been freed. -/
theorem vm_page_alloc_repeats_outstanding :
    args_kernel_above_base.kernbase % VM_PAGE_SIZE = 0 ∧
    ∃ st0 st1 live st2 p,
      vm_configure_pages 0xfffffff000100000 args_kernel_above_base 0x8000 = .ok st0 () ∧
      page_reachable st0 st1 live ∧ vm_page_alloc st1 = .ok st2 p ∧ p ∈ live := by
  have h0 : vm_configure_pages 0xfffffff000100000 args_kernel_above_base 0x8000
      = .ok pages_above_0 () := rfl
  have h1 : vm_page_alloc pages_above_0 = .ok pages_above_1 0x40003000 := rfl
  have h2 : vm_page_alloc pages_above_1 = .ok pages_above_2 0x40004000 := rfl
  have h3 : vm_page_alloc pages_above_3 = .ok (vm_page_alloc pages_above_3).state 0x40004000 :=
    rfl
  have r2 : page_reachable pages_above_0 pages_above_2 [0x40004000, 0x40003000] :=
    .alloc (.alloc .boot h1) h2
  have r3 : page_reachable pages_above_0 pages_above_3
      (List.erase [0x40004000, 0x40003000] 0x40003000) :=
    .free r2 (by decide)
  exact ⟨by decide, _, _, _, _, _, h0, r3, h3, by decide⟩

/-- Extent of the defect behind C2: in the one configuration where
`memory_phys_base` happens to equal the `membase` given to `vm_page_bootstrap`, in
every allocator state reachable afterwards that has a free frame,
`vm_page_free(vm_page_alloc())` leaves every page descriptor exactly as it was
before the two calls. -/
theorem vm_page_free_alloc_restores (st : vm_page_state) (membase memsize kernsize : Nat)
    (hbase : st.memory_phys_base = membase) :
    ∃ st0, vm_page_bootstrap st membase memsize kernsize = .ok st0 () ∧
      ∀ st1 live, page_reachable st0 st1 live →
        (∃ i, i < st1.vm_page_idx ∧ page_is_free st1 i) →
        ∃ st2 p, vm_page_alloc st1 = .ok st2 p ∧
          ∀ i, (vm_page_free st2 p).pages i = st1.pages i := by
  classical
  obtain ⟨st0, hboot, _⟩ := vm_page_bootstrap_spec st membase memsize kernsize
  refine ⟨st0, hboot, ?_⟩
  intro st1 live hreach hfree
  obtain ⟨hb, hlin, _, _⟩ := page_reachable_inv membase st0 st1 live
    (page_inv_bootstrap st st0 membase memsize kernsize hbase hboot) hreach
  have hj := Nat.find_spec hfree
  have hmin : ∀ i, i < Nat.find hfree → ¬ page_is_free st1 i := by
    intro i hi hf
    exact Nat.find_min hfree hi ⟨lt_trans hi hj.1, hf⟩
  refine ⟨_, _, vm_page_alloc_takes_lowest st1 _ hj.1 hj.2 hmin, ?_⟩
  intro i
  have hidx : ((st1.pages (Nat.find hfree)).paddr - st1.memory_phys_base) / VM_PAGE_SIZE
      = Nat.find hfree := by
    rw [hb, hlin _ hj.1]; simp [VM_PAGE_SIZE]
  have hfr : (st1.pages (Nat.find hfree)).state = VM_PAGE_STATE_FREE := hj.2
  simp only [vm_page_free, vm_page_taken, hidx]
  by_cases hi : i = Nat.find hfree
  · rw [hi, set_page_same, set_page_same]
    cases hp : st1.pages (Nat.find hfree) with
    | mk a b c d =>
      rw [hp] at hfr
      simp only at hfr
      simp [hfr]
  · rw [set_page_other _ _ _ _ hi, set_page_other _ _ _ _ hi]

/-- Instance of `vm_page_free_alloc_restores`: boot arguments with the kernel at
the base of RAM. -/
theorem vm_page_free_alloc_restores_witness :
    (vm_page_initial 0xfffffff000100000 0x40000000).memory_phys_base = 0x40000000 ∧
    ∃ st0, vm_page_bootstrap (vm_page_initial 0xfffffff000100000 0x40000000)
        0x40000000 0x8000 0x1000 = .ok st0 () ∧
      ∀ st1 live, page_reachable st0 st1 live →
        (∃ i, i < st1.vm_page_idx ∧ page_is_free st1 i) →
        ∃ st2 p, vm_page_alloc st1 = .ok st2 p ∧
          ∀ i, (vm_page_free st2 p).pages i = st1.pages i :=
  ⟨rfl, vm_page_free_alloc_restores (vm_page_initial 0xfffffff000100000 0x40000000)
    0x40000000 0x8000 0x1000 rfl⟩

/-- C2: `vm_page_free(vm_page_alloc())` does not restore the census.
`vm_configure` numbers the frames from `kernel_phys_base` (`args->kernbase`) while
`vm_page_free` computes the index from `memory_phys_base` (`args->physbase`).
After `vm_configure` with the kernel loaded one page above `memory_phys_base`,
descriptor 2 is free; `vm_page_alloc` takes it and returns `0x40003000`;
`vm_page_free(0x40003000)` computes index 3, so descriptor 2 stays allocated: the
census differs from the one before the two calls. -/
theorem vm_page_free_alloc_changes_census :
    vm_configure_pages 0xfffffff000100000 args_kernel_above_base 0x8000
      = .ok pages_above_0 () ∧
    page_reachable pages_above_0 pages_above_0 [] ∧
    (pages_above_0.pages 2).state = VM_PAGE_STATE_FREE ∧
    vm_page_alloc pages_above_0 = .ok pages_above_1 0x40003000 ∧
    ((vm_page_free pages_above_1 0x40003000).pages 2).state = VM_PAGE_STATE_ALLOC :=
  ⟨rfl, .boot, by decide, rfl, by decide⟩

/-! ## Lemmas on linked nodes -/

theorem links_congr (f g : Nat → Nat) :
    ∀ (xs : List Nat) (a z : Nat), (∀ x, x ∈ a :: xs → g x = f x) →
      links f a xs z → links g a xs z := by
  intro xs
  induction xs with
  | nil =>
    intro a z hfg h
    simp only [links] at h ⊢
    rw [hfg a (List.mem_cons_self _ _)]; exact h
  | cons x xs ih =>
    intro a z hfg h
    simp only [links] at h ⊢
    refine ⟨by rw [hfg a (List.mem_cons_self _ _)]; exact h.1, ?_⟩
    exact ih x z (fun y hy => hfg y (List.mem_cons_of_mem _ hy)) h.2

theorem links_update_of_not_mem (f : Nat → Nat) (p v : Nat) (xs : List Nat) (a z : Nat)
    (hp : p ∉ a :: xs) (h : links f a xs z) : links (Function.update f p v) a xs z := by
  refine links_congr f _ xs a z ?_ h
  intro x hx
  have : x ≠ p := fun e => hp (e ▸ hx)
  simp [Function.update, this]

theorem links_append (f : Nat → Nat) :
    ∀ (xs : List Nat) (a y : Nat) (ys : List Nat) (z : Nat),
      links f a (xs ++ y :: ys) z ↔ links f a xs y ∧ links f y ys z := by
  intro xs
  induction xs with
  | nil => intro a y ys z; simp [links]
  | cons x xs ih =>
    intro a y ys z
    show (f a = x ∧ links f x (xs ++ y :: ys) z) ↔ (f a = x ∧ links f x xs y) ∧ links f y ys z
    rw [ih, and_assoc]

theorem links_snoc (f : Nat → Nat) (xs : List Nat) (a y z : Nat) :
    links f a (xs ++ [y]) z ↔ links f a xs y ∧ f y = z := by
  rw [links_append]; simp [links]

theorem links_head (f : Nat → Nat) (xs : List Nat) (a z : Nat) (h : links f a xs z) :
    f a = xs.headD z := by
  cases xs with
  | nil => simpa [links] using h
  | cons x xs => simp only [links] at h; simpa using h.1

theorem last_from_mem : ∀ (xs : List Nat) (a : Nat), last_from a xs ∈ a :: xs := by
  intro xs
  induction xs with
  | nil => intro a; simp [last_from]
  | cons x xs ih => intro a; simp only [last_from]; exact List.mem_cons_of_mem _ (ih x)

theorem last_from_append_singleton : ∀ (xs : List Nat) (a y : Nat),
    last_from a (xs ++ [y]) = y := by
  intro xs
  induction xs with
  | nil => intro a y; simp [last_from]
  | cons x xs ih => intro a y; simp only [List.cons_append, last_from]; exact ih x y

theorem last_from_reverse (xs : List Nat) (a : Nat) :
    last_from a xs.reverse = xs.headD a := by
  cases xs with
  | nil => simp [last_from]
  | cons x xs => simp only [List.reverse_cons, List.headD_cons]; exact last_from_append_singleton _ _ _

theorem headD_reverse (xs : List Nat) (a : Nat) :
    xs.reverse.headD a = last_from a xs := by
  have := last_from_reverse xs.reverse a
  rw [List.reverse_reverse] at this
  exact this.symm

/-- Linking a new node `y` right after `a`. -/
theorem links_insert_front (f : Nat → Nat) (xs : List Nat) (a y z : Nat)
    (h : links f a xs z) (hy : y ∉ a :: xs) (ha : a ∉ xs) :
    links (Function.update (Function.update f y (f a)) a y) a (y :: xs) z := by
  have hya : y ≠ a := fun e => hy (e ▸ List.mem_cons_self _ _)
  simp only [links, Function.update_same, true_and]
  cases xs with
  | nil =>
    simp only [links] at h ⊢
    rw [Function.update_noteq hya, Function.update_same]; exact h
  | cons x xs =>
    simp only [links] at h ⊢
    refine ⟨by rw [Function.update_noteq hya, Function.update_same]; exact h.1, ?_⟩
    refine links_update_of_not_mem _ _ _ _ _ _ (by simpa using ha) ?_
    exact links_update_of_not_mem _ _ _ _ _ _
      (fun hm => hy (List.mem_cons_of_mem _ hm)) h.2

/-- Linking a new node `y` right before `z`, after the last node. -/
theorem links_insert_back (f : Nat → Nat) :
    ∀ (xs : List Nat) (a y z : Nat), links f a xs z → y ∉ a :: xs → (a :: xs).Nodup →
      links (Function.update (Function.update f (last_from a xs) y) y z) a (xs ++ [y]) z := by
  intro xs
  induction xs with
  | nil =>
    intro a y z _ hy _
    have hya : y ≠ a := fun e => hy (e ▸ List.mem_cons_self _ _)
    simp only [last_from, List.nil_append, links, Function.update_same, and_true]
    rw [Function.update_noteq hya.symm, Function.update_same]
  | cons x xs ih =>
    intro a y z h hy hnd
    have hya : y ≠ a := fun e => hy (e ▸ List.mem_cons_self _ _)
    have hal : a ≠ last_from x xs := by
      intro e
      have hm := last_from_mem xs x
      rw [← e] at hm
      exact (List.nodup_cons.mp hnd).1 hm
    simp only [links] at h
    simp only [last_from, List.cons_append, links]
    refine ⟨?_, ih x y z h.2 (fun hm => hy (List.mem_cons_of_mem _ hm))
      (List.nodup_cons.mp hnd).2⟩
    rw [Function.update_noteq hya.symm, Function.update_noteq hal]; exact h.1

/-- Unlinking the node `x`: its predecessor is made to point at its successor. -/
theorem links_delete (f : Nat → Nat) :
    ∀ (xs : List Nat) (a x : Nat) (ys : List Nat) (z : Nat),
      links f a (xs ++ x :: ys) z → (a :: (xs ++ x :: ys)).Nodup →
      links (Function.update f (last_from a xs) (f x)) a (xs ++ ys) z := by
  intro xs
  induction xs with
  | nil =>
    intro a x ys z h hnd
    simp only [List.nil_append, links] at h
    simp only [last_from, List.nil_append]
    have hfx := links_head f ys x z h.2
    cases ys with
    | nil =>
      simp only [links, Function.update_same]
      simpa using hfx
    | cons y ys =>
      simp only [links, Function.update_same]
      refine ⟨by simpa using hfx, ?_⟩
      have h2 := h.2
      simp only [links] at h2
      refine links_update_of_not_mem _ _ _ _ _ _ ?_ h2.2
      intro hm
      have := (List.nodup_cons.mp hnd).1
      exact this (List.mem_cons_of_mem _ hm)
  | cons x1 xs ih =>
    intro a x ys z h hnd
    simp only [List.cons_append, links] at h
    simp only [last_from, List.cons_append, links]
    have hal : a ≠ last_from x1 xs := by
      intro e
      have hm := last_from_mem xs x1
      rw [← e] at hm
      have := (List.nodup_cons.mp hnd).1
      apply this
      simp only [List.cons_append]
      rcases List.mem_cons.mp hm with h1 | h1
      · rw [h1]; exact List.mem_cons_self _ _
      · exact List.mem_cons_of_mem _ (List.mem_append_left _ h1)
    refine ⟨by rw [Function.update_noteq hal]; exact h.1, ?_⟩
    exact ih x1 x ys z h.2 (List.nodup_cons.mp hnd).2

/-! ## Lemmas on the list operations -/

theorem nextf_set_next (h : Nat → list_head) (p v : Nat) :
    nextf (set_next h p v) = Function.update (nextf h) p v := by
  funext a
  by_cases ha : a = p
  · subst ha; simp [nextf, set_next]
  · simp [nextf, set_next, ha, Function.update_noteq ha]

theorem prevf_set_next (h : Nat → list_head) (p v : Nat) :
    prevf (set_next h p v) = prevf h := by
  funext a
  by_cases ha : a = p
  · subst ha; simp [prevf, set_next]
  · simp [prevf, set_next, ha]

theorem nextf_set_prev (h : Nat → list_head) (p v : Nat) :
    nextf (set_prev h p v) = nextf h := by
  funext a
  by_cases ha : a = p
  · subst ha; simp [nextf, set_prev]
  · simp [nextf, set_prev, ha]

theorem prevf_set_prev (h : Nat → list_head) (p v : Nat) :
    prevf (set_prev h p v) = Function.update (prevf h) p v := by
  funext a
  by_cases ha : a = p
  · subst ha; simp [prevf, set_prev]
  · simp [prevf, set_prev, ha, Function.update_noteq ha]

theorem nextf___list_add (h : Nat → list_head) (new prev next : Nat) :
    nextf (__list_add h new prev next)
      = Function.update (Function.update (nextf h) new next) prev new := by
  simp only [__list_add, nextf_set_next, nextf_set_prev]

theorem prevf___list_add (h : Nat → list_head) (new prev next : Nat) :
    prevf (__list_add h new prev next)
      = Function.update (Function.update (prevf h) next new) new prev := by
  simp only [__list_add, prevf_set_next, prevf_set_prev]

theorem nextf___list_del (h : Nat → list_head) (prev next : Nat) :
    nextf (__list_del h prev next) = Function.update (nextf h) prev next := by
  simp only [__list_del, nextf_set_next, nextf_set_prev]

theorem prevf___list_del (h : Nat → list_head) (prev next : Nat) :
    prevf (__list_del h prev next) = Function.update (prevf h) next prev := by
  simp only [__list_del, prevf_set_next, prevf_set_prev]

theorem set_next_other (h : Nat → list_head) (p v a : Nat) (ha : a ≠ p) :
    set_next h p v a = h a := by
  simp [set_next, ha]

theorem set_prev_other (h : Nat → list_head) (p v a : Nat) (ha : a ≠ p) :
    set_prev h p v a = h a := by
  simp [set_prev, ha]

theorem __list_add_other (h : Nat → list_head) (new prev next a : Nat)
    (h1 : a ≠ new) (h2 : a ≠ prev) (h3 : a ≠ next) : __list_add h new prev next a = h a := by
  simp only [__list_add]
  rw [set_next_other _ _ _ _ h2, set_prev_other _ _ _ _ h1, set_next_other _ _ _ _ h1,
    set_prev_other _ _ _ _ h3]

theorem __list_del_other (h : Nat → list_head) (prev next a : Nat)
    (h1 : a ≠ prev) (h2 : a ≠ next) : __list_del h prev next a = h a := by
  simp only [__list_del]
  rw [set_next_other _ _ _ _ h1, set_prev_other _ _ _ _ h2]

theorem list_head_ext (x y : list_head) (h1 : x.next = y.next) (h2 : x.prev = y.prev) :
    x = y := by
  cases x; cases y; simp only [list_head.mk.injEq]; exact ⟨h1, h2⟩

theorem is_list_congr (h g : Nat → list_head) (head : Nat) (xs : List Nat)
    (hfg : ∀ x, x ∈ head :: xs → g x = h x) (hl : is_list h head xs) : is_list g head xs := by
  obtain ⟨h1, h2, h3⟩ := hl
  refine ⟨links_congr _ _ xs head head (fun x hx => by simp [nextf, hfg x hx]) h1,
    links_congr _ _ _ head head (fun x hx => ?_) h2, h3⟩
  have hx2 : x ∈ head :: xs := by
    rcases List.mem_cons.mp hx with e | e
    · rw [e]; exact List.mem_cons_self _ _
    · exact List.mem_cons_of_mem _ (List.mem_reverse.mp e)
  simp [prevf, hfg x hx2]

theorem is_list_next_head (h : Nat → list_head) (head : Nat) (xs : List Nat)
    (hl : is_list h head xs) : (h head).next = xs.headD head :=
  links_head (nextf h) xs head head hl.1

theorem is_list_prev_head (h : Nat → list_head) (head : Nat) (xs : List Nat)
    (hl : is_list h head xs) : (h head).prev = last_from head xs := by
  have := links_head (prevf h) xs.reverse head head hl.2.1
  rw [headD_reverse] at this
  exact this

theorem is_list_next_mem (h : Nat → list_head) (head : Nat) (xs : List Nat) (x : Nat)
    (ys : List Nat) (hl : is_list h head (xs ++ x :: ys)) : (h x).next = ys.headD head :=
  links_head (nextf h) ys x head ((links_append _ _ _ _ _ _).mp hl.1).2

theorem is_list_prev_mem (h : Nat → list_head) (head : Nat) (xs : List Nat) (x : Nat)
    (ys : List Nat) (hl : is_list h head (xs ++ x :: ys)) : (h x).prev = last_from head xs := by
  have h2 := hl.2.1
  rw [List.reverse_append, List.reverse_cons, List.append_assoc, List.singleton_append,
    links_append] at h2
  have := links_head (prevf h) xs.reverse x head h2.2
  rw [headD_reverse] at this
  exact this

theorem is_list_init (h : Nat → list_head) (list : Nat) :
    is_list (INIT_LIST_HEAD h list) list [] := by
  refine ⟨?_, ?_, by simp⟩
  · simp [links, nextf, INIT_LIST_HEAD, set_prev, set_next]
  · simp [links, prevf, INIT_LIST_HEAD, set_prev, set_next]

theorem is_list_add (h : Nat → list_head) (head : Nat) (xs : List Nat) (n : Nat)
    (hl : is_list h head xs) (hn : n ∉ head :: xs) : is_list (list_add h n head) head (n :: xs) := by
  obtain ⟨h1, h2, h3⟩ := hl
  have hhead : head ∉ xs := (List.nodup_cons.mp h3).1
  have hnext : (h head).next = last_from head xs.reverse := by
    rw [last_from_reverse]; exact is_list_next_head h head xs ⟨h1, h2, h3⟩
  refine ⟨?_, ?_, List.nodup_cons.mpr ⟨?_, List.nodup_cons.mpr ⟨?_, (List.nodup_cons.mp h3).2⟩⟩⟩
  · rw [list_add, nextf___list_add]
    exact links_insert_front (nextf h) xs head n head h1 hn hhead
  · rw [list_add, prevf___list_add, List.reverse_cons, hnext]
    refine links_insert_back (prevf h) xs.reverse head n head h2 ?_ ?_
    · intro hm; apply hn
      rcases List.mem_cons.mp hm with e | e
      · rw [e]; exact List.mem_cons_self _ _
      · exact List.mem_cons_of_mem _ (List.mem_reverse.mp e)
    · exact List.nodup_cons.mpr ⟨fun hm => hhead (List.mem_reverse.mp hm),
        List.nodup_reverse.mpr (List.nodup_cons.mp h3).2⟩
  · intro hm
    rcases List.mem_cons.mp hm with e | e
    · exact hn (e ▸ List.mem_cons_self _ _)
    · exact hhead e
  · intro hm; exact hn (List.mem_cons_of_mem _ hm)

theorem is_list_add_tail (h : Nat → list_head) (head : Nat) (xs : List Nat) (n : Nat)
    (hl : is_list h head xs) (hn : n ∉ head :: xs) :
    is_list (list_add_tail h n head) head (xs ++ [n]) := by
  obtain ⟨h1, h2, h3⟩ := hl
  have hhead : head ∉ xs := (List.nodup_cons.mp h3).1
  have hnh : n ≠ head := fun e => hn (e ▸ List.mem_cons_self _ _)
  have hnx : n ∉ xs := fun hm => hn (List.mem_cons_of_mem _ hm)
  have hprev : (h head).prev = last_from head xs := is_list_prev_head h head xs ⟨h1, h2, h3⟩
  have hlast : last_from head xs ≠ n := by
    intro e; apply hn; rw [← e]; exact last_from_mem xs head
  refine ⟨?_, ?_, ?_⟩
  · rw [list_add_tail, nextf___list_add, hprev, Function.update_comm hlast.symm]
    exact links_insert_back (nextf h) xs head n head h1 hn h3
  · rw [list_add_tail, prevf___list_add, List.reverse_append, List.reverse_singleton,
      List.singleton_append, Function.update_comm hnh.symm]
    have hp : prevf h head = (h head).prev := rfl
    rw [← hp]
    refine links_insert_front (prevf h) xs.reverse head n head h2 ?_ ?_
    · intro hm; apply hn
      rcases List.mem_cons.mp hm with e | e
      · rw [e]; exact List.mem_cons_self _ _
      · exact List.mem_cons_of_mem _ (List.mem_reverse.mp e)
    · exact fun hm => hhead (List.mem_reverse.mp hm)
  · rw [List.nodup_cons] at h3 ⊢
    refine ⟨?_, ?_⟩
    · intro hm
      rcases List.mem_append.mp hm with e | e
      · exact h3.1 e
      · exact hnh (List.mem_singleton.mp e).symm
    · exact List.Nodup.append h3.2 (List.nodup_singleton n)
        (by intro a ha hb; rw [List.mem_singleton.mp hb] at ha; exact hnx ha)

theorem is_list_del (h : Nat → list_head) (head : Nat) (xs : List Nat) (x : Nat)
    (ys : List Nat) (hl : is_list h head (xs ++ x :: ys)) :
    is_list (__list_del h (h x).prev (h x).next) head (xs ++ ys) := by
  have hp := is_list_prev_mem h head xs x ys hl
  have hn := is_list_next_mem h head xs x ys hl
  obtain ⟨h1, h2, h3⟩ := hl
  refine ⟨?_, ?_, ?_⟩
  · rw [nextf___list_del, hp]
    exact links_delete (nextf h) xs head x ys head h1 h3
  · rw [prevf___list_del, hn, ← last_from_reverse, List.reverse_append]
    have h2b : links (prevf h) head (ys.reverse ++ x :: xs.reverse) head := by
      rw [List.reverse_append, List.reverse_cons, List.append_assoc,
        List.singleton_append] at h2
      exact h2
    have hnd : (head :: (ys.reverse ++ x :: xs.reverse)).Nodup := by
      have e : ys.reverse ++ x :: xs.reverse = (xs ++ x :: ys).reverse := by simp
      rw [e]
      exact List.nodup_cons.mpr ⟨fun hm => (List.nodup_cons.mp h3).1 (List.mem_reverse.mp hm),
        List.nodup_reverse.mpr (List.nodup_cons.mp h3).2⟩
    have hpx : (h x).prev = prevf h x := rfl
    rw [hpx]
    exact links_delete (prevf h) ys.reverse head x xs.reverse head h2b hnd
  · refine List.Nodup.sublist ?_ h3
    exact List.Sublist.cons₂ _ (List.Sublist.append (List.Sublist.refl _)
      (List.sublist_cons_self _ _))

theorem headD_mem (ys : List Nat) (a : Nat) : ys.headD a ∈ a :: ys := by
  cases ys with
  | nil => simp
  | cons y ys => simp

/-- `list_move` of a node of one list to the front of another, disjoint list. -/
theorem is_list_move (h : Nat → list_head) (A B : Nat) (xs : List Nat) (x : Nat)
    (ys zs : List Nat) (hA : is_list h A (xs ++ x :: ys)) (hB : is_list h B zs)
    (hdisj : ∀ a, a ∈ A :: (xs ++ x :: ys) → a ∉ B :: zs) :
    is_list (list_move h x B) A (xs ++ ys) ∧ is_list (list_move h x B) B (x :: zs) ∧
      list_move h x B x = { next := zs.headD B, prev := B } ∧
      ∀ a, a ∉ A :: (xs ++ x :: ys) → a ∉ B :: zs → list_move h x B a = h a := by
  have hp := is_list_prev_mem h A xs x ys hA
  have hn := is_list_next_mem h A xs x ys hA
  have hpm : (h x).prev ∈ A :: (xs ++ x :: ys) := by
    rw [hp]
    rcases List.mem_cons.mp (last_from_mem xs A) with e | e
    · rw [e]; exact List.mem_cons_self _ _
    · exact List.mem_cons_of_mem _ (List.mem_append_left _ e)
  have hnm : (h x).next ∈ A :: (xs ++ x :: ys) := by
    rw [hn]
    rcases List.mem_cons.mp (headD_mem ys A) with e | e
    · rw [e]; exact List.mem_cons_self _ _
    · exact List.mem_cons_of_mem _ (List.mem_append_right _ (List.mem_cons_of_mem _ e))
  have hxm : x ∈ A :: (xs ++ x :: ys) :=
    List.mem_cons_of_mem _ (List.mem_append_right _ (List.mem_cons_self _ _))
  have hxB : x ∉ B :: zs := hdisj x hxm
  have hA1 : is_list (__list_del h (h x).prev (h x).next) A (xs ++ ys) :=
    is_list_del h A xs x ys hA
  have hB1 : is_list (__list_del h (h x).prev (h x).next) B zs := by
    refine is_list_congr h _ B zs ?_ hB
    intro b hb
    exact __list_del_other h _ _ b (fun e => hdisj _ hpm (e ▸ hb)) (fun e => hdisj _ hnm (e ▸ hb))
  have hB1n := is_list_next_head _ B zs hB1
  have hfm : (__list_del h (h x).prev (h x).next B).next ∈ B :: zs := by
    rw [hB1n]; exact headD_mem zs B
  have hxA : x ∉ A :: (xs ++ ys) := by
    have hnd := hA.2.2
    intro hm
    rcases List.mem_cons.mp hm with e | e
    · exact (List.nodup_cons.mp hnd).1 (e ▸ List.mem_append_right _ (List.mem_cons_self _ _))
    · have h2 := (List.nodup_cons.mp hnd).2
      rw [List.nodup_append] at h2
      rcases List.mem_append.mp e with e1 | e1
      · exact h2.2.2 e1 (List.mem_cons_self _ _)
      · exact (List.nodup_cons.mp h2.2.1).1 e1
  have hsub : ∀ a, a ∈ A :: (xs ++ ys) → a ∈ A :: (xs ++ x :: ys) := by
    intro a ha
    rcases List.mem_cons.mp ha with e | e
    · rw [e]; exact List.mem_cons_self _ _
    · refine List.mem_cons_of_mem _ ?_
      rcases List.mem_append.mp e with e1 | e1
      · exact List.mem_append_left _ e1
      · exact List.mem_append_right _ (List.mem_cons_of_mem _ e1)
  have hxne : x ≠ B := fun e => hxB (e ▸ List.mem_cons_self _ _)
  refine ⟨?_, is_list_add _ B zs x hB1 hxB, ?_, ?_⟩
  · refine is_list_congr _ _ A (xs ++ ys) ?_ hA1
    intro a ha
    have haB : a ∉ B :: zs := hdisj a (hsub a ha)
    exact __list_add_other _ _ _ _ a (fun e => hxA (e ▸ ha))
      (fun e => haB (e ▸ List.mem_cons_self _ _)) (fun e => haB (e ▸ hfm))
  · apply list_head_ext
    · have : nextf (list_move h x B) x = zs.headD B := by
        rw [list_move, list_add, nextf___list_add, Function.update_noteq hxne,
          Function.update_same, hB1n]
      exact this
    · have : prevf (list_move h x B) x = B := by
        rw [list_move, list_add, prevf___list_add, Function.update_same]
      exact this
  · intro a ha hb
    have hax : a ≠ x := fun e => ha (e ▸ hxm)
    rw [list_move, list_add, __list_add_other _ _ _ _ a hax
      (fun e => hb (e ▸ List.mem_cons_self _ _)) (fun e => hb (e ▸ hfm))]
    exact __list_del_other h _ _ a (fun e => ha (e ▸ hpm)) (fun e => ha (e ▸ hnm))

/-! ## Lemmas on `memset` -/

theorem memset_bytes_apply :
    ∀ (count : Nat) (m : Nat → Nat) (s8 c8 x : Nat),
      memset_bytes count m s8 c8 x = if s8 ≤ x ∧ x < s8 + count then c8 else m x := by
  intro count
  induction count with
  | zero =>
    intro m s8 c8 x
    have : ¬ (s8 ≤ x ∧ x < s8 + 0) := by omega
    rw [if_neg this]; rfl
  | succ n ih =>
    intro m s8 c8 x
    simp only [memset_bytes]
    rw [ih]
    by_cases h1 : s8 + 1 ≤ x ∧ x < s8 + 1 + n
    · have h2 : s8 ≤ x ∧ x < s8 + (n + 1) := by omega
      rw [if_pos h1, if_pos h2]
    · rw [if_neg h1]
      by_cases h3 : x = s8
      · have h2 : s8 ≤ x ∧ x < s8 + (n + 1) := by omega
        rw [if_pos h2]; simp [store_byte, h3]
      · have h2 : ¬ (s8 ≤ x ∧ x < s8 + (n + 1)) := by omega
        rw [if_neg h2]; simp [store_byte, h3]

theorem store_word_zero (m : Nat → Nat) (a x : Nat) :
    store_word m a 0 x = if a ≤ x ∧ x < a + 8 then 0 else m x := by
  simp [store_word]

/-- The word loop with fill word 0. -/
theorem memset_words_zero :
    ∀ (n : Nat) (m : Nat → Nat) (sl count : Nat), count / 8 ≤ n →
      (memset_words n m sl 0 count).2.1 = sl + 8 * (count / 8) ∧
      (memset_words n m sl 0 count).2.2 = count % 8 ∧
      ∀ x, (memset_words n m sl 0 count).1 x =
        if sl ≤ x ∧ x < sl + 8 * (count / 8) then 0 else m x := by
  intro n
  induction n with
  | zero =>
    intro m sl count hn
    have h0 : count / 8 = 0 := by omega
    have h1 : count % 8 = count := by omega
    refine ⟨by simp [memset_words, h0], by simp [memset_words, h1], ?_⟩
    intro x
    have : ¬ (sl ≤ x ∧ x < sl + 8 * (count / 8)) := by omega
    rw [if_neg this]; rfl
  | succ n ih =>
    intro m sl count hn
    by_cases hc : count ≥ 8
    · simp only [memset_words, hc, if_true]
      obtain ⟨r1, r2, r3⟩ := ih (store_word m sl 0) (sl + 8) (count - 8) (by omega)
      have e1 : (count - 8) / 8 + 1 = count / 8 := by omega
      refine ⟨by rw [r1]; omega, by rw [r2]; omega, ?_⟩
      intro x
      rw [r3 x, store_word_zero]
      by_cases h1 : sl + 8 ≤ x ∧ x < sl + 8 + 8 * ((count - 8) / 8)
      · have h2 : sl ≤ x ∧ x < sl + 8 * (count / 8) := by omega
        rw [if_pos h1, if_pos h2]
      · rw [if_neg h1]
        by_cases h3 : sl ≤ x ∧ x < sl + 8
        · have h2 : sl ≤ x ∧ x < sl + 8 * (count / 8) := by omega
          rw [if_pos h3, if_pos h2]
        · have h2 : ¬ (sl ≤ x ∧ x < sl + 8 * (count / 8)) := by omega
          rw [if_neg h3, if_neg h2]
    · have h0 : count / 8 = 0 := by omega
      have h1 : count % 8 = count := by omega
      simp only [memset_words, hc, if_false]
      refine ⟨by simp [h0], by simp [h1], ?_⟩
      intro x
      have : ¬ (sl ≤ x ∧ x < sl + 8 * (count / 8)) := by omega
      rw [if_neg this]

/-- `memset(s, 0, count)` zeroes exactly the bytes `s .. s + count - 1`. -/
theorem memset_zero_apply (m : Nat → Nat) (s count x : Nat) :
    memset m s 0 count x = if s ≤ x ∧ x < s + count then 0 else m x := by
  unfold memset
  have hc8 : ((0 : Int) % 256).toNat = 0 := by decide
  have hcl : memset_fill_word 8 0 0 = 0 := by decide
  simp only [hc8, hcl]
  by_cases hal : s % 8 = 0
  · simp only [hal, if_true]
    obtain ⟨r1, r2, r3⟩ := memset_words_zero count m s count (by omega)
    generalize memset_words count m s 0 count = res at r1 r2 r3
    obtain ⟨m1, sl, count1⟩ := res
    simp only at r1 r2 r3
    simp only []
    rw [memset_bytes_apply, r3 x, r1, r2]
    by_cases h1 : s + 8 * (count / 8) ≤ x ∧ x < s + 8 * (count / 8) + count % 8
    · have h2 : s ≤ x ∧ x < s + count := by omega
      rw [if_pos h1, if_pos h2]
    · rw [if_neg h1]
      by_cases h3 : s ≤ x ∧ x < s + 8 * (count / 8)
      · have h2 : s ≤ x ∧ x < s + count := by omega
        rw [if_pos h3, if_pos h2]
      · have h2 : ¬ (s ≤ x ∧ x < s + count) := by omega
        rw [if_neg h3, if_neg h2]
  · simp only [hal, if_false]
    rw [memset_bytes_apply]

/-! ## Lemmas on the zone allocator -/

theorem set_zone_same (zones : Nat → zone_t) (a : Nat) (z : zone_t) :
    set_zone zones a z a = z := by
  simp [set_zone]

theorem zone_heads_ne (zone : Nat) : zone + ZONE_FREE_ELEMS ≠ zone + ZONE_USED_ELEMS := by
  simp [ZONE_FREE_ELEMS, ZONE_USED_ELEMS]

theorem zalloc_eq (s : zone_mem) (zone : Nat) :
    zalloc s zone = .ok (zalloc_state s zone)
      ((s.lists (zone + ZONE_FREE_ELEMS)).next + ZONE_ALLOC_METADATA_SIZE) := rfl

theorem zone_lists_symm_disj (s : zone_mem) (zone : Nat) (fs us : List Nat)
    (hz : zone_lists s zone fs us) :
    ∀ a, a ∈ (zone + ZONE_USED_ELEMS) :: us → a ∉ (zone + ZONE_FREE_ELEMS) :: fs :=
  fun a ha hb => hz.2.2 a hb ha

/-- `zalloc` on a zone whose free list starts with `m`. -/
theorem zalloc_lists (s : zone_mem) (zone m : Nat) (fs us : List Nat)
    (hz : zone_lists s zone (m :: fs) us) :
    (s.lists (zone + ZONE_FREE_ELEMS)).next = m ∧
      zone_lists (zalloc_state s zone) zone fs (m :: us) := by
  obtain ⟨hf, hu, hd⟩ := hz
  have hm : (s.lists (zone + ZONE_FREE_ELEMS)).next = m := by
    have := is_list_next_head _ _ _ hf
    simpa using this
  refine ⟨hm, ?_⟩
  have hmv := is_list_move s.lists (zone + ZONE_FREE_ELEMS) (zone + ZONE_USED_ELEMS) [] m fs us
    (by simpa using hf) hu (by simpa using hd)
  simp only [List.nil_append] at hmv
  refine ⟨?_, ?_, ?_⟩
  · simp only [zalloc_state, hm]; exact hmv.1
  · simp only [zalloc_state, hm]; exact hmv.2.1
  · intro a ha hb
    have ha2 : a ∈ (zone + ZONE_FREE_ELEMS) :: m :: fs := by
      rcases List.mem_cons.mp ha with e | e
      · rw [e]; exact List.mem_cons_self _ _
      · exact List.mem_cons_of_mem _ (List.mem_cons_of_mem _ e)
    rcases List.mem_cons.mp hb with e | e
    · exact hd a ha2 (e ▸ List.mem_cons_self _ _)
    · rcases List.mem_cons.mp e with e1 | e1
      · have hnd := hf.2.2
        rw [e1] at ha
        rcases List.mem_cons.mp ha with e2 | e2
        · exact (List.nodup_cons.mp hnd).1 (e2 ▸ List.mem_cons_self _ _)
        · exact (List.nodup_cons.mp (List.nodup_cons.mp hnd).2).1 e2
      · exact hd a ha2 (List.mem_cons_of_mem _ e1)

/-- The loop of `zfree` reaches the node `m` and frees it. -/
theorem zfree_loop_found (s : zone_mem) (zone addr m : Nat) (us2 : List Nat) :
    ∀ (us1 : List Nat) (a fuel : Nat),
      links (nextf s.lists) a (us1 ++ m :: us2) (zone + ZONE_USED_ELEMS) →
      (∀ x, x ∈ us1 ++ m :: us2 → x ≠ zone + ZONE_USED_ELEMS) → m ∉ us1 →
      us1.length < fuel →
      zfree_loop s zone addr m fuel (s.lists a).next
        = some (.ok (zfree_state s zone addr m) ()) := by
  intro us1
  induction us1 with
  | nil =>
    intro a fuel hl hne _ hfuel
    obtain ⟨n, rfl⟩ : ∃ n, fuel = n + 1 := ⟨fuel - 1, by simp at hfuel; omega⟩
    simp only [List.nil_append, links] at hl
    have h1 : (s.lists a).next = m := hl.1
    have h2 : m ≠ zone + ZONE_USED_ELEMS := hne m (by simp)
    simp only [zfree_loop, h1, h2, if_false, if_true, zfree_state]
  | cons x us1 ih =>
    intro a fuel hl hne hm hfuel
    obtain ⟨n, rfl⟩ : ∃ n, fuel = n + 1 := ⟨fuel - 1, by simp at hfuel; omega⟩
    simp only [List.cons_append, links] at hl
    have h1 : (s.lists a).next = x := hl.1
    have h2 : x ≠ zone + ZONE_USED_ELEMS := hne x (by simp)
    have h3 : x ≠ m := fun e => hm (e ▸ List.mem_cons_self _ _)
    have h4 : (s.lists x).next = (us1 ++ m :: us2).headD (zone + ZONE_USED_ELEMS) :=
      links_head _ _ _ _ hl.2
    have h5 : (s.lists x).next ≠ zone + ZONE_USED_ELEMS := by
      rw [h4]
      cases us1 with
      | nil => simpa using hne m (by simp)
      | cons y ys => simpa using hne y (by simp)
    simp only [zfree_loop, h1, h2, h3, list_is_last, h5, if_false, decide_False,
      Bool.false_eq_true]
    exact ih x n hl.2 (fun y hy => hne y (List.mem_cons_of_mem _ hy))
      (fun hmm => hm (List.mem_cons_of_mem _ hmm)) (by simp at hfuel ⊢; omega)

/-- The loop of `zfree` on a non-empty used list that lacks the node panics at the
last node, before anything has been written. -/
theorem zfree_loop_missing (s : zone_mem) (zone addr m : Nat) :
    ∀ (us : List Nat) (a fuel : Nat), us ≠ [] →
      links (nextf s.lists) a us (zone + ZONE_USED_ELEMS) →
      (∀ x, x ∈ us → x ≠ zone + ZONE_USED_ELEMS ∧ x ≠ m) → us.length ≤ fuel →
      zfree_loop s zone addr m fuel (s.lists a).next
        = some (.panic s (.zfree_not_in_zone addr (s.zones zone).name)) := by
  intro us
  induction us with
  | nil => intro a fuel h; exact absurd rfl h
  | cons x us ih =>
    intro a fuel _ hl hne hfuel
    obtain ⟨n, rfl⟩ : ∃ n, fuel = n + 1 := ⟨fuel - 1, by simp at hfuel; omega⟩
    simp only [links] at hl
    have h1 : (s.lists a).next = x := hl.1
    have h2 := hne x (List.mem_cons_self _ _)
    cases us with
    | nil =>
      have h3 : (s.lists x).next = zone + ZONE_USED_ELEMS := by
        simpa [links] using hl.2
      simp only [zfree_loop, h1, h2.1, h2.2, list_is_last, h3, if_false, decide_True, if_true]
    | cons y ys =>
      have h3 : (s.lists x).next = y := by
        have := hl.2; simp only [links] at this; exact this.1
      have h4 : y ≠ zone + ZONE_USED_ELEMS := (hne y (by simp)).1
      simp only [zfree_loop, h1, h2.1, h2.2, list_is_last, h3, h4, if_false, decide_False,
        Bool.false_eq_true]
      have := ih x n (by simp) hl.2 (fun z hz => hne z (List.mem_cons_of_mem _ hz))
        (by simp at hfuel ⊢; omega)
      rw [h3] at this
      exact this

theorem nodup_middle_not_mem_left (xs : List Nat) (x : Nat) (ys : List Nat)
    (h : (xs ++ x :: ys).Nodup) : x ∉ xs := by
  rw [List.nodup_append] at h
  exact fun hm => h.2.2 hm (List.mem_cons_self _ _)

/-- `zfree` of the element whose metadata node `m` is on the used list. -/
theorem zfree_lists (s : zone_mem) (zone m : Nat) (fs us1 us2 : List Nat) (fuel : Nat)
    (hz : zone_lists s zone fs (us1 ++ m :: us2)) (hfuel : (us1 ++ m :: us2).length < fuel) :
    zfree fuel s zone (m + ZONE_ALLOC_METADATA_SIZE)
        = some (.ok (zfree_state s zone (m + ZONE_ALLOC_METADATA_SIZE) m) ()) ∧
      zone_lists (zfree_state s zone (m + ZONE_ALLOC_METADATA_SIZE) m) zone (m :: fs)
        (us1 ++ us2) ∧
      (zfree_state s zone (m + ZONE_ALLOC_METADATA_SIZE) m).lists m
        = { next := fs.headD (zone + ZONE_FREE_ELEMS), prev := zone + ZONE_FREE_ELEMS } := by
  obtain ⟨hf, hu, hd⟩ := hz
  have hnd := hu.2.2
  have hne : ∀ x, x ∈ us1 ++ m :: us2 → x ≠ zone + ZONE_USED_ELEMS :=
    fun x hx e => (List.nodup_cons.mp hnd).1 (e ▸ hx)
  have hm1 : m ∉ us1 := nodup_middle_not_mem_left us1 m us2 (List.nodup_cons.mp hnd).2
  have hloop := zfree_loop_found s zone (m + ZONE_ALLOC_METADATA_SIZE) m us2 us1
    (zone + ZONE_USED_ELEMS) fuel hu.1 hne hm1
    (by rw [List.length_append, List.length_cons] at hfuel; omega)
  have hmv := is_list_move s.lists (zone + ZONE_USED_ELEMS) (zone + ZONE_FREE_ELEMS) us1 m us2 fs
    hu hf (fun a ha hb => hd a hb ha)
  refine ⟨?_, ⟨hmv.2.1, hmv.1, ?_⟩, hmv.2.2.1⟩
  · simp only [zfree, Nat.add_sub_cancel]
    exact hloop
  · intro a ha hb
    have hmu : m ∈ (zone + ZONE_USED_ELEMS) :: (us1 ++ m :: us2) :=
      List.mem_cons_of_mem _ (List.mem_append_right _ (List.mem_cons_self _ _))
    have hb2 : a ∈ (zone + ZONE_USED_ELEMS) :: (us1 ++ m :: us2) := by
      rcases List.mem_cons.mp hb with e | e
      · rw [e]; exact List.mem_cons_self _ _
      · refine List.mem_cons_of_mem _ ?_
        rcases List.mem_append.mp e with e1 | e1
        · exact List.mem_append_left _ e1
        · exact List.mem_append_right _ (List.mem_cons_of_mem _ e1)
    rcases List.mem_cons.mp ha with e | e
    · exact hd a (e ▸ List.mem_cons_self _ _) hb2
    · rcases List.mem_cons.mp e with e1 | e1
      · rw [e1] at hb
        rcases List.mem_cons.mp hb with e2 | e2
        · exact hne m (List.mem_append_right _ (List.mem_cons_self _ _)) e2
        · have h2 := (List.nodup_cons.mp hnd).2
          rw [List.nodup_append] at h2
          rcases List.mem_append.mp e2 with e3 | e3
          · exact hm1 e3
          · exact (List.nodup_cons.mp h2.2.1).1 e3
      · exact hd a (List.mem_cons_of_mem _ e1) hb2

/-- `zfree` on a zone whose used list is empty falls through its loop. -/
theorem zfree_used_empty (s : zone_mem) (zone addr : Nat) (fs : List Nat) (fuel : Nat)
    (hz : zone_lists s zone fs []) : zfree (fuel + 1) s zone addr = some (.ok s ()) := by
  have h1 : (s.lists (zone + ZONE_USED_ELEMS)).next = zone + ZONE_USED_ELEMS := by
    have := is_list_next_head _ _ _ hz.2.1
    simpa using this
  simp [zfree, zfree_loop, h1]

/-- `zfree` of an address whose metadata node is not on a non-empty used list. -/
theorem zfree_not_used (s : zone_mem) (zone addr : Nat) (fs us : List Nat) (fuel : Nat)
    (hz : zone_lists s zone fs us) (hus : us ≠ [])
    (hm : addr - ZONE_ALLOC_METADATA_SIZE ∉ us) (hfuel : us.length ≤ fuel) :
    zfree fuel s zone addr = some (.panic s (.zfree_not_in_zone addr (s.zones zone).name)) := by
  have hnd := hz.2.1.2.2
  refine zfree_loop_missing s zone addr _ us (zone + ZONE_USED_ELEMS) fuel hus hz.2.1.1 ?_ hfuel
  intro x hx
  exact ⟨fun e => (List.nodup_cons.mp hnd).1 (e ▸ hx), fun e => hm (e ▸ hx)⟩

/-! ### `zone_create` -/

theorem zone_create_find_first (s : zone_mem) (j : Nat)
    (hj : (s.zones (s.zone_array + j * ZONE_T_SIZE)).state = ZONE_STATE_UNUSED) :
    ∀ (n i : Nat), i ≤ j → j < i + n →
      (∀ k, i ≤ k → k < j → (s.zones (s.zone_array + k * ZONE_T_SIZE)).state ≠ ZONE_STATE_UNUSED) →
      zone_create_find s n i = (j, some (s.zone_array + j * ZONE_T_SIZE)) := by
  intro n
  induction n with
  | zero => intro i h1 h2; omega
  | succ n ih =>
    intro i h1 h2 hmin
    rcases Nat.eq_or_lt_of_le h1 with e | e
    · subst e
      simp [zone_create_find, hj]
    · have := hmin i (le_refl _) e
      simp only [zone_create_find, this, if_false]
      exact ih (i + 1) (by omega) (by omega) (fun k hk1 hk2 => hmin k (by omega) hk2)

theorem list_add_tail_other (h : Nat → list_head) (head : Nat) (xs : List Nat) (n a : Nat)
    (hl : is_list h head xs) (ha : a ∉ head :: xs) (han : a ≠ n) :
    list_add_tail h n head a = h a := by
  have hp := is_list_prev_head h head xs hl
  refine __list_add_other h _ _ _ a han ?_ (fun e => ha (e ▸ List.mem_cons_self _ _))
  intro e
  apply ha
  rw [e, hp]
  exact last_from_mem xs head

theorem zone_slot_inj (base size k1 k2 : Nat) (h : zone_slot base size k1 = zone_slot base size k2) :
    k1 = k2 := by
  simp only [zone_slot, ZONE_ALLOC_METADATA_SIZE] at h
  have h2 : k1 * (size + 16) = k2 * (size + 16) := by omega
  exact Nat.eq_of_mul_eq_mul_right (by omega) h2

/-- The carving loop appends the slots `i, i + 1, ..., i + n - 1` to the free list
and writes nothing outside that list. -/
theorem zone_create_carve_spec (head base size : Nat) :
    ∀ (n : Nat) (h : Nat → list_head) (i : Nat) (xs : List Nat),
      is_list h head xs →
      (∀ k, i ≤ k → k < i + n → zone_slot base size k ∉ head :: xs) →
      is_list (zone_create_carve head base (size + ZONE_ALLOC_METADATA_SIZE) n h i) head
        (xs ++ (List.range' i n).map (zone_slot base size)) ∧
      ∀ a, a ∉ head :: (xs ++ (List.range' i n).map (zone_slot base size)) →
        zone_create_carve head base (size + ZONE_ALLOC_METADATA_SIZE) n h i a = h a := by
  intro n
  induction n with
  | zero =>
    intro h i xs hl _
    simp only [List.range'_zero, List.map_nil, List.append_nil]
    exact ⟨hl, fun _ _ => rfl⟩
  | succ n ih =>
    intro h i xs hl hfresh
    have hslot : base + i * (size + ZONE_ALLOC_METADATA_SIZE) = zone_slot base size i := rfl
    simp only [zone_create_carve, hslot, List.range'_succ, List.map_cons]
    have hi := hfresh i (le_refl _) (by omega)
    have hl1 := is_list_add_tail h head xs (zone_slot base size i) hl hi
    have hfresh1 : ∀ k, i + 1 ≤ k → k < i + 1 + n →
        zone_slot base size k ∉ head :: (xs ++ [zone_slot base size i]) := by
      intro k hk1 hk2 hm
      rcases List.mem_cons.mp hm with e | e
      · exact hfresh k (by omega) (by omega) (e ▸ List.mem_cons_self _ _)
      · rcases List.mem_append.mp e with e1 | e1
        · exact hfresh k (by omega) (by omega) (List.mem_cons_of_mem _ e1)
        · have := zone_slot_inj base size k i (List.mem_singleton.mp e1)
          omega
    obtain ⟨r1, r2⟩ := ih (list_add_tail h (zone_slot base size i) head) (i + 1)
      (xs ++ [zone_slot base size i]) hl1 hfresh1
    have e : xs ++ [zone_slot base size i] ++ (List.range' (i + 1) n).map (zone_slot base size)
        = xs ++ zone_slot base size i :: (List.range' (i + 1) n).map (zone_slot base size) := by
      simp
    rw [e] at r1 r2
    refine ⟨r1, ?_⟩
    intro a ha
    rw [r2 a ha]
    refine list_add_tail_other h head xs _ a hl ?_ ?_
    · intro hm; apply ha
      rcases List.mem_cons.mp hm with e1 | e1
      · rw [e1]; exact List.mem_cons_self _ _
      · exact List.mem_cons_of_mem _ (List.mem_append_left _ e1)
    · intro e1; apply ha
      rw [e1]
      exact List.mem_cons_of_mem _ (List.mem_append_right _ (List.mem_cons_self _ _))

theorem INIT_LIST_HEAD_other (h : Nat → list_head) (list a : Nat) (ha : a ≠ list) :
    INIT_LIST_HEAD h list a = h a := by
  simp [INIT_LIST_HEAD, set_prev, set_next, ha]

/-- `zone_create` with valid sizes, `j` the first unused entry of `zone_array`, and
a backing region whose slots lie outside `zone_array`. -/
theorem zone_create_ok (s : zone_mem) (size max : Nat) (name : String) (base j : Nat)
    (hsize : size ≠ 0) (hmax : max ≠ 0) (hj : j < MAX_NUM_ZONES)
    (hun : (s.zones (s.zone_array + j * ZONE_T_SIZE)).state = ZONE_STATE_UNUSED)
    (hmin : ∀ k, k < j → (s.zones (s.zone_array + k * ZONE_T_SIZE)).state ≠ ZONE_STATE_UNUSED)
    (hfresh : ∀ k, k < max / size →
      zone_slot base size k + ZONE_ALLOC_METADATA_SIZE ≤ s.zone_array ∨
      s.zone_array + MAX_NUM_ZONES * ZONE_T_SIZE ≤ zone_slot base size k) :
    zone_create s size max name base
        = .ok (zone_create_state s size max name base j (s.zone_array + j * ZONE_T_SIZE))
          (s.zone_array + j * ZONE_T_SIZE) ∧
      zone_lists (zone_create_state s size max name base j (s.zone_array + j * ZONE_T_SIZE))
        (s.zone_array + j * ZONE_T_SIZE)
        ((List.range (max / size)).map (zone_slot base size)) [] := by
  have hfind := zone_create_find_first s j hun MAX_NUM_ZONES 0 (Nat.zero_le _) (by omega)
    (fun k _ hk => hmin k hk)
  have hne : ∀ k, k < max / size →
      zone_slot base size k ≠ s.zone_array + j * ZONE_T_SIZE + ZONE_FREE_ELEMS ∧
      zone_slot base size k ≠ s.zone_array + j * ZONE_T_SIZE + ZONE_USED_ELEMS := by
    intro k hk
    have := hfresh k hk
    simp only [MAX_NUM_ZONES, ZONE_T_SIZE, ZONE_ALLOC_METADATA_SIZE, ZONE_FREE_ELEMS,
      ZONE_USED_ELEMS] at this hj ⊢
    omega
  have hinit_u : is_list (INIT_LIST_HEAD (INIT_LIST_HEAD s.lists
      (s.zone_array + j * ZONE_T_SIZE + ZONE_FREE_ELEMS))
      (s.zone_array + j * ZONE_T_SIZE + ZONE_USED_ELEMS))
      (s.zone_array + j * ZONE_T_SIZE + ZONE_USED_ELEMS) [] := is_list_init _ _
  have hinit_f : is_list (INIT_LIST_HEAD (INIT_LIST_HEAD s.lists
      (s.zone_array + j * ZONE_T_SIZE + ZONE_FREE_ELEMS))
      (s.zone_array + j * ZONE_T_SIZE + ZONE_USED_ELEMS))
      (s.zone_array + j * ZONE_T_SIZE + ZONE_FREE_ELEMS) [] := by
    refine is_list_congr _ _ _ [] ?_ (is_list_init s.lists _)
    intro x hx
    have hx1 : x = s.zone_array + j * ZONE_T_SIZE + ZONE_FREE_ELEMS := by simpa using hx
    rw [hx1]
    exact INIT_LIST_HEAD_other _ _ _ (zone_heads_ne _)
  obtain ⟨c1, c2⟩ := zone_create_carve_spec (s.zone_array + j * ZONE_T_SIZE + ZONE_FREE_ELEMS)
    base size (max / size) _ 0 [] hinit_f
    (by
      intro k _ hk
      have := (hne k (by omega)).1
      simpa using this)
  simp only [List.nil_append, ← List.range_eq_range'] at c1 c2
  refine ⟨?_, ?_⟩
  · simp only [zone_create, hfind, hsize, hmax, if_false]
    rfl
  · refine ⟨c1, ?_, ?_⟩
    · refine is_list_congr _ _ _ [] ?_ hinit_u
      intro x hx
      have hx1 : x = s.zone_array + j * ZONE_T_SIZE + ZONE_USED_ELEMS := by simpa using hx
      rw [hx1]
      refine c2 _ ?_
      intro hm
      rcases List.mem_cons.mp hm with e | e
      · exact zone_heads_ne _ e.symm
      · obtain ⟨k, hk1, hk2⟩ := List.mem_map.mp e
        exact (hne k (List.mem_range.mp hk1)).2 hk2
    · intro a ha hb
      have hb1 : a = s.zone_array + j * ZONE_T_SIZE + ZONE_USED_ELEMS := by simpa using hb
      rcases List.mem_cons.mp ha with e | e
      · exact zone_heads_ne _ (e.symm.trans hb1)
      · obtain ⟨k, hk1, hk2⟩ := List.mem_map.mp e
        exact (hne k (List.mem_range.mp hk1)).2 (hk2.trans hb1)

/-! ## Theorems on the zone allocator -/

/-- C4: for every well-formed zone whose free list is non-empty, with first node
`m`, `zalloc` returns `m + sizeof(metadata)`, takes `m` off the free list and puts
it on the used list, leaves every other node on the list it was on, increases
`count` by one and decreases `count_free` by one. -/
theorem zalloc_moves_first_free (s : zone_mem) (zone m : Nat) (fs us : List Nat)
    (hz : zone_lists s zone (m :: fs) us) :
    ∃ s1, zalloc s zone = .ok s1 (m + ZONE_ALLOC_METADATA_SIZE) ∧
      zone_lists s1 zone fs (m :: us) ∧
      (s1.zones zone).count = (s.zones zone).count + 1 ∧
      (s1.zones zone).count_free = (s.zones zone).count_free - 1 := by
  obtain ⟨hm, hl⟩ := zalloc_lists s zone m fs us hz
  refine ⟨zalloc_state s zone, ?_, hl, ?_, ?_⟩
  · rw [zalloc_eq, hm]
  · simp [zalloc_state, set_zone_same]
  · simp [zalloc_state, set_zone_same]

/-- C4 witness: the freshly created zone of `zalloc_tests`, whose free list starts
with slot 0. -/
theorem zalloc_moves_first_free_witness :
    zone_lists zone_demo 0xfffffff000200000
      (0xfffffff000300000 :: (List.range' 1 9).map (zone_slot 0xfffffff000300000 16)) [] ∧
    ∃ s1, zalloc zone_demo 0xfffffff000200000
        = .ok s1 (0xfffffff000300000 + ZONE_ALLOC_METADATA_SIZE) ∧
      zone_lists s1 0xfffffff000200000
        ((List.range' 1 9).map (zone_slot 0xfffffff000300000 16)) [0xfffffff000300000] ∧
      (s1.zones 0xfffffff000200000).count = (zone_demo.zones 0xfffffff000200000).count + 1 ∧
      (s1.zones 0xfffffff000200000).count_free
        = (zone_demo.zones 0xfffffff000200000).count_free - 1 :=
  ⟨by decide, zalloc_moves_first_free zone_demo 0xfffffff000200000 0xfffffff000300000
    ((List.range' 1 9).map (zone_slot 0xfffffff000300000 16)) [] (by decide)⟩

/-- C5 (evaluation at the failing input): `zone_create(16, 160)` followed by eleven
calls of `zalloc`.  The zone has capacity 10; after the eleventh call `count` is 11
and `count_free` is -1, the traversal of the used list meets the head of the free
list followed by the ten slots, and the traversal of the free list meets the same
ten slots followed by the head of the used list: every slot is on both lists. -/
theorem zone_invariant_broken_by_eleventh_zalloc :
    zone_create zone_mem_boot 16 160 "test_element" 0xfffffff000300000
      = .ok zone_demo 0xfffffff000200000 ∧
    zone_demo_full = zalloc_times 0xfffffff000200000 10 zone_demo ∧
    zalloc zone_demo_full 0xfffffff000200000
      = .ok zone_demo_over (0xfffffff000200000 + ZONE_USED_ELEMS) ∧
    (zone_demo_over.zones 0xfffffff000200000).count = 11 ∧
    (zone_demo_over.zones 0xfffffff000200000).count_free = -1 ∧
    list_nodes zone_demo_over.lists (0xfffffff000200000 + ZONE_USED_ELEMS) 20
      = (0xfffffff000200000 + ZONE_FREE_ELEMS)
          :: (List.range 10).reverse.map (zone_slot 0xfffffff000300000 16) ∧
    list_nodes zone_demo_over.lists (0xfffffff000200000 + ZONE_FREE_ELEMS) 20
      = (List.range 10).reverse.map (zone_slot 0xfffffff000300000 16)
          ++ [0xfffffff000200000 + ZONE_USED_ELEMS] :=
  ⟨rfl, rfl, rfl, by decide, by decide, by decide, by decide⟩

/-- C6 (evaluation at the failing input): in the zone of `zalloc_tests` with all ten
slots in use (`count_free = 0`, empty free list) `zalloc` does not panic: it
returns the address of the zone's own `used_elems` head and changes both counters;
and no call of `zalloc` ever panics. -/
theorem zalloc_on_exhausted_zone_returns :
    (zone_demo_full.zones 0xfffffff000200000).count_free = 0 ∧
    zone_lists zone_demo_full 0xfffffff000200000 []
      ((List.range 10).reverse.map (zone_slot 0xfffffff000300000 16)) ∧
    (∃ s1, zalloc zone_demo_full 0xfffffff000200000
        = .ok s1 (0xfffffff000200000 + ZONE_USED_ELEMS) ∧
      (s1.zones 0xfffffff000200000).count = 11 ∧
      (s1.zones 0xfffffff000200000).count_free = -1) ∧
    ∀ (s : zone_mem) (zone : Nat), ∃ s1 a, zalloc s zone = .ok s1 a :=
  ⟨by decide, by decide, ⟨zone_demo_over, rfl, by decide, by decide⟩,
    fun s zone => ⟨_, _, zalloc_eq s zone⟩⟩

/-- C7 (evaluation at the failing input): allocate one element from the zone of
`zalloc_tests`, free it, free it again.  The second `zfree` finds the used list
empty, falls through its loop and returns without a panic, leaving the state as
it was.  In the scenario of `zalloc_tests` itself (three elements allocated, the
second one freed twice) the used list is not empty and the second `zfree` panics. -/
theorem zfree_twice_returns :
    zalloc zone_demo 0xfffffff000200000 = .ok zone_demo_one 0xfffffff000300010 ∧
    zfree 2 zone_demo_one 0xfffffff000200000 0xfffffff000300010
      = some (.ok zone_demo_one_freed ()) ∧
    zone_lists zone_demo_one_freed 0xfffffff000200000
      ((List.range 10).map (zone_slot 0xfffffff000300000 16)) [] ∧
    zfree 2 zone_demo_one_freed 0xfffffff000200000 0xfffffff000300010
      = some (.ok zone_demo_one_freed ()) ∧
    zfree 4 (zalloc_times 0xfffffff000200000 3 zone_demo) 0xfffffff000200000 0xfffffff000300030
      = some (.ok zone_demo_tests ()) ∧
    zfree 4 zone_demo_tests 0xfffffff000200000 0xfffffff000300030
      = some (.panic zone_demo_tests (.zfree_not_in_zone 0xfffffff000300030 "test_element")) :=
  ⟨rfl, rfl, by decide, rfl, rfl, rfl⟩

/-- C8 (amended): for every element address `m + sizeof(metadata)` currently
allocated from a well-formed zone, `zfree` returns, sets all `elem_size` bytes of
the element body to zero and changes no other byte through its `memset`; the
slot's metadata header is rewritten by `list_move`: its `prev` link becomes the
head of the free list and its `next` link the former first free node, so the header
is not what it was before the call. -/
theorem zfree_zeroes_body_relinks_header (s : zone_mem) (zone m : Nat)
    (fs us1 us2 : List Nat) (fuel : Nat)
    (hz : zone_lists s zone fs (us1 ++ m :: us2)) (hfuel : (us1 ++ m :: us2).length < fuel) :
    ∃ s1, zfree fuel s zone (m + ZONE_ALLOC_METADATA_SIZE) = some (.ok s1 ()) ∧
      (∀ x, m + ZONE_ALLOC_METADATA_SIZE ≤ x →
        x < m + ZONE_ALLOC_METADATA_SIZE + (s.zones zone).elem_size → s1.bytes x = 0) ∧
      (∀ x, ¬ (m + ZONE_ALLOC_METADATA_SIZE ≤ x ∧
        x < m + ZONE_ALLOC_METADATA_SIZE + (s.zones zone).elem_size) → s1.bytes x = s.bytes x) ∧
      s1.lists m = { next := fs.headD (zone + ZONE_FREE_ELEMS), prev := zone + ZONE_FREE_ELEMS } ∧
      s1.lists m ≠ s.lists m := by
  obtain ⟨h1, _, h3⟩ := zfree_lists s zone m fs us1 us2 fuel hz hfuel
  refine ⟨_, h1, ?_, ?_, h3, ?_⟩
  · intro x hx1 hx2
    simp only [zfree_state, memset_zero_apply]
    rw [if_pos ⟨hx1, hx2⟩]
  · intro x hx
    simp only [zfree_state, memset_zero_apply]
    rw [if_neg hx]
  · rw [h3]
    intro e
    have hp := is_list_prev_mem s.lists (zone + ZONE_USED_ELEMS) us1 m us2 hz.2.1
    rw [← e] at hp
    have hmem : zone + ZONE_FREE_ELEMS ∈ (zone + ZONE_USED_ELEMS) :: (us1 ++ m :: us2) := by
      have hp2 : zone + ZONE_FREE_ELEMS = last_from (zone + ZONE_USED_ELEMS) us1 := hp
      rw [hp2]
      rcases List.mem_cons.mp (last_from_mem us1 (zone + ZONE_USED_ELEMS)) with e1 | e1
      · rw [e1]; exact List.mem_cons_self _ _
      · exact List.mem_cons_of_mem _ (List.mem_append_left _ e1)
    exact hz.2.2 _ (List.mem_cons_self _ _) hmem

/-- C8 witness: the zone of `zalloc_tests` with all ten slots in use; the element
freed is the fifth one handed out (slot 4). -/
theorem zfree_zeroes_body_relinks_header_witness :
    (zone_lists zone_demo_full 0xfffffff000200000 []
        ((List.range' 5 5).reverse.map (zone_slot 0xfffffff000300000 16)
          ++ 0xfffffff000300080 :: (List.range 4).reverse.map (zone_slot 0xfffffff000300000 16)) ∧
      ((List.range' 5 5).reverse.map (zone_slot 0xfffffff000300000 16)
          ++ 0xfffffff000300080
            :: (List.range 4).reverse.map (zone_slot 0xfffffff000300000 16)).length < 11) ∧
    ∃ s1, zfree 11 zone_demo_full 0xfffffff000200000
        (0xfffffff000300080 + ZONE_ALLOC_METADATA_SIZE) = some (.ok s1 ()) ∧
      (∀ x, 0xfffffff000300080 + ZONE_ALLOC_METADATA_SIZE ≤ x →
        x < 0xfffffff000300080 + ZONE_ALLOC_METADATA_SIZE
          + (zone_demo_full.zones 0xfffffff000200000).elem_size → s1.bytes x = 0) ∧
      (∀ x, ¬ (0xfffffff000300080 + ZONE_ALLOC_METADATA_SIZE ≤ x ∧
        x < 0xfffffff000300080 + ZONE_ALLOC_METADATA_SIZE
          + (zone_demo_full.zones 0xfffffff000200000).elem_size) →
        s1.bytes x = zone_demo_full.bytes x) ∧
      s1.lists 0xfffffff000300080
        = { next := ([] : List Nat).headD (0xfffffff000200000 + ZONE_FREE_ELEMS),
            prev := 0xfffffff000200000 + ZONE_FREE_ELEMS } ∧
      s1.lists 0xfffffff000300080 ≠ zone_demo_full.lists 0xfffffff000300080 :=
  ⟨⟨by decide, by decide⟩,
    zfree_zeroes_body_relinks_header zone_demo_full 0xfffffff000200000 0xfffffff000300080 []
      ((List.range' 5 5).reverse.map (zone_slot 0xfffffff000300000 16))
      ((List.range 4).reverse.map (zone_slot 0xfffffff000300000 16)) 11 (by decide) (by decide)⟩

/-- C8 counterexample: in the zone of `zalloc_tests` with all ten slots in use, the
element `0xfffffff000300090` (the fifth handed out) is allocated: its metadata node
`0xfffffff000300080` is on the used list.  `zfree` returns, and the sixteen bytes
of that metadata header differ from what they were before the call. -/
theorem zfree_changes_metadata_header :
    zone_lists zone_demo_full 0xfffffff000200000 []
      ((List.range 10).reverse.map (zone_slot 0xfffffff000300000 16)) ∧
    0xfffffff000300080 ∈ (List.range 10).reverse.map (zone_slot 0xfffffff000300000 16) ∧
    zfree 11 zone_demo_full 0xfffffff000200000 0xfffffff000300090
      = some (.ok zone_demo_fifth_freed ()) ∧
    list_head_bytes (zone_demo_fifth_freed.lists 0xfffffff000300080)
      ≠ list_head_bytes (zone_demo_full.lists 0xfffffff000300080) :=
  ⟨by decide, by decide, rfl, by decide⟩

/-- C9: for every well-formed zone and every element address `m + sizeof(metadata)`
currently allocated from it (metadata node `m` on the used list), `zfree` of that
address returns and the first `zalloc` performed afterwards returns exactly that
address. -/
theorem zalloc_after_zfree_returns_same (s : zone_mem) (zone m : Nat)
    (fs us1 us2 : List Nat) (fuel : Nat)
    (hz : zone_lists s zone fs (us1 ++ m :: us2)) (hfuel : (us1 ++ m :: us2).length < fuel) :
    ∃ s1, zfree fuel s zone (m + ZONE_ALLOC_METADATA_SIZE) = some (.ok s1 ()) ∧
      (s1.zones zone).count = (s.zones zone).count - 1 ∧
      (s1.zones zone).count_free = (s.zones zone).count_free + 1 ∧
      ∃ s2, zalloc s1 zone = .ok s2 (m + ZONE_ALLOC_METADATA_SIZE) := by
  obtain ⟨h1, h2, _⟩ := zfree_lists s zone m fs us1 us2 fuel hz hfuel
  obtain ⟨hm, _⟩ := zalloc_lists _ zone m fs (us1 ++ us2) h2
  refine ⟨zfree_state s zone (m + ZONE_ALLOC_METADATA_SIZE) m, h1, ?_, ?_,
    zalloc_state (zfree_state s zone (m + ZONE_ALLOC_METADATA_SIZE) m) zone, ?_⟩
  · simp [zfree_state, set_zone_same]
  · simp [zfree_state, set_zone_same]
  · rw [zalloc_eq, hm]

/-- C9 witness: element size 16, 160 bytes in total, ten calls of `zalloc`, then
`zfree` of the fifth element: `count` is 9, `count_free` is 1, and the next
`zalloc` returns the address of the fifth element again. -/
theorem zalloc_after_zfree_returns_same_witness :
    (zone_lists zone_demo_full 0xfffffff000200000 []
        ((List.range' 5 5).reverse.map (zone_slot 0xfffffff000300000 16)
          ++ 0xfffffff000300080 :: (List.range 4).reverse.map (zone_slot 0xfffffff000300000 16)) ∧
      ((List.range' 5 5).reverse.map (zone_slot 0xfffffff000300000 16)
          ++ 0xfffffff000300080
            :: (List.range 4).reverse.map (zone_slot 0xfffffff000300000 16)).length < 11 ∧
      (zone_demo_full.zones 0xfffffff000200000).count = 10 ∧
      (zone_demo_full.zones 0xfffffff000200000).count_free = 0) ∧
    ∃ s1, zfree 11 zone_demo_full 0xfffffff000200000
        (0xfffffff000300080 + ZONE_ALLOC_METADATA_SIZE) = some (.ok s1 ()) ∧
      (s1.zones 0xfffffff000200000).count
        = (zone_demo_full.zones 0xfffffff000200000).count - 1 ∧
      (s1.zones 0xfffffff000200000).count_free
        = (zone_demo_full.zones 0xfffffff000200000).count_free + 1 ∧
      ∃ s2, zalloc s1 0xfffffff000200000
        = .ok s2 (0xfffffff000300080 + ZONE_ALLOC_METADATA_SIZE) :=
  ⟨⟨by decide, by decide, by decide, by decide⟩,
    zalloc_after_zfree_returns_same zone_demo_full 0xfffffff000200000 0xfffffff000300080 []
      ((List.range' 5 5).reverse.map (zone_slot 0xfffffff000300000 16))
      ((List.range 4).reverse.map (zone_slot 0xfffffff000300000 16)) 11 (by decide) (by decide)⟩

/-- C10: for every `zone_create(size, max, name)` with both sizes non-zero, `j` the
first unused entry of `zone_array`, and a backing region (the value returned by
`vm_map_alloc`) whose slots lie outside `zone_array`, the call returns the zone at
entry `j` with `count = 0`, `count_free = max / size`, state used, an empty used
list, and a free list holding exactly the `max / size` nodes
`base + i * (size + sizeof(metadata))` in increasing order of `i`. -/
theorem zone_create_builds_free_list (s : zone_mem) (size max : Nat) (name : String)
    (base j : Nat) (hsize : size ≠ 0) (hmax : max ≠ 0) (hj : j < MAX_NUM_ZONES)
    (hun : (s.zones (s.zone_array + j * ZONE_T_SIZE)).state = ZONE_STATE_UNUSED)
    (hmin : ∀ k, k < j → (s.zones (s.zone_array + k * ZONE_T_SIZE)).state ≠ ZONE_STATE_UNUSED)
    (hfresh : ∀ k, k < max / size →
      zone_slot base size k + ZONE_ALLOC_METADATA_SIZE ≤ s.zone_array ∨
      s.zone_array + MAX_NUM_ZONES * ZONE_T_SIZE ≤ zone_slot base size k) :
    ∃ s1, zone_create s size max name base = .ok s1 (s.zone_array + j * ZONE_T_SIZE) ∧
      (s1.zones (s.zone_array + j * ZONE_T_SIZE)).count = 0 ∧
      (s1.zones (s.zone_array + j * ZONE_T_SIZE)).count_free = ((max / size : Nat) : Int) ∧
      (s1.zones (s.zone_array + j * ZONE_T_SIZE)).state = ZONE_STATE_USED ∧
      zone_lists s1 (s.zone_array + j * ZONE_T_SIZE)
        ((List.range (max / size)).map (fun i => base + i * (size + ZONE_ALLOC_METADATA_SIZE)))
        [] := by
  obtain ⟨h1, h2⟩ := zone_create_ok s size max name base j hsize hmax hj hun hmin hfresh
  exact ⟨_, h1, by simp [zone_create_state, set_zone_same],
    by simp [zone_create_state, set_zone_same], by simp [zone_create_state, set_zone_same], h2⟩

/-- C10 witness: element size 16 and 160 bytes in total give `count_free = 10`. -/
theorem zone_create_builds_free_list_witness :
    ((16 : Nat) ≠ 0 ∧ (160 : Nat) ≠ 0 ∧ 0 < MAX_NUM_ZONES ∧
      (zone_mem_boot.zones (zone_mem_boot.zone_array + 0 * ZONE_T_SIZE)).state
        = ZONE_STATE_UNUSED ∧
      (160 : Nat) / 16 = 10) ∧
    ∃ s1, zone_create zone_mem_boot 16 160 "test_element" 0xfffffff000300000
        = .ok s1 (zone_mem_boot.zone_array + 0 * ZONE_T_SIZE) ∧
      (s1.zones (zone_mem_boot.zone_array + 0 * ZONE_T_SIZE)).count = 0 ∧
      (s1.zones (zone_mem_boot.zone_array + 0 * ZONE_T_SIZE)).count_free
        = ((160 / 16 : Nat) : Int) ∧
      (s1.zones (zone_mem_boot.zone_array + 0 * ZONE_T_SIZE)).state = ZONE_STATE_USED ∧
      zone_lists s1 (zone_mem_boot.zone_array + 0 * ZONE_T_SIZE)
        ((List.range (160 / 16)).map
          (fun i => 0xfffffff000300000 + i * (16 + ZONE_ALLOC_METADATA_SIZE))) [] :=
  ⟨⟨by decide, by decide, by decide, by decide, by decide⟩,
    zone_create_builds_free_list zone_mem_boot 16 160 "test_element" 0xfffffff000300000 0
      (by decide) (by decide) (by decide) (by decide) (fun k hk => absurd hk (Nat.not_lt_zero k))
      (by
        intro k hk
        right
        have hk2 : k < 10 := hk
        show 0xfffffff000200000 + MAX_NUM_ZONES * ZONE_T_SIZE ≤ zone_slot 0xfffffff000300000 16 k
        simp only [zone_slot, MAX_NUM_ZONES, ZONE_T_SIZE, ZONE_ALLOC_METADATA_SIZE]
        omega)⟩

/-! ## Zone backing region -/

/-- C11 (fails on the code): `zone_create(2, 480, "small")` on the booted zone
array returns the zone with `count_free = 240` and `page_count = 1`.  The 240
slots of 2 + 16 bytes need 4320 bytes, more than the 4096 bytes of the one page
asked for: `count_free * (elem_size + sizeof(metadata)) ≤ page_count * page_size`
is false, and the last slot on the free list starts past the end of the page. -/
theorem zone_create_backing_too_small :
    ∃ s1, zone_create zone_mem_boot 2 480 "small" 0xfffffff000300000
        = .ok s1 0xfffffff000200000 ∧
      (s1.zones 0xfffffff000200000).count_free = 240 ∧
      (s1.zones 0xfffffff000200000).elem_size = 2 ∧
      (s1.zones 0xfffffff000200000).page_count = 1 ∧
      ¬ ((s1.zones 0xfffffff000200000).count_free
            * (((s1.zones 0xfffffff000200000).elem_size + ZONE_ALLOC_METADATA_SIZE : Nat) : Int)
          ≤ (s1.zones 0xfffffff000200000).page_count * ((VM_PAGE_SIZE : Nat) : Int)) ∧
      zone_lists s1 0xfffffff000200000
        ((List.range 240).map (zone_slot 0xfffffff000300000 2)) [] ∧
      0xfffffff000300000 + 1 * VM_PAGE_SIZE ≤ zone_slot 0xfffffff000300000 2 239 := by
  obtain ⟨h1, h2⟩ := zone_create_ok zone_mem_boot 2 480 "small" 0xfffffff000300000 0
    (by decide) (by decide) (by decide) (by decide) (fun k hk => absurd hk (Nat.not_lt_zero k))
    (by
      intro k hk
      right
      have hk2 : k < 240 := hk
      show 0xfffffff000200000 + MAX_NUM_ZONES * ZONE_T_SIZE ≤ zone_slot 0xfffffff000300000 2 k
      simp only [zone_slot, MAX_NUM_ZONES, ZONE_T_SIZE, ZONE_ALLOC_METADATA_SIZE]
      omega)
  exact ⟨_, h1, by decide, by decide, by decide, by decide, h2, by decide⟩

/-! ## Translation-table region -/

/-- C20 (fails on the code): with the cursor at the start of a sixteen-page region
whose end address is the value of `pagetables_region_end`, `pmap_ptregion_alloc`
advances the cursor and panics, although the page it would return lies inside
the region; with the cursor one page past the end of the region it returns that
page, which lies beyond the region. -/
theorem pmap_ptregion_alloc_assert_inverted :
    (ptregion_demo 0xfffffff000180000).pagetables_region_cursor + DEFAULTS_KERNEL_VM_PAGE_SIZE
        ≤ (ptregion_demo 0xfffffff000180000).pagetables_region_end ∧
      (∃ s1, pmap_ptregion_alloc (ptregion_demo 0xfffffff000180000)
          = .panic s1 (.failed_assertion "pagetables_region_end < vaddr") ∧
        s1.pagetables_region_cursor = 0xfffffff000181000) ∧
      (∃ s1, pmap_ptregion_alloc (ptregion_demo 0xfffffff000191000)
          = .ok s1 0xfffffff000191000 ∧
        s1.pagetables_region_cursor = 0xfffffff000192000 ∧
        s1.pagetables_region_end < 0xfffffff000191000) :=
  ⟨by decide, ⟨_, rfl, rfl⟩, ⟨_, rfl, rfl, by decide⟩⟩

/-! ## Virtual memory maps -/

theorem set_map_same (maps : Nat → vm_map_t) (a : Nat) (m : vm_map_t) :
    set_map maps a m a = m := by
  simp [set_map]

theorem set_entry_same (es : Nat → vm_map_entry_t) (a : Nat) (e : vm_map_entry_t) :
    set_entry es a e a = e := by
  simp [set_entry]

theorem set_entry_other (es : Nat → vm_map_entry_t) (a b : Nat) (e : vm_map_entry_t)
    (h : b ≠ a) : set_entry es a e b = es b := by
  simp [set_entry, h]

theorem vm_map_entry_addr_inj (map i j : Nat)
    (h : vm_map_entry_addr map i = vm_map_entry_addr map j) : i = j := by
  simp only [vm_map_entry_addr, VM_MAP_T_SIZE, VM_MAP_ENTRY_SIZE] at h
  omega

theorem vm_map_nodes_succ (map n : Nat) :
    vm_map_nodes map (n + 1)
      = vm_map_nodes map n ++ [vm_map_entry_addr map n + VM_MAP_ENTRY_SIBLINGS] := by
  simp [vm_map_nodes, List.range_succ]

theorem mem_vm_map_nodes (map n a : Nat) :
    a ∈ vm_map_nodes map n ↔ ∃ i, i < n ∧ a = vm_map_entry_addr map i + VM_MAP_ENTRY_SIBLINGS := by
  simp only [vm_map_nodes, List.mem_map, List.mem_range]
  constructor
  · rintro ⟨i, hi, e⟩; exact ⟨i, hi, e.symm⟩
  · rintro ⟨i, hi, e⟩; exact ⟨i, hi, e.symm⟩

/-- The node of entry object `n` is neither the list head of the map nor the node
of an earlier entry object. -/
theorem vm_map_node_fresh (map n : Nat) :
    vm_map_entry_addr map n + VM_MAP_ENTRY_SIBLINGS
      ∉ (map + VM_MAP_ENTRIES) :: vm_map_nodes map n := by
  intro hm
  rcases List.mem_cons.mp hm with e | e
  · simp only [vm_map_entry_addr, VM_MAP_T_SIZE, VM_MAP_ENTRY_SIZE, VM_MAP_ENTRY_SIBLINGS,
      VM_MAP_ENTRIES] at e
    omega
  · obtain ⟨i, hi, e2⟩ := (mem_vm_map_nodes map n _).mp e
    have := vm_map_entry_addr_inj map n i (by omega)
    omega

/-- Where `vm_map_entry_create` puts the next entry of a map with `n` entries. -/
theorem vm_map_entry_next_wf (s : vm_state) (map n : Nat) (hwf : vm_map_wf s map n) :
    vm_map_entry_next s map = vm_map_entry_addr map n := by
  unfold vm_map_wf at hwf
  cases n with
  | zero =>
    have hn := is_list_next_head _ _ _ hwf
    simp only [vm_map_nodes, List.range_zero, List.map_nil, List.headD_nil] at hn
    simp [vm_map_entry_next, list_empty, hn, vm_map_entry_addr]
  | succ k =>
    have hn := is_list_next_head _ _ _ hwf
    have hp := is_list_prev_head _ _ _ hwf
    rw [vm_map_nodes_succ, last_from_append_singleton] at hp
    have hne : (s.lists (map + VM_MAP_ENTRIES)).next ≠ map + VM_MAP_ENTRIES := by
      rw [hn]
      have h0 : (vm_map_nodes map (k + 1)).headD (map + VM_MAP_ENTRIES)
          = vm_map_entry_addr map 0 + VM_MAP_ENTRY_SIBLINGS := by
        simp [vm_map_nodes, List.range_succ_eq_map]
      rw [h0]
      simp only [vm_map_entry_addr, VM_MAP_T_SIZE, VM_MAP_ENTRY_SIZE, VM_MAP_ENTRY_SIBLINGS,
        VM_MAP_ENTRIES]
      omega
    simp only [vm_map_entry_next, list_empty, hne, decide_False, Bool.false_eq_true, if_false,
      vm_map_last_entry, hp]
    simp only [vm_map_entry_addr, VM_MAP_T_SIZE, VM_MAP_ENTRY_SIZE, VM_MAP_ENTRY_SIBLINGS]
    omega

/-- The state `vm_map_entry_create` leaves on a map with `n` entries: entry object
`n` holds the new entry and is appended to the list; the counters of the map
grow; the map is unlocked; nothing else changes. -/
theorem vm_map_entry_create_spec (s : vm_state) (map base size flags n : Nat)
    (hwf : vm_map_wf s map n) :
    vm_map_wf (vm_map_entry_create s map base size flags) map (n + 1) ∧
      (vm_map_entry_create s map base size flags).entries
        = set_entry s.entries (vm_map_entry_addr map n) (vm_map_entry_value base size flags) ∧
      (vm_map_entry_create s map base size flags).maps map
        = { (s.maps map) with
            lock := 0, nentries := (s.maps map).nentries + 1,
            size := (s.maps map).size + size } ∧
      (vm_map_entry_create s map base size flags).page = s.page ∧
      (vm_map_entry_create s map base size flags).tables = s.tables ∧
      (vm_map_entry_create s map base size flags).words = s.words ∧
      (vm_map_entry_create s map base size flags).pagetables_region_cursor
        = s.pagetables_region_cursor ∧
      (vm_map_entry_create s map base size flags).pagetables_region_end
        = s.pagetables_region_end ∧
      (vm_map_entry_create s map base size flags).memory_virt_base = s.memory_virt_base ∧
      (vm_map_entry_create s map base size flags).mmu_translate_kvtop
        = s.mmu_translate_kvtop := by
  have hnext : vm_map_entry_next (vm_map_lock s map) map = vm_map_entry_addr map n :=
    vm_map_entry_next_wf (vm_map_lock s map) map n hwf
  have hfresh := vm_map_node_fresh map n
  refine ⟨?_, ?_, ?_, rfl, rfl, rfl, rfl, rfl, rfl, rfl⟩
  · show is_list (list_add_tail _ _ _) _ _
    rw [vm_map_nodes_succ]
    have hl0 : is_list
        (set_next (set_prev (vm_map_lock s map).lists
          (vm_map_entry_next (vm_map_lock s map) map + VM_MAP_ENTRY_SIBLINGS) 0)
          (vm_map_entry_next (vm_map_lock s map) map + VM_MAP_ENTRY_SIBLINGS) 0)
        (map + VM_MAP_ENTRIES) (vm_map_nodes map n) := by
      refine is_list_congr s.lists _ _ _ ?_ hwf
      intro x hx
      have hne : x ≠ vm_map_entry_next (vm_map_lock s map) map + VM_MAP_ENTRY_SIBLINGS := by
        rw [hnext]; intro e; exact hfresh (e ▸ hx)
      rw [set_next_other _ _ _ _ hne, set_prev_other _ _ _ _ hne]
      rfl
    have := is_list_add_tail _ _ _ (vm_map_entry_addr map n + VM_MAP_ENTRY_SIBLINGS) hl0 hfresh
    rw [hnext] at this ⊢
    exact this
  · show set_entry _ (vm_map_entry_next (vm_map_lock s map) map) _ = _
    rw [hnext]
    rfl
  · simp [vm_map_entry_create, vm_map_unlock, vm_map_lock, set_map]

/-- `vm_map_create` leaves an empty entry list. -/
theorem vm_map_create_wf (s : vm_state) (map pmap min max : Nat) :
    vm_map_wf (vm_map_create s map pmap min max) map 0 :=
  is_list_init s.lists (map + VM_MAP_ENTRIES)

/-- C19 (amended): for every `vm_map_create(map, pmap, min, max)`, on return the
map has an empty entry list, entry count 0, allocated size 0, the given `min`,
`max` and `pmap`, and its lock bit clear: `__vm_map_init` sets the bit and
`vm_map_create` calls `vm_map_unlock` before it returns. -/
theorem vm_map_create_empty_unlocked (s : vm_state) (map pmap min max : Nat) :
    is_list (vm_map_create s map pmap min max).lists (map + VM_MAP_ENTRIES) [] ∧
      list_empty (vm_map_create s map pmap min max).lists (map + VM_MAP_ENTRIES) = true ∧
      ((vm_map_create s map pmap min max).maps map).nentries = 0 ∧
      ((vm_map_create s map pmap min max).maps map).size = 0 ∧
      ((vm_map_create s map pmap min max).maps map).min = min ∧
      ((vm_map_create s map pmap min max).maps map).max = max ∧
      ((vm_map_create s map pmap min max).maps map).pmap = pmap ∧
      ((vm_map_create s map pmap min max).maps map).lock = 0 := by
  refine ⟨is_list_init s.lists (map + VM_MAP_ENTRIES), ?_, ?_, ?_, ?_, ?_, ?_, ?_⟩
  · simp [list_empty, vm_map_create, vm_map_unlock, __vm_map_init, INIT_LIST_HEAD, set_prev,
      set_next]
  all_goals simp [vm_map_create, vm_map_unlock, __vm_map_init, set_map]

/-- C19 (as stated, fails): after `vm_map_create` of the kernel map at
`0xfffffff000100000` the lock bit of the map is 0, not 1. -/
theorem vm_map_create_returns_unlocked :
    ((vm_map_create vm_state_1mib 0xfffffff000100000 0xfffffff0000ff000 0xfffffff000000000
        VM_KERNEL_MAX_ADDRESS).maps 0xfffffff000100000).lock = 0 ∧
      ((vm_map_create vm_state_1mib 0xfffffff000100000 0xfffffff0000ff000 0xfffffff000000000
        VM_KERNEL_MAX_ADDRESS).maps 0xfffffff000100000).lock ≠ 1 :=
  ⟨by decide, by decide⟩

/-- `vm_configure` always returns; the kernel map it leaves has the one entry
written by `vm_map_entry_create(kernel_vm_map, kernel_virt_base, kernel_phys_size,
VM_ALLOC_KERNEL_CODE)`. -/
theorem vm_configure_spec (s : vm_state) (kernel_vm_map kernel_pmap : Nat) (args : boot_args)
    (memsize : Nat) :
    ∃ s1, vm_configure s kernel_vm_map kernel_pmap args memsize = .ok s1 () ∧
      vm_map_wf s1 kernel_vm_map 1 ∧
      vm_map_entry_at s1 kernel_vm_map 0
        = vm_map_entry_value args.virtbase args.kernsize VM_ALLOC_KERNEL_CODE ∧
      (s1.maps kernel_vm_map).nentries = 1 ∧
      (s1.maps kernel_vm_map).size = args.kernsize ∧
      (s1.maps kernel_vm_map).min = args.virtbase ∧
      (s1.maps kernel_vm_map).max = VM_KERNEL_MAX_ADDRESS := by
  obtain ⟨p, hp, -⟩ := vm_page_bootstrap_spec s.page args.kernbase memsize args.kernsize
  have hc := vm_map_create_wf { s with page := p } kernel_vm_map kernel_pmap args.virtbase
    VM_KERNEL_MAX_ADDRESS
  obtain ⟨h1, h2, h3, -⟩ := vm_map_entry_create_spec _ kernel_vm_map args.virtbase
    args.kernsize VM_ALLOC_KERNEL_CODE 0 hc
  refine ⟨_, by simp only [vm_configure, hp], h1, ?_, ?_, ?_, ?_, ?_⟩
  · simp only [vm_map_entry_at]
    rw [h2, set_entry_same]
  all_goals
    rw [h3]
    simp [vm_map_create, vm_map_unlock, __vm_map_init, set_map]

/-- C18 (amended): after `vm_configure` with a kernel image of `kernsize` bytes,
`0 < kernsize < 2 ^ 64`, the kernel map has exactly one entry, whose base is
`virtbase`, whose recorded size is `kernsize - 1` (the offset of the last byte:
`vm_map_entry_create` stores `size - 1`), whose `kernel_code` flag is set and
whose `guard_page` flag is clear; the entry count of the map is 1 and the
allocated size of the map is `kernsize`. -/
theorem vm_configure_single_kernel_entry (s : vm_state) (kernel_vm_map kernel_pmap : Nat)
    (args : boot_args) (memsize : Nat) (h0 : 0 < args.kernsize) (h1 : args.kernsize < 2 ^ 64) :
    ∃ s1, vm_configure s kernel_vm_map kernel_pmap args memsize = .ok s1 () ∧
      is_list s1.lists (kernel_vm_map + VM_MAP_ENTRIES)
        [vm_map_entry_addr kernel_vm_map 0 + VM_MAP_ENTRY_SIBLINGS] ∧
      (s1.maps kernel_vm_map).nentries = 1 ∧
      (s1.entries (vm_map_entry_addr kernel_vm_map 0)).base = args.virtbase ∧
      (s1.entries (vm_map_entry_addr kernel_vm_map 0)).size = args.kernsize - 1 ∧
      (s1.entries (vm_map_entry_addr kernel_vm_map 0)).kernel_code = VM_TRUE ∧
      (s1.entries (vm_map_entry_addr kernel_vm_map 0)).guard_page = VM_FALSE ∧
      (s1.maps kernel_vm_map).size = args.kernsize := by
  obtain ⟨s1, hs, hwf, he, hn, hsz, -, -⟩ :=
    vm_configure_spec s kernel_vm_map kernel_pmap args memsize
  have he2 : s1.entries (vm_map_entry_addr kernel_vm_map 0)
      = vm_map_entry_value args.virtbase args.kernsize VM_ALLOC_KERNEL_CODE := he
  refine ⟨s1, hs, hwf, hn, ?_, ?_, ?_, ?_, hsz⟩
  · rw [he2]; rfl
  · rw [he2]
    show (args.kernsize + 2 ^ 64 - 1) % 2 ^ 64 = args.kernsize - 1
    have : args.kernsize + 2 ^ 64 - 1 = (args.kernsize - 1) + 2 ^ 64 := by omega
    rw [this, Nat.add_mod_right, Nat.mod_eq_of_lt (by omega)]
  · rw [he2]
    show (if VM_ALLOC_KERNEL_CODE &&& VM_ALLOC_KERNEL_CODE ≠ 0 then VM_TRUE else VM_FALSE)
      = VM_TRUE
    decide
  · rw [he2]
    show (if VM_ALLOC_KERNEL_CODE &&& VM_MAP_ENTRY_GUARD_PAGE ≠ 0 then VM_TRUE else VM_FALSE)
      = VM_FALSE
    decide

/-- C18 witness: kernel linked at `0xfffffff000000000`, image of 1 MiB. -/
theorem vm_configure_single_kernel_entry_witness :
    (0 < args_kernel_1mib.kernsize ∧ args_kernel_1mib.kernsize < 2 ^ 64) ∧
    ∃ s1, vm_configure vm_state_1mib 0xfffffff000100000 0xfffffff0000ff000 args_kernel_1mib
        0x8000000 = .ok s1 () ∧
      is_list s1.lists (0xfffffff000100000 + VM_MAP_ENTRIES)
        [vm_map_entry_addr 0xfffffff000100000 0 + VM_MAP_ENTRY_SIBLINGS] ∧
      (s1.maps 0xfffffff000100000).nentries = 1 ∧
      (s1.entries (vm_map_entry_addr 0xfffffff000100000 0)).base = args_kernel_1mib.virtbase ∧
      (s1.entries (vm_map_entry_addr 0xfffffff000100000 0)).size
        = args_kernel_1mib.kernsize - 1 ∧
      (s1.entries (vm_map_entry_addr 0xfffffff000100000 0)).kernel_code = VM_TRUE ∧
      (s1.entries (vm_map_entry_addr 0xfffffff000100000 0)).guard_page = VM_FALSE ∧
      (s1.maps 0xfffffff000100000).size = args_kernel_1mib.kernsize :=
  ⟨⟨by decide, by decide⟩,
    vm_configure_single_kernel_entry vm_state_1mib 0xfffffff000100000 0xfffffff0000ff000
      args_kernel_1mib 0x8000000 (by decide) (by decide)⟩

/-- C18 (as stated, fails): after `vm_configure` with `virtbase =
0xfffffff000000000` and a kernel image of 1 MiB (`0x100000` bytes) the one entry
of the kernel map records the size `0xfffff`, not `kernsize`. -/
theorem vm_configure_records_size_minus_one :
    ∃ s1, vm_configure vm_state_1mib 0xfffffff000100000 0xfffffff0000ff000 args_kernel_1mib
        0x8000000 = .ok s1 () ∧
      vm_map_wf s1 0xfffffff000100000 1 ∧
      (vm_map_entry_at s1 0xfffffff000100000 0).base = 0xfffffff000000000 ∧
      (vm_map_entry_at s1 0xfffffff000100000 0).size = 0xfffff ∧
      (vm_map_entry_at s1 0xfffffff000100000 0).size ≠ args_kernel_1mib.kernsize := by
  obtain ⟨s1, hs, hwf, he, -⟩ :=
    vm_configure_spec vm_state_1mib 0xfffffff000100000 0xfffffff0000ff000 args_kernel_1mib
      0x8000000
  exact ⟨s1, hs, hwf, by rw [he]; decide, by rw [he]; decide, by rw [he]; decide⟩

/-! ## `vm_map_alloc`: page count -/

/-- C15 (fails on the code): on the small machine after `vm_configure`,
`vm_map_alloc(map, VM_PAGE_SIZE + 1, VM_NULL)` returns `0xfffffff000004000` having
allocated one frame (the number of allocated descriptors goes from 5 to 6), and
the body entry it records covers one page (recorded size `VM_PAGE_SIZE - 1`),
while `ceil((VM_PAGE_SIZE + 1) / VM_PAGE_SIZE)` is 2. -/
theorem vm_map_alloc_floors_page_count :
    vm_map_alloc 2 vm_demo 0xfffffff000100000 (VM_PAGE_SIZE + 1) VM_NULL
        = some (.ok vm_demo_4097 0xfffffff000004000) ∧
      vm_page_alloc_count vm_demo.page = 5 ∧
      vm_page_alloc_count vm_demo_4097.page = 6 ∧
      vm_map_wf vm_demo 0xfffffff000100000 1 ∧
      vm_map_wf vm_demo_4097 0xfffffff000100000 2 ∧
      vm_map_entry_at vm_demo_4097 0xfffffff000100000 1
        = { base := 0xfffffff000004000, size := VM_PAGE_SIZE - 1, guard_page := 0,
            kernel_code := 0 } ∧
      (VM_PAGE_SIZE + 1 + (VM_PAGE_SIZE - 1)) / VM_PAGE_SIZE = 2 := by
  refine ⟨rfl, ?_, ?_, ?_, ?_, ?_, ?_⟩ <;> decide

/-! ## Translation-table entries -/

/-- C13 (fails on the code): the call `pmap_tt_create_tte(root, 0x40005000,
0xfffffff000004000, VM_PAGE_SIZE, PMAP_ACCESS_READWRITE)` that `vm_map_alloc` makes
on the small machine returns success and leaves the level-2 entry `0x40005401`
for the address `0xfffffff000004000`.  Its type bits and access flag are those
of the block template and its output-address field at 2 MiB granularity is
that of `pbase`, but bits 12 and 14 are set as well, outside the template and
the output-address field: the entry is built with `TT_TABLE_MASK`. -/
theorem pmap_tt_create_tte_stray_bits :
    pmap_tt_create_tte 2 vm_demo (0xfffffff000100000 + VM_MAP_PMAP) 0x40005000
        0xfffffff000004000 VM_PAGE_SIZE PMAP_ACCESS_READWRITE
        = some (.ok vm_demo_tte PMAP_RETURN_SUCCESS) ∧
      tt_l2_entry vm_demo_tte (0xfffffff000100000 + VM_MAP_PMAP) 0xfffffff000004000
        = some 0x40005401 ∧
      0x40005401 &&& TTE_TYPE_MASK = TTE_BLOCK_TEMPLATE &&& TTE_TYPE_MASK ∧
      0x40005401 &&& 0x400 = TTE_BLOCK_TEMPLATE &&& 0x400 ∧
      0x40005401 &&& TT_BLOCK_MASK
        = (0x40005000 + (0xfffffff000004000 - 0xfffffff000004000)) &&& TT_BLOCK_MASK ∧
      0x40005401 &&& (TTE_BLOCK_TEMPLATE ||| TT_BLOCK_MASK) ≠ 0x40005401 ∧
      0x40005401 = (0x40005401 &&& (TTE_BLOCK_TEMPLATE ||| TT_BLOCK_MASK)) ||| 0x5000 := by
  refine ⟨rfl, ?_, ?_, ?_, ?_, ?_, ?_⟩ <;> decide

/-! ## Bit operations -/

theorem and_or_distrib_right (a b c : Nat) : (a ||| b) &&& c = (a &&& c) ||| (b &&& c) := by
  apply Nat.eq_of_testBit_eq
  intro i
  simp only [Nat.testBit_and, Nat.testBit_or, Bool.and_or_distrib_right]

theorem shiftRight_and (a b i : Nat) : (a &&& b) >>> i = (a >>> i) &&& (b >>> i) := by
  apply Nat.eq_of_testBit_eq
  intro j
  simp only [Nat.testBit_and, Nat.testBit_shiftRight]

theorem and_shiftLeft (x m k : Nat) : x &&& (m <<< k) = ((x >>> k) &&& m) <<< k := by
  apply Nat.eq_of_testBit_eq
  intro i
  simp only [Nat.testBit_and, Nat.testBit_shiftLeft, Nat.testBit_shiftRight]
  by_cases h : k ≤ i
  · simp [h, Nat.add_sub_cancel' h]
  · simp [h]

/-- A value ANDed with a mask has no bit in common with a disjoint mask. -/
theorem and_and_disjoint (x m k : Nat) (h : m &&& k = 0) : (x &&& m) &&& k = 0 := by
  rw [Nat.and_assoc, h, Nat.and_zero]

/-- The level-1 index of an address: bits 38:30. -/
theorem tt_l1_index (x : Nat) :
    (x &&& TT_L1_INDEX_MASK) >>> TT_L1_SHIFT = x / TT_L1_SIZE % 512 := by
  rw [shiftRight_and]
  have h1 : TT_L1_INDEX_MASK >>> TT_L1_SHIFT = 2 ^ 9 - 1 := by decide
  rw [h1, Nat.and_pow_two_sub_one_eq_mod, Nat.shiftRight_eq_div_pow]
  rfl

/-- The level-2 index of an address: bits 29:21. -/
theorem tt_l2_index (x : Nat) :
    (x &&& TT_L2_INDEX_MASK) >>> TT_L2_SHIFT = x / TT_L2_SIZE % 512 := by
  rw [shiftRight_and]
  have h1 : TT_L2_INDEX_MASK >>> TT_L2_SHIFT = 2 ^ 9 - 1 := by decide
  rw [h1, Nat.and_pow_two_sub_one_eq_mod, Nat.shiftRight_eq_div_pow]
  rfl

/-- A 2 MiB-aligned address below `2 ^ 48` is its own block output address. -/
theorem and_block_mask_aligned (y : Nat) (h1 : y % TT_L2_SIZE = 0) (h2 : y < 2 ^ 48) :
    y &&& TT_BLOCK_MASK = y := by
  have hm : TT_BLOCK_MASK = (2 ^ 27 - 1) <<< 21 := by decide
  rw [hm, and_shiftLeft, Nat.and_pow_two_sub_one_eq_mod, Nat.shiftRight_eq_div_pow,
    Nat.shiftLeft_eq]
  simp only [TT_L2_SIZE] at h1
  have h3 : y / 2 ^ 21 < 2 ^ 27 := by
    apply Nat.div_lt_of_lt_mul
    norm_num at h2 ⊢
    omega
  rw [Nat.mod_eq_of_lt h3]
  norm_num
  omega

/-- `VM_ALIGN_ADDR` rounds up to the next multiple of 4 when `addr + 3` fits 64
bits. -/
theorem VM_ALIGN_ADDR_eq (addr : Nat) (h : addr + 3 < 2 ^ 64) :
    VM_ALIGN_ADDR addr = (addr + 3) / 4 * 4 := by
  have hm : (2 ^ 64 - 4 : Nat) = (2 ^ 62 - 1) <<< 2 := by decide
  unfold VM_ALIGN_ADDR
  rw [hm, and_shiftLeft, Nat.and_pow_two_sub_one_eq_mod, Nat.shiftRight_eq_div_pow,
    Nat.shiftLeft_eq]
  have h3 : (addr + (4 - 1)) / 2 ^ 2 < 2 ^ 62 := by
    apply Nat.div_lt_of_lt_mul
    norm_num at h ⊢
    omega
  rw [Nat.mod_eq_of_lt h3]
  norm_num

theorem VM_ALIGN_ADDR_ge (addr : Nat) (h : addr + 3 < 2 ^ 64) : addr ≤ VM_ALIGN_ADDR addr := by
  rw [VM_ALIGN_ADDR_eq addr h]
  omega

/-- The block entry written by the inner loop has the access-permission bits 7:6
clear. -/
theorem tt_block_entry_ap (y : Nat) :
    (TTE_BLOCK_TEMPLATE ||| (y &&& TT_TABLE_MASK)) &&& (3 <<< TT_AP_BIT_SHIFT) = 0 := by
  rw [and_or_distrib_right, and_and_disjoint _ _ _ (by decide)]
  decide

/-- The table descriptor written by the outer loop has bits 7:6 clear. -/
theorem tt_table_entry_ap (y : Nat) :
    ((y &&& TT_TABLE_MASK) ||| 0x3) &&& (3 <<< TT_AP_BIT_SHIFT) = 0 := by
  rw [and_or_distrib_right, and_and_disjoint _ _ _ (by decide)]
  decide

/-! ## What the translation-table builder and `vm_map_alloc` change -/

@[simp] theorem vm_overlay_page (s : vm_state) (p : vm_page_state) (t w : Nat → Nat) (c : Nat) :
    (vm_overlay s p t w c).page = p := rfl

@[simp] theorem vm_overlay_tables (s : vm_state) (p : vm_page_state) (t w : Nat → Nat) (c : Nat) :
    (vm_overlay s p t w c).tables = t := rfl

@[simp] theorem vm_overlay_words (s : vm_state) (p : vm_page_state) (t w : Nat → Nat) (c : Nat) :
    (vm_overlay s p t w c).words = w := rfl

@[simp] theorem vm_overlay_cursor (s : vm_state) (p : vm_page_state) (t w : Nat → Nat) (c : Nat) :
    (vm_overlay s p t w c).pagetables_region_cursor = c := rfl

@[simp] theorem vm_overlay_maps (s : vm_state) (p : vm_page_state) (t w : Nat → Nat) (c : Nat) :
    (vm_overlay s p t w c).maps = s.maps := rfl

@[simp] theorem vm_overlay_entries (s : vm_state) (p : vm_page_state) (t w : Nat → Nat) (c : Nat) :
    (vm_overlay s p t w c).entries = s.entries := rfl

@[simp] theorem vm_overlay_lists (s : vm_state) (p : vm_page_state) (t w : Nat → Nat) (c : Nat) :
    (vm_overlay s p t w c).lists = s.lists := rfl

@[simp] theorem vm_overlay_end (s : vm_state) (p : vm_page_state) (t w : Nat → Nat) (c : Nat) :
    (vm_overlay s p t w c).pagetables_region_end = s.pagetables_region_end := rfl

@[simp] theorem vm_overlay_virt_base (s : vm_state) (p : vm_page_state) (t w : Nat → Nat)
    (c : Nat) : (vm_overlay s p t w c).memory_virt_base = s.memory_virt_base := rfl

@[simp] theorem vm_overlay_kvtop (s : vm_state) (p : vm_page_state) (t w : Nat → Nat) (c : Nat) :
    (vm_overlay s p t w c).mmu_translate_kvtop = s.mmu_translate_kvtop := rfl

theorem vm_overlay_self (s : vm_state) :
    vm_overlay s s.page s.tables s.words s.pagetables_region_cursor = s := rfl

@[simp] theorem vm_overlay_overlay (s : vm_state) (p p1 : vm_page_state) (t w t1 w1 : Nat → Nat)
    (c c1 : Nat) : vm_overlay (vm_overlay s p t w c) p1 t1 w1 c1 = vm_overlay s p1 t1 w1 c1 := rfl

/-- `vm_map_entry_create` neither reads nor writes what `vm_overlay` replaces. -/
theorem vm_map_entry_create_overlay (s : vm_state) (p : vm_page_state) (t w : Nat → Nat)
    (c map base size flags : Nat) :
    vm_map_entry_create (vm_overlay s p t w c) map base size flags
      = vm_overlay (vm_map_entry_create s map base size flags) p t w c := rfl

theorem vm_guard_page_fill_overlay (s : vm_state) (p : vm_page_state) (t w : Nat → Nat)
    (c g : Nat) :
    vm_guard_page_fill (vm_overlay s p t w c) g
      = vm_overlay s p t (vm_guard_page_fill_loop g (VM_PAGE_SIZE / 8) 0 w) c := rfl

theorem and_then_ok {σ α β : Type} (r : Option (Outcome σ α))
    (k : σ → α → Option (Outcome σ β)) (s1 : σ) (b : β) (h : and_then r k = some (.ok s1 b)) :
    ∃ s0 a, r = some (.ok s0 a) ∧ k s0 a = some (.ok s1 b) := by
  cases r with
  | none => simp [and_then] at h
  | some o =>
    cases o with
    | ok s0 a => exact ⟨s0, a, rfl, h⟩
    | panic s0 m => simp [and_then] at h

/-- Every word that the inner loop changes has the access-permission bits
clear. -/
theorem pmap_tt_fill_l2_ap (pbase vbase vend ma l2 : Nat) :
    ∀ (fuel : Nat) (t : Nat → Nat) (ml2 : Nat) (t1 : Nat → Nat),
      pmap_tt_fill_l2 pbase vbase vend ma l2 fuel t ml2 = some t1 →
      ∀ a, t1 a = t a ∨ t1 a &&& (3 <<< TT_AP_BIT_SHIFT) = 0 := by
  intro fuel
  induction fuel with
  | zero => intro t ml2 t1 h; simp [pmap_tt_fill_l2] at h
  | succ f ih =>
    intro t ml2 t1 h a
    rw [pmap_tt_fill_l2] at h
    split at h
    · rcases ih _ _ _ h a with h1 | h1
      · by_cases ha : a = l2 + ((ml2 &&& TT_L2_INDEX_MASK) >>> TT_L2_SHIFT) * 8
        · right
          rw [h1]
          simp only [tt_store, ha, if_true]
          exact tt_block_entry_ap _
        · left
          rw [h1]
          simp only [tt_store, ha, if_false]
      · right; exact h1
    · injection h with h
      left; rw [h]

/-- The level-1 step on an entry that is not a table descriptor, when the
assertion of `pmap_ptregion_alloc` holds: the page at the cursor becomes the
level-2 table and its descriptor is written to the entry. -/
theorem pmap_tt_l2_table_new (s : vm_state) (table index : Nat)
    (h1 : s.tables (table + index * 8) &&& TTE_TYPE_MASK ≠ TTE_TYPE_TABLE)
    (h2 : s.pagetables_region_end < s.pagetables_region_cursor) :
    pmap_tt_l2_table s table index
      = .ok (vm_overlay s s.page
          (tt_store s.tables (table + index * 8)
            ((s.mmu_translate_kvtop s.pagetables_region_cursor &&& TT_TABLE_MASK) ||| 0x3))
          s.words (s.pagetables_region_cursor + DEFAULTS_KERNEL_VM_PAGE_SIZE))
        s.pagetables_region_cursor := by
  unfold pmap_tt_l2_table
  rw [if_pos h1]
  unfold pmap_ptregion_alloc
  simp only [h2, if_true]
  rfl

/-- The level-1 step panics when the assertion of `pmap_ptregion_alloc` fails. -/
theorem pmap_tt_l2_table_panic (s : vm_state) (table index : Nat)
    (h1 : s.tables (table + index * 8) &&& TTE_TYPE_MASK ≠ TTE_TYPE_TABLE)
    (h2 : ¬ s.pagetables_region_end < s.pagetables_region_cursor) :
    pmap_tt_l2_table s table index
      = .panic (vm_overlay s s.page s.tables s.words
          (s.pagetables_region_cursor + DEFAULTS_KERNEL_VM_PAGE_SIZE))
        (.failed_assertion "pagetables_region_end < vaddr") := by
  unfold pmap_tt_l2_table
  rw [if_pos h1]
  unfold pmap_ptregion_alloc
  simp only [h2, if_false]
  rfl

/-- The level-1 step on an entry that is a table descriptor. -/
theorem pmap_tt_l2_table_old (s : vm_state) (table index : Nat)
    (h1 : s.tables (table + index * 8) &&& TTE_TYPE_MASK = TTE_TYPE_TABLE) :
    pmap_tt_l2_table s table index
      = .ok s (ptokva s (s.tables (table + index * 8) &&& TT_TABLE_MASK)) := by
  unfold pmap_tt_l2_table
  rw [if_neg (not_not.mpr h1)]

/-- The level-1 step changes only the translation tables and the region cursor,
and the word it writes has the access-permission bits clear. -/
theorem pmap_tt_l2_table_shape (s : vm_state) (table index : Nat) :
    ∃ t c, (pmap_tt_l2_table s table index).state = vm_overlay s s.page t s.words c ∧
      s.pagetables_region_cursor ≤ c ∧
      ∀ a, t a = s.tables a ∨ t a &&& (3 <<< TT_AP_BIT_SHIFT) = 0 := by
  by_cases h1 : s.tables (table + index * 8) &&& TTE_TYPE_MASK = TTE_TYPE_TABLE
  · rw [pmap_tt_l2_table_old s table index h1]
    exact ⟨s.tables, s.pagetables_region_cursor, rfl, Nat.le_refl _, fun a => Or.inl rfl⟩
  · by_cases h2 : s.pagetables_region_end < s.pagetables_region_cursor
    · rw [pmap_tt_l2_table_new s table index h1 h2]
      refine ⟨_, _, rfl, Nat.le_add_right _ _, ?_⟩
      intro a
      by_cases ha : a = table + index * 8
      · right
        simp only [tt_store, ha, if_true]
        exact tt_table_entry_ap _
      · left
        simp only [tt_store, ha, if_false]
    · rw [pmap_tt_l2_table_panic s table index h1 h2]
      exact ⟨_, _, rfl, Nat.le_add_right _ _, fun a => Or.inl rfl⟩

theorem pmap_tt_fill_l1_shape (table pbase vbase vend fuel : Nat) :
    ∀ (n : Nat) (s : vm_state) (ma : Nat) (r : Outcome vm_state Unit),
      pmap_tt_fill_l1 table pbase vbase vend fuel n s ma = some r →
      ∃ t c, r.state = vm_overlay s s.page t s.words c ∧
        s.pagetables_region_cursor ≤ c ∧
        ∀ a, t a = s.tables a ∨ t a &&& (3 <<< TT_AP_BIT_SHIFT) = 0 := by
  intro n
  induction n with
  | zero => intro s ma r h; simp [pmap_tt_fill_l1] at h
  | succ n ih =>
    intro s ma r h
    rw [pmap_tt_fill_l1] at h
    split at h
    · obtain ⟨t0, c0, hs0, hc0, ht0⟩ :=
        pmap_tt_l2_table_shape s table ((ma &&& TT_L1_INDEX_MASK) >>> TT_L1_SHIFT)
      dsimp only at h
      cases hl : pmap_tt_l2_table s table ((ma &&& TT_L1_INDEX_MASK) >>> TT_L1_SHIFT) with
      | panic s1 msg =>
        rw [hl] at h hs0
        dsimp only at h
        injection h with h
        subst h
        exact ⟨t0, c0, hs0, hc0, ht0⟩
      | ok s1 l2 =>
        rw [hl] at h hs0
        dsimp only at h
        have hs1 : s1 = vm_overlay s s.page t0 s.words c0 := hs0
        cases hf : pmap_tt_fill_l2 pbase vbase vend ma l2 fuel s1.tables ma with
        | none => rw [hf] at h; simp at h
        | some t1 =>
          rw [hf] at h
          dsimp only at h
          obtain ⟨t2, c2, hs2, hc2, ht2⟩ := ih _ _ _ h
          have hap := pmap_tt_fill_l2_ap pbase vbase vend ma l2 fuel s1.tables ma t1 hf
          subst hs1
          refine ⟨t2, c2, hs2, le_trans hc0 hc2, ?_⟩
          intro a
          rcases ht2 a with h2 | h2
          · rcases hap a with h1 | h1
            · rcases ht0 a with h0 | h0
              · left; rw [h2]; exact h1.trans h0
              · right; rw [h2]; show t1 a &&& _ = 0; rw [h1]; exact h0
            · right; rw [h2]; exact h1
          · right; exact h2
    · injection h with h
      subst h
      exact ⟨s.tables, s.pagetables_region_cursor, rfl, Nat.le_refl _, fun a => Or.inl rfl⟩

/-- `pmap_tt_create_tte` changes only the translation tables and the region
cursor, and every table word it changes has the access-permission bits 7:6
clear, whatever `flags` is. -/
theorem pmap_tt_create_tte_shape (fuel : Nat) (s : vm_state) (table pbase vbase size flags : Nat)
    (r : Outcome vm_state Nat)
    (h : pmap_tt_create_tte fuel s table pbase vbase size flags = some r) :
    ∃ t c, r.state = vm_overlay s s.page t s.words c ∧
      s.pagetables_region_cursor ≤ c ∧
      ∀ a, t a = s.tables a ∨ t a &&& (3 <<< TT_AP_BIT_SHIFT) = 0 := by
  rw [pmap_tt_create_tte] at h
  split at h
  · injection h with h
    subst h
    exact ⟨s.tables, s.pagetables_region_cursor, rfl, Nat.le_refl _, fun a => Or.inl rfl⟩
  · cases hf : pmap_tt_fill_l1 table pbase vbase ((vbase + size) % 2 ^ 64) fuel fuel s vbase with
    | none => rw [hf] at h; simp at h
    | some o =>
      obtain ⟨t, c, hs, hc, ht⟩ := pmap_tt_fill_l1_shape _ _ _ _ _ _ _ _ _ hf
      rw [hf] at h
      cases o with
      | ok s1 u =>
        simp only at h
        injection h with h
        subst h
        exact ⟨t, c, hs, hc, ht⟩
      | panic s1 msg =>
        simp only at h
        injection h with h
        subst h
        exact ⟨t, c, hs, hc, ht⟩

theorem vm_page_alloc_in_shape (s : vm_state) :
    (vm_page_alloc_in s).state
      = vm_overlay s (vm_page_alloc s.page).state s.tables s.words s.pagetables_region_cursor := by
  unfold vm_page_alloc_in
  cases vm_page_alloc s.page <;> rfl

/-- Mapping one freshly allocated frame changes only the page descriptors, the
translation tables and the region cursor. -/
theorem vm_map_alloc_page_shape (fuel : Nat) (s : vm_state) (table vcursor access : Nat)
    (r : Outcome vm_state Nat) (h : vm_map_alloc_page fuel s table vcursor access = some r) :
    ∃ p t c, r.state = vm_overlay s p t s.words c ∧
      s.pagetables_region_cursor ≤ c ∧
      ∀ a, t a = s.tables a ∨ t a &&& (3 <<< TT_AP_BIT_SHIFT) = 0 := by
  have hp := vm_page_alloc_in_shape s
  unfold vm_map_alloc_page and_then at h
  cases ha : vm_page_alloc_in s with
  | panic s1 msg =>
    rw [ha] at h hp
    dsimp only at h
    injection h with h
    subst h
    exact ⟨_, _, _, hp, Nat.le_refl _, fun a => Or.inl rfl⟩
  | ok s1 pa =>
    rw [ha] at h hp
    dsimp only at h
    have hs1 : s1 = vm_overlay s (vm_page_alloc s.page).state s.tables s.words
        s.pagetables_region_cursor := hp
    obtain ⟨t, c, hs, hc, ht⟩ := pmap_tt_create_tte_shape _ _ _ _ _ _ _ _ h
    subst hs1
    exact ⟨_, t, c, hs, hc, ht⟩

theorem vm_map_alloc_pages_shape (fuel table : Nat) :
    ∀ (n : Nat) (s : vm_state) (vcursor : Nat) (s1 : vm_state) (vc1 : Nat),
      vm_map_alloc_pages fuel table n s vcursor = some (.ok s1 vc1) →
      vc1 = vcursor + n * VM_PAGE_SIZE ∧
      ∃ p t c, s1 = vm_overlay s p t s.words c ∧
        s.pagetables_region_cursor ≤ c ∧
        ∀ a, t a = s.tables a ∨ t a &&& (3 <<< TT_AP_BIT_SHIFT) = 0 := by
  intro n
  induction n with
  | zero =>
    intro s vcursor s1 vc1 h
    simp only [vm_map_alloc_pages, Option.some.injEq, Outcome.ok.injEq] at h
    obtain ⟨h1, h2⟩ := h
    subst h1 h2
    exact ⟨by omega, _, _, _, rfl, Nat.le_refl _, fun a => Or.inl rfl⟩
  | succ n ih =>
    intro s vcursor s1 vc1 h
    rw [vm_map_alloc_pages] at h
    obtain ⟨s0, a0, h1, h2⟩ := and_then_ok _ _ _ _ h
    obtain ⟨p, t, c, hs, hc, ht⟩ := vm_map_alloc_page_shape _ _ _ _ _ _ h1
    have hs0 : s0 = vm_overlay s p t s.words c := hs
    obtain ⟨hv, p2, t2, c2, hs2, hc2, ht2⟩ := ih _ _ _ _ h2
    subst hs0
    refine ⟨by rw [hv]; simp only [VM_PAGE_SIZE]; omega, p2, t2, c2, hs2, le_trans hc hc2, ?_⟩
    intro a
    rcases ht2 a with h3 | h3
    · rcases ht a with h4 | h4
      · left; rw [h3]; exact h4
      · right; rw [h3]; exact h4
    · right; exact h3

/-- A returning `vm_map_alloc` returns `vm_map_alloc_vbase`; it changes the maps,
entries and lists as its calls of `vm_map_entry_create` do, the words of memory
as its calls of `vm_guard_page_fill` do, and besides only the page descriptors,
the translation tables and the region cursor; every table word it changes has
the access-permission bits 7:6 clear. -/
theorem vm_map_alloc_shape (fuel : Nat) (s : vm_state) (map size flags : Nat) (s1 : vm_state)
    (v : Nat) (h : vm_map_alloc fuel s map size flags = some (.ok s1 v)) :
    v = vm_map_alloc_vbase s map flags ∧
      ∃ p t c, s1 = vm_overlay (vm_map_alloc_entries s map size flags) p t
          (vm_map_alloc_words s map size flags) c ∧
        s.pagetables_region_cursor ≤ c ∧
        ∀ a, t a = s.tables a ∨ t a &&& (3 <<< TT_AP_BIT_SHIFT) = 0 := by
  unfold vm_map_alloc at h
  dsimp only at h
  obtain ⟨s3, vbase, h1, h2⟩ := and_then_ok _ _ _ _ h
  -- the leading guard page
  have st1 : vbase = vm_map_alloc_vbase s map flags ∧
      ∃ p t c, s3 = vm_overlay
          (if flags &&& VM_ALLOC_GUARD_FIRST ≠ 0 then
            vm_map_entry_create s map (vm_map_alloc_start s map) VM_PAGE_SIZE
              VM_MAP_ENTRY_GUARD_PAGE
          else s) p t
          (if flags &&& VM_ALLOC_GUARD_FIRST ≠ 0 then
            vm_guard_page_fill_loop (vm_map_alloc_start s map) (VM_PAGE_SIZE / 8) 0 s.words
          else s.words) c ∧
        s.pagetables_region_cursor ≤ c ∧
        ∀ a, t a = s.tables a ∨ t a &&& (3 <<< TT_AP_BIT_SHIFT) = 0 := by
    by_cases hF : flags &&& VM_ALLOC_GUARD_FIRST ≠ 0
    · rw [if_pos hF] at h1
      obtain ⟨sa, a0, ha, hb⟩ := and_then_ok _ _ _ _ h1
      obtain ⟨p, t, c, hs, hc, ht⟩ := vm_map_alloc_page_shape _ _ _ _ _ _ ha
      have hsa : sa = vm_overlay s p t s.words c := hs
      subst hsa
      simp only [Option.some.injEq, Outcome.ok.injEq] at hb
      obtain ⟨hb1, hb2⟩ := hb
      refine ⟨by rw [← hb2]; simp only [vm_map_alloc_vbase, if_pos hF], p, t, c, ?_, hc, ht⟩
      rw [← hb1, if_pos hF, if_pos hF, vm_map_entry_create_overlay, vm_guard_page_fill_overlay]
    · rw [if_neg hF] at h1
      simp only [Option.some.injEq, Outcome.ok.injEq] at h1
      obtain ⟨hb1, hb2⟩ := h1
      refine ⟨by rw [← hb2]; simp only [vm_map_alloc_vbase, if_neg hF], s.page, s.tables,
        s.pagetables_region_cursor, ?_, Nat.le_refl _, fun a => Or.inl rfl⟩
      rw [← hb1, if_neg hF, if_neg hF]
      rfl
  obtain ⟨hvb, p1, t1, c1, hs3, hc1, ht1⟩ := st1
  -- the body pages
  obtain ⟨s4, vcursor, h3, h4⟩ := and_then_ok _ _ _ _ h2
  obtain ⟨hvc, p2, t2, c2, hs4, hc2, ht2⟩ := vm_map_alloc_pages_shape _ _ _ _ _ _ _ h3
  have ht12 : ∀ a, t2 a = s.tables a ∨ t2 a &&& (3 <<< TT_AP_BIT_SHIFT) = 0 := by
    intro a
    rw [hs3] at ht2
    rcases ht2 a with h5 | h5
    · rcases ht1 a with h6 | h6
      · left; rw [h5]; exact h6
      · right; rw [h5]; exact h6
    · right; exact h5
  have hc12 : s.pagetables_region_cursor ≤ c2 := by
    rw [hs3] at hc2
    exact le_trans hc1 hc2
  rw [hs3] at hs4
  simp only [vm_overlay_overlay, vm_overlay_words] at hs4
  subst hs4
  -- the body entry and the trailing guard page
  by_cases hL : flags &&& VM_ALLOC_GUARD_LAST ≠ 0
  · rw [if_pos hL] at h4
    obtain ⟨sa, a0, ha, hb⟩ := and_then_ok _ _ _ _ h4
    obtain ⟨p, t, c, hs, hc, ht⟩ := vm_map_alloc_page_shape _ _ _ _ _ _ ha
    have hsa : sa = _ := hs
    subst hsa
    simp only [Option.some.injEq, Outcome.ok.injEq] at hb
    obtain ⟨hb1, hb2⟩ := hb
    refine ⟨by rw [← hb2]; exact hvb, p, t, c, ?_, ?_, ?_⟩
    · rw [← hb1, hvc, hvb]
      simp only [vm_map_entry_create_overlay, vm_guard_page_fill_overlay, vm_overlay_overlay,
        vm_overlay_words, vm_map_alloc_entries, vm_map_alloc_words, vm_map_alloc_vbase, if_pos hL]
    · exact le_trans hc12 hc
    · intro a
      rcases ht a with h5 | h5
      · rcases ht12 a with h6 | h6
        · left; rw [h5]; exact h6
        · right; rw [h5]; exact h6
      · right; exact h5
  · rw [if_neg hL] at h4
    simp only [Option.some.injEq, Outcome.ok.injEq] at h4
    obtain ⟨hb1, hb2⟩ := h4
    refine ⟨by rw [← hb2]; exact hvb, p2, t2, c2, ?_, hc12, ht12⟩
    rw [← hb1, hvb]
    simp only [vm_map_entry_create_overlay, vm_overlay_overlay,
      vm_map_alloc_entries, vm_map_alloc_words, vm_map_alloc_vbase, if_neg hL]

/-! ## Entries of a map -/

theorem vm_map_entry_value_size (base size flags : Nat) (h0 : 0 < size) (h1 : size ≤ 2 ^ 64) :
    (vm_map_entry_value base size flags).size = size - 1 := by
  show (size + 2 ^ 64 - 1) % 2 ^ 64 = size - 1
  have : size + 2 ^ 64 - 1 = (size - 1) + 2 ^ 64 := by omega
  rw [this, Nat.add_mod_right, Nat.mod_eq_of_lt (by omega)]

theorem vm_map_entry_value_guard (base size : Nat) :
    (vm_map_entry_value base size VM_MAP_ENTRY_GUARD_PAGE).guard_page = VM_TRUE := by
  show (if VM_MAP_ENTRY_GUARD_PAGE &&& VM_MAP_ENTRY_GUARD_PAGE ≠ 0 then VM_TRUE else VM_FALSE)
    = VM_TRUE
  decide

theorem vm_map_entry_value_body (base size : Nat) :
    (vm_map_entry_value base size VM_NULL).guard_page = VM_FALSE := by
  show (if VM_NULL &&& VM_MAP_ENTRY_GUARD_PAGE ≠ 0 then VM_TRUE else VM_FALSE) = VM_FALSE
  decide

theorem vm_map_alloc_page_count_pos (size : Nat) : 0 < vm_map_alloc_page_count size := by
  unfold vm_map_alloc_page_count
  split
  · exact Nat.one_pos
  · rename_i h
    simp only [VM_PAGE_SIZE] at h ⊢
    omega

theorem vm_map_alloc_page_count_le (size : Nat) (h : size < 2 ^ 64) :
    vm_map_alloc_page_count size * VM_PAGE_SIZE ≤ 2 ^ 64 := by
  unfold vm_map_alloc_page_count
  split
  · simp only [VM_PAGE_SIZE]; norm_num
  · simp only [VM_PAGE_SIZE] at h ⊢
    omega

/-- Appending an entry with `vm_map_entry_create` keeps the earlier entries. -/
theorem vm_map_entry_create_append (s : vm_state) (map base size flags n : Nat)
    (hwf : vm_map_wf s map n) :
    vm_map_wf (vm_map_entry_create s map base size flags) map (n + 1) ∧
      (∀ i, i < n → vm_map_entry_at (vm_map_entry_create s map base size flags) map i
        = vm_map_entry_at s map i) ∧
      vm_map_entry_at (vm_map_entry_create s map base size flags) map n
        = vm_map_entry_value base size flags ∧
      ((vm_map_entry_create s map base size flags).maps map).nentries
        = (s.maps map).nentries + 1 := by
  obtain ⟨h1, h2, h3, -⟩ := vm_map_entry_create_spec s map base size flags n hwf
  refine ⟨h1, ?_, ?_, ?_⟩
  · intro i hi
    simp only [vm_map_entry_at]
    rw [h2, set_entry_other]
    intro e
    have := vm_map_entry_addr_inj map i n e
    omega
  · simp only [vm_map_entry_at]
    rw [h2, set_entry_same]
  · rw [h3]

/-- The address `vm_map_alloc` starts from, on a map with `n + 1` entries. -/
theorem vm_map_alloc_start_wf (s : vm_state) (map n : Nat) (hwf : vm_map_wf s map (n + 1)) :
    vm_map_last_entry s map = vm_map_entry_addr map n ∧
      vm_map_entry_read s map (vm_map_last_entry s map)
        = ((vm_map_entry_at s map n).base, (vm_map_entry_at s map n).size) ∧
      vm_map_alloc_start s map
        = VM_ALIGN_ADDR ((vm_map_entry_at s map n).base + (vm_map_entry_at s map n).size + 1) := by
  have hp := is_list_prev_head _ _ _ hwf
  rw [vm_map_nodes_succ, last_from_append_singleton] at hp
  have hl : vm_map_last_entry s map = vm_map_entry_addr map n := by
    simp only [vm_map_last_entry, hp, VM_MAP_ENTRY_SIBLINGS]
    omega
  have hr : vm_map_entry_read s map (vm_map_entry_addr map n)
      = ((vm_map_entry_at s map n).base, (vm_map_entry_at s map n).size) := by
    have hne : vm_map_entry_addr map n ≠ map + VM_MAP_ENTRIES - VM_MAP_ENTRY_SIBLINGS := by
      simp only [vm_map_entry_addr, VM_MAP_T_SIZE, VM_MAP_ENTRY_SIZE, VM_MAP_ENTRIES,
        VM_MAP_ENTRY_SIBLINGS]
      omega
    simp only [vm_map_entry_read, hne, if_false, vm_map_entry_at]
  refine ⟨hl, by rw [hl, hr], ?_⟩
  simp only [vm_map_alloc_start]
  rw [hl, hr]

/-- Appending an entry that starts above the end of the last one keeps the
entries sorted. -/
theorem vm_map_sorted_append (s : vm_state) (map base size flags n : Nat)
    (hwf : vm_map_wf s map (n + 1)) (hs : vm_map_sorted s map (n + 1))
    (hb : (vm_map_entry_at s map n).base + (vm_map_entry_at s map n).size < base) :
    vm_map_wf (vm_map_entry_create s map base size flags) map (n + 2) ∧
      vm_map_sorted (vm_map_entry_create s map base size flags) map (n + 2) ∧
      vm_map_entry_at (vm_map_entry_create s map base size flags) map (n + 1)
        = vm_map_entry_value base size flags := by
  obtain ⟨h1, h2, h3, -⟩ := vm_map_entry_create_append s map base size flags (n + 1) hwf
  refine ⟨h1, ?_, h3⟩
  intro i hi
  have hi2 : i < n + 1 := by omega
  rw [h2 i hi2]
  rcases Nat.lt_or_ge i n with h | h
  · rw [h2 (i + 1) (by omega)]
    exact hs i (by omega)
  · have : i = n := by omega
    subst this
    rw [h3]
    exact hb

/-- Sorted entries have strictly increasing bases and pairwise disjoint ranges. -/
theorem vm_map_sorted_pairwise (s : vm_state) (map n : Nat) (hs : vm_map_sorted s map n) :
    ∀ j i, i < j → j < n →
      (vm_map_entry_at s map i).base < (vm_map_entry_at s map j).base ∧
      (vm_map_entry_at s map i).base + (vm_map_entry_at s map i).size
        < (vm_map_entry_at s map j).base := by
  intro j
  induction j with
  | zero => intro i hi; omega
  | succ j ih =>
    intro i hi hj
    have hstep := hs j (by omega)
    rcases Nat.lt_or_ge i j with h | h
    · have := ih i h (by omega)
      omega
    · have : i = j := by omega
      subst this
      omega

/-! ## `vm_map_alloc` returns when it has the resources -/

/-- The inner loop for one page: one block entry is written and the loop ends. -/
theorem pmap_tt_fill_l2_page (pbase vb l2 : Nat) (t : Nat → Nat) (fuel : Nat) (hf : 2 ≤ fuel)
    (hv : vb + TT_L1_SIZE < 2 ^ 64) :
    pmap_tt_fill_l2 pbase vb (vb + VM_PAGE_SIZE) vb l2 fuel t vb
      = some (tt_store t (l2 + ((vb &&& TT_L2_INDEX_MASK) >>> TT_L2_SHIFT) * 8)
          (TTE_BLOCK_TEMPLATE |||
            (((pbase + (vb + 2 ^ 64 - vb) % 2 ^ 64) % 2 ^ 64) &&& TT_TABLE_MASK))) := by
  obtain ⟨f, rfl⟩ : ∃ f, fuel = f + 2 := ⟨fuel - 2, by omega⟩
  simp only [TT_L1_SIZE] at hv
  have c1 : vb < (vb + TT_L1_SIZE) % 2 ^ 64 ∧ vb < vb + VM_PAGE_SIZE := by
    simp only [TT_L1_SIZE, VM_PAGE_SIZE]
    omega
  have c2 : ¬ ((vb + TT_L2_SIZE) % 2 ^ 64 < (vb + TT_L1_SIZE) % 2 ^ 64 ∧
      (vb + TT_L2_SIZE) % 2 ^ 64 < vb + VM_PAGE_SIZE) := by
    simp only [TT_L1_SIZE, TT_L2_SIZE, VM_PAGE_SIZE]
    omega
  rw [pmap_tt_fill_l2, if_pos c1]
  dsimp only
  rw [pmap_tt_fill_l2, if_neg c2]

/-- The outer loop for one page returns when the assertion of
`pmap_ptregion_alloc` holds. -/
theorem pmap_tt_fill_l1_page (table pbase vb fuel n : Nat) (s : vm_state) (hf : 2 ≤ fuel)
    (hn : 2 ≤ n) (hv : vb + TT_L1_SIZE < 2 ^ 64)
    (hr : s.pagetables_region_end < s.pagetables_region_cursor) :
    ∃ s1, pmap_tt_fill_l1 table pbase vb (vb + VM_PAGE_SIZE) fuel n s vb = some (.ok s1 ()) := by
  obtain ⟨m, rfl⟩ : ∃ m, n = m + 2 := ⟨n - 2, by omega⟩
  have c1 : vb < vb + VM_PAGE_SIZE := by simp only [VM_PAGE_SIZE]; omega
  have c2 : ¬ ((vb + TT_L1_SIZE) % 2 ^ 64 < vb + VM_PAGE_SIZE) := by
    simp only [TT_L1_SIZE, VM_PAGE_SIZE] at hv ⊢
    omega
  rw [pmap_tt_fill_l1, if_pos c1]
  dsimp only
  by_cases h1 : s.tables (table + (vb &&& TT_L1_INDEX_MASK) >>> TT_L1_SHIFT * 8)
      &&& TTE_TYPE_MASK = TTE_TYPE_TABLE
  · rw [pmap_tt_l2_table_old s table _ h1]
    dsimp only
    rw [pmap_tt_fill_l2_page pbase vb _ _ fuel hf hv]
    dsimp only
    rw [pmap_tt_fill_l1, if_neg c2]
    exact ⟨_, rfl⟩
  · rw [pmap_tt_l2_table_new s table _ h1 hr]
    dsimp only
    rw [pmap_tt_fill_l2_page pbase vb _ _ fuel hf hv]
    dsimp only
    rw [pmap_tt_fill_l1, if_neg c2]
    exact ⟨_, rfl⟩

/-- `pmap_tt_create_tte` for one page returns when the assertion of
`pmap_ptregion_alloc` holds. -/
theorem pmap_tt_create_tte_page_returns (fuel : Nat) (s : vm_state)
    (table pbase vb flags : Nat) (hf : 2 ≤ fuel) (hv : vb + TT_L1_SIZE < 2 ^ 64)
    (hr : s.pagetables_region_end < s.pagetables_region_cursor) :
    ∃ s1 r, pmap_tt_create_tte fuel s table pbase vb VM_PAGE_SIZE flags = some (.ok s1 r) := by
  have hvend : (vb + VM_PAGE_SIZE) % 2 ^ 64 = vb + VM_PAGE_SIZE := by
    simp only [TT_L1_SIZE, VM_PAGE_SIZE] at hv ⊢
    omega
  rw [pmap_tt_create_tte]
  by_cases hp : pbase > DEFAULTS_KERNEL_VM_VIRT_BASE
  · rw [if_pos hp]
    exact ⟨_, _, rfl⟩
  · rw [if_neg hp, hvend]
    obtain ⟨s1, h1⟩ := pmap_tt_fill_l1_page table pbase vb fuel fuel s hf hf hv hr
    rw [h1]
    exact ⟨_, _, rfl⟩

/-- Taking descriptor `k` shortens a run of free descriptors from `k`. -/
theorem vm_page_free_run_taken (st : vm_page_state) (k m : Nat)
    (h : vm_page_free_run st k (m + 1)) : vm_page_free_run (vm_page_taken st k) (k + 1) m := by
  obtain ⟨h1, h2⟩ := h
  constructor
  · intro i hi
    rcases Nat.lt_or_ge i k with hik | hik
    · have := h1 i hik
      simp only [page_is_free, vm_page_taken, set_page_other _ _ _ _ (Nat.ne_of_lt hik)] at this ⊢
      exact this
    · have : i = k := by omega
      subst this
      simp only [page_is_free, vm_page_taken, set_page_same]
      decide
  · intro i hi
    have := h2 (i + 1) (by omega)
    have hne : k + 1 + i ≠ k := by omega
    have he : k + (i + 1) = k + 1 + i := by omega
    rw [he] at this
    simp only [page_is_free, vm_page_taken, set_page_other _ _ _ _ hne] at this ⊢
    exact this

/-- Allocating and mapping one page returns when a frame is free and the
assertion of `pmap_ptregion_alloc` holds; it takes the first frame of the run
and the assertion still holds afterwards. -/
theorem vm_map_alloc_page_returns (fuel : Nat) (s : vm_state) (table vb access k m : Nat)
    (hf : 2 ≤ fuel) (hv : vb + TT_L1_SIZE < 2 ^ 64)
    (hr : s.pagetables_region_end < s.pagetables_region_cursor)
    (hrun : vm_page_free_run s.page k (m + 1)) :
    ∃ s1 r, vm_map_alloc_page fuel s table vb access = some (.ok s1 r) ∧
      s1.pagetables_region_end < s1.pagetables_region_cursor ∧
      vm_page_free_run s1.page (k + 1) m := by
  have h0 := hrun.2 0 (Nat.succ_pos m)
  rw [Nat.add_zero] at h0
  have ha := vm_page_alloc_takes_lowest s.page k h0.1 h0.2 hrun.1
  have hin : vm_page_alloc_in s
      = .ok (vm_overlay s (vm_page_taken s.page k) s.tables s.words s.pagetables_region_cursor)
        (s.page.pages k).paddr := by
    unfold vm_page_alloc_in
    rw [ha]
    rfl
  obtain ⟨s1, r, h1⟩ := pmap_tt_create_tte_page_returns fuel
    (vm_overlay s (vm_page_taken s.page k) s.tables s.words s.pagetables_region_cursor)
    table (s.page.pages k).paddr vb access hf hv hr
  obtain ⟨t, c, hs, hc, -⟩ := pmap_tt_create_tte_shape _ _ _ _ _ _ _ _ h1
  have hs1 : s1 = _ := hs
  refine ⟨s1, r, ?_, ?_, ?_⟩
  · unfold vm_map_alloc_page and_then
    rw [hin]
    exact h1
  · rw [hs1]
    simp only [vm_overlay_overlay, vm_overlay_end, vm_overlay_cursor]
    simp only [vm_overlay_cursor] at hc
    omega
  · rw [hs1]
    simp only [vm_overlay_overlay, vm_overlay_page]
    exact vm_page_free_run_taken s.page k m hrun

theorem vm_map_alloc_pages_returns (fuel table : Nat) (hf : 2 ≤ fuel) :
    ∀ (n : Nat) (s : vm_state) (vb k m : Nat),
      vb + n * VM_PAGE_SIZE + TT_L1_SIZE < 2 ^ 64 →
      s.pagetables_region_end < s.pagetables_region_cursor →
      vm_page_free_run s.page k (n + m) →
      ∃ s1, vm_map_alloc_pages fuel table n s vb = some (.ok s1 (vb + n * VM_PAGE_SIZE)) ∧
        s1.pagetables_region_end < s1.pagetables_region_cursor ∧
        vm_page_free_run s1.page (k + n) m := by
  intro n
  induction n with
  | zero =>
    intro s vb k m _ hr hrun
    refine ⟨s, ?_, hr, ?_⟩
    · simp [vm_map_alloc_pages]
    · rw [Nat.zero_add] at hrun; exact hrun
  | succ n ih =>
    intro s vb k m hv hr hrun
    have hrun2 : vm_page_free_run s.page k ((n + m) + 1) := by
      have : n + 1 + m = n + m + 1 := by omega
      rw [this] at hrun; exact hrun
    obtain ⟨s1, r, h1, hr1, hrun1⟩ := vm_map_alloc_page_returns fuel s table vb
      PMAP_ACCESS_READWRITE k (n + m) hf (by simp only [VM_PAGE_SIZE] at hv; omega) hr hrun2
    obtain ⟨s2, h2, hr2, hrun3⟩ := ih s1 (vb + VM_PAGE_SIZE) (k + 1) m
      (by simp only [VM_PAGE_SIZE] at hv ⊢; omega) hr1 hrun1
    refine ⟨s2, ?_, hr2, ?_⟩
    · rw [vm_map_alloc_pages, h1]
      simp only [and_then]
      rw [h2]
      simp only [VM_PAGE_SIZE]
      congr 2
      omega
    · have : k + (n + 1) = k + 1 + n := by omega
      rw [this]; exact hrun3

theorem vm_page_free_run_shorter (st : vm_page_state) (k m : Nat)
    (h : vm_page_free_run st k (m + 1)) : vm_page_free_run st k m :=
  ⟨h.1, fun i hi => h.2 i (Nat.lt_succ_of_lt hi)⟩

/-- `vm_map_alloc` returns when it has the resources of `vm_map_alloc_ready`. -/
theorem vm_map_alloc_returns (fuel : Nat) (s : vm_state) (map size flags k : Nat)
    (h : vm_map_alloc_ready fuel s map size k) :
    ∃ s1 v, vm_map_alloc fuel s map size flags = some (.ok s1 v) := by
  obtain ⟨hf, hr, hrun, hv⟩ := h
  -- the leading guard page
  have st1 : ∃ s3 vbase k1,
      (if flags &&& VM_ALLOC_GUARD_FIRST ≠ 0 then
        and_then (vm_map_alloc_page fuel s (map + VM_MAP_PMAP) (vm_map_alloc_start s map)
          PMAP_ACCESS_NOACCESS) fun s1 _ =>
          some (.ok (vm_guard_page_fill
            (vm_map_entry_create s1 map (vm_map_alloc_start s map) VM_PAGE_SIZE
              VM_MAP_ENTRY_GUARD_PAGE) (vm_map_alloc_start s map))
            (vm_map_alloc_start s map + VM_PAGE_SIZE))
      else some (.ok s (vm_map_alloc_start s map))) = some (.ok s3 vbase) ∧
      s3.pagetables_region_end < s3.pagetables_region_cursor ∧
      vm_page_free_run s3.page k1 (vm_map_alloc_page_count size + 1) ∧
      vbase ≤ vm_map_alloc_start s map + VM_PAGE_SIZE := by
    by_cases hF : flags &&& VM_ALLOC_GUARD_FIRST ≠ 0
    · rw [if_pos hF]
      obtain ⟨s1, r, h1, hr1, hrun1⟩ := vm_map_alloc_page_returns fuel s (map + VM_MAP_PMAP)
        (vm_map_alloc_start s map) PMAP_ACCESS_NOACCESS k (vm_map_alloc_page_count size + 1) hf
        (by omega) hr hrun
      refine ⟨vm_guard_page_fill
          (vm_map_entry_create s1 map (vm_map_alloc_start s map) VM_PAGE_SIZE
            VM_MAP_ENTRY_GUARD_PAGE) (vm_map_alloc_start s map),
        _, k + 1, ?_, hr1, hrun1, Nat.le_refl _⟩
      rw [h1]
      rfl
    · rw [if_neg hF]
      exact ⟨s, _, k, rfl, hr, vm_page_free_run_shorter _ _ _ hrun, Nat.le_add_right _ _⟩
  obtain ⟨s3, vbase, k1, h1, hr3, hrun3, hvb⟩ := st1
  -- the body pages
  obtain ⟨s4, h4, hr4, hrun4⟩ := vm_map_alloc_pages_returns fuel (map + VM_MAP_PMAP) hf
    (vm_map_alloc_page_count size) s3 vbase k1 1
    (by simp only [VM_PAGE_SIZE] at hv hvb ⊢; omega) hr3 hrun3
  -- the trailing guard page
  unfold vm_map_alloc
  dsimp only
  rw [h1]
  simp only [and_then]
  rw [h4]
  dsimp only
  by_cases hL : flags &&& VM_ALLOC_GUARD_LAST ≠ 0
  · rw [if_pos hL]
    obtain ⟨s6, r, h6, -, -⟩ := vm_map_alloc_page_returns fuel
      (vm_map_entry_create s4 map vbase (vm_map_alloc_page_count size * VM_PAGE_SIZE) VM_NULL)
      (map + VM_MAP_PMAP) (vbase + vm_map_alloc_page_count size * VM_PAGE_SIZE)
      PMAP_ACCESS_NOACCESS (k1 + vm_map_alloc_page_count size) 0 hf
      (by simp only [VM_PAGE_SIZE] at hv hvb ⊢; omega) hr4 hrun4
    rw [h6]
    exact ⟨_, _, rfl⟩
  · rw [if_neg hL]
    exact ⟨_, _, rfl⟩

/-! ## `vm_map_alloc`: entries -/

/-- The entries that `vm_map_alloc` with both guard flags appends to a map with
`n + 1` entries. -/
theorem vm_map_alloc_entries_guarded (s : vm_state) (map size n : Nat)
    (hwf : vm_map_wf s map (n + 1)) :
    vm_map_wf (vm_map_alloc_entries s map size (VM_ALLOC_GUARD_FIRST ||| VM_ALLOC_GUARD_LAST))
        map (n + 4) ∧
      (∀ i, i < n + 1 →
        vm_map_entry_at
            (vm_map_alloc_entries s map size (VM_ALLOC_GUARD_FIRST ||| VM_ALLOC_GUARD_LAST)) map i
          = vm_map_entry_at s map i) ∧
      vm_map_entry_at
          (vm_map_alloc_entries s map size (VM_ALLOC_GUARD_FIRST ||| VM_ALLOC_GUARD_LAST)) map
          (n + 1)
        = vm_map_entry_value (vm_map_alloc_start s map) VM_PAGE_SIZE VM_MAP_ENTRY_GUARD_PAGE ∧
      vm_map_entry_at
          (vm_map_alloc_entries s map size (VM_ALLOC_GUARD_FIRST ||| VM_ALLOC_GUARD_LAST)) map
          (n + 2)
        = vm_map_entry_value (vm_map_alloc_start s map + VM_PAGE_SIZE)
            (vm_map_alloc_page_count size * VM_PAGE_SIZE) VM_NULL ∧
      vm_map_entry_at
          (vm_map_alloc_entries s map size (VM_ALLOC_GUARD_FIRST ||| VM_ALLOC_GUARD_LAST)) map
          (n + 3)
        = vm_map_entry_value
            (vm_map_alloc_start s map + VM_PAGE_SIZE + vm_map_alloc_page_count size * VM_PAGE_SIZE)
            VM_PAGE_SIZE VM_MAP_ENTRY_GUARD_PAGE ∧
      ((vm_map_alloc_entries s map size (VM_ALLOC_GUARD_FIRST ||| VM_ALLOC_GUARD_LAST)).maps
          map).nentries = (s.maps map).nentries + 3 := by
  have hF : (VM_ALLOC_GUARD_FIRST ||| VM_ALLOC_GUARD_LAST) &&& VM_ALLOC_GUARD_FIRST ≠ 0 := by
    decide
  have hL : (VM_ALLOC_GUARD_FIRST ||| VM_ALLOC_GUARD_LAST) &&& VM_ALLOC_GUARD_LAST ≠ 0 := by
    decide
  obtain ⟨a1, a2, a3, a4⟩ := vm_map_entry_create_append s map (vm_map_alloc_start s map)
    VM_PAGE_SIZE VM_MAP_ENTRY_GUARD_PAGE (n + 1) hwf
  obtain ⟨b1, b2, b3, b4⟩ := vm_map_entry_create_append _ map
    (vm_map_alloc_start s map + VM_PAGE_SIZE) (vm_map_alloc_page_count size * VM_PAGE_SIZE)
    VM_NULL (n + 2) a1
  obtain ⟨c1, c2, c3, c4⟩ := vm_map_entry_create_append _ map
    (vm_map_alloc_start s map + VM_PAGE_SIZE + vm_map_alloc_page_count size * VM_PAGE_SIZE)
    VM_PAGE_SIZE VM_MAP_ENTRY_GUARD_PAGE (n + 3) b1
  simp only [vm_map_alloc_entries, if_pos hF, if_pos hL]
  refine ⟨c1, ?_, ?_, ?_, c3, ?_⟩
  · intro i hi
    rw [c2 i (by omega), b2 i (by omega), a2 i hi]
  · rw [c2 (n + 1) (by omega), b2 (n + 1) (by omega), a3]
  · rw [c2 (n + 2) (by omega), b3]
  · rw [c4, b4, a4]

/-- C16: let the map at `map` be non-empty, with `n + 1` entries, and `size` a
64-bit value.  Every call `vm_map_alloc(map, size, VM_ALLOC_GUARD_FIRST |
VM_ALLOC_GUARD_LAST)` that returns has appended exactly three entries to the
list of the map, the earlier entries unchanged: a guard entry (one page,
`guard_page` set), the body entry (`guard_page` clear) and a guard entry (one
page, `guard_page` set), in this order.  The returned address is the base of the
body entry, one page above the 4-byte-aligned end of the previously last entry,
where the first guard entry starts; the second guard entry starts where the
body ends.  The call does return when it has the resources of
`vm_map_alloc_ready`: free frames, a passing assertion in the translation-table
region allocator and no address wrap-around. -/
theorem vm_map_alloc_appends_guard_body_guard (fuel : Nat) (s : vm_state) (map size n : Nat)
    (hwf : vm_map_wf s map (n + 1)) (hsize : size < 2 ^ 64) :
    (∀ s1 v,
      vm_map_alloc fuel s map size (VM_ALLOC_GUARD_FIRST ||| VM_ALLOC_GUARD_LAST)
        = some (.ok s1 v) →
      vm_map_wf s1 map (n + 4) ∧
      (∀ i, i < n + 1 → vm_map_entry_at s1 map i = vm_map_entry_at s map i) ∧
      (s1.maps map).nentries = (s.maps map).nentries + 3 ∧
      v = VM_ALIGN_ADDR ((vm_map_entry_at s map n).base + (vm_map_entry_at s map n).size + 1)
          + VM_PAGE_SIZE ∧
      (vm_map_entry_at s1 map (n + 1)).base = v - VM_PAGE_SIZE ∧
      (vm_map_entry_at s1 map (n + 1)).size = VM_PAGE_SIZE - 1 ∧
      (vm_map_entry_at s1 map (n + 1)).guard_page = VM_TRUE ∧
      (vm_map_entry_at s1 map (n + 2)).base = v ∧
      (vm_map_entry_at s1 map (n + 2)).size = vm_map_alloc_page_count size * VM_PAGE_SIZE - 1 ∧
      (vm_map_entry_at s1 map (n + 2)).guard_page = VM_FALSE ∧
      (vm_map_entry_at s1 map (n + 3)).base = v + vm_map_alloc_page_count size * VM_PAGE_SIZE ∧
      (vm_map_entry_at s1 map (n + 3)).size = VM_PAGE_SIZE - 1 ∧
      (vm_map_entry_at s1 map (n + 3)).guard_page = VM_TRUE) ∧
    (∀ k, vm_map_alloc_ready fuel s map size k →
      ∃ s1 v, vm_map_alloc fuel s map size (VM_ALLOC_GUARD_FIRST ||| VM_ALLOC_GUARD_LAST)
        = some (.ok s1 v)) := by
  refine ⟨?_, fun k hk => vm_map_alloc_returns fuel s map size _ k hk⟩
  intro s1 v hret
  obtain ⟨hv, p, t, c, hs1, -, -⟩ := vm_map_alloc_shape fuel s map size _ s1 v hret
  obtain ⟨e1, e2, e3, e4, e5, e6⟩ := vm_map_alloc_entries_guarded s map size n hwf
  have hstart := (vm_map_alloc_start_wf s map n hwf).2.2
  have hv2 : v = vm_map_alloc_start s map + VM_PAGE_SIZE := by
    rw [hv]
    simp only [vm_map_alloc_vbase]
    rw [if_pos (by decide)]
  have hat : ∀ i, vm_map_entry_at s1 map i
      = vm_map_entry_at
          (vm_map_alloc_entries s map size (VM_ALLOC_GUARD_FIRST ||| VM_ALLOC_GUARD_LAST)) map i := by
    intro i; rw [hs1]; rfl
  have hpc := vm_map_alloc_page_count_pos size
  have hpl := vm_map_alloc_page_count_le size hsize
  refine ⟨by rw [hs1]; exact e1, fun i hi => by rw [hat, e2 i hi], by rw [hs1]; exact e6,
    by rw [hv2, hstart], ?_, ?_, ?_, ?_, ?_, ?_, ?_, ?_, ?_⟩
  · rw [hat, e3, hv2]; simp [vm_map_entry_value]
  · rw [hat, e3]; exact vm_map_entry_value_size _ _ _ (by decide) (by decide)
  · rw [hat, e3]; exact vm_map_entry_value_guard _ _
  · rw [hat, e4, hv2]; rfl
  · rw [hat, e4]
    exact vm_map_entry_value_size _ _ _ (Nat.mul_pos hpc (by decide)) hpl
  · rw [hat, e4]; exact vm_map_entry_value_body _ _
  · rw [hat, e5, hv2]; rfl
  · rw [hat, e5]; exact vm_map_entry_value_size _ _ _ (by decide) (by decide)
  · rw [hat, e5]; exact vm_map_entry_value_guard _ _

/-- C16 witness: on the small machine after `vm_configure` (one entry in the
kernel map, frames 5 onwards free) the call with three pages returns. -/
theorem vm_map_alloc_appends_guard_body_guard_witness :
    (vm_map_wf vm_demo 0xfffffff000100000 (0 + 1) ∧ 3 * VM_PAGE_SIZE < 2 ^ 64 ∧
      vm_map_alloc_ready 2 vm_demo 0xfffffff000100000 (3 * VM_PAGE_SIZE) 5) ∧
    ∃ s1 v,
      vm_map_alloc 2 vm_demo 0xfffffff000100000 (3 * VM_PAGE_SIZE)
        (VM_ALLOC_GUARD_FIRST ||| VM_ALLOC_GUARD_LAST) = some (.ok s1 v) ∧
      vm_map_wf s1 0xfffffff000100000 (0 + 4) ∧
      v = 0xfffffff000005000 ∧
      (vm_map_entry_at s1 0xfffffff000100000 (0 + 1)).guard_page = VM_TRUE ∧
      (vm_map_entry_at s1 0xfffffff000100000 (0 + 2)).base = v ∧
      (vm_map_entry_at s1 0xfffffff000100000 (0 + 2)).guard_page = VM_FALSE ∧
      (vm_map_entry_at s1 0xfffffff000100000 (0 + 3)).guard_page = VM_TRUE := by
  have h := vm_map_alloc_appends_guard_body_guard 2 vm_demo 0xfffffff000100000
    (3 * VM_PAGE_SIZE) 0 (by decide) (by decide)
  obtain ⟨s1, v, hret⟩ := h.2 5 (by decide)
  obtain ⟨h1, -, -, h4, -, -, h7, h8, -, h10, -, -, h13⟩ := h.1 s1 v hret
  exact ⟨⟨by decide, by decide, by decide⟩, s1, v, hret, h1,
    by rw [h4]; decide, h7, h8, h10, h13⟩

/-! ## `vm_map_alloc`: the entries stay sorted -/

/-- The body entry, and the trailing guard entry if asked for, appended above the
end of the last entry keep the entries sorted. -/
theorem vm_map_alloc_tail_sorted (s : vm_state) (map size flags vbase m : Nat)
    (hwf : vm_map_wf s map (m + 1)) (hs : vm_map_sorted s map (m + 1))
    (hb : (vm_map_entry_at s map m).base + (vm_map_entry_at s map m).size < vbase)
    (hsize : size < 2 ^ 64) :
    ∃ k, vm_map_wf
        (if flags &&& VM_ALLOC_GUARD_LAST ≠ 0 then
          vm_map_entry_create
            (vm_map_entry_create s map vbase (vm_map_alloc_page_count size * VM_PAGE_SIZE) VM_NULL)
            map (vbase + vm_map_alloc_page_count size * VM_PAGE_SIZE) VM_PAGE_SIZE
            VM_MAP_ENTRY_GUARD_PAGE
        else
          vm_map_entry_create s map vbase (vm_map_alloc_page_count size * VM_PAGE_SIZE) VM_NULL)
        map (k + 1) ∧
      vm_map_sorted
        (if flags &&& VM_ALLOC_GUARD_LAST ≠ 0 then
          vm_map_entry_create
            (vm_map_entry_create s map vbase (vm_map_alloc_page_count size * VM_PAGE_SIZE) VM_NULL)
            map (vbase + vm_map_alloc_page_count size * VM_PAGE_SIZE) VM_PAGE_SIZE
            VM_MAP_ENTRY_GUARD_PAGE
        else
          vm_map_entry_create s map vbase (vm_map_alloc_page_count size * VM_PAGE_SIZE) VM_NULL)
        map (k + 1) := by
  have hpc := vm_map_alloc_page_count_pos size
  have hpl := vm_map_alloc_page_count_le size hsize
  obtain ⟨a1, a2, a3⟩ := vm_map_sorted_append s map vbase
    (vm_map_alloc_page_count size * VM_PAGE_SIZE) VM_NULL m hwf hs hb
  by_cases hL : flags &&& VM_ALLOC_GUARD_LAST ≠ 0
  · rw [if_pos hL]
    have hb2 : (vm_map_entry_at (vm_map_entry_create s map vbase
          (vm_map_alloc_page_count size * VM_PAGE_SIZE) VM_NULL) map (m + 1)).base
        + (vm_map_entry_at (vm_map_entry_create s map vbase
          (vm_map_alloc_page_count size * VM_PAGE_SIZE) VM_NULL) map (m + 1)).size
        < vbase + vm_map_alloc_page_count size * VM_PAGE_SIZE := by
      rw [a3, vm_map_entry_value_size _ _ _ (Nat.mul_pos hpc (by decide)) hpl]
      show vbase + (vm_map_alloc_page_count size * VM_PAGE_SIZE - 1) < _
      have := Nat.mul_pos hpc (show 0 < VM_PAGE_SIZE by decide)
      omega
    obtain ⟨b1, b2, -⟩ := vm_map_sorted_append _ map
      (vbase + vm_map_alloc_page_count size * VM_PAGE_SIZE) VM_PAGE_SIZE VM_MAP_ENTRY_GUARD_PAGE
      (m + 1) a1 a2 hb2
    exact ⟨m + 2, b1, b2⟩
  · rw [if_neg hL]
    exact ⟨m + 1, a1, a2⟩

/-- A `vm_map_alloc` that does not wrap around keeps a non-empty map sorted. -/
theorem vm_map_alloc_entries_sorted (s : vm_state) (map size flags n : Nat)
    (hwf : vm_map_wf s map (n + 1)) (hs : vm_map_sorted s map (n + 1))
    (hfit : vm_map_alloc_fits s map size) :
    ∃ k, vm_map_wf (vm_map_alloc_entries s map size flags) map (k + 1) ∧
      vm_map_sorted (vm_map_alloc_entries s map size flags) map (k + 1) := by
  obtain ⟨-, hread, hstart⟩ := vm_map_alloc_start_wf s map n hwf
  obtain ⟨hsize, hfit2⟩ := hfit
  rw [hread] at hfit2
  dsimp only at hfit2
  have hA : (vm_map_entry_at s map n).base + (vm_map_entry_at s map n).size
      < vm_map_alloc_start s map := by
    rw [hstart]
    have := VM_ALIGN_ADDR_ge
      ((vm_map_entry_at s map n).base + (vm_map_entry_at s map n).size + 1) (by omega)
    omega
  simp only [vm_map_alloc_entries]
  by_cases hF : flags &&& VM_ALLOC_GUARD_FIRST ≠ 0
  · simp only [if_pos hF]
    obtain ⟨a1, a2, a3⟩ := vm_map_sorted_append s map (vm_map_alloc_start s map) VM_PAGE_SIZE
      VM_MAP_ENTRY_GUARD_PAGE n hwf hs hA
    refine vm_map_alloc_tail_sorted _ map size flags _ (n + 1) a1 a2 ?_ hsize
    rw [a3, vm_map_entry_value_size _ _ _ (by decide) (by decide)]
    show vm_map_alloc_start s map + (VM_PAGE_SIZE - 1) < _
    simp only [VM_PAGE_SIZE]
    omega
  · simp only [if_neg hF]
    exact vm_map_alloc_tail_sorted s map size flags _ n hwf hs hA hsize

/-- Every state of `vm_map_built` has a non-empty, sorted map. -/
theorem vm_map_built_sorted (map : Nat) (s : vm_state) (h : vm_map_built map s) :
    ∃ n, vm_map_wf s map (n + 1) ∧ vm_map_sorted s map (n + 1) := by
  induction h with
  | init s pmap min max base size flags _ _ =>
    obtain ⟨h1, -⟩ := vm_map_entry_create_append _ map base size flags 0
      (vm_map_create_wf s map pmap min max)
    exact ⟨0, h1, fun i hi => absurd hi (Nat.not_lt_zero i)⟩
  | alloc fuel s size flags s1 v _ hfit hret ih =>
    obtain ⟨n, hwf, hs⟩ := ih
    obtain ⟨-, p, t, c, hs1, -, -⟩ := vm_map_alloc_shape fuel s map size flags s1 v hret
    obtain ⟨k, h1, h2⟩ := vm_map_alloc_entries_sorted s map size flags n hwf hs hfit
    refine ⟨k, ?_, ?_⟩
    · rw [hs1]; exact h1
    · rw [hs1]; exact h2

/-- C17: for every map initialised by `vm_map_create` and one
`vm_map_entry_create` of non-zero size, and every subsequent sequence of
returning `vm_map_alloc` calls, with any flags and sizes, none of which wraps
around the 64-bit address space, the map is non-empty and its entries in list
order have strictly increasing base addresses and pairwise disjoint address
ranges: an earlier entry ends (at `base + size`, `size` holding the offset of
its last byte) below the base of every later one. -/
theorem vm_map_entries_increasing_disjoint (map : Nat) (s : vm_state)
    (h : vm_map_built map s) :
    ∃ n, vm_map_wf s map (n + 1) ∧
      ∀ i j, i < j → j < n + 1 →
        (vm_map_entry_at s map i).base < (vm_map_entry_at s map j).base ∧
        (vm_map_entry_at s map i).base + (vm_map_entry_at s map i).size
          < (vm_map_entry_at s map j).base := by
  obtain ⟨n, hwf, hs⟩ := vm_map_built_sorted map s h
  exact ⟨n, hwf, fun i j hij hj => vm_map_sorted_pairwise s map (n + 1) hs j i hij hj⟩

/-- The kernel map of the small machine after `vm_configure` and one guarded
`vm_map_alloc` of three pages is a state of `vm_map_built`. -/
theorem vm_demo_guarded_built : vm_map_built 0xfffffff000100000 vm_demo_guarded := by
  have h0 : vm_map_built 0xfffffff000100000 vm_demo :=
    vm_map_built.init
      { (vm_state_initial 0xfffffff000200000 args_small 0xfffffff000180000 0) with
        page := (vm_page_bootstrap
          (vm_state_initial 0xfffffff000200000 args_small 0xfffffff000180000 0).page
          args_small.kernbase 0x40000 args_small.kernsize).state }
      0xfffffff0000ff000 args_small.virtbase VM_KERNEL_MAX_ADDRESS args_small.virtbase
      args_small.kernsize VM_ALLOC_KERNEL_CODE (by decide) (by decide)
  exact vm_map_built.alloc 2 vm_demo (3 * VM_PAGE_SIZE)
    (VM_ALLOC_GUARD_FIRST ||| VM_ALLOC_GUARD_LAST) vm_demo_guarded 0xfffffff000005000 h0
    (by decide) rfl

/-- C17 witness: the kernel map of the small machine after `vm_configure` and a
guarded `vm_map_alloc` of three pages. -/
theorem vm_map_entries_increasing_disjoint_witness :
    vm_map_built 0xfffffff000100000 vm_demo_guarded ∧
    ∃ n, vm_map_wf vm_demo_guarded 0xfffffff000100000 (n + 1) ∧
      ∀ i j, i < j → j < n + 1 →
        (vm_map_entry_at vm_demo_guarded 0xfffffff000100000 i).base
          < (vm_map_entry_at vm_demo_guarded 0xfffffff000100000 j).base ∧
        (vm_map_entry_at vm_demo_guarded 0xfffffff000100000 i).base
            + (vm_map_entry_at vm_demo_guarded 0xfffffff000100000 i).size
          < (vm_map_entry_at vm_demo_guarded 0xfffffff000100000 j).base :=
  ⟨vm_demo_guarded_built,
    vm_map_entries_increasing_disjoint 0xfffffff000100000 vm_demo_guarded vm_demo_guarded_built⟩

/-! ## `vm_map_alloc`: guard pages -/

theorem vm_guard_page_fill_loop_or (g : Nat) :
    ∀ (n i0 : Nat) (w : Nat → Nat) (a : Nat),
      vm_guard_page_fill_loop g n i0 w a = VM_PAGE_GUARD_MAGIC ∨
      vm_guard_page_fill_loop g n i0 w a = w a := by
  intro n
  induction n with
  | zero => intro i0 w a; right; rfl
  | succ n ih =>
    intro i0 w a
    rw [vm_guard_page_fill_loop]
    rcases ih (i0 + 1) (tt_store w (g + i0 * 8) VM_PAGE_GUARD_MAGIC) a with h | h
    · left; exact h
    · rw [h]
      by_cases ha : a = g + i0 * 8
      · left; simp only [tt_store, ha, if_true]
      · right; simp only [tt_store, ha, if_false]

/-- The loop of `vm_guard_page_fill` writes the sentinel to each word it is asked
to fill. -/
theorem vm_guard_page_fill_loop_in (g : Nat) :
    ∀ (n i0 : Nat) (w : Nat → Nat) (j : Nat), i0 ≤ j → j < i0 + n →
      vm_guard_page_fill_loop g n i0 w (g + j * 8) = VM_PAGE_GUARD_MAGIC := by
  intro n
  induction n with
  | zero => intro i0 w j h1 h2; omega
  | succ n ih =>
    intro i0 w j h1 h2
    rw [vm_guard_page_fill_loop]
    rcases Nat.eq_or_lt_of_le h1 with h | h
    · subst h
      rcases vm_guard_page_fill_loop_or g n (i0 + 1)
        (tt_store w (g + i0 * 8) VM_PAGE_GUARD_MAGIC) (g + i0 * 8) with h3 | h3
      · exact h3
      · rw [h3]; simp only [tt_store, if_true]
    · exact ih (i0 + 1) _ j h (by omega)

/-- C14 (amended): let `size` be a positive multiple of the page size.  Every call
`vm_map_alloc(map, size, VM_ALLOC_GUARD_FIRST | VM_ALLOC_GUARD_LAST)` that returns
`v` has filled the pages at `v - VM_PAGE_SIZE` and at `v + size` with the
sentinel word `0xefbeaddeefbeadde`.  The access argument of `pmap_tt_create_tte`
is not consulted: the call with `PMAP_ACCESS_NOACCESS` does what the call with
`PMAP_ACCESS_READWRITE` does, and every translation-table word that
`vm_map_alloc` has changed, for a guard page or for a body page, has the
access-permission bits 7:6 clear.  The call does return when it has the
resources of `vm_map_alloc_ready`. -/
theorem vm_map_alloc_guards_filled_same_access (fuel : Nat) (s : vm_state) (map size : Nat)
    (hpos : 0 < size) (hmul : size % VM_PAGE_SIZE = 0) :
    (∀ s1 v,
      vm_map_alloc fuel s map size (VM_ALLOC_GUARD_FIRST ||| VM_ALLOC_GUARD_LAST)
        = some (.ok s1 v) →
      (∀ i, i < VM_PAGE_SIZE / 8 → s1.words (v - VM_PAGE_SIZE + i * 8) = VM_PAGE_GUARD_MAGIC) ∧
      (∀ i, i < VM_PAGE_SIZE / 8 → s1.words (v + size + i * 8) = VM_PAGE_GUARD_MAGIC) ∧
      (∀ a, s1.tables a ≠ s.tables a → s1.tables a &&& (3 <<< TT_AP_BIT_SHIFT) = 0)) ∧
    (∀ (f : Nat) (s0 : vm_state) (table pbase vbase sz : Nat),
      pmap_tt_create_tte f s0 table pbase vbase sz PMAP_ACCESS_NOACCESS
        = pmap_tt_create_tte f s0 table pbase vbase sz PMAP_ACCESS_READWRITE) ∧
    (∀ k, vm_map_alloc_ready fuel s map size k →
      ∃ s1 v, vm_map_alloc fuel s map size (VM_ALLOC_GUARD_FIRST ||| VM_ALLOC_GUARD_LAST)
        = some (.ok s1 v)) := by
  refine ⟨?_, fun _ _ _ _ _ _ => rfl, fun k hk => vm_map_alloc_returns fuel s map size _ k hk⟩
  intro s1 v hret
  obtain ⟨hv, p, t, c, hs1, -, hap⟩ := vm_map_alloc_shape fuel s map size _ s1 v hret
  have hF : (VM_ALLOC_GUARD_FIRST ||| VM_ALLOC_GUARD_LAST) &&& VM_ALLOC_GUARD_FIRST ≠ 0 := by
    decide
  have hL : (VM_ALLOC_GUARD_FIRST ||| VM_ALLOC_GUARD_LAST) &&& VM_ALLOC_GUARD_LAST ≠ 0 := by
    decide
  have hv2 : v = vm_map_alloc_start s map + VM_PAGE_SIZE := by
    rw [hv]; simp only [vm_map_alloc_vbase]; rw [if_pos hF]
  have hpc : vm_map_alloc_page_count size * VM_PAGE_SIZE = size := by
    unfold vm_map_alloc_page_count
    simp only [VM_PAGE_SIZE] at hmul ⊢
    split <;> omega
  have hw : s1.words
      = vm_guard_page_fill_loop (v + size) (VM_PAGE_SIZE / 8) 0
          (vm_guard_page_fill_loop (v - VM_PAGE_SIZE) (VM_PAGE_SIZE / 8) 0 s.words) := by
    rw [hs1, vm_overlay_words]
    simp only [vm_map_alloc_words, if_pos hF, if_pos hL, hpc]
    rw [← hv, hv2, Nat.add_sub_cancel]
  refine ⟨?_, ?_, ?_⟩
  · intro i hi
    rw [hw]
    rcases vm_guard_page_fill_loop_or (v + size) (VM_PAGE_SIZE / 8) 0
      (vm_guard_page_fill_loop (v - VM_PAGE_SIZE) (VM_PAGE_SIZE / 8) 0 s.words)
      (v - VM_PAGE_SIZE + i * 8) with h | h
    · exact h
    · rw [h]
      exact vm_guard_page_fill_loop_in _ _ 0 _ i (Nat.zero_le _) (by omega)
  · intro i hi
    rw [hw]
    exact vm_guard_page_fill_loop_in _ _ 0 _ i (Nat.zero_le _) (by omega)
  · intro a ha
    rw [hs1, vm_overlay_tables] at ha ⊢
    rcases hap a with h | h
    · exact absurd h ha
    · exact h

/-- C14 witness: three pages with both guards on the small machine after
`vm_configure`. -/
theorem vm_map_alloc_guards_filled_same_access_witness :
    (0 < 3 * VM_PAGE_SIZE ∧ 3 * VM_PAGE_SIZE % VM_PAGE_SIZE = 0 ∧
      vm_map_alloc_ready 2 vm_demo 0xfffffff000100000 (3 * VM_PAGE_SIZE) 5) ∧
    ∃ s1 v,
      vm_map_alloc 2 vm_demo 0xfffffff000100000 (3 * VM_PAGE_SIZE)
        (VM_ALLOC_GUARD_FIRST ||| VM_ALLOC_GUARD_LAST) = some (.ok s1 v) ∧
      (∀ i, i < VM_PAGE_SIZE / 8 → s1.words (v - VM_PAGE_SIZE + i * 8) = VM_PAGE_GUARD_MAGIC) ∧
      (∀ i, i < VM_PAGE_SIZE / 8 →
        s1.words (v + 3 * VM_PAGE_SIZE + i * 8) = VM_PAGE_GUARD_MAGIC) ∧
      (∀ a, s1.tables a ≠ vm_demo.tables a → s1.tables a &&& (3 <<< TT_AP_BIT_SHIFT) = 0) := by
  have h := vm_map_alloc_guards_filled_same_access 2 vm_demo 0xfffffff000100000
    (3 * VM_PAGE_SIZE) (by decide) (by decide)
  obtain ⟨s1, v, hret⟩ := h.2.2 5 (by decide)
  exact ⟨⟨by decide, by decide, by decide⟩, s1, v, hret, h.1 s1 v hret⟩

/-- C14 (as stated, fails): after `vm_map_alloc(map, 3 * VM_PAGE_SIZE,
VM_ALLOC_GUARD_FIRST | VM_ALLOC_GUARD_LAST)` on the small machine, which returns
`0xfffffff000005000`, the walk from the root of the map reaches the same
level-2 entry `0x40009401` for the leading guard page, for the first body page
and for the trailing guard page; its access-permission bits 7:6 are zero, so the
guard entries do not differ from the body entry in their access permission. -/
theorem vm_map_alloc_guard_entry_same_as_body :
    vm_map_alloc 2 vm_demo 0xfffffff000100000 (3 * VM_PAGE_SIZE)
        (VM_ALLOC_GUARD_FIRST ||| VM_ALLOC_GUARD_LAST)
        = some (.ok vm_demo_guarded 0xfffffff000005000) ∧
      tt_l2_entry vm_demo_guarded (0xfffffff000100000 + VM_MAP_PMAP)
        (0xfffffff000005000 - VM_PAGE_SIZE) = some 0x40009401 ∧
      tt_l2_entry vm_demo_guarded (0xfffffff000100000 + VM_MAP_PMAP) 0xfffffff000005000
        = some 0x40009401 ∧
      tt_l2_entry vm_demo_guarded (0xfffffff000100000 + VM_MAP_PMAP)
        (0xfffffff000005000 + 3 * VM_PAGE_SIZE) = some 0x40009401 ∧
      0x40009401 &&& (3 <<< TT_AP_BIT_SHIFT) = 0 := by
  refine ⟨rfl, ?_, ?_, ?_, ?_⟩ <;> decide

/-! ## Translation by the tables that `pmap_tt_create_tte` builds -/

theorem tt_table_entry_type (x : Nat) :
    ((x &&& TT_TABLE_MASK) ||| 0x3) &&& TTE_TYPE_MASK = TTE_TYPE_TABLE := by
  rw [and_or_distrib_right, and_and_disjoint _ _ _ (by decide)]
  decide

theorem tt_table_entry_address (x : Nat) :
    ((x &&& TT_TABLE_MASK) ||| 0x3) &&& TT_TABLE_MASK = x &&& TT_TABLE_MASK := by
  rw [and_or_distrib_right, Nat.and_assoc, Nat.and_self]
  have : (0x3 : Nat) &&& TT_TABLE_MASK = 0 := by decide
  rw [this, Nat.or_zero]

theorem tt_block_entry_type (y : Nat) :
    (TTE_BLOCK_TEMPLATE ||| (y &&& TT_TABLE_MASK)) &&& TTE_TYPE_MASK = TTE_TYPE_BLOCK := by
  rw [and_or_distrib_right, and_and_disjoint _ _ _ (by decide)]
  decide

theorem tt_block_entry_address (y : Nat) :
    (TTE_BLOCK_TEMPLATE ||| (y &&& TT_TABLE_MASK)) &&& TT_BLOCK_MASK = y &&& TT_BLOCK_MASK := by
  rw [and_or_distrib_right, Nat.and_assoc]
  have h1 : TTE_BLOCK_TEMPLATE &&& TT_BLOCK_MASK = 0 := by decide
  have h2 : TT_TABLE_MASK &&& TT_BLOCK_MASK = TT_BLOCK_MASK := by decide
  rw [h1, h2, Nat.zero_or]

/-- The inner loop over `n` consecutive 2 MiB steps from `vbase` that fall on
distinct entries of the level-2 table: entry `j` receives the block entry for
`pbase + j * TT_L2_SIZE`, and nothing else changes. -/
theorem pmap_tt_fill_l2_run (pbase vbase vend ma l2 n : Nat)
    (hrun : ∀ k, k < n →
      vbase + k * TT_L2_SIZE < (ma + TT_L1_SIZE) % 2 ^ 64 ∧ vbase + k * TT_L2_SIZE < vend)
    (hstop : ¬ (vbase + n * TT_L2_SIZE < (ma + TT_L1_SIZE) % 2 ^ 64 ∧
      vbase + n * TT_L2_SIZE < vend))
    (hlt : vbase + n * TT_L2_SIZE < 2 ^ 64)
    (hinj : ∀ j k, j < k → k < n →
      ((vbase + j * TT_L2_SIZE) &&& TT_L2_INDEX_MASK) >>> TT_L2_SHIFT
        ≠ ((vbase + k * TT_L2_SIZE) &&& TT_L2_INDEX_MASK) >>> TT_L2_SHIFT) :
    ∀ (r k : Nat) (t : Nat → Nat) (fuel : Nat), k + r = n → r < fuel →
      ∃ t1, pmap_tt_fill_l2 pbase vbase vend ma l2 fuel t (vbase + k * TT_L2_SIZE) = some t1 ∧
        (∀ j, k ≤ j → j < n →
          t1 (l2 + ((vbase + j * TT_L2_SIZE) &&& TT_L2_INDEX_MASK) >>> TT_L2_SHIFT * 8)
            = TTE_BLOCK_TEMPLATE ||| (((pbase + j * TT_L2_SIZE) % 2 ^ 64) &&& TT_TABLE_MASK)) ∧
        (∀ a, (∀ j, k ≤ j → j < n →
            a ≠ l2 + ((vbase + j * TT_L2_SIZE) &&& TT_L2_INDEX_MASK) >>> TT_L2_SHIFT * 8) →
          t1 a = t a) := by
  intro r
  induction r with
  | zero =>
    intro k t fuel hk hf
    obtain ⟨f, rfl⟩ : ∃ f, fuel = f + 1 := ⟨fuel - 1, by omega⟩
    have hkn : k = n := by omega
    subst hkn
    rw [pmap_tt_fill_l2, if_neg hstop]
    exact ⟨t, rfl, fun j h1 h2 => by omega, fun a _ => rfl⟩
  | succ r ih =>
    intro k t fuel hk hf
    obtain ⟨f, rfl⟩ : ∃ f, fuel = f + 1 := ⟨fuel - 1, by omega⟩
    have hkn : k < n := by omega
    have hnext : (vbase + k * TT_L2_SIZE + TT_L2_SIZE) % 2 ^ 64
        = vbase + (k + 1) * TT_L2_SIZE := by
      have h1 : vbase + (k + 1) * TT_L2_SIZE ≤ vbase + n * TT_L2_SIZE :=
        Nat.add_le_add_left (Nat.mul_le_mul_right _ hkn) _
      have h2 : vbase + k * TT_L2_SIZE + TT_L2_SIZE = vbase + (k + 1) * TT_L2_SIZE := by ring
      rw [h2]
      exact Nat.mod_eq_of_lt (lt_of_le_of_lt h1 hlt)
    have hent : (pbase + (vbase + k * TT_L2_SIZE + 2 ^ 64 - vbase) % 2 ^ 64) % 2 ^ 64
        = (pbase + k * TT_L2_SIZE) % 2 ^ 64 := by
      have h1 : vbase + k * TT_L2_SIZE + 2 ^ 64 - vbase = k * TT_L2_SIZE + 2 ^ 64 := by omega
      rw [h1, Nat.add_mod_right, Nat.add_mod_mod]
    rw [pmap_tt_fill_l2, if_pos (hrun k hkn)]
    dsimp only
    rw [hnext, hent]
    obtain ⟨t1, h1, h2, h3⟩ := ih (k + 1)
      (tt_store t (l2 + ((vbase + k * TT_L2_SIZE) &&& TT_L2_INDEX_MASK) >>> TT_L2_SHIFT * 8)
        (TTE_BLOCK_TEMPLATE ||| (((pbase + k * TT_L2_SIZE) % 2 ^ 64) &&& TT_TABLE_MASK)))
      f (by omega) (by omega)
    refine ⟨t1, h1, ?_, ?_⟩
    · intro j hj1 hj2
      rcases Nat.eq_or_lt_of_le hj1 with h | h
      · subst h
        rw [h3]
        · simp only [tt_store, if_true]
        · intro j hj3 hj4 e
          have := hinj k j (by omega) hj4
          omega
      · exact h2 j h hj2
    · intro a ha
      rw [h3 a (fun j hj1 hj2 => ha j (by omega) hj2)]
      have := ha k (Nat.le_refl _) hkn
      simp only [tt_store, this, if_false]

/-- The level-1 step under `pmap_tt_layout`: it returns the level-2 table
`pmap_tt_l2_of`, and afterwards the level-1 entry is a table descriptor from
which `ptokva` finds that table again. -/
theorem pmap_tt_l2_table_layout (s : vm_state) (table vbase : Nat)
    (h : pmap_tt_layout s table vbase) :
    ∃ ta ca,
      pmap_tt_l2_table s table ((vbase &&& TT_L1_INDEX_MASK) >>> TT_L1_SHIFT)
        = .ok (vm_overlay s s.page ta s.words ca) (pmap_tt_l2_of s table vbase) ∧
      ta (table + ((vbase &&& TT_L1_INDEX_MASK) >>> TT_L1_SHIFT) * 8) &&& TTE_TYPE_MASK
        = TTE_TYPE_TABLE ∧
      ptokva s (ta (table + ((vbase &&& TT_L1_INDEX_MASK) >>> TT_L1_SHIFT) * 8)
        &&& TT_TABLE_MASK) = pmap_tt_l2_of s table vbase := by
  by_cases h1 : s.tables (table + ((vbase &&& TT_L1_INDEX_MASK) >>> TT_L1_SHIFT) * 8)
      &&& TTE_TYPE_MASK = TTE_TYPE_TABLE
  · refine ⟨s.tables, s.pagetables_region_cursor, ?_, h1, ?_⟩
    · rw [pmap_tt_l2_table_old s table _ h1]
      simp only [pmap_tt_l2_of, if_pos h1]
      rfl
    · simp only [pmap_tt_l2_of, if_pos h1]
  · rcases h.1 with h2 | ⟨h2, h3⟩
    · exact absurd h2 h1
    · refine ⟨tt_store s.tables (table + ((vbase &&& TT_L1_INDEX_MASK) >>> TT_L1_SHIFT) * 8)
          ((s.mmu_translate_kvtop s.pagetables_region_cursor &&& TT_TABLE_MASK) ||| 0x3),
        s.pagetables_region_cursor + DEFAULTS_KERNEL_VM_PAGE_SIZE, ?_, ?_, ?_⟩
      · rw [pmap_tt_l2_table_new s table _ h1 h2]
        simp only [pmap_tt_l2_of, if_neg h1]
      · simp only [tt_store, if_true]
        exact tt_table_entry_type _
      · simp only [tt_store, if_true, pmap_tt_l2_of, if_neg h1]
        rw [tt_table_entry_address]
        exact h3

/-- The outer loop when the range lies in one level-1 slot: one level-1 step, one
run of the inner loop, and the loop ends. -/
theorem pmap_tt_fill_l1_once (table pbase vbase vend fuel n : Nat) (s : vm_state)
    (l2 : Nat) (ta t1 : Nat → Nat) (ca : Nat) (hn : 2 ≤ n) (c1 : vbase < vend)
    (c2 : ¬ ((vbase + TT_L1_SIZE) % 2 ^ 64 < vend))
    (hl : pmap_tt_l2_table s table ((vbase &&& TT_L1_INDEX_MASK) >>> TT_L1_SHIFT)
      = .ok (vm_overlay s s.page ta s.words ca) l2)
    (hf : pmap_tt_fill_l2 pbase vbase vend vbase l2 fuel ta vbase = some t1) :
    pmap_tt_fill_l1 table pbase vbase vend fuel n s vbase
      = some (.ok (vm_overlay s s.page t1 s.words ca) ()) := by
  obtain ⟨m, rfl⟩ : ∃ m, n = m + 2 := ⟨n - 2, by omega⟩
  rw [pmap_tt_fill_l1, if_pos c1]
  dsimp only
  rw [hl]
  dsimp only
  rw [vm_overlay_tables, hf]
  dsimp only
  rw [pmap_tt_fill_l1, if_neg c2]
  rfl

/-- An address above the 2 MiB-aligned `vbase` is its block number from `vbase`
times 2 MiB plus its offset in its block. -/
theorem tt_block_offset (vbase v : Nat) (hvb : vbase % 2097152 = 0) (hv : vbase ≤ v) :
    (v - vbase) / TT_L2_SIZE * TT_L2_SIZE + v % TT_L2_SIZE = v - vbase := by
  simp only [TT_L2_SIZE]
  omega

/-- C12 (amended): let `pbase` and `vbase` be multiples of 2 MiB, `size`
positive, the range from `vbase` to `vbase + size - 1` inside one level-1 slot
of 1 GiB that does not end at the top of the address space, the physical range
below `2 ^ 48`, and the memory laid out as `pmap_tt_layout` says.  Then
`pmap_tt_create_tte(table, pbase, vbase, size, flags)` returns
`PMAP_RETURN_SUCCESS`, and for every virtual address `v` with `vbase ≤ v <
vbase + size` the walk of the resulting tables from `table` (level-1 table
descriptor, then level-2 block entry) translates `v` to `pbase + (v - vbase)`. -/
theorem pmap_tt_create_tte_translates (fuel : Nat) (s : vm_state)
    (table pbase vbase size flags : Nat)
    (hp : pbase % TT_L2_SIZE = 0) (hvb : vbase % TT_L2_SIZE = 0) (hsize : 0 < size)
    (hslot : (vbase + size - 1) / TT_L1_SIZE = vbase / TT_L1_SIZE)
    (htop : vbase + TT_L1_SIZE < 2 ^ 64) (hpa : pbase + size ≤ 2 ^ 48)
    (hfuel : size / TT_L2_SIZE + 2 ≤ fuel) (hlay : pmap_tt_layout s table vbase) :
    ∃ s1, pmap_tt_create_tte fuel s table pbase vbase size flags
        = some (.ok s1 PMAP_RETURN_SUCCESS) ∧
      ∀ v, vbase ≤ v → v < vbase + size →
        tt_translate s1 table v = some (pbase + (v - vbase)) := by
  simp only [TT_L1_SIZE, TT_L2_SIZE] at hp hvb hslot htop hfuel
  obtain ⟨ta, ca, hl2, htype, hback⟩ := pmap_tt_l2_table_layout s table vbase hlay
  -- the inner loop
  have hrun : ∀ k, k < (size + TT_L2_SIZE - 1) / TT_L2_SIZE →
      vbase + k * TT_L2_SIZE < (vbase + TT_L1_SIZE) % 2 ^ 64 ∧
      vbase + k * TT_L2_SIZE < vbase + size := by
    intro k hk
    simp only [TT_L1_SIZE, TT_L2_SIZE] at hk ⊢
    omega
  have hstop : ¬ (vbase + (size + TT_L2_SIZE - 1) / TT_L2_SIZE * TT_L2_SIZE
        < (vbase + TT_L1_SIZE) % 2 ^ 64 ∧
      vbase + (size + TT_L2_SIZE - 1) / TT_L2_SIZE * TT_L2_SIZE < vbase + size) := by
    simp only [TT_L1_SIZE, TT_L2_SIZE]
    omega
  have hlt : vbase + (size + TT_L2_SIZE - 1) / TT_L2_SIZE * TT_L2_SIZE < 2 ^ 64 := by
    simp only [TT_L2_SIZE]
    omega
  have hidx : ∀ j, j < (size + TT_L2_SIZE - 1) / TT_L2_SIZE →
      ((vbase + j * TT_L2_SIZE) &&& TT_L2_INDEX_MASK) >>> TT_L2_SHIFT
        = vbase / TT_L2_SIZE % 512 + j ∧ vbase / TT_L2_SIZE % 512 + j < 512 := by
    intro j hj
    rw [tt_l2_index]
    simp only [TT_L2_SIZE] at hj ⊢
    omega
  have hinj : ∀ j k, j < k → k < (size + TT_L2_SIZE - 1) / TT_L2_SIZE →
      ((vbase + j * TT_L2_SIZE) &&& TT_L2_INDEX_MASK) >>> TT_L2_SHIFT
        ≠ ((vbase + k * TT_L2_SIZE) &&& TT_L2_INDEX_MASK) >>> TT_L2_SHIFT := by
    intro j k hjk hk
    rw [(hidx j (by omega)).1, (hidx k hk).1]
    omega
  obtain ⟨t1, ht1, hin, hout⟩ := pmap_tt_fill_l2_run pbase vbase (vbase + size) vbase
    (pmap_tt_l2_of s table vbase) ((size + TT_L2_SIZE - 1) / TT_L2_SIZE) hrun hstop hlt hinj
    ((size + TT_L2_SIZE - 1) / TT_L2_SIZE) 0 ta fuel (Nat.zero_add _)
    (by simp only [TT_L2_SIZE]; omega)
  rw [Nat.zero_mul, Nat.add_zero] at ht1
  -- the call
  have hvend : (vbase + size) % 2 ^ 64 = vbase + size := by omega
  have hpb : ¬ pbase > DEFAULTS_KERNEL_VM_VIRT_BASE := by
    simp only [DEFAULTS_KERNEL_VM_VIRT_BASE]
    omega
  have c1 : vbase < vbase + size := by omega
  have c2 : ¬ ((vbase + TT_L1_SIZE) % 2 ^ 64 < vbase + size) := by
    simp only [TT_L1_SIZE]
    omega
  have hcall : pmap_tt_create_tte fuel s table pbase vbase size flags
      = some (.ok (vm_overlay s s.page t1 s.words ca) PMAP_RETURN_SUCCESS) := by
    rw [pmap_tt_create_tte, if_neg hpb, hvend,
      pmap_tt_fill_l1_once table pbase vbase (vbase + size) fuel fuel s
        (pmap_tt_l2_of s table vbase) ta t1 ca (by omega) c1 c2 hl2 ht1]
  refine ⟨_, hcall, ?_⟩
  -- the walk
  intro v hv1 hv2
  have hi1 : (v &&& TT_L1_INDEX_MASK) >>> TT_L1_SHIFT
      = (vbase &&& TT_L1_INDEX_MASK) >>> TT_L1_SHIFT := by
    rw [tt_l1_index, tt_l1_index]
    simp only [TT_L1_SIZE]
    omega
  have hj : (v - vbase) / TT_L2_SIZE < (size + TT_L2_SIZE - 1) / TT_L2_SIZE := by
    simp only [TT_L2_SIZE]
    omega
  have hi2 : (v &&& TT_L2_INDEX_MASK) >>> TT_L2_SHIFT
      = ((vbase + (v - vbase) / TT_L2_SIZE * TT_L2_SIZE) &&& TT_L2_INDEX_MASK)
          >>> TT_L2_SHIFT := by
    rw [tt_l2_index, tt_l2_index]
    simp only [TT_L2_SIZE]
    omega
  have hroot : t1 (table + ((vbase &&& TT_L1_INDEX_MASK) >>> TT_L1_SHIFT) * 8)
      = ta (table + ((vbase &&& TT_L1_INDEX_MASK) >>> TT_L1_SHIFT) * 8) := by
    apply hout
    intro j _ hj2 e
    rw [(hidx j hj2).1] at e
    exact hlay.2 _ (hidx j hj2).2 e.symm
  have hpj : (pbase + (v - vbase) / TT_L2_SIZE * TT_L2_SIZE) % 2 ^ 64
      = pbase + (v - vbase) / TT_L2_SIZE * TT_L2_SIZE := by
    simp only [TT_L2_SIZE]
    omega
  have hblock : (pbase + (v - vbase) / TT_L2_SIZE * TT_L2_SIZE) &&& TT_BLOCK_MASK
      = pbase + (v - vbase) / TT_L2_SIZE * TT_L2_SIZE := by
    apply and_block_mask_aligned
    · simp only [TT_L2_SIZE]; omega
    · simp only [TT_L2_SIZE]; omega
  have hptokva : ∀ x, ptokva (vm_overlay s s.page t1 s.words ca) x = ptokva s x := fun _ => rfl
  simp only [tt_translate, tt_l2_entry, vm_overlay_tables, hptokva]
  rw [hi1, hroot, if_pos htype, hback, hi2, hin _ (Nat.zero_le _) hj, hpj]
  dsimp only
  rw [if_pos (tt_block_entry_type _), tt_block_entry_address, hblock]
  refine congrArg some ?_
  rw [Nat.add_assoc, tt_block_offset vbase v hvb hv1]

/-- The layout of the small machine for the level-1 slot of
`0xfffffff000200000`: the level-1 entry is empty, the assertion of
`pmap_ptregion_alloc` holds, and the page at the cursor is found again from its
descriptor. -/
theorem vm_demo_layout :
    pmap_tt_layout vm_demo (0xfffffff000100000 + VM_MAP_PMAP) 0xfffffff000200000 := by
  refine ⟨Or.inr ⟨by decide, by decide⟩, ?_⟩
  intro j hj
  have h1 : pmap_tt_l2_of vm_demo (0xfffffff000100000 + VM_MAP_PMAP) 0xfffffff000200000
      = 0xfffffff000180000 := by decide
  have h2 : ((0xfffffff000200000 : Nat) &&& TT_L1_INDEX_MASK) >>> TT_L1_SHIFT = 448 := by decide
  rw [h1, h2]
  simp only [VM_MAP_PMAP]
  omega

/-- C12 witness: 4 MiB at `0xfffffff000200000` mapped to `0x40200000` on the
small machine. -/
theorem pmap_tt_create_tte_translates_witness :
    (0x40200000 % TT_L2_SIZE = 0 ∧ 0xfffffff000200000 % TT_L2_SIZE = 0 ∧
      0 < 2 * TT_L2_SIZE ∧
      (0xfffffff000200000 + 2 * TT_L2_SIZE - 1) / TT_L1_SIZE = 0xfffffff000200000 / TT_L1_SIZE ∧
      0xfffffff000200000 + TT_L1_SIZE < 2 ^ 64 ∧ 0x40200000 + 2 * TT_L2_SIZE ≤ 2 ^ 48 ∧
      2 * TT_L2_SIZE / TT_L2_SIZE + 2 ≤ 4 ∧
      pmap_tt_layout vm_demo (0xfffffff000100000 + VM_MAP_PMAP) 0xfffffff000200000) ∧
    ∃ s1, pmap_tt_create_tte 4 vm_demo (0xfffffff000100000 + VM_MAP_PMAP) 0x40200000
        0xfffffff000200000 (2 * TT_L2_SIZE) PMAP_ACCESS_READWRITE
        = some (.ok s1 PMAP_RETURN_SUCCESS) ∧
      ∀ v, 0xfffffff000200000 ≤ v → v < 0xfffffff000200000 + 2 * TT_L2_SIZE →
        tt_translate s1 (0xfffffff000100000 + VM_MAP_PMAP) v
          = some (0x40200000 + (v - 0xfffffff000200000)) :=
  ⟨⟨by decide, by decide, by decide, by decide, by decide, by decide, by decide, vm_demo_layout⟩,
    pmap_tt_create_tte_translates 4 vm_demo (0xfffffff000100000 + VM_MAP_PMAP) 0x40200000
      0xfffffff000200000 (2 * TT_L2_SIZE) PMAP_ACCESS_READWRITE (by decide) (by decide)
      (by decide) (by decide) (by decide) (by decide) (by decide) vm_demo_layout⟩

/-- C12 (as stated, fails): the call `pmap_tt_create_tte(root, 0x40005000,
0xfffffff000004000, VM_PAGE_SIZE, PMAP_ACCESS_READWRITE)`, which `vm_map_alloc`
makes on the small machine, returns success, and the walk of the resulting
tables translates `v = 0xfffffff000004000` to `0x40004000`, not to
`pbase + (v - vbase) = 0x40005000`: a level-2 block entry maps a whole 2 MiB
block, here the block of `vbase` to the block of `pbase`.  And the call for the
2 MiB-aligned 4 MiB from `0xfffffff03fe00000`, which cross from one level-1 slot
into the next, returns success, but the walk finds no translation for
`v = 0xfffffff040000000`, the first address of the second block: the inner loop
runs on past the end of the slot in the level-2 table of the first slot. -/
theorem pmap_tt_create_tte_page_mistranslated :
    pmap_tt_create_tte 2 vm_demo (0xfffffff000100000 + VM_MAP_PMAP) 0x40005000
        0xfffffff000004000 VM_PAGE_SIZE PMAP_ACCESS_READWRITE
        = some (.ok vm_demo_tte PMAP_RETURN_SUCCESS) ∧
      tt_translate vm_demo_tte (0xfffffff000100000 + VM_MAP_PMAP) 0xfffffff000004000
        = some 0x40004000 ∧
      tt_translate vm_demo_tte (0xfffffff000100000 + VM_MAP_PMAP) 0xfffffff000004000
        ≠ some (0x40005000 + (0xfffffff000004000 - 0xfffffff000004000)) ∧
      pmap_tt_create_tte 4 vm_demo (0xfffffff000100000 + VM_MAP_PMAP) 0x40200000
        0xfffffff03fe00000 (2 * TT_L2_SIZE) PMAP_ACCESS_READWRITE
        = some (.ok vm_demo_tte_cross PMAP_RETURN_SUCCESS) ∧
      tt_translate vm_demo_tte_cross (0xfffffff000100000 + VM_MAP_PMAP) 0xfffffff040000000
        = none ∧
      tt_translate vm_demo_tte_cross (0xfffffff000100000 + VM_MAP_PMAP) 0xfffffff040000000
        ≠ some (0x40200000 + (0xfffffff040000000 - 0xfffffff03fe00000)) := by
  refine ⟨rfl, ?_, ?_, rfl, ?_, ?_⟩ <;> decide

/-! ## Bootstrap of the page allocator -/

/-- The descriptor-creation loop leaves `vm_page_region_size` alone. -/
theorem vm_page_bootstrap_create_region_size :
    ∀ (n : Nat) (st : vm_page_state) (i pcursor : Nat),
      (vm_page_bootstrap_create st n i pcursor).1.vm_page_region_size
        = st.vm_page_region_size := by
  intro n
  induction n with
  | zero => intro st i pcursor; rfl
  | succ n ih =>
    intro st i pcursor
    simp only [vm_page_bootstrap_create, __vm_page_alloc_internal]
    by_cases h0 : st.vm_page_region_cursor ≥ st.vm_page_region_upper_bound
    · simp only [h0, if_true]
    · simp only [h0, if_false]
      rw [ih]

/-- The descriptor array that `vm_page_bootstrap` leaves, field by field: the
call returns, there are `memsize / VM_PAGE_SIZE + 1` descriptors while the
recorded region size counts `memsize / VM_PAGE_SIZE`, descriptor `j` records
the frame `membase + j * VM_PAGE_SIZE`, the first `kern_page_count` descriptors
are allocated, and every descriptor is marked mapped. -/
theorem vm_page_bootstrap_layout (st : vm_page_state) (membase memsize kernsize : Nat) :
    ∃ st0, vm_page_bootstrap st membase memsize kernsize = .ok st0 () ∧
      st0.vm_page_idx = memsize / VM_PAGE_SIZE + 1 ∧
      st0.vm_page_region_size = memsize / VM_PAGE_SIZE * VM_PAGE_STRUCT_SIZE ∧
      ∀ j, j < memsize / VM_PAGE_SIZE + 1 →
        st0.pages j =
          { paddr := membase + j * VM_PAGE_SIZE, idx := j,
            state :=
              if j < (kernsize + memsize / VM_PAGE_SIZE * VM_PAGE_STRUCT_SIZE) / VM_PAGE_SIZE + 1
              then VM_PAGE_STATE_ALLOC else VM_PAGE_STATE_FREE,
            mapped := VM_PAGE_IS_MAPPED } := by
  have hspec := vm_page_bootstrap_create_spec (memsize / VM_PAGE_SIZE)
    { st with
      vm_page_idx := 0 + 1
      vm_page_region_size := memsize / VM_PAGE_SIZE * VM_PAGE_STRUCT_SIZE
      vm_page_region_upper_bound :=
        st.vm_page_region_lower_bound + 8 * (memsize / VM_PAGE_SIZE * VM_PAGE_STRUCT_SIZE)
      vm_page_region_cursor := st.vm_page_region_lower_bound + VM_PAGE_STRUCT_SIZE
      vm_page_region := st.vm_page_region_lower_bound
      pages := set_page st.pages
        ((st.vm_page_region_lower_bound - st.vm_page_region_lower_bound) / VM_PAGE_STRUCT_SIZE)
        { paddr := membase, idx := 0, state := VM_PAGE_STATE_FREE,
          mapped := VM_PAGE_IS_NOT_MAPPED } }
    0 (membase + VM_PAGE_SIZE)
    (by simp [VM_PAGE_STRUCT_SIZE])
    (by
      intro m hm
      simp only [VM_PAGE_STRUCT_SIZE]
      omega)
  have hsize := vm_page_bootstrap_create_region_size (memsize / VM_PAGE_SIZE)
    { st with
      vm_page_idx := 0 + 1
      vm_page_region_size := memsize / VM_PAGE_SIZE * VM_PAGE_STRUCT_SIZE
      vm_page_region_upper_bound :=
        st.vm_page_region_lower_bound + 8 * (memsize / VM_PAGE_SIZE * VM_PAGE_STRUCT_SIZE)
      vm_page_region_cursor := st.vm_page_region_lower_bound + VM_PAGE_STRUCT_SIZE
      vm_page_region := st.vm_page_region_lower_bound
      pages := set_page st.pages
        ((st.vm_page_region_lower_bound - st.vm_page_region_lower_bound) / VM_PAGE_STRUCT_SIZE)
        { paddr := membase, idx := 0, state := VM_PAGE_STATE_FREE,
          mapped := VM_PAGE_IS_NOT_MAPPED } }
    0 (membase + VM_PAGE_SIZE)
  obtain ⟨r1, r2, _, r4⟩ := hspec
  unfold vm_page_bootstrap
  simp only []
  generalize hres : vm_page_bootstrap_create _ (memsize / VM_PAGE_SIZE) 0 (membase + VM_PAGE_SIZE)
    = res at r1 r2 r4 hsize
  obtain ⟨st2, i⟩ := res
  simp only [] at r1 r2 r4 hsize
  have hi : i = memsize / VM_PAGE_SIZE := by omega
  subst hi
  simp only [ne_eq, not_true_eq_false, if_false]
  refine ⟨_, rfl, ?_, ?_, ?_⟩
  · simp only []; omega
  · simp only []; exact hsize
  · intro j hj
    simp only []
    rw [vm_page_bootstrap_mark_apply, r4 j]
    have hsub : (st.vm_page_region_lower_bound - st.vm_page_region_lower_bound)
        / VM_PAGE_STRUCT_SIZE = 0 := by simp
    rw [hsub]
    by_cases hj0 : j = 0
    · subst hj0
      have h1 : ¬ (0 + 1 ≤ 0 ∧ 0 < 0 + 1 + memsize / VM_PAGE_SIZE) := by omega
      rw [if_neg h1, set_page_same]
      have hk2 : (0 : Nat) < (kernsize + memsize / VM_PAGE_SIZE * VM_PAGE_STRUCT_SIZE)
          / VM_PAGE_SIZE + 1 := Nat.succ_pos _
      have hk : (0 : Nat) ≤ 0 ∧ 0 < 0 + ((kernsize + memsize / VM_PAGE_SIZE
          * VM_PAGE_STRUCT_SIZE) / VM_PAGE_SIZE + 1) := ⟨le_refl _, by rw [Nat.zero_add]; exact hk2⟩
      rw [if_pos hk, if_pos hk2]; simp
    · have h1 : 0 + 1 ≤ j ∧ j < 0 + 1 + memsize / VM_PAGE_SIZE := by omega
      rw [if_pos h1]
      have e : membase + VM_PAGE_SIZE + (j - (0 + 1)) * VM_PAGE_SIZE
          = membase + j * VM_PAGE_SIZE := by
        have : j = (j - (0 + 1)) + 1 := by omega
        conv_rhs => rw [this]
        ring
      by_cases hk : j < (kernsize + memsize / VM_PAGE_SIZE * VM_PAGE_STRUCT_SIZE)
          / VM_PAGE_SIZE + 1
      · have hk2 : 0 ≤ j ∧ j < 0 + ((kernsize + memsize / VM_PAGE_SIZE * VM_PAGE_STRUCT_SIZE)
            / VM_PAGE_SIZE + 1) := by omega
        rw [if_pos hk2, if_pos hk, e]
      · have hk2 : ¬ (0 ≤ j ∧ j < 0 + ((kernsize + memsize / VM_PAGE_SIZE
            * VM_PAGE_STRUCT_SIZE) / VM_PAGE_SIZE + 1)) := by omega
        rw [if_neg hk2, if_neg hk, e]

/-- C21 (the code creates one descriptor too many).
`vm_page_bootstrap(membase, memsize, kernsize)` always returns and leaves
`memsize / VM_PAGE_SIZE + 1` descriptors, one more than the `page_count` from
which it sizes the descriptor region: the first descriptor is written by hand and
the loop then writes `page_count` more.  Descriptor `j` has index `j` and
records the frame `membase + j * VM_PAGE_SIZE`, so the last descriptor records
the frame at `membase + page_count * VM_PAGE_SIZE`, the first one past the
memory.  With 32 KiB at `0x40000000` there are nine descriptors for eight
frames, the ninth recording `0x40008000`, and the cursor stands nine
descriptors into a region sized for eight. -/
theorem vm_page_bootstrap_one_descriptor_too_many :
    (∀ (st : vm_page_state) (membase memsize kernsize : Nat),
      ∃ st0, vm_page_bootstrap st membase memsize kernsize = .ok st0 () ∧
        st0.vm_page_idx = memsize / VM_PAGE_SIZE + 1 ∧
        st0.vm_page_region_size = memsize / VM_PAGE_SIZE * VM_PAGE_STRUCT_SIZE ∧
        ∀ j, j < st0.vm_page_idx →
          (st0.pages j).idx = j ∧ (st0.pages j).paddr = membase + j * VM_PAGE_SIZE) ∧
    pages_boot8.vm_page_idx = 9 ∧ 0x8000 / VM_PAGE_SIZE = 8 ∧
      (pages_boot8.pages 8).idx = 8 ∧ (pages_boot8.pages 8).paddr = 0x40000000 + 0x8000 ∧
      pages_boot8.vm_page_region_size = 8 * VM_PAGE_STRUCT_SIZE ∧
      pages_boot8.vm_page_region_cursor = pages_boot8.vm_page_region + 9 * VM_PAGE_STRUCT_SIZE := by
  refine ⟨?_, by decide, by decide, by decide, by decide, by decide, by decide⟩
  intro st membase memsize kernsize
  obtain ⟨st0, h, hidx, hsize, hp⟩ := vm_page_bootstrap_layout st membase memsize kernsize
  refine ⟨st0, h, hidx, hsize, ?_⟩
  intro j hj
  rw [hidx] at hj
  rw [hp j hj]
  exact ⟨rfl, rfl⟩

/-- C22 (the code marks every descriptor mapped).
`vm_page_bootstrap(membase, memsize, kernsize)` always returns; the descriptors
whose frame starts within `[membase, membase + kernsize + vm_page_region_size]`
are allocated and mapped, and every other descriptor is free but marked mapped
as well: the creation loop calls `__vm_page_alloc_internal(pcursor, 1)`, and
the only descriptor created unmapped, the first, is marked again as a kernel
page.  With 32 KiB at `0x40000000` and a kernel of one page, descriptor 5, of
the frame `0x40005000`, is free and marked mapped. -/
theorem vm_page_bootstrap_marks_every_page_mapped :
    (∀ (st : vm_page_state) (membase memsize kernsize : Nat),
      ∃ st0, vm_page_bootstrap st membase memsize kernsize = .ok st0 () ∧
        ∀ j, j < st0.vm_page_idx →
          (st0.pages j).mapped = VM_PAGE_IS_MAPPED ∧
          (st0.pages j).state =
            if j * VM_PAGE_SIZE ≤ kernsize + st0.vm_page_region_size then VM_PAGE_STATE_ALLOC
            else VM_PAGE_STATE_FREE) ∧
    5 < pages_boot8.vm_page_idx ∧ (pages_boot8.pages 5).paddr = 0x40005000 ∧
      0x40000000 + 0x1000 + pages_boot8.vm_page_region_size < 0x40005000 ∧
      (pages_boot8.pages 5).state = VM_PAGE_STATE_FREE ∧
      (pages_boot8.pages 5).mapped = VM_PAGE_IS_MAPPED ∧
      VM_PAGE_IS_MAPPED ≠ VM_PAGE_IS_NOT_MAPPED := by
  refine ⟨?_, by decide, by decide, by decide, by decide, by decide, by decide⟩
  intro st membase memsize kernsize
  obtain ⟨st0, h, hidx, hsize, hp⟩ := vm_page_bootstrap_layout st membase memsize kernsize
  refine ⟨st0, h, ?_⟩
  intro j hj
  rw [hidx] at hj
  rw [hp j hj, hsize]
  refine ⟨rfl, ?_⟩
  show (if j < (kernsize + memsize / VM_PAGE_SIZE * VM_PAGE_STRUCT_SIZE) / VM_PAGE_SIZE + 1
    then VM_PAGE_STATE_ALLOC else VM_PAGE_STATE_FREE) = _
  have e : (j < (kernsize + memsize / VM_PAGE_SIZE * VM_PAGE_STRUCT_SIZE) / VM_PAGE_SIZE + 1)
      ↔ (j * VM_PAGE_SIZE ≤ kernsize + memsize / VM_PAGE_SIZE * VM_PAGE_STRUCT_SIZE) := by
    rw [Nat.lt_succ_iff, Nat.le_div_iff_mul_le (by decide : 0 < VM_PAGE_SIZE)]
  simp only [e]

/-! ## Tasks, threads and the scheduler -/

/-- A call with a returned value returned, and `returned` is the state it left. -/
theorem result_value_returned {σ α : Type} (d : σ) (r : Option (Outcome σ α)) (a : α)
    (h : result_value r = some a) : r = some (.ok (returned d r) a) := by
  cases r with
  | none => simp [result_value] at h
  | some o =>
    cases o with
    | ok s b =>
      simp only [result_value, Option.some.injEq] at h
      subst h
      rfl
    | panic s msg => simp [result_value] at h

/-- While the thread after `thread` is not active, the loop of `__schedule`
selects it again and again. -/
theorem __schedule_loop_stuck (s : kernel_state) (thread : Nat)
    (h : (s.thread (__select_thread s thread)).state ≠ THREAD_STATE_ACTIVE) :
    ∀ n, __schedule_loop s thread n (__select_thread s thread) = none := by
  intro n
  induction n with
  | zero => rfl
  | succ n ih =>
    rw [__schedule_loop, if_pos h]
    exact ih

/-- C24 (the loop of `__schedule` selects from the running thread every time).
In `kernel_demo_linking` the global list holds `demo_T0`, which is running and
active, and then `demo_T1`, which `thread_create` has linked and not yet marked
active.  `__schedule` does not terminate there, whatever the bound on its loop:
`__select_thread(thread)` yields `demo_T1` at every iteration.  The thread that
follows in circular order and is active is `demo_T0` itself. -/
theorem __schedule_never_leaves_inactive_successor :
    is_list kernel_demo_linking.lists kernel_demo_linking.threads
        [demo_T0 + THREAD_THREADS, demo_T1 + THREAD_THREADS] ∧
      kernel_demo_linking.cpu_active_thread = demo_T0 ∧
      (kernel_demo_linking.thread demo_T0).state = THREAD_STATE_ACTIVE ∧
      (kernel_demo_linking.thread demo_T1).state = THREAD_STATE_INACTIVE ∧
      __select_thread kernel_demo_linking demo_T0 = demo_T1 ∧
      __select_thread kernel_demo_linking demo_T1 = demo_T0 ∧
      ∀ fuel frame_sp elr_el1, __schedule fuel kernel_demo_linking frame_sp elr_el1 = none := by
  refine ⟨by decide!, by decide!, by decide!, by decide!, by decide!, by decide!, ?_⟩
  intro fuel frame_sp elr_el1
  have h : ({ kernel_demo_linking with irq_masked := true }.thread
      (__select_thread { kernel_demo_linking with irq_masked := true }
        ({ kernel_demo_linking with irq_masked := true } : kernel_state).cpu_active_thread)).state
        ≠ THREAD_STATE_ACTIVE := by decide!
  have h2 := __schedule_loop_stuck _ _ h fuel
  unfold __schedule
  simp only []
  rw [h2]

/-- C26.  `thread_destroy(t)` on the active thread `t` of the CPU panics with
"cannot destroy active thread" right after masking interrupts: the thread
records and so the state of `t`, the list nodes and so the global thread list
and the sibling list of its task, and the zone allocator with the thread zone
and the stack zone are as before the call. -/
theorem thread_destroy_active_thread_panics (fuel : Nat) (s : kernel_state) :
    thread_destroy fuel s s.cpu_active_thread
        = some (.panic { s with irq_masked := true } .destroy_active_thread) ∧
      ({ s with irq_masked := true } : kernel_state).thread = s.thread ∧
      ({ s with irq_masked := true } : kernel_state).lists = s.lists ∧
      ({ s with irq_masked := true } : kernel_state).zone = s.zone ∧
      ({ s with irq_masked := true } : kernel_state).vm = s.vm := by
  refine ⟨?_, rfl, rfl, rfl, rfl⟩
  unfold thread_destroy
  simp only [if_true]

/-- C27 (`stack_free` releases nothing).  On the small machine with `demo_T0`
running, `thread_create` returns `demo_T1` and `thread_destroy(demo_T1)`
returns.  Afterwards `demo_T1` is on neither the global list nor the sibling
list of the kernel task and the thread zone has one element in use as before the
create, but the stack zone has two elements in use, one more than before the
create, and the stack descriptor of `demo_T1` is still on the list `stacks`:
`stack_free` compares the address of each descriptor with the stack base of the
thread, `0xfffffff00002b000`, and so never calls `zfree`. -/
theorem thread_destroy_keeps_stack_descriptor :
    thread_create 2 kernel_demo_running kernel_demo_running.kernel_task 0 0xfffffff000011000
        = some (.ok kernel_demo_two demo_T1) ∧
      thread_destroy 8 kernel_demo_two demo_T1 = some (.ok kernel_demo_two_destroyed ()) ∧
      kernel_demo_two.cpu_active_thread = demo_T0 ∧
      is_list kernel_demo_two.lists kernel_demo_two.threads
        [demo_T0 + THREAD_THREADS, demo_T1 + THREAD_THREADS] ∧
      is_list kernel_demo_two_destroyed.lists kernel_demo_two_destroyed.threads
        [demo_T0 + THREAD_THREADS] ∧
      is_list kernel_demo_two_destroyed.lists
        (kernel_demo_two_destroyed.kernel_task + TASK_THREADS) [demo_T0 + THREAD_SIBLINGS] ∧
      (kernel_demo_running.zone.zones kernel_demo_running.thread_zone).count = 1 ∧
      (kernel_demo_two.zone.zones kernel_demo_two.thread_zone).count = 2 ∧
      (kernel_demo_two_destroyed.zone.zones kernel_demo_two_destroyed.thread_zone).count = 1 ∧
      (kernel_demo_running.zone.zones kernel_demo_running.stack_zone).count = 1 ∧
      (kernel_demo_two.zone.zones kernel_demo_two.stack_zone).count = 2 ∧
      (kernel_demo_two_destroyed.zone.zones kernel_demo_two_destroyed.stack_zone).count = 2 ∧
      (kernel_demo_two.thread demo_T1).stack_base = 0xfffffff00002b000 ∧
      (kernel_demo_two.stack 0xfffffff000025038).stack_base = 0xfffffff00002b000 ∧
      is_list kernel_demo_two_destroyed.lists kernel_demo_two_destroyed.stacks_head
        [0xfffffff000025010 + STACK_SIBLINGS, 0xfffffff000025038 + STACK_SIBLINGS] := by
  refine ⟨result_value_returned _ _ _ (by decide!), result_value_returned _ _ _ (by decide!),
    by decide!, by decide!, by decide!, by decide!, by decide!, by decide!, by decide!,
    by decide!, by decide!, by decide!, by decide!, by decide!, by decide!⟩

/-- C29 (`task_create` makes no use of `map`).  `task_create(map, name)` always
returns a task whose `map` field holds what the memory of the zone element held
before the call, whatever `map` is.  After `task_init()` on the small machine,
whose fresh memory holds the pattern `0xaa`, the `map` field of the kernel task
reads `0xaaaaaaaaaaaaaaaa` while the kernel map is at `0xfffffff000100000`. -/
theorem task_create_never_stores_map :
    (∀ (s : kernel_state) (map name strlen_name : Nat),
      ∃ s1 new, task_create s map name strlen_name = .ok s1 new ∧
        (s1.task new).map = (s.task new).map) ∧
    task_init 2
        (processor_init { kernel_demo_initial with zone := zone_init kernel_demo_initial.zone })
        0xfffffff000002000 = some (.ok kernel_demo_tasks ()) ∧
      kernel_demo_tasks.kernel_task = 0xfffffff000004010 ∧
      (kernel_demo_tasks.task kernel_demo_tasks.kernel_task).map = 0xaaaaaaaaaaaaaaaa ∧
      kernel_demo_tasks.kernel_vm_map = 0xfffffff000100000 := by
  refine ⟨?_, result_value_returned _ _ _ (by decide!), by decide!, by decide!, by decide!⟩
  intro s map name strlen_name
  refine ⟨_, _, rfl, ?_⟩
  simp [set_task, in_zone, zalloc]

/-- C30 (`task_create` bounds the name by 32, not 31, characters).  With a name of
32 characters, here 32 times `x`, `task_create` returns the task at
`0xfffffff000004090`; `memset(new->name, 0, name_len + 1)` has cleared 33
bytes, so the byte after the name field of 32 bytes, which held `0xaa`, now
holds 0, and after `memcpy(new->name, name, name_len)` all 32 bytes of the field
hold `x`: the stored name has no terminator inside the field. -/
theorem task_create_name_overruns_field :
    (task_create kernel_demo_name32 kernel_demo_name32.kernel_vm_map 0xfffffff000002040 32).value
        = some 0xfffffff000004090 ∧
      (∀ k, k < 32 → kernel_demo_name32.zone.bytes (0xfffffff000002040 + k) ≠ 0) ∧
      kernel_demo_name32.zone.bytes (0xfffffff000002040 + 32) = 0 ∧
      (∀ k, k < TASK_NAME_MAX_LEN →
        kernel_demo_task32.zone.bytes (0xfffffff000004090 + TASK_NAME + k) = 0x78) ∧
      kernel_demo_name32.zone.bytes (0xfffffff000004090 + TASK_NAME + TASK_NAME_MAX_LEN) = 0xaa ∧
      kernel_demo_task32.zone.bytes (0xfffffff000004090 + TASK_NAME + TASK_NAME_MAX_LEN) = 0 := by
  refine ⟨by decide!, by decide!, by decide!, by decide!, by decide!, by decide!⟩

/-! ## The scheduler: round robin over the global list -/

theorem list_split_at (ts : List Nat) (j : Nat) (hj : j < ts.length) :
    ts = ts.take j ++ ts.getD j 0 :: ts.drop (j + 1) := by
  rw [List.getD_eq_getElem _ _ hj, ← List.drop_eq_getElem_cons hj, List.take_append_drop]

/-- `__select_thread` on the thread at position `j` of the global list yields
the thread at the next position, and the first thread after the last. -/
theorem __select_thread_at (s : kernel_state) (ts : List Nat) (j : Nat)
    (hl : is_list s.lists s.threads (ts.map (· + THREAD_THREADS))) (hj : j < ts.length) :
    __select_thread s (ts.getD j 0) = ts.getD ((j + 1) % ts.length) 0 := by
  have hsplit := list_split_at ts j hj
  have hl2 : is_list s.lists s.threads
      ((ts.take j).map (· + THREAD_THREADS) ++ (ts.getD j 0 + THREAD_THREADS)
        :: (ts.drop (j + 1)).map (· + THREAD_THREADS)) := by
    have e : ts.map (· + THREAD_THREADS)
        = (ts.take j).map (· + THREAD_THREADS) ++ (ts.getD j 0 + THREAD_THREADS)
          :: (ts.drop (j + 1)).map (· + THREAD_THREADS) := by
      conv_lhs => rw [hsplit]
      simp only [List.map_append, List.map_cons]
    rw [← e]; exact hl
  have hnext := is_list_next_mem _ _ _ _ _ hl2
  have hhead : s.threads ∉ ts.map (· + THREAD_THREADS) := (List.nodup_cons.mp hl.2.2).1
  unfold __select_thread list_is_last
  rw [hnext]
  cases hd : ts.drop (j + 1) with
  | nil =>
    have hlen : ts.length ≤ j + 1 := by
      have := congrArg List.length hd
      simp only [List.length_drop, List.length_nil] at this
      omega
    have hj1 : j + 1 = ts.length := by omega
    rw [hj1, Nat.mod_self]
    simp only [List.map_nil, List.headD_nil, decide_True, if_true]
    rw [is_list_next_head _ _ _ hl]
    cases ts with
    | nil => simp at hj
    | cons a rest => simp [List.getD]
  | cons u ys =>
    have hlen : j + 1 < ts.length := by
      have := congrArg List.length hd
      simp only [List.length_drop, List.length_cons] at this
      omega
    have hu : ts.getD (j + 1) 0 = u := by
      rw [List.getD_eq_getElem _ _ hlen]
      have := List.drop_eq_getElem_cons hlen
      rw [hd] at this
      injection this with h1 _
      exact h1.symm
    rw [Nat.mod_eq_of_lt hlen, hu]
    have hne : u + THREAD_THREADS ≠ s.threads := by
      intro e
      apply hhead
      rw [← e, hsplit]
      simp only [List.map_append, List.map_cons, List.mem_append, List.mem_cons, hd]
      right; right; left; trivial
    simp only [List.map_cons, List.headD_cons, hne, decide_False, Bool.false_eq_true, if_false]
    exact Nat.add_sub_cancel _ _

/-- `__schedule` when the thread after the running one is active: it is selected
at once. -/
theorem __schedule_selects (fuel : Nat) (s : kernel_state) (frame_sp elr_el1 : Nat)
    (h : (s.thread (__select_thread s s.cpu_active_thread)).state = THREAD_STATE_ACTIVE) :
    __schedule (fuel + 1) s frame_sp elr_el1 =
      some ({ s with
              irq_masked := true
              current_task := (s.thread (__select_thread s s.cpu_active_thread)).task
              thread := set_thread s.thread s.cpu_active_thread
                { (s.thread s.cpu_active_thread) with entry := elr_el1, stack := frame_sp } },
            __select_thread s s.cpu_active_thread) := by
  have h1 : __schedule_loop { s with irq_masked := true } s.cpu_active_thread (fuel + 1)
      (__select_thread s s.cpu_active_thread)
      = some (__select_thread s s.cpu_active_thread) := by
    rw [__schedule_loop]
    exact if_neg (not_not.mpr h)
  unfold __schedule
  show (match __schedule_loop { s with irq_masked := true } s.cpu_active_thread (fuel + 1)
      (__select_thread s s.cpu_active_thread) with
    | none => none
    | some next_thread => _) = _
  rw [h1]

/-- One scheduling step on a list of active threads: the thread after the
running one is selected and runs next; the list is as before. -/
theorem schedule_step_spec (fuel : Nat) (s : kernel_state) (ts : List Nat) (i : Nat)
    (frame_sp elr_el1 : Nat) (hts : threads_are s ts) (hi : i < ts.length)
    (hc : s.cpu_active_thread = ts.getD i 0) (hf : 0 < fuel) :
    ∃ s1, schedule_step fuel s frame_sp elr_el1
        = some (.ok s1 (ts.getD ((i + 1) % ts.length) 0)) ∧
      threads_are s1 ts ∧ s1.cpu_active_thread = ts.getD ((i + 1) % ts.length) 0 ∧
      s1.lists = s.lists ∧ s1.zone = s.zone := by
  obtain ⟨f, rfl⟩ : ∃ f, fuel = f + 1 := ⟨fuel - 1, by omega⟩
  have hlt : (i + 1) % ts.length < ts.length := Nat.mod_lt _ (by omega)
  have hmem : ts.getD ((i + 1) % ts.length) 0 ∈ ts := by
    rw [List.getD_eq_getElem _ _ hlt]; exact List.getElem_mem _
  have hsel : __select_thread s s.cpu_active_thread = ts.getD ((i + 1) % ts.length) 0 := by
    rw [hc]; exact __select_thread_at s ts i hts.1 hi
  obtain ⟨hact, hnull⟩ := hts.2 _ hmem
  unfold schedule_step
  rw [__schedule_selects f s frame_sp elr_el1 (by rw [hsel]; exact hact)]
  simp only []
  unfold sched_tail
  rw [hsel, if_neg hnull]
  refine ⟨_, rfl, ⟨hts.1, ?_⟩, rfl, rfl, rfl⟩
  intro t ht
  refine ⟨?_, (hts.2 t ht).2⟩
  show (set_thread s.thread s.cpu_active_thread _ t).state = _
  unfold set_thread
  by_cases e : t = s.cpu_active_thread
  · rw [if_pos e]; rw [← e]; exact (hts.2 t ht).1
  · rw [if_neg e]; exact (hts.2 t ht).1

/-- Scheduling steps in a row on a list of active threads select the threads in
list order, wrapping around. -/
theorem schedule_steps_spec (fuel : Nat) (ts : List Nat) (hf : 0 < fuel) :
    ∀ (frames : List (Nat × Nat)) (s : kernel_state) (i : Nat),
      threads_are s ts → i < ts.length → s.cpu_active_thread = ts.getD i 0 →
      ∃ s1, schedule_steps fuel frames s
          = some (.ok s1
            ((List.range frames.length).map fun m => ts.getD ((i + 1 + m) % ts.length) 0)) ∧
        threads_are s1 ts ∧
        s1.cpu_active_thread = ts.getD ((i + frames.length) % ts.length) 0 := by
  intro frames
  induction frames with
  | nil =>
    intro s i hts hi hc
    refine ⟨s, rfl, hts, ?_⟩
    rw [List.length_nil, Nat.add_zero, Nat.mod_eq_of_lt hi]; exact hc
  | cons fr frames ih =>
    intro s i hts hi hc
    obtain ⟨frame_sp, elr_el1⟩ := fr
    obtain ⟨s1, h1, hts1, hc1, -, -⟩ := schedule_step_spec fuel s ts i frame_sp elr_el1 hts hi hc hf
    have hlt : (i + 1) % ts.length < ts.length := Nat.mod_lt _ (by omega)
    obtain ⟨s2, h2, hts2, hc2⟩ := ih s1 ((i + 1) % ts.length) hts1 hlt hc1
    refine ⟨s2, ?_, hts2, ?_⟩
    · rw [schedule_steps, h1]
      simp only [and_then]
      rw [h2]
      simp only [List.length_cons, List.range_succ_eq_map, List.map_cons, List.map_map]
      refine congrArg some (congrArg (Outcome.ok s2) ?_)
      refine congrArg₂ List.cons (by rw [Nat.add_zero]) ?_
      refine List.map_congr_left ?_
      intro m _
      show ts.getD (((i + 1) % ts.length + 1 + m) % ts.length) 0
        = ts.getD ((i + 1 + (m + 1)) % ts.length) 0
      rw [Nat.add_assoc ((i + 1) % ts.length), Nat.mod_add_mod, Nat.add_comm 1 m]
    · rw [hc2, Nat.mod_add_mod, List.length_cons]
      congr 2
      omega

/-- The threads at the positions `i + 1`, `i + 2`, ... of a list, as many as the
list has and wrapping around, are the list rotated by `i + 1`. -/
theorem range_map_getD_rotate (ts : List Nat) (i : Nat) :
    ((List.range ts.length).map fun m => ts.getD ((i + 1 + m) % ts.length) 0)
      = ts.rotate (i + 1) := by
  apply List.ext_getElem
  · simp
  · intro k h1 h2
    simp only [List.length_map, List.length_range] at h1
    have hlt : (i + 1 + k) % ts.length < ts.length := Nat.mod_lt _ (by omega)
    rw [List.getElem_map, List.getElem_range, List.getD_eq_getElem _ _ hlt, List.getElem_rotate]
    congr 1
    rw [Nat.add_comm]

/-- `list_del` takes the node out of its list. -/
theorem is_list_list_del (h : Nat → list_head) (head : Nat) (xs : List Nat) (x : Nat)
    (ys : List Nat) (hl : is_list h head (xs ++ x :: ys)) :
    is_list (list_del h x) head (xs ++ ys) := by
  have hx : x ∉ head :: (xs ++ ys) := by
    have hnd := hl.2.2
    intro hm
    rcases List.mem_cons.mp hm with e | e
    · exact (List.nodup_cons.mp hnd).1 (by rw [← e]; simp)
    · have h2 := (List.nodup_cons.mp hnd).2
      rw [List.nodup_append] at h2
      rcases List.mem_append.mp e with e1 | e1
      · exact h2.2.2 e1 (List.mem_cons_self _ _)
      · exact (List.nodup_cons.mp h2.2.1).1 e1
  refine is_list_congr _ _ head (xs ++ ys) ?_ (is_list_del h head xs x ys hl)
  intro a ha
  have hne : a ≠ x := fun e => hx (e ▸ ha)
  unfold list_del
  rw [set_prev_other _ _ _ _ hne, set_next_other _ _ _ _ hne]

/-- `list_del` changes no node outside the list of the node. -/
theorem list_del_other (h : Nat → list_head) (head : Nat) (xs : List Nat) (x : Nat)
    (ys : List Nat) (a : Nat) (hl : is_list h head (xs ++ x :: ys))
    (ha : a ∉ head :: (xs ++ x :: ys)) : list_del h x a = h a := by
  have hp := is_list_prev_mem h head xs x ys hl
  have hn := is_list_next_mem h head xs x ys hl
  have hne : a ≠ x := by
    intro e; apply ha; rw [e]; simp
  have hne1 : a ≠ (h x).prev := by
    intro e; apply ha; rw [e, hp]
    rcases List.mem_cons.mp (last_from_mem xs head) with e1 | e1
    · rw [e1]; simp
    · exact List.mem_cons_of_mem _ (List.mem_append_left _ e1)
  have hne2 : a ≠ (h x).next := by
    intro e; apply ha; rw [e, hn]
    rcases List.mem_cons.mp (headD_mem ys head) with e1 | e1
    · rw [e1]; simp
    · exact List.mem_cons_of_mem _ (List.mem_append_right _ (List.mem_cons_of_mem _ e1))
  unfold list_del
  rw [set_prev_other _ _ _ _ hne, set_next_other _ _ _ _ hne,
    __list_del_other _ _ _ _ hne1 hne2]

/-- The loop of `stack_free` on a list none of whose descriptors has the address
`thread->stack_base`: it reaches the head and leaves the state as it is. -/
theorem stack_free_loop_none (fuel : Nat) (s : kernel_state) (thread : Nat) :
    ∀ (ss : List Nat) (a n : Nat),
      links (nextf s.lists) a ss s.stacks_head →
      (∀ p, p ∈ ss → p ≠ s.stacks_head ∧ p - STACK_SIBLINGS ≠ (s.thread thread).stack_base) →
      ss.length < n →
      stack_free_loop fuel s thread n (s.lists a).next = some (.ok s ()) := by
  intro ss
  induction ss with
  | nil =>
    intro a n hl _ hn
    obtain ⟨m, rfl⟩ : ∃ m, n = m + 1 := ⟨n - 1, by simp at hn; omega⟩
    have e : (s.lists a).next = s.stacks_head := hl
    rw [stack_free_loop, if_pos e]
  | cons p ss ih =>
    intro a n hl hp hn
    obtain ⟨m, rfl⟩ : ∃ m, n = m + 1 := ⟨n - 1, by simp at hn; omega⟩
    obtain ⟨e, hl2⟩ := hl
    have e2 : (s.lists a).next = p := e
    obtain ⟨hp1, hp2⟩ := hp p (List.mem_cons_self _ _)
    rw [stack_free_loop, e2, if_neg hp1, if_neg hp2]
    exact ih p m hl2 (fun q hq => hp q (List.mem_cons_of_mem _ hq))
      (by simp only [List.length_cons] at hn; omega)

/-- A sublist of a list with a node taken out. -/
theorem mem_cons_append_of_mem_erased (head : Nat) (xs : List Nat) (x : Nat) (ys : List Nat)
    (a : Nat) (h : a ∈ head :: (xs ++ ys)) : a ∈ head :: (xs ++ x :: ys) := by
  rcases List.mem_cons.mp h with e | e
  · rw [e]; exact List.mem_cons_self _ _
  · refine List.mem_cons_of_mem _ ?_
    rcases List.mem_append.mp e with e1 | e1
    · exact List.mem_append_left _ e1
    · exact List.mem_append_right _ (List.mem_cons_of_mem _ e1)

/-- `thread_destroy(t)` on a thread other than the running one, linked on the
global list and on the sibling list of its task and allocated from the thread
zone, when no stack descriptor has the address `t->stack_base`: the call
returns, and `t` is gone from both lists. -/
theorem thread_destroy_spec (fuel : Nat) (s : kernel_state) (xs ys : List Nat) (t task : Nat)
    (sa sb ss fs us1 us2 : List Nat)
    (hl : thread_lists s (xs ++ t :: ys) task (sa ++ t :: sb) ss)
    (hcur : t ≠ s.cpu_active_thread)
    (hst : ∀ p, p ∈ ss → p - STACK_SIBLINGS ≠ (s.thread t).stack_base)
    (ht : ZONE_ALLOC_METADATA_SIZE ≤ t)
    (hz : zone_lists s.zone s.thread_zone fs (us1 ++ (t - ZONE_ALLOC_METADATA_SIZE) :: us2))
    (hf1 : ss.length < fuel)
    (hf2 : (us1 ++ (t - ZONE_ALLOC_METADATA_SIZE) :: us2).length < fuel) :
    thread_destroy fuel s t = some (.ok (thread_destroy_state s t) ()) ∧
      thread_lists (thread_destroy_state s t) (xs ++ ys) task (sa ++ sb) ss := by
  obtain ⟨hg, hsib, hstk, hd1, hd2, hd3⟩ := hl
  have hg2 : is_list s.lists s.threads
      (xs.map (· + THREAD_THREADS) ++ (t + THREAD_THREADS) :: ys.map (· + THREAD_THREADS)) := by
    simpa only [List.map_append, List.map_cons] using hg
  have hsib2 : is_list s.lists (task + TASK_THREADS)
      (sa.map (· + THREAD_SIBLINGS) ++ (t + THREAD_SIBLINGS) :: sb.map (· + THREAD_SIBLINGS)) := by
    simpa only [List.map_append, List.map_cons] using hsib
  have hd1' : ∀ a, a ∈ s.threads :: (xs.map (· + THREAD_THREADS) ++ (t + THREAD_THREADS)
      :: ys.map (· + THREAD_THREADS)) →
      a ∉ (task + TASK_THREADS) :: (sa.map (· + THREAD_SIBLINGS) ++ (t + THREAD_SIBLINGS)
        :: sb.map (· + THREAD_SIBLINGS)) := by
    simpa only [List.map_append, List.map_cons] using hd1
  have hd2' : ∀ a, a ∈ s.stacks_head :: ss →
      a ∉ s.threads :: (xs.map (· + THREAD_THREADS) ++ (t + THREAD_THREADS)
        :: ys.map (· + THREAD_THREADS)) := by
    simpa only [List.map_append, List.map_cons] using hd2
  have hd3' : ∀ a, a ∈ s.stacks_head :: ss →
      a ∉ (task + TASK_THREADS) :: (sa.map (· + THREAD_SIBLINGS) ++ (t + THREAD_SIBLINGS)
        :: sb.map (· + THREAD_SIBLINGS)) := by
    simpa only [List.map_append, List.map_cons] using hd3
  -- the lists after the first `list_del`
  have hg3 : is_list (list_del s.lists (t + THREAD_SIBLINGS)) s.threads
      (xs.map (· + THREAD_THREADS) ++ (t + THREAD_THREADS) :: ys.map (· + THREAD_THREADS)) :=
    is_list_congr _ _ _ _
      (fun a ha => list_del_other _ _ _ _ _ a hsib2 (hd1' a ha)) hg2
  have hsib3 : is_list (list_del s.lists (t + THREAD_SIBLINGS)) (task + TASK_THREADS)
      (sa.map (· + THREAD_SIBLINGS) ++ sb.map (· + THREAD_SIBLINGS)) :=
    is_list_list_del _ _ _ _ _ hsib2
  have hstk3 : is_list (list_del s.lists (t + THREAD_SIBLINGS)) s.stacks_head ss :=
    is_list_congr _ _ _ _
      (fun a ha => list_del_other _ _ _ _ _ a hsib2 (hd3' a ha)) hstk
  -- the lists after the second
  have hg4 : is_list (list_del (list_del s.lists (t + THREAD_SIBLINGS)) (t + THREAD_THREADS))
      s.threads (xs.map (· + THREAD_THREADS) ++ ys.map (· + THREAD_THREADS)) :=
    is_list_list_del _ _ _ _ _ hg3
  have hsib4 : is_list (list_del (list_del s.lists (t + THREAD_SIBLINGS)) (t + THREAD_THREADS))
      (task + TASK_THREADS) (sa.map (· + THREAD_SIBLINGS) ++ sb.map (· + THREAD_SIBLINGS)) :=
    is_list_congr _ _ _ _
      (fun a ha => list_del_other _ _ _ _ _ a hg3
        (fun hm => hd1' a hm (mem_cons_append_of_mem_erased _ _ _ _ a ha))) hsib3
  have hstk4 : is_list (list_del (list_del s.lists (t + THREAD_SIBLINGS)) (t + THREAD_THREADS))
      s.stacks_head ss :=
    is_list_congr _ _ _ _
      (fun a ha => list_del_other _ _ _ _ _ a hg3 (hd2' a ha)) hstk3
  refine ⟨?_, ⟨by simpa only [List.map_append] using hg4,
    by simpa only [List.map_append] using hsib4, hstk4, ?_, ?_, ?_⟩⟩
  · -- the call
    have hsf : stack_free fuel
        { s with
          irq_masked := true
          thread := set_thread s.thread t
            { (s.thread t) with state := THREAD_STATE_INACTIVE }
          lists := list_del (list_del s.lists (t + THREAD_SIBLINGS)) (t + THREAD_THREADS) } t
        = some (.ok
          { s with
            irq_masked := true
            thread := set_thread s.thread t
              { (s.thread t) with state := THREAD_STATE_INACTIVE }
            lists := list_del (list_del s.lists (t + THREAD_SIBLINGS)) (t + THREAD_THREADS) }
          ()) := by
      unfold stack_free
      refine stack_free_loop_none fuel _ t ss _ fuel hstk4.1 ?_ hf1
      intro p hp
      refine ⟨fun e => (List.nodup_cons.mp hstk4.2.2).1 (e ▸ hp), ?_⟩
      show p - STACK_SIBLINGS ≠ (set_thread s.thread t _ t).stack_base
      unfold set_thread
      rw [if_pos rfl]
      exact hst p hp
    have hzf := (zfree_lists s.zone s.thread_zone (t - ZONE_ALLOC_METADATA_SIZE) fs us1 us2 fuel
      hz hf2).1
    rw [Nat.sub_add_cancel ht] at hzf
    unfold thread_destroy
    simp only []
    rw [if_neg hcur, hsf]
    simp only [and_then]
    rw [hzf]
    rfl
  · intro a ha
    have := hd1' a (by
      have h1 : a ∈ s.threads :: (xs.map (· + THREAD_THREADS) ++ ys.map (· + THREAD_THREADS)) := by
        simpa only [List.map_append] using ha
      exact mem_cons_append_of_mem_erased _ _ _ _ a h1)
    intro hm
    apply this
    have h2 : a ∈ (task + TASK_THREADS)
        :: (sa.map (· + THREAD_SIBLINGS) ++ sb.map (· + THREAD_SIBLINGS)) := by
      simpa only [List.map_append] using hm
    exact mem_cons_append_of_mem_erased _ _ _ _ a h2
  · intro a ha hm
    apply hd2' a ha
    have h2 : a ∈ s.threads :: (xs.map (· + THREAD_THREADS) ++ ys.map (· + THREAD_THREADS)) := by
      simpa only [List.map_append] using hm
    exact mem_cons_append_of_mem_erased _ _ _ _ a h2
  · intro a ha hm
    apply hd3' a ha
    have h2 : a ∈ (task + TASK_THREADS)
        :: (sa.map (· + THREAD_SIBLINGS) ++ sb.map (· + THREAD_SIBLINGS)) := by
      simpa only [List.map_append] using hm
    exact mem_cons_append_of_mem_erased _ _ _ _ a h2

/-- C23.  Let the global list hold the threads `ts`, all active, with the thread
at position `i` running.  `__select_thread` maps the thread at each position
`j` to the thread at position `j + 1`, the one linked right after it by
`thread_create`, and the last thread to the first.  As many scheduling steps as
there are threads, whatever the exception frames, all return and select the
threads at the positions `i + 1`, `i + 2`, ... in turn, wrapping around (the list
rotated by `i + 1`): each thread is selected exactly once, and the thread that
runs after the last step is the one that ran before the first. -/
theorem schedule_round_robin (fuel : Nat) (s : kernel_state) (ts : List Nat) (i : Nat)
    (frames : List (Nat × Nat)) (hts : threads_are s ts) (hi : i < ts.length)
    (hc : s.cpu_active_thread = ts.getD i 0) (hf : 0 < fuel)
    (hn : frames.length = ts.length) :
    (∀ j, j < ts.length →
      __select_thread s (ts.getD j 0) = ts.getD ((j + 1) % ts.length) 0) ∧
    ∃ s1, schedule_steps fuel frames s = some (.ok s1 (ts.rotate (i + 1))) ∧
      (∀ t, t ∈ ts → (ts.rotate (i + 1)).count t = 1) ∧
      s1.cpu_active_thread = s.cpu_active_thread ∧ threads_are s1 ts := by
  refine ⟨fun j hj => __select_thread_at s ts j hts.1 hj, ?_⟩
  obtain ⟨s1, h1, hts1, hc1⟩ := schedule_steps_spec fuel ts hf frames s i hts hi hc
  rw [hn, range_map_getD_rotate] at h1
  have hnd : ts.Nodup := List.Nodup.of_map _ (List.nodup_cons.mp hts.1.2.2).2
  refine ⟨s1, h1, ?_, ?_, hts1⟩
  · intro t ht
    exact List.count_eq_one_of_mem (List.nodup_rotate.mpr hnd) (List.mem_rotate.mpr ht)
  · rw [hc1, hc, hn, Nat.add_mod_right, Nat.mod_eq_of_lt hi]

/-- C23 witness: the four threads `demo_T0`, ..., `demo_T3` of the small machine,
created in this order, with `demo_T0` running: four steps select `demo_T1`,
`demo_T2`, `demo_T3` and `demo_T0`. -/
theorem schedule_round_robin_witness :
    threads_are kernel_demo_four [demo_T0, demo_T1, demo_T2, demo_T3] ∧
      kernel_demo_four.cpu_active_thread = demo_T0 ∧
      __select_thread kernel_demo_four demo_T3 = demo_T0 ∧
      ∃ s1, schedule_steps 1 (demo_frames.take 4) kernel_demo_four
          = some (.ok s1 [demo_T1, demo_T2, demo_T3, demo_T0]) ∧
        s1.cpu_active_thread = demo_T0 := by
  have h := schedule_round_robin 1 kernel_demo_four [demo_T0, demo_T1, demo_T2, demo_T3] 0
    (demo_frames.take 4) (by decide!) (by decide) (by decide!) (by decide) (by decide)
  obtain ⟨s1, h1, -, h3, -⟩ := h.2
  have hcur : kernel_demo_four.cpu_active_thread = demo_T0 := by decide!
  exact ⟨by decide!, hcur, h.1 3 (by decide), s1, h1, h3.trans hcur⟩

/-- C25.  Let the global list hold the threads `xs ++ t :: ys`, with `t` also on
the sibling list of its task, every thread but `t` active, and a thread other
than `t` running, at position `i` of `xs ++ ys`.  Let `t` be an element in use of
the thread zone, and let no stack descriptor have the address `t->stack_base`.
Then `thread_destroy(t)` returns; the global list now holds `xs ++ ys`; and any
number of scheduling steps after it return and select the threads of
`xs ++ ys` in their order, wrapping around, from the one after the running
thread: `t` is never selected. -/
theorem thread_destroy_removes_from_rotation (fuel : Nat) (s : kernel_state)
    (xs ys : List Nat) (t task : Nat) (sa sb ss fs us1 us2 : List Nat) (i : Nat)
    (hl : thread_lists s (xs ++ t :: ys) task (sa ++ t :: sb) ss)
    (hact : ∀ u, u ∈ xs ++ ys → (s.thread u).state = THREAD_STATE_ACTIVE ∧ u ≠ THREAD_NULL)
    (hi : i < (xs ++ ys).length) (hc : s.cpu_active_thread = (xs ++ ys).getD i 0)
    (hst : ∀ p, p ∈ ss → p - STACK_SIBLINGS ≠ (s.thread t).stack_base)
    (ht : ZONE_ALLOC_METADATA_SIZE ≤ t)
    (hz : zone_lists s.zone s.thread_zone fs (us1 ++ (t - ZONE_ALLOC_METADATA_SIZE) :: us2))
    (hf1 : ss.length < fuel)
    (hf2 : (us1 ++ (t - ZONE_ALLOC_METADATA_SIZE) :: us2).length < fuel) :
    ∃ s1, thread_destroy fuel s t = some (.ok s1 ()) ∧
      threads_are s1 (xs ++ ys) ∧ s1.cpu_active_thread = s.cpu_active_thread ∧
      ∀ frames : List (Nat × Nat), ∃ s2 sel,
        schedule_steps fuel frames s1 = some (.ok s2 sel) ∧
        sel = (List.range frames.length).map
          (fun m => (xs ++ ys).getD ((i + 1 + m) % (xs ++ ys).length) 0) ∧
        t ∉ sel := by
  have hnd : (xs ++ t :: ys).Nodup := List.Nodup.of_map _ (List.nodup_cons.mp hl.1.2.2).2
  have htn : t ∉ xs ++ ys := (List.nodup_cons.mp (List.nodup_middle.mp hnd)).1
  have hmem : (xs ++ ys).getD i 0 ∈ xs ++ ys := by
    rw [List.getD_eq_getElem _ _ hi]; exact List.getElem_mem _
  have hcur : t ≠ s.cpu_active_thread := by
    intro e; apply htn; rw [e, hc]; exact hmem
  obtain ⟨hret, hl1⟩ := thread_destroy_spec fuel s xs ys t task sa sb ss fs us1 us2 hl hcur hst
    ht hz hf1 hf2
  have hts : threads_are (thread_destroy_state s t) (xs ++ ys) := by
    refine ⟨hl1.1, ?_⟩
    intro u hu
    refine ⟨?_, (hact u hu).2⟩
    show (set_thread s.thread t _ u).state = _
    have hut : u ≠ t := fun e => htn (e ▸ hu)
    unfold set_thread
    rw [if_neg hut]
    exact (hact u hu).1
  refine ⟨_, hret, hts, rfl, ?_⟩
  intro frames
  obtain ⟨s2, h2, -, -⟩ := schedule_steps_spec fuel (xs ++ ys) (by omega) frames
    (thread_destroy_state s t) i hts hi hc
  refine ⟨s2, _, h2, rfl, ?_⟩
  intro hm
  obtain ⟨m, -, e⟩ := List.mem_map.mp hm
  apply htn
  rw [← e, List.getD_eq_getElem _ _ (Nat.mod_lt _ (by omega))]
  exact List.getElem_mem _

/-- C25 witness: with `demo_T0`, ..., `demo_T3` on the small machine and
`demo_T0` running, `thread_destroy(demo_T2)` returns and the six scheduling
steps after it select `demo_T1`, `demo_T3`, `demo_T0`, `demo_T1`, `demo_T3`,
`demo_T0`. -/
theorem thread_destroy_removes_from_rotation_witness :
    thread_lists kernel_demo_four [demo_T0, demo_T1, demo_T2, demo_T3]
        kernel_demo_four.kernel_task [demo_T0, demo_T1, demo_T2, demo_T3]
        [0xfffffff000025018, 0xfffffff000025040, 0xfffffff000025068, 0xfffffff000025090] ∧
      kernel_demo_four.cpu_active_thread = demo_T0 ∧
      ∃ s1, thread_destroy 8 kernel_demo_four demo_T2 = some (.ok s1 ()) ∧
        ∃ s2, schedule_steps 8 demo_frames s1
          = some (.ok s2 [demo_T1, demo_T3, demo_T0, demo_T1, demo_T3, demo_T0]) := by
  have hl : thread_lists kernel_demo_four ([demo_T0, demo_T1] ++ demo_T2 :: [demo_T3])
      kernel_demo_four.kernel_task ([demo_T0, demo_T1] ++ demo_T2 :: [demo_T3])
      [0xfffffff000025018, 0xfffffff000025040, 0xfffffff000025068, 0xfffffff000025090] := by
    decide!
  have hcur : kernel_demo_four.cpu_active_thread = demo_T0 := by decide!
  obtain ⟨s1, h1, -, -, h4⟩ := thread_destroy_removes_from_rotation 8 kernel_demo_four
    [demo_T0, demo_T1] [demo_T3] demo_T2 kernel_demo_four.kernel_task [demo_T0, demo_T1]
    [demo_T3] [0xfffffff000025018, 0xfffffff000025040, 0xfffffff000025068, 0xfffffff000025090]
    ((List.range 20).map fun k => zone_slot 0xfffffff000009000 THREAD_T_SIZE (k + 4))
    [zone_slot 0xfffffff000009000 THREAD_T_SIZE 3]
    [zone_slot 0xfffffff000009000 THREAD_T_SIZE 1, zone_slot 0xfffffff000009000 THREAD_T_SIZE 0]
    0 hl (by decide!) (by decide) (by decide!) (by decide!) (by decide) (by decide!) (by decide)
    (by decide)
  obtain ⟨s2, sel, h5, h6, -⟩ := h4 demo_frames
  subst h6
  exact ⟨hl, hcur, s1, h1, s2, h5⟩

/-! ## `thread_create` and `kernel_thread_create` -/

/-- With frames and translation-table pages for a stack, `thread_create` returns
the first free element of the thread zone, with the next thread id. -/
theorem thread_create_returns (fuel : Nat) (s : kernel_state) (parent_task : Nat)
    (priority : Int) (entry k : Nat)
    (hr : vm_map_alloc_ready fuel s.vm s.kernel_vm_map THREAD_STACK_DEFAULT_SIZE k) :
    ∃ s1, thread_create fuel s parent_task priority entry
        = some (.ok s1
          ((s.zone.lists (s.thread_zone + ZONE_FREE_ELEMS)).next + ZONE_ALLOC_METADATA_SIZE)) ∧
      (s1.thread ((s.zone.lists (s.thread_zone + ZONE_FREE_ELEMS)).next
        + ZONE_ALLOC_METADATA_SIZE)).thread_id = s.thread_id_max ∧
      (s1.thread ((s.zone.lists (s.thread_zone + ZONE_FREE_ELEMS)).next
        + ZONE_ALLOC_METADATA_SIZE)).state = THREAD_STATE_ACTIVE ∧
      s1.thread_id_max = s.thread_id_max + 1 := by
  obtain ⟨v, base, hv⟩ := vm_map_alloc_returns fuel s.vm s.kernel_vm_map
    THREAD_STACK_DEFAULT_SIZE (VM_ALLOC_GUARD_FIRST ||| VM_ALLOC_GUARD_LAST) k hr
  unfold thread_create stack_alloc
  simp only [and_then, in_zone, zalloc, list_first_entry]
  rw [hv]
  simp only [Option.map, in_vm, thread_init_context, task_assign_thread]
  refine ⟨_, rfl, ?_, ?_, rfl⟩
  · simp [set_thread]
  · simp [set_thread]

/-- C28.  Let the machine have the frames and translation-table pages that a
stack takes.  If no thread has been created (`thread_id_max` is 0, its initial
value), `kernel_thread_create` returns a thread, whose id is
`THREAD_ID_KERN_THREAD`, that is 0, with `args` stored and the state active.  If
`thread_id_max` is not 0, it panics with "kernel thread not created first".
Every call of `thread_create` gives the thread the id `thread_id_max` and adds
one to `thread_id_max`, so that `thread_id_max` is not 0 once a thread has been
created. -/
theorem kernel_thread_create_first_or_panic (fuel : Nat) (s : kernel_state) (entry : Nat)
    (priority : Int) (args k : Nat)
    (hr : vm_map_alloc_ready fuel s.vm s.kernel_vm_map THREAD_STACK_DEFAULT_SIZE k) :
    (s.thread_id_max = 0 →
      ∃ s1 t, kernel_thread_create fuel s entry priority args = some (.ok s1 t) ∧
        (s1.thread t).thread_id = THREAD_ID_KERN_THREAD ∧ (s1.thread t).args = args ∧
        (s1.thread t).state = THREAD_STATE_ACTIVE) ∧
    (s.thread_id_max ≠ 0 →
      ∃ s1, kernel_thread_create fuel s entry priority args
        = some (.panic s1 .kernel_thread_not_first)) ∧
    (∀ (parent_task : Nat) (prio : Int) (e : Nat),
      ∃ s1 t, thread_create fuel s parent_task prio e = some (.ok s1 t) ∧
        (s1.thread t).thread_id = s.thread_id_max ∧
        s1.thread_id_max = s.thread_id_max + 1) := by
  obtain ⟨s1, h1, hid, -, -⟩ := thread_create_returns fuel s s.kernel_task priority entry k hr
  have hnull : ¬ (s.zone.lists (s.thread_zone + ZONE_FREE_ELEMS)).next + ZONE_ALLOC_METADATA_SIZE
      = THREAD_NULL := by
    simp only [ZONE_ALLOC_METADATA_SIZE, THREAD_NULL]; omega
  refine ⟨?_, ?_, ?_⟩
  · intro h0
    have hk : ¬ (s1.thread ((s.zone.lists (s.thread_zone + ZONE_FREE_ELEMS)).next
        + ZONE_ALLOC_METADATA_SIZE)).thread_id ≠ THREAD_ID_KERN_THREAD := by
      rw [hid, h0]; simp [THREAD_ID_KERN_THREAD]
    unfold kernel_thread_create
    rw [h1]
    simp only [and_then]
    rw [if_neg hnull, if_neg hk]
    refine ⟨_, _, rfl, ?_, ?_, ?_⟩
    · simp only [set_thread, if_true]
      rw [hid, h0]; rfl
    · simp only [set_thread, if_true]
    · simp only [set_thread, if_true]
  · intro h0
    have hk : (s1.thread ((s.zone.lists (s.thread_zone + ZONE_FREE_ELEMS)).next
        + ZONE_ALLOC_METADATA_SIZE)).thread_id ≠ THREAD_ID_KERN_THREAD := by
      rw [hid]; exact h0
    unfold kernel_thread_create
    rw [h1]
    simp only [and_then]
    rw [if_neg hnull, if_pos hk]
    exact ⟨_, rfl⟩
  · intro parent_task prio e
    obtain ⟨s2, h2, hid2, -, hmax2⟩ := thread_create_returns fuel s parent_task prio e k hr
    exact ⟨s2, _, h2, hid2, hmax2⟩

/-- C28 witness: on the small machine after bring-up no thread exists and
`kernel_thread_create` returns a thread with id 0; once that thread runs, a
second call panics. -/
theorem kernel_thread_create_first_or_panic_witness :
    (kernel_demo.thread_id_max = 0 ∧
      ∃ s1 t, kernel_thread_create 2 kernel_demo 0xfffffff000010000 THREAD_PRIORITY_MAX
          THREAD_NULL = some (.ok s1 t) ∧
        (s1.thread t).thread_id = THREAD_ID_KERN_THREAD) ∧
    (kernel_demo_running.thread_id_max = 1 ∧
      ∃ s1, kernel_thread_create 2 kernel_demo_running 0xfffffff000010000 THREAD_PRIORITY_MAX
          THREAD_NULL = some (.panic s1 .kernel_thread_not_first)) := by
  have h0 : kernel_demo.thread_id_max = 0 := by decide!
  have h1 : kernel_demo_running.thread_id_max = 1 := by decide!
  obtain ⟨s1, t, ha, hb, -, -⟩ := (kernel_thread_create_first_or_panic 2 kernel_demo
    0xfffffff000010000 THREAD_PRIORITY_MAX THREAD_NULL 40 (by decide!)).1 h0
  obtain ⟨s2, hc⟩ := (kernel_thread_create_first_or_panic 2 kernel_demo_running
    0xfffffff000010000 THREAD_PRIORITY_MAX THREAD_NULL 43 (by decide!)).2.1
    (by rw [h1]; decide)
  exact ⟨⟨h0, s1, t, ha, hb⟩, h1, s2, hc⟩

/-! ## CPU descriptors -/

/-- C31 (`CPU_ASSERT_VALID_ID` has no lower bound).  An id above `cpu_count`
makes each of the four setters panic with the state as it was.  An id that is
not above `cpu_count`, negative ids among them, passes the assertion, and the
setter stores to `CpuDataEntries[cpuid]` and returns `KERN_RETURN_SUCCESS`
(`cpu_set_active_thread` when the thread is not null).  With `cpu_count` 0, its
value throughout, `cpu_set_flag(CPU_NUMBER_INVALID, CPU_FLAG_THREADING_ENABLED)`
returns success and has set the flag in the `cpu_t` before the array, and the
other three setters store there likewise. -/
theorem cpu_setters_accept_negative_id :
    (∀ (s : cpu_state) (cpuid : Int) (v : Nat), cpuid > s.cpu_count →
      cpu_set_flag s cpuid v = .panic s (.cpu_id_too_large cpuid s.cpu_count) ∧
      cpu_set_active_stack s cpuid v = .panic s (.cpu_id_too_large cpuid s.cpu_count) ∧
      cpu_set_active_thread s cpuid v = .panic s (.cpu_id_too_large cpuid s.cpu_count) ∧
      cpu_set_processor s cpuid v = .panic s (.cpu_id_too_large cpuid s.cpu_count)) ∧
    (∀ (s : cpu_state) (cpuid : Int) (v : Nat), cpuid ≤ s.cpu_count →
      cpu_set_flag s cpuid v
        = .ok { s with
                entries := set_cpu s.entries cpuid
                  { (s.entries cpuid) with cpu_flags := (s.entries cpuid).cpu_flags ||| v } }
            KERN_RETURN_SUCCESS ∧
      cpu_set_active_stack s cpuid v
        = .ok { s with
                entries := set_cpu s.entries cpuid
                  { (s.entries cpuid) with cpu_active_stack := v } }
            KERN_RETURN_SUCCESS ∧
      (v ≠ THREAD_NULL →
        cpu_set_active_thread s cpuid v
          = .ok { s with
                  entries := set_cpu s.entries cpuid
                    { (s.entries cpuid) with cpu_active_thread := v } }
              KERN_RETURN_SUCCESS) ∧
      cpu_set_processor s cpuid v
        = .ok { s with
                entries := set_cpu s.entries cpuid
                  { (s.entries cpuid) with processor := v } }
            KERN_RETURN_SUCCESS) ∧
    CPU_NUMBER_INVALID < 0 ∧ cpu_state_boot.cpu_count = 0 ∧
      (cpu_set_flag cpu_state_boot CPU_NUMBER_INVALID CPU_FLAG_THREADING_ENABLED).value
        = some KERN_RETURN_SUCCESS ∧
      (cpu_state_boot.entries CPU_NUMBER_INVALID).cpu_flags = 0 ∧
      ((cpu_set_flag cpu_state_boot CPU_NUMBER_INVALID
        CPU_FLAG_THREADING_ENABLED).state.entries CPU_NUMBER_INVALID).cpu_flags
        = CPU_FLAG_THREADING_ENABLED ∧
      ((cpu_set_active_stack cpu_state_boot CPU_NUMBER_INVALID
        0xfffffff000028000).state.entries CPU_NUMBER_INVALID).cpu_active_stack
        = 0xfffffff000028000 ∧
      ((cpu_set_active_thread cpu_state_boot CPU_NUMBER_INVALID
        0xfffffff000009010).state.entries CPU_NUMBER_INVALID).cpu_active_thread
        = 0xfffffff000009010 ∧
      ((cpu_set_processor cpu_state_boot CPU_NUMBER_INVALID
        0xfffffff000030000).state.entries CPU_NUMBER_INVALID).processor
        = 0xfffffff000030000 := by
  refine ⟨?_, ?_, by decide, by decide, by decide, by decide, by decide, by decide, by decide,
    by decide⟩
  · intro s cpuid v h
    simp only [cpu_set_flag, cpu_set_active_stack, cpu_set_active_thread, cpu_set_processor,
      CPU_ASSERT_VALID_ID, if_pos h, and_self]
  · intro s cpuid v h
    have h2 : ¬ cpuid > s.cpu_count := not_lt.mpr h
    refine ⟨?_, ?_, ?_, ?_⟩
    · simp only [cpu_set_flag, CPU_ASSERT_VALID_ID, if_neg h2]
    · simp only [cpu_set_active_stack, CPU_ASSERT_VALID_ID, if_neg h2]
    · intro hv
      simp only [cpu_set_active_thread, CPU_ASSERT_VALID_ID, if_neg h2, if_neg hv]
    · simp only [cpu_set_processor, CPU_ASSERT_VALID_ID, if_neg h2]

/-! ## Exceptions -/

/-- Statements after a panic do not run. -/
theorem handler_end_panicked_seq (msg : panic_msg) (k : handler_end) :
    (handler_end.panicked msg).seq k = .panicked msg := rfl

/-- `handle_data_abort` ends in a panic. -/
theorem handle_data_abort_panics (frame : arm64_exception_frame_t)
    (fault_address fault_status : Nat) :
    ∃ msg, handle_data_abort frame fault_address fault_status = .panicked msg := by
  unfold handle_data_abort panic_with_thread_state
  split_ifs <;> exact ⟨_, rfl⟩

/-- `handle_instruction_abort` ends in a panic. -/
theorem handle_instruction_abort_panics (frame : arm64_exception_frame_t)
    (fault_address fault_status : Nat) :
    ∃ msg, handle_instruction_abort frame fault_address fault_status = .panicked msg := by
  unfold handle_instruction_abort panic_with_thread_state
  split_ifs <;> exact ⟨_, rfl⟩

/-- C32.  Whatever the exception frame, and so whatever its syndrome, and
whatever the uninitialised `fault_address` of `handle_abort` holds,
`arm64_handler_synchronous` ends in a call of `panic` or
`panic_with_thread_state`, which halts the CPU: it neither returns nor reaches
a `cpu_halt()` of its own without a panic before it. -/
theorem arm64_handler_synchronous_panics (frame : arm64_exception_frame_t)
    (fault_address : Nat) :
    ∃ msg, arm64_handler_synchronous frame fault_address = .panicked msg := by
  obtain ⟨m1, h1⟩ := handle_data_abort_panics frame fault_address
    (inspect_data_abort (ESR_ISS frame.esr % 2 ^ 32)).1
  obtain ⟨m2, h2⟩ := handle_instruction_abort_panics frame fault_address
    (inspect_instruction_abort (ESR_ISS frame.esr % 2 ^ 32)).1
  unfold arm64_handler_synchronous handle_abort panic_with_thread_state
  simp only [h1, h2, handler_end_panicked_seq]
  split_ifs <;> exact ⟨_, rfl⟩

/-- Every fault status below 64 is one of the 64 values; the case analysis of
the lemmas below. -/
theorem vm_fault_get_level_cases (status : Nat) :
    (vm_fault_get_level status = -1 ∨ vm_fault_get_level status = 0 ∨
      vm_fault_get_level status = 1 ∨ vm_fault_get_level status = 2 ∨
      vm_fault_get_level status = 3) ∧
    (vm_fault_get_level status ≠ -1 → vm_fault_get_level status = ((status % 4 : Nat) : Int)) ∧
    (vm_fault_get_level status ≠ -1 ↔
      status ∈ [FSC_ADDRESS_SIZE_FAULT_L0, FSC_ADDRESS_SIZE_FAULT_L1, FSC_ADDRESS_SIZE_FAULT_L2,
        FSC_ADDRESS_SIZE_FAULT_L3, FSC_TRANSLATION_FAULT_L0, FSC_TRANSLATION_FAULT_L1,
        FSC_TRANSLATION_FAULT_L2, FSC_TRANSLATION_FAULT_L3, FSC_ACCESS_FLAG_FAULT_L1,
        FSC_ACCESS_FLAG_FAULT_L2, FSC_ACCESS_FLAG_FAULT_L3, FSC_PERMISSION_FAULT_L1,
        FSC_PERMISSION_FAULT_L2, FSC_PERMISSION_FAULT_L3, FSC_SYNC_EXT_ABORT_TT_L1,
        FSC_SYNC_EXT_ABORT_TT_L2, FSC_SYNC_EXT_ABORT_TT_L3, FSC_SYNC_PARITY_TT_L1,
        FSC_SYNC_PARITY_TT_L2, FSC_SYNC_PARITY_TT_L3]) ∧
    (is_translation_fault status ≠ 0 ∨ is_permission_fault status ≠ 0 ∨
        is_address_size_fault status ≠ 0 → vm_fault_get_level status ≠ -1) ∧
    ¬ (is_translation_fault status ≠ 0 ∧ is_permission_fault status ≠ 0) ∧
    ¬ (is_translation_fault status ≠ 0 ∧ is_alignment_fault status ≠ 0) ∧
    ¬ (is_translation_fault status ≠ 0 ∧ is_address_size_fault status ≠ 0) ∧
    ¬ (is_permission_fault status ≠ 0 ∧ is_alignment_fault status ≠ 0) ∧
    ¬ (is_permission_fault status ≠ 0 ∧ is_address_size_fault status ≠ 0) ∧
    ¬ (is_alignment_fault status ≠ 0 ∧ is_address_size_fault status ≠ 0) := by
  rcases Nat.lt_or_ge status 64 with h | h
  · interval_cases status <;> decide
  · have e : ∀ c, c < 64 → status ≠ c := fun c hc => by omega
    have e2 : ∀ c, c < 64 → c ≠ status := fun c hc => by omega
    have hl : vm_fault_get_level status = -1 := by
      simp [vm_fault_get_level, FSC_ADDRESS_SIZE_FAULT_L0, FSC_ADDRESS_SIZE_FAULT_L1,
        FSC_ADDRESS_SIZE_FAULT_L2, FSC_ADDRESS_SIZE_FAULT_L3, FSC_TRANSLATION_FAULT_L0,
        FSC_TRANSLATION_FAULT_L1, FSC_TRANSLATION_FAULT_L2, FSC_TRANSLATION_FAULT_L3,
        FSC_ACCESS_FLAG_FAULT_L1, FSC_ACCESS_FLAG_FAULT_L2, FSC_ACCESS_FLAG_FAULT_L3,
        FSC_PERMISSION_FAULT_L1, FSC_PERMISSION_FAULT_L2, FSC_PERMISSION_FAULT_L3,
        FSC_SYNC_EXT_ABORT_TT_L1, FSC_SYNC_EXT_ABORT_TT_L2, FSC_SYNC_EXT_ABORT_TT_L3,
        FSC_SYNC_PARITY_TT_L1, FSC_SYNC_PARITY_TT_L2, FSC_SYNC_PARITY_TT_L3, e]
    have ht : is_translation_fault status = 0 := by
      simp [is_translation_fault, FSC_TRANSLATION_FAULT_L0, FSC_TRANSLATION_FAULT_L1,
        FSC_TRANSLATION_FAULT_L2, FSC_TRANSLATION_FAULT_L3, e]
    have hp : is_permission_fault status = 0 := by
      simp [is_permission_fault, FSC_PERMISSION_FAULT_L1, FSC_PERMISSION_FAULT_L2,
        FSC_PERMISSION_FAULT_L3, e]
    have ha : is_address_size_fault status = 0 := by
      simp [is_address_size_fault, FSC_ADDRESS_SIZE_FAULT_L0, FSC_ADDRESS_SIZE_FAULT_L1,
        FSC_ADDRESS_SIZE_FAULT_L2, FSC_ADDRESS_SIZE_FAULT_L3, e]
    have hal : is_alignment_fault status = 0 := by
      simp [is_alignment_fault, FSC_ALIGNMENT_FAULT, e2]
    have hmem : status ∉ [FSC_ADDRESS_SIZE_FAULT_L0, FSC_ADDRESS_SIZE_FAULT_L1,
        FSC_ADDRESS_SIZE_FAULT_L2,
        FSC_ADDRESS_SIZE_FAULT_L3, FSC_TRANSLATION_FAULT_L0, FSC_TRANSLATION_FAULT_L1,
        FSC_TRANSLATION_FAULT_L2, FSC_TRANSLATION_FAULT_L3, FSC_ACCESS_FLAG_FAULT_L1,
        FSC_ACCESS_FLAG_FAULT_L2, FSC_ACCESS_FLAG_FAULT_L3, FSC_PERMISSION_FAULT_L1,
        FSC_PERMISSION_FAULT_L2, FSC_PERMISSION_FAULT_L3, FSC_SYNC_EXT_ABORT_TT_L1,
        FSC_SYNC_EXT_ABORT_TT_L2, FSC_SYNC_EXT_ABORT_TT_L3, FSC_SYNC_PARITY_TT_L1,
        FSC_SYNC_PARITY_TT_L2, FSC_SYNC_PARITY_TT_L3] := by
      simp [FSC_ADDRESS_SIZE_FAULT_L0, FSC_ADDRESS_SIZE_FAULT_L1,
        FSC_ADDRESS_SIZE_FAULT_L2, FSC_ADDRESS_SIZE_FAULT_L3, FSC_TRANSLATION_FAULT_L0,
        FSC_TRANSLATION_FAULT_L1, FSC_TRANSLATION_FAULT_L2, FSC_TRANSLATION_FAULT_L3,
        FSC_ACCESS_FLAG_FAULT_L1, FSC_ACCESS_FLAG_FAULT_L2, FSC_ACCESS_FLAG_FAULT_L3,
        FSC_PERMISSION_FAULT_L1, FSC_PERMISSION_FAULT_L2, FSC_PERMISSION_FAULT_L3,
        FSC_SYNC_EXT_ABORT_TT_L1, FSC_SYNC_EXT_ABORT_TT_L2, FSC_SYNC_EXT_ABORT_TT_L3,
        FSC_SYNC_PARITY_TT_L1, FSC_SYNC_PARITY_TT_L2, FSC_SYNC_PARITY_TT_L3, e]
    rw [hl, ht, hp, ha, hal]
    simp [hmem]
/-- C33.  `vm_fault_get_level` returns one of -1, 0, 1, 2, 3 for every fault
status.  For a status that `is_translation_fault`, `is_permission_fault` or
`is_address_size_fault` accepts it returns the level in the two low bits of
the status, as it does whenever it does not return -1.  It returns -1 exactly
for the values that are none of the enumerators named for a level (address
size, translation, access flag and permission faults, external aborts and
parity errors on a table walk).  `FSC_PERMISSION_FAULT_L2`, `0x0E`, gives
level 2. -/
theorem vm_fault_get_level_is_low_bits :
    (∀ status : Nat,
      vm_fault_get_level status = -1 ∨ vm_fault_get_level status = 0 ∨
        vm_fault_get_level status = 1 ∨ vm_fault_get_level status = 2 ∨
        vm_fault_get_level status = 3) ∧
    (∀ status : Nat,
      is_translation_fault status ≠ 0 ∨ is_permission_fault status ≠ 0 ∨
          is_address_size_fault status ≠ 0 →
        vm_fault_get_level status = ((status % 4 : Nat) : Int)) ∧
    (∀ status : Nat,
      vm_fault_get_level status ≠ -1 → vm_fault_get_level status = ((status % 4 : Nat) : Int)) ∧
    (∀ status : Nat,
      vm_fault_get_level status = -1 ↔
        status ∉ [FSC_ADDRESS_SIZE_FAULT_L0, FSC_ADDRESS_SIZE_FAULT_L1,
          FSC_ADDRESS_SIZE_FAULT_L2, FSC_ADDRESS_SIZE_FAULT_L3, FSC_TRANSLATION_FAULT_L0,
          FSC_TRANSLATION_FAULT_L1, FSC_TRANSLATION_FAULT_L2, FSC_TRANSLATION_FAULT_L3,
          FSC_ACCESS_FLAG_FAULT_L1, FSC_ACCESS_FLAG_FAULT_L2, FSC_ACCESS_FLAG_FAULT_L3,
          FSC_PERMISSION_FAULT_L1, FSC_PERMISSION_FAULT_L2, FSC_PERMISSION_FAULT_L3,
          FSC_SYNC_EXT_ABORT_TT_L1, FSC_SYNC_EXT_ABORT_TT_L2, FSC_SYNC_EXT_ABORT_TT_L3,
          FSC_SYNC_PARITY_TT_L1, FSC_SYNC_PARITY_TT_L2, FSC_SYNC_PARITY_TT_L3]) ∧
    is_permission_fault 0x0E ≠ 0 ∧ vm_fault_get_level 0x0E = 2 ∧
      vm_fault_get_level FSC_ALIGNMENT_FAULT = -1 := by
  refine ⟨fun status => (vm_fault_get_level_cases status).1, ?_,
    fun status => (vm_fault_get_level_cases status).2.1, ?_, by decide, by decide, by decide⟩
  · intro status h
    obtain ⟨-, h2, -, h4, -⟩ := vm_fault_get_level_cases status
    exact h2 (h4 h)
  · intro status
    obtain ⟨-, -, h3, -⟩ := vm_fault_get_level_cases status
    constructor
    · intro h hm
      exact (h3.mpr hm) h
    · intro h
      by_contra hne
      exact h (h3.mp hne)

/-- C34.  For every fault status at most one of `is_translation_fault`,
`is_permission_fault`, `is_alignment_fault` and `is_address_size_fault` holds.
So the panic in which `handle_data_abort` ends is the one of the predicate that
holds, wherever its test stands in the function, and "Data Abort - Unknown" if
none holds. -/
theorem fault_predicates_exclusive (frame : arm64_exception_frame_t)
    (fault_address status : Nat) :
    (¬ (is_translation_fault status ≠ 0 ∧ is_permission_fault status ≠ 0) ∧
      ¬ (is_translation_fault status ≠ 0 ∧ is_alignment_fault status ≠ 0) ∧
      ¬ (is_translation_fault status ≠ 0 ∧ is_address_size_fault status ≠ 0) ∧
      ¬ (is_permission_fault status ≠ 0 ∧ is_alignment_fault status ≠ 0) ∧
      ¬ (is_permission_fault status ≠ 0 ∧ is_address_size_fault status ≠ 0) ∧
      ¬ (is_alignment_fault status ≠ 0 ∧ is_address_size_fault status ≠ 0)) ∧
    (is_translation_fault status ≠ 0 →
      handle_data_abort frame fault_address status
        = .panicked (.data_abort_translation (vm_fault_get_level status))) ∧
    (is_permission_fault status ≠ 0 →
      handle_data_abort frame fault_address status
        = .panicked (.data_abort_permission (vm_fault_get_level status))) ∧
    (is_alignment_fault status ≠ 0 →
      handle_data_abort frame fault_address status = .panicked .alignment_fault) ∧
    (is_address_size_fault status ≠ 0 →
      handle_data_abort frame fault_address status
        = .panicked (.data_abort_address_size (vm_fault_get_level status))) ∧
    (is_translation_fault status = 0 → is_permission_fault status = 0 →
      is_alignment_fault status = 0 → is_address_size_fault status = 0 →
      handle_data_abort frame fault_address status
        = .panicked (.data_abort_unknown status)) := by
  obtain ⟨-, -, -, -, e1, e2, e3, e4, e5, e6⟩ := vm_fault_get_level_cases status
  refine ⟨⟨e1, e2, e3, e4, e5, e6⟩, ?_, ?_, ?_, ?_, ?_⟩
  · intro h
    simp only [handle_data_abort, panic_with_thread_state, if_pos h, handler_end_panicked_seq]
  · intro h
    have h1 : ¬ is_translation_fault status ≠ 0 := fun k => e1 ⟨k, h⟩
    simp only [handle_data_abort, panic_with_thread_state, if_neg h1, if_pos h,
      handler_end_panicked_seq]
  · intro h
    have h1 : ¬ is_translation_fault status ≠ 0 := fun k => e2 ⟨k, h⟩
    have h2 : ¬ is_permission_fault status ≠ 0 := fun k => e4 ⟨k, h⟩
    simp only [handle_data_abort, panic_with_thread_state, if_neg h1, if_neg h2, if_pos h,
      handler_end_panicked_seq]
  · intro h
    have h1 : ¬ is_translation_fault status ≠ 0 := fun k => e3 ⟨k, h⟩
    have h2 : ¬ is_permission_fault status ≠ 0 := fun k => e5 ⟨k, h⟩
    have h3 : ¬ is_alignment_fault status ≠ 0 := fun k => e6 ⟨k, h⟩
    simp only [handle_data_abort, panic_with_thread_state, if_neg h1, if_neg h2, if_neg h3,
      if_pos h, handler_end_panicked_seq]
  · intro h1 h2 h3 h4
    simp only [handle_data_abort, panic_with_thread_state, h1, h2, h3, h4, ne_eq,
      not_true_eq_false, if_false]

/-- C34 witness: the alignment fault `0x21`, whose test comes third in
`handle_data_abort`. -/
theorem fault_predicates_exclusive_witness :
    is_alignment_fault FSC_ALIGNMENT_FAULT ≠ 0 ∧
      is_translation_fault FSC_ALIGNMENT_FAULT = 0 ∧
      handle_data_abort (frame_with_esr 0x96000021) 0 FSC_ALIGNMENT_FAULT
        = .panicked .alignment_fault :=
  ⟨by decide, by decide,
    (fault_predicates_exclusive (frame_with_esr 0x96000021) 0 FSC_ALIGNMENT_FAULT).2.2.2.1
      (by decide)⟩

/-- The conjunction with the converted `ESR_EC_MASK` keeps the bits from 26
up. -/
theorem ESR_EC_eq (x : Nat) (h : x < 2 ^ 64) : ESR_EC x = x / 2 ^ 26 := by
  have hm : int_to_uint64 ESR_EC_MASK >>> ESR_EC_SHIFT = 2 ^ 38 - 1 := by decide
  unfold ESR_EC
  rw [shiftRight_and, hm, Nat.and_pow_two_sub_one_eq_mod, Nat.shiftRight_eq_div_pow]
  apply Nat.mod_eq_of_lt
  simp only [ESR_EC_SHIFT]
  omega

/-- C39 (the mask of `ESR_EC` is sign-extended).  `ESR_EC_MASK` is the `int`
expression `(0x3f << 26)`, of value `-0x4000000`; for the conjunction with the
64-bit syndrome it becomes `0xfffffffffc000000`, so `ESR_EC` keeps the bits
63 to 26 and the exception class is `esr / 2 ^ 26` reduced to 32 bits: the bits
57 to 26, not the bits 31 to 26.  For a syndrome below `2 ^ 32` the class is
the bits 31 to 26, a value below 64, and in every case the bits 25 to 0 have
no influence.  The syndromes `0x94000046` and `0x194000046` differ in bit 32
only: the first has class `0x25`, `ESR_EC_DABORT_EL1`, and the dispatcher
handles a data abort; the second has class `0x65` and the dispatcher reports
"Unknown Exception". -/
theorem exception_class_reads_upper_bits :
    ESR_EC_MASK = -0x4000000 ∧ int_to_uint64 ESR_EC_MASK = 0xfffffffffc000000 ∧
    (∀ frame : arm64_exception_frame_t, frame.esr < 2 ^ 64 →
      exception_class frame = frame.esr / 2 ^ 26 % 2 ^ 32) ∧
    (∀ frame : arm64_exception_frame_t, frame.esr < 2 ^ 32 →
      exception_class frame = frame.esr / 2 ^ 26 % 64 ∧ exception_class frame < 64) ∧
    0x94000046 / 2 ^ 26 % 64 = 0x25 ∧ 0x194000046 / 2 ^ 26 % 64 = 0x25 ∧
      0x194000046 < 2 ^ 64 ∧
      exception_class (frame_with_esr 0x94000046) = ESR_EC_DABORT_EL1 ∧
      exception_class (frame_with_esr 0x194000046) = 0x65 ∧
      arm64_handler_synchronous (frame_with_esr 0x94000046) 0
        = .panicked (.data_abort_translation 2) ∧
      arm64_handler_synchronous (frame_with_esr 0x194000046) 0
        = .panicked .unknown_exception := by
  refine ⟨by decide, by decide, ?_, ?_, by decide, by decide, by decide, by decide, by decide,
    by decide, by decide⟩
  · intro frame h
    unfold exception_class
    rw [ESR_EC_eq _ h]
  · intro frame h
    unfold exception_class
    rw [ESR_EC_eq _ (by omega)]
    omega

/-! ## Interrupt controller -/

/-- Stores to an SGI frame do not change what `gic_get_redist_id` finds. -/
theorem gic_get_redist_id_loop_set_sgis (s : gic_state) (r : Nat)
    (f : gicv3_redist_sgis_frame) (affinity : Nat) :
    ∀ (n index : Nat),
      gic_get_redist_id_loop (set_sgis s r f) affinity n index
        = gic_get_redist_id_loop s affinity n index := by
  intro n
  induction n with
  | zero => intro index; rfl
  | succ n ih =>
    intro index
    have ht : ((set_sgis s r f).redist index).typer1 = (s.redist index).typer1 := by
      simp only [set_sgis]
      split_ifs <;> rfl
    have hm : (set_sgis s r f).max_redist_idx = s.max_redist_idx := rfl
    rw [gic_get_redist_id_loop, gic_get_redist_id_loop, ht, hm, ih]

theorem gic_get_redist_id_set_sgis (s : gic_state) (r : Nat) (f : gicv3_redist_sgis_frame) :
    gic_get_redist_id (set_sgis s r f) (arm64_read_affinity (set_sgis s r f))
      = gic_get_redist_id s (arm64_read_affinity s) := by
  unfold gic_get_redist_id
  exact gic_get_redist_id_loop_set_sgis s r f _ _ _

/-- The bit of an interrupt below 31 in a register of 32 bits. -/
theorem gic_intid_bit (intid : Nat) (h : intid < 31) :
    (1 <<< (intid &&& 0x1f)) % 2 ^ 32 = 2 ^ intid := by
  interval_cases intid <;> rfl

/-- The SGI frame that was stored last. -/
theorem set_sgis_same (s : gic_state) (r : Nat) (f : gicv3_redist_sgis_frame) :
    ((set_sgis s r f).redist r).sgis = f := by
  simp [set_sgis]

/-- C35 (`gic_irq_register` tests `intid < 31`).  For an interrupt id below 31 and
a redistributor found for the CPU, `gic_irq_register` stores the priority in
`ipriorityr[intid]`, sets the bit of the interrupt in `igroupr[0]`, clears it
in `igrpmodr[0]`, sets it in `isenabler[0]` and returns
`KERN_RETURN_SUCCESS`.  For the id 31 it returns `KERN_RETURN_FAIL` with
every register as it was, whatever the state: the id falls to the branch
`intid < 1020`, "INTID is not configurable".  So it does on the machine with
one CPU and a matching redistributor, on which the id 30 is configured. -/
theorem gic_irq_register_rejects_intid_31 :
    (∀ (s : gic_state) (priority : Nat),
      gic_irq_register s 31 priority = .ok s KERN_RETURN_FAIL) ∧
    (∀ (s : gic_state) (intid priority : Nat), intid < 31 →
      gic_get_redist_id s (arm64_read_affinity s) ≤ s.max_redist_idx →
      ∃ s1, gic_irq_register s intid priority = .ok s1 KERN_RETURN_SUCCESS ∧
        ((s1.redist (gic_get_redist_id s (arm64_read_affinity s))).sgis.ipriorityr intid
          = priority % 256 ∧
        (s1.redist (gic_get_redist_id s (arm64_read_affinity s))).sgis.igroupr0
          = (s.redist (gic_get_redist_id s (arm64_read_affinity s))).sgis.igroupr0
            ||| 2 ^ intid ∧
        (s1.redist (gic_get_redist_id s (arm64_read_affinity s))).sgis.igrpmodr0
          = (s.redist (gic_get_redist_id s (arm64_read_affinity s))).sgis.igrpmodr0
            &&& (2 ^ 32 - 1 - 2 ^ intid) ∧
        (s1.redist (gic_get_redist_id s (arm64_read_affinity s))).sgis.isenabler0
          = (s.redist (gic_get_redist_id s (arm64_read_affinity s))).sgis.isenabler0
            ||| 2 ^ intid)) ∧
    gic_get_redist_id gic_demo (arm64_read_affinity gic_demo) = 0 ∧
      gic_demo.max_redist_idx = 0 ∧
      (gic_irq_register gic_demo 31 0xa0).value = some KERN_RETURN_FAIL ∧
      ((gic_irq_register gic_demo 31 0xa0).state.redist 0).sgis.isenabler0 = 0 ∧
      ((gic_irq_register gic_demo 31 0xa0).state.redist 0).sgis.igroupr0 = 0 ∧
      ((gic_irq_register gic_demo 31 0xa0).state.redist 0).sgis.ipriorityr 31 = 0 ∧
      (gic_irq_register gic_demo 30 0xa0).value = some KERN_RETURN_SUCCESS ∧
      ((gic_irq_register gic_demo 30 0xa0).state.redist 0).sgis.isenabler0 = 2 ^ 30 := by
  refine ⟨?_, ?_, by decide, by decide, by decide, by decide, by decide, by decide, by decide,
    by decide⟩
  · intro s priority
    unfold gic_irq_register
    rw [if_neg (by decide), if_pos (by decide)]
  · intro s intid priority h hr
    have hr2 : ¬ gic_get_redist_id s (arm64_read_affinity s) > s.max_redist_idx := by omega
    unfold gic_irq_register
    rw [if_pos h, if_neg hr2]
    dsimp only
    unfold __gic_irq_control
    rw [if_pos h]
    have hm : ∀ (s0 : gic_state) r f, (set_sgis s0 r f).max_redist_idx = s0.max_redist_idx :=
      fun _ _ _ => rfl
    simp only [gic_get_redist_id_set_sgis, set_sgis_same, hm, if_neg hr2, if_true,
      gic_intid_bit intid h]
    refine ⟨_, rfl, ?_⟩
    simp only [set_sgis_same, if_true, and_self]

/-! ## Device tree -/

/-- C36 (`DeviceTreeLookupRegValue` swaps the cells in place).  On a blob whose
property "reg" holds the big-endian cells `<0x00 0x8000000 0x00 0x10000>`, the
first call yields the address `0x8000000` and the size `0x10000`, each the two
cells combined as high times `2 ^ 32` plus low, but it has stored the swapped
cells back into the blob: the second cell, which held the bytes `08 00 00 00`,
now holds `00 00 00 08`, so the byte at offset 4 went from `0x08` to 0 and the
byte at offset 7 from 0 to `0x08`.  The second call on the same node swaps the
cells again and yields the
address `0x8` and the size `0x100`.  On success the function ends without a
`return` statement. -/
theorem DeviceTreeLookupRegValue_rewrites_blob :
    (DeviceTreeLookupRegValue dt_demo 0x48000100 16).addr = some 0x8000000 ∧
      (DeviceTreeLookupRegValue dt_demo 0x48000100 16).size = some 0x10000 ∧
      (DeviceTreeLookupRegValue dt_demo 0x48000100 16).returned = none ∧
      dt_demo 0x48000104 = 0x08 ∧
      (DeviceTreeLookupRegValue dt_demo 0x48000100 16).bytes 0x48000104 = 0 ∧
      dt_demo 0x48000107 = 0 ∧
      (DeviceTreeLookupRegValue dt_demo 0x48000100 16).bytes 0x48000107 = 0x08 ∧
      (DeviceTreeLookupRegValue (DeviceTreeLookupRegValue dt_demo 0x48000100 16).bytes
        0x48000100 16).addr = some 0x8 ∧
      (DeviceTreeLookupRegValue (DeviceTreeLookupRegValue dt_demo 0x48000100 16).bytes
        0x48000100 16).size = some 0x100 ∧
      (∀ (m : Nat → Nat) (reg : Nat) (res : Int), res < 0 →
        (DeviceTreeLookupRegValue m reg res).bytes = m ∧
        (DeviceTreeLookupRegValue m reg res).returned = some kDeviceTreeFailure) := by
  refine ⟨by decide, by decide, by decide, by decide, by decide, by decide, by decide,
    by decide, by decide, ?_⟩
  intro m reg res h
  simp only [DeviceTreeLookupRegValue, if_pos h, and_self]

/-! ## Thread contexts -/

/-- C37 (amended): after `thread_save_context(t, f)` and the stores of
`thread_load_context(t)`, the context handed to `__fork64_exec` holds in `x21`
to `x28` the values `f.regs[21]` to `f.regs[28]`, in `fp` and `sp` the frame
pointer and the stack pointer of the frame, in `x19` the value of `ELR_EL1` that
the save read (the entry point on re-entering the thread), in `x20` the
arguments of the thread, and in `lr` the address of `__fork64_return`. -/
theorem thread_context_save_then_load (t : thread_t) (c : arm64_cpu_context_t)
    (f : arm64_exception_frame_t) (elr_el1 fork64_return : Nat) :
    (thread_load_context (thread_save_context t c f elr_el1).1
        (thread_save_context t c f elr_el1).2 fork64_return)
      = { x19 := elr_el1, x20 := t.args, x21 := f.regs 21, x22 := f.regs 22,
          x23 := f.regs 23, x24 := f.regs 24, x25 := f.regs 25, x26 := f.regs 26,
          x27 := f.regs 27, x28 := f.regs 28, fp := f.fp, lr := fork64_return,
          sp := f.sp, _res := c._res } := rfl

/-- C37 (as stated, fails): for a thread with null arguments, saved from a frame
in which `x19` holds `0x1013` and `x20` holds `0x1014` while `ELR_EL1` reads
`0xfffffff000011040`, the context handed to `__fork64_exec` has that address in
`x19` and 0 in `x20`; `x21` holds `0x1015`, the value of the frame. -/
theorem thread_context_x19_x20_replaced :
    frame_demo.regs 19 = 0x1013 ∧ frame_demo.regs 20 = 0x1014 ∧
      (thread_load_context
        (thread_save_context thread_demo context_demo frame_demo 0xfffffff000011040).1
        (thread_save_context thread_demo context_demo frame_demo 0xfffffff000011040).2
        0xfffffff000001000).x19 = 0xfffffff000011040 ∧
      (thread_load_context
        (thread_save_context thread_demo context_demo frame_demo 0xfffffff000011040).1
        (thread_save_context thread_demo context_demo frame_demo 0xfffffff000011040).2
        0xfffffff000001000).x20 = 0 ∧
      (thread_load_context
        (thread_save_context thread_demo context_demo frame_demo 0xfffffff000011040).1
        (thread_save_context thread_demo context_demo frame_demo 0xfffffff000011040).2
        0xfffffff000001000).x21 = frame_demo.regs 21 := by
  refine ⟨by decide, by decide, by decide, by decide, by decide⟩

/-! ## `memset` with a fill value -/

/-- C40 (the fill word is not built).  For a buffer that is not 8-byte aligned
`memset(s, c, count)` sets the bytes `s` to `s + count - 1` to the low 8 bits of
`c` and no other byte, and so it does for every buffer when `c` is 0.  For an
aligned buffer the loop `cl <<= 0; cl |= c & 0xff;` leaves `cl` equal to
`c & 0xff`, so each word stored has the fill value in its lowest byte only:
`memset(0x1000, 0x41, 16)` on memory holding `0xaa` sets the bytes at `0x1000`
and `0x1008` to `0x41` and the bytes at `0x1001` to `0x1007` to 0; the byte at
`0x1010` keeps `0xaa`. -/
theorem memset_aligned_fills_low_byte_only :
    (∀ (m : Nat → Nat) (s : Nat) (c : Int) (count x : Nat), s % 8 ≠ 0 →
      memset m s c count x = if s ≤ x ∧ x < s + count then (c % 256).toNat else m x) ∧
    (∀ (m : Nat → Nat) (s count x : Nat),
      memset m s 0 count x = if s ≤ x ∧ x < s + count then 0 else m x) ∧
    memset_fill_word 8 0 0x41 = 0x41 ∧
      memset (fun _ => 0xaa) 0x1000 0x41 16 0x1000 = 0x41 ∧
      (∀ k, 1 ≤ k → k < 8 → memset (fun _ => 0xaa) 0x1000 0x41 16 (0x1000 + k) = 0) ∧
      memset (fun _ => 0xaa) 0x1000 0x41 16 0x1008 = 0x41 ∧
      memset (fun _ => 0xaa) 0x1000 0x41 16 0x1009 = 0 ∧
      memset (fun _ => 0xaa) 0x1000 0x41 16 0x1010 = 0xaa ∧
      memset (fun _ => 0xaa) 0x1000 0x41 16 0xfff = 0xaa := by
  refine ⟨?_, memset_zero_apply, by decide, by decide, by decide, by decide, by decide,
    by decide, by decide⟩
  intro m s c count x h
  unfold memset
  simp only [if_neg h]
  exact memset_bytes_apply count m s _ x

/-! ## `pmap_tt_create_tte` on a range inside one level-1 slot -/

/-- The level-1 step under `pmap_tt_layout`, with what it writes: the level-1
entry alone, and only if it was no table descriptor, in which case the region
cursor moves on by one page. -/
theorem pmap_tt_l2_table_exact (s : vm_state) (table vbase : Nat)
    (h : pmap_tt_layout s table vbase) :
    ∃ ta ca,
      pmap_tt_l2_table s table ((vbase &&& TT_L1_INDEX_MASK) >>> TT_L1_SHIFT)
        = .ok (vm_overlay s s.page ta s.words ca) (pmap_tt_l2_of s table vbase) ∧
      ta (table + ((vbase &&& TT_L1_INDEX_MASK) >>> TT_L1_SHIFT) * 8) &&& TTE_TYPE_MASK
        = TTE_TYPE_TABLE ∧
      ptokva s (ta (table + ((vbase &&& TT_L1_INDEX_MASK) >>> TT_L1_SHIFT) * 8)
        &&& TT_TABLE_MASK) = pmap_tt_l2_of s table vbase ∧
      (∀ a, a ≠ table + ((vbase &&& TT_L1_INDEX_MASK) >>> TT_L1_SHIFT) * 8 →
        ta a = s.tables a) ∧
      (s.tables (table + ((vbase &&& TT_L1_INDEX_MASK) >>> TT_L1_SHIFT) * 8) &&& TTE_TYPE_MASK
          = TTE_TYPE_TABLE →
        ta = s.tables ∧ ca = s.pagetables_region_cursor) ∧
      (s.tables (table + ((vbase &&& TT_L1_INDEX_MASK) >>> TT_L1_SHIFT) * 8) &&& TTE_TYPE_MASK
          ≠ TTE_TYPE_TABLE →
        ca = s.pagetables_region_cursor + DEFAULTS_KERNEL_VM_PAGE_SIZE) := by
  by_cases h1 : s.tables (table + ((vbase &&& TT_L1_INDEX_MASK) >>> TT_L1_SHIFT) * 8)
      &&& TTE_TYPE_MASK = TTE_TYPE_TABLE
  · refine ⟨s.tables, s.pagetables_region_cursor, ?_, h1, ?_, fun _ _ => rfl,
      fun _ => ⟨rfl, rfl⟩, fun k => absurd h1 k⟩
    · rw [pmap_tt_l2_table_old s table _ h1]
      simp only [pmap_tt_l2_of, if_pos h1]
      rfl
    · simp only [pmap_tt_l2_of, if_pos h1]
  · rcases h.1 with h2 | ⟨h2, h3⟩
    · exact absurd h2 h1
    · refine ⟨tt_store s.tables (table + ((vbase &&& TT_L1_INDEX_MASK) >>> TT_L1_SHIFT) * 8)
          ((s.mmu_translate_kvtop s.pagetables_region_cursor &&& TT_TABLE_MASK) ||| 0x3),
        s.pagetables_region_cursor + DEFAULTS_KERNEL_VM_PAGE_SIZE, ?_, ?_, ?_, ?_,
        fun k => absurd k h1, fun _ => rfl⟩
      · rw [pmap_tt_l2_table_new s table _ h1 h2]
        simp only [pmap_tt_l2_of, if_neg h1]
      · simp only [tt_store, if_true]
        exact tt_table_entry_type _
      · simp only [tt_store, if_true, pmap_tt_l2_of, if_neg h1]
        rw [tt_table_entry_address]
        exact h3
      · intro a ha
        simp only [tt_store, if_neg ha]

/-- C38 (amended): let `pbase` and `vbase` be multiples of 2 MiB, `size`
positive, the range from `vbase` to `vbase + size - 1` inside one level-1 slot
of 1 GiB that does not end at the top of the address space, the physical range
below `2 ^ 48`, and the memory laid out as `pmap_tt_layout` says.  Then
`pmap_tt_create_tte(table, pbase, vbase, size, flags)` returns
`PMAP_RETURN_SUCCESS`; every address `v` of the range translates through the
level-1 table descriptor and the level-2 block entry to `pbase + (v - vbase)`;
the only table words written are the level-1 entry of the slot and entries of
the level-2 table of that slot; if the level-1 entry was a table descriptor it
is as before and no table is allocated, the region cursor staying where it
was; otherwise the cursor has moved on by one page, the new table. -/
theorem pmap_tt_create_tte_single_slot (fuel : Nat) (s : vm_state)
    (table pbase vbase size flags : Nat)
    (hp : pbase % TT_L2_SIZE = 0) (hvb : vbase % TT_L2_SIZE = 0) (hsize : 0 < size)
    (hslot : (vbase + size - 1) / TT_L1_SIZE = vbase / TT_L1_SIZE)
    (htop : vbase + TT_L1_SIZE < 2 ^ 64) (hpa : pbase + size ≤ 2 ^ 48)
    (hfuel : size / TT_L2_SIZE + 2 ≤ fuel) (hlay : pmap_tt_layout s table vbase) :
    ∃ s1, pmap_tt_create_tte fuel s table pbase vbase size flags
        = some (.ok s1 PMAP_RETURN_SUCCESS) ∧
      (∀ v, vbase ≤ v → v < vbase + size →
        tt_translate s1 table v = some (pbase + (v - vbase))) ∧
      (∀ a, a ≠ table + ((vbase &&& TT_L1_INDEX_MASK) >>> TT_L1_SHIFT) * 8 →
        (∀ j, j < 512 → a ≠ pmap_tt_l2_of s table vbase + j * 8) →
        s1.tables a = s.tables a) ∧
      (s.tables (table + ((vbase &&& TT_L1_INDEX_MASK) >>> TT_L1_SHIFT) * 8) &&& TTE_TYPE_MASK
          = TTE_TYPE_TABLE →
        s1.tables (table + ((vbase &&& TT_L1_INDEX_MASK) >>> TT_L1_SHIFT) * 8)
          = s.tables (table + ((vbase &&& TT_L1_INDEX_MASK) >>> TT_L1_SHIFT) * 8) ∧
        s1.pagetables_region_cursor = s.pagetables_region_cursor) ∧
      (s.tables (table + ((vbase &&& TT_L1_INDEX_MASK) >>> TT_L1_SHIFT) * 8) &&& TTE_TYPE_MASK
          ≠ TTE_TYPE_TABLE →
        s1.pagetables_region_cursor
          = s.pagetables_region_cursor + DEFAULTS_KERNEL_VM_PAGE_SIZE) := by
  simp only [TT_L1_SIZE, TT_L2_SIZE] at hp hvb hslot htop hfuel
  obtain ⟨ta, ca, hl2, htype, hback, hta, hold, hnew⟩ := pmap_tt_l2_table_exact s table vbase hlay
  -- the inner loop
  have hrun : ∀ k, k < (size + TT_L2_SIZE - 1) / TT_L2_SIZE →
      vbase + k * TT_L2_SIZE < (vbase + TT_L1_SIZE) % 2 ^ 64 ∧
      vbase + k * TT_L2_SIZE < vbase + size := by
    intro k hk
    simp only [TT_L1_SIZE, TT_L2_SIZE] at hk ⊢
    omega
  have hstop : ¬ (vbase + (size + TT_L2_SIZE - 1) / TT_L2_SIZE * TT_L2_SIZE
        < (vbase + TT_L1_SIZE) % 2 ^ 64 ∧
      vbase + (size + TT_L2_SIZE - 1) / TT_L2_SIZE * TT_L2_SIZE < vbase + size) := by
    simp only [TT_L1_SIZE, TT_L2_SIZE]
    omega
  have hlt : vbase + (size + TT_L2_SIZE - 1) / TT_L2_SIZE * TT_L2_SIZE < 2 ^ 64 := by
    simp only [TT_L2_SIZE]
    omega
  have hidx : ∀ j, j < (size + TT_L2_SIZE - 1) / TT_L2_SIZE →
      ((vbase + j * TT_L2_SIZE) &&& TT_L2_INDEX_MASK) >>> TT_L2_SHIFT
        = vbase / TT_L2_SIZE % 512 + j ∧ vbase / TT_L2_SIZE % 512 + j < 512 := by
    intro j hj
    rw [tt_l2_index]
    simp only [TT_L2_SIZE] at hj ⊢
    omega
  have hinj : ∀ j k, j < k → k < (size + TT_L2_SIZE - 1) / TT_L2_SIZE →
      ((vbase + j * TT_L2_SIZE) &&& TT_L2_INDEX_MASK) >>> TT_L2_SHIFT
        ≠ ((vbase + k * TT_L2_SIZE) &&& TT_L2_INDEX_MASK) >>> TT_L2_SHIFT := by
    intro j k hjk hk
    rw [(hidx j (by omega)).1, (hidx k hk).1]
    omega
  obtain ⟨t1, ht1, hin, hout⟩ := pmap_tt_fill_l2_run pbase vbase (vbase + size) vbase
    (pmap_tt_l2_of s table vbase) ((size + TT_L2_SIZE - 1) / TT_L2_SIZE) hrun hstop hlt hinj
    ((size + TT_L2_SIZE - 1) / TT_L2_SIZE) 0 ta fuel (Nat.zero_add _)
    (by simp only [TT_L2_SIZE]; omega)
  rw [Nat.zero_mul, Nat.add_zero] at ht1
  -- the call
  have hvend : (vbase + size) % 2 ^ 64 = vbase + size := by omega
  have hpb : ¬ pbase > DEFAULTS_KERNEL_VM_VIRT_BASE := by
    simp only [DEFAULTS_KERNEL_VM_VIRT_BASE]
    omega
  have c1 : vbase < vbase + size := by omega
  have c2 : ¬ ((vbase + TT_L1_SIZE) % 2 ^ 64 < vbase + size) := by
    simp only [TT_L1_SIZE]
    omega
  have hcall : pmap_tt_create_tte fuel s table pbase vbase size flags
      = some (.ok (vm_overlay s s.page t1 s.words ca) PMAP_RETURN_SUCCESS) := by
    rw [pmap_tt_create_tte, if_neg hpb, hvend,
      pmap_tt_fill_l1_once table pbase vbase (vbase + size) fuel fuel s
        (pmap_tt_l2_of s table vbase) ta t1 ca (by omega) c1 c2 hl2 ht1]
  have hroot : t1 (table + ((vbase &&& TT_L1_INDEX_MASK) >>> TT_L1_SHIFT) * 8)
      = ta (table + ((vbase &&& TT_L1_INDEX_MASK) >>> TT_L1_SHIFT) * 8) := by
    apply hout
    intro j _ hj2 e
    rw [(hidx j hj2).1] at e
    exact hlay.2 _ (hidx j hj2).2 e.symm
  refine ⟨_, hcall, ?_, ?_, ?_, ?_⟩
  · -- the walk
    intro v hv1 hv2
    have hi1 : (v &&& TT_L1_INDEX_MASK) >>> TT_L1_SHIFT
        = (vbase &&& TT_L1_INDEX_MASK) >>> TT_L1_SHIFT := by
      rw [tt_l1_index, tt_l1_index]
      simp only [TT_L1_SIZE]
      omega
    have hj : (v - vbase) / TT_L2_SIZE < (size + TT_L2_SIZE - 1) / TT_L2_SIZE := by
      simp only [TT_L2_SIZE]
      omega
    have hi2 : (v &&& TT_L2_INDEX_MASK) >>> TT_L2_SHIFT
        = ((vbase + (v - vbase) / TT_L2_SIZE * TT_L2_SIZE) &&& TT_L2_INDEX_MASK)
            >>> TT_L2_SHIFT := by
      rw [tt_l2_index, tt_l2_index]
      simp only [TT_L2_SIZE]
      omega
    have hpj : (pbase + (v - vbase) / TT_L2_SIZE * TT_L2_SIZE) % 2 ^ 64
        = pbase + (v - vbase) / TT_L2_SIZE * TT_L2_SIZE := by
      simp only [TT_L2_SIZE]
      omega
    have hblock : (pbase + (v - vbase) / TT_L2_SIZE * TT_L2_SIZE) &&& TT_BLOCK_MASK
        = pbase + (v - vbase) / TT_L2_SIZE * TT_L2_SIZE := by
      apply and_block_mask_aligned
      · simp only [TT_L2_SIZE]; omega
      · simp only [TT_L2_SIZE]; omega
    have hptokva : ∀ x, ptokva (vm_overlay s s.page t1 s.words ca) x = ptokva s x :=
      fun _ => rfl
    simp only [tt_translate, tt_l2_entry, vm_overlay_tables, hptokva]
    rw [hi1, hroot, if_pos htype, hback, hi2, hin _ (Nat.zero_le _) hj, hpj]
    dsimp only
    rw [if_pos (tt_block_entry_type _), tt_block_entry_address, hblock]
    refine congrArg some ?_
    rw [Nat.add_assoc, tt_block_offset vbase v hvb hv1]
  · -- the frame
    intro a ha1 ha2
    rw [vm_overlay_tables, hout a, hta a ha1]
    intro j _ hj2
    rw [(hidx j hj2).1]
    exact ha2 _ (hidx j hj2).2
  · intro h1
    obtain ⟨e1, e2⟩ := hold h1
    rw [vm_overlay_tables, vm_overlay_cursor, hroot, e1, e2]
    exact ⟨rfl, rfl⟩
  · intro h1
    rw [vm_overlay_cursor]
    exact hnew h1

/-- C38 witness: 4 MiB at `0xfffffff000200000` mapped to `0x40200000` on the
small machine, where the level-1 entry of the slot is empty: the call returns
success, the range translates, and one table page has been taken from the
region. -/
theorem pmap_tt_create_tte_single_slot_witness :
    pmap_tt_layout vm_demo (0xfffffff000100000 + VM_MAP_PMAP) 0xfffffff000200000 ∧
    ∃ s1, pmap_tt_create_tte 4 vm_demo (0xfffffff000100000 + VM_MAP_PMAP) 0x40200000
        0xfffffff000200000 (2 * TT_L2_SIZE) PMAP_ACCESS_READWRITE
        = some (.ok s1 PMAP_RETURN_SUCCESS) ∧
      (∀ v, 0xfffffff000200000 ≤ v → v < 0xfffffff000200000 + 2 * TT_L2_SIZE →
        tt_translate s1 (0xfffffff000100000 + VM_MAP_PMAP) v
          = some (0x40200000 + (v - 0xfffffff000200000))) ∧
      s1.pagetables_region_cursor
        = vm_demo.pagetables_region_cursor + DEFAULTS_KERNEL_VM_PAGE_SIZE := by
  obtain ⟨s1, h1, h2, -, -, h5⟩ := pmap_tt_create_tte_single_slot 4 vm_demo
    (0xfffffff000100000 + VM_MAP_PMAP) 0x40200000 0xfffffff000200000 (2 * TT_L2_SIZE)
    PMAP_ACCESS_READWRITE (by decide) (by decide) (by decide) (by decide) (by decide)
    (by decide) (by decide) vm_demo_layout
  exact ⟨vm_demo_layout, s1, h1, h2, h5 (by decide)⟩

/-- C38 (as stated, fails): the call `pmap_tt_create_tte(root, 0x1000000000000,
0xfffffff000200000, TT_L2_SIZE, PMAP_ACCESS_READWRITE)` on the small machine, with
both addresses 2 MiB-aligned and the 2 MiB inside one level-1 slot, returns
success, but the walk translates `v = 0xfffffff000200000` to 0, not to
`pbase = 2 ^ 48`: the output address of a block entry has 48 bits. -/
theorem pmap_tt_create_tte_high_pbase_truncated :
    0x1000000000000 % TT_L2_SIZE = 0 ∧ 0xfffffff000200000 % TT_L2_SIZE = 0 ∧
      (0xfffffff000200000 + TT_L2_SIZE - 1) / TT_L1_SIZE = 0xfffffff000200000 / TT_L1_SIZE ∧
      pmap_tt_create_tte 3 vm_demo (0xfffffff000100000 + VM_MAP_PMAP) 0x1000000000000
          0xfffffff000200000 TT_L2_SIZE PMAP_ACCESS_READWRITE
        = some (.ok vm_demo_tte_high PMAP_RETURN_SUCCESS) ∧
      tt_translate vm_demo_tte_high (0xfffffff000100000 + VM_MAP_PMAP) 0xfffffff000200000
        = some 0 ∧
      0x1000000000000 + (0xfffffff000200000 - 0xfffffff000200000) ≠ 0 := by
  refine ⟨by decide, by decide, by decide, result_value_returned _ _ _ (by decide),
    by decide, by decide⟩

end Monix
